import Mathlib

/-!
VIM-Shell terminal emulator: a shallow embedding of `terminal.c`.

The C type `struct vim_shell_window` becomes a Lean structure, every
`terminal_*` function of `terminal.c` becomes a Lean function on it, and the
byte-level entry point `vim_shell_terminal_input` becomes a fold over the
input bytes.

Conventions of the embedding:

* unsigned fields (`uint8_t`, `uint16_t`) are natural numbers; a store into a
  field reduces modulo `2^8` or `2^16` (`u8`, `u16`);
* C `int` values are integers, reduced into the 32-bit range where a value is
  stored into an `int` variable (`int32`); `long` is taken to be 64 bits wide;
* a buffer is a list of bytes whose length is the allocated size; every
  function returns `none` exactly where the C code reads or writes outside a
  buffer (or runs a `while(n--)` loop on a negative counter), that is where
  the behaviour of the C program is undefined;
* the host of the program is an input of the model (`env : host`): it gives
  the result of each `write(2)` on the pty and tells which requests of
  `malloc` in `terminal_backup_screen` are granted; `vim_shell_new` is the
  terminal that a successful creation leaves, and `internal_screenbuf_resize`
  takes the answers of `malloc` as an argument of its own.
-/

namespace VimShell

/-! ## Machine integers -/

/-- Conversion to `uint16_t`. -/
@[irreducible] def u16 (i : Int) : Nat := (i % 65536).toNat

/-- Conversion to `uint8_t`. -/
@[irreducible] def u8 (i : Int) : Nat := (i % 256).toNat

/-- Conversion to `size_t` (64 bits). -/
@[irreducible] def size_t (i : Int) : Int := i % 18446744073709551616

/-- Conversion to a 32-bit `int` (two's complement). -/
@[irreducible] def int32 (i : Int) : Int := (i + 2147483648) % 4294967296 - 2147483648

/-! ## The host -/

/-- What the program asks of its host. `write bytes` is the value that
`write(2)` returns when `bytes` are offered to the pty master. `malloc k n`
tells whether the `k`-th request of a function, a request of `n` bytes,
returns a buffer (`true`) or `NULL` (`false`). `sizeof_window` is
`sizeof(struct vim_shell_window)` on the platform. -/
structure host where
  write : List Nat → Int
  malloc : Nat → Int → Bool
  sizeof_window : Int

/-! ## Constants of `vim_shell.h` -/

def RENDITION_BOLD : Nat := 1
def RENDITION_UNDERSCORE : Nat := 2
def RENDITION_BLINK : Nat := 4
def RENDITION_NEGATIVE : Nat := 8
def RENDITION_DIM : Nat := 16
def RENDITION_HIDDEN : Nat := 32

def VIMSHELL_CHARSET_USASCII : Nat := 0
def VIMSHELL_CHARSET_DRAWING : Nat := 1

def VIMSHELL_COLOR_DEFAULT : Nat := 9

/-! ## The state -/

/-- Members of `struct vim_shell_window` other than the `alt` pointer (and the
handles `phys_screen`, `fd_master`, `pid`, which `terminal.c` never
interprets). -/
structure vim_shell_fields where
  size_x : Nat
  size_y : Nat
  cursor_x : Nat
  cursor_y : Nat
  cursor_visible : Nat
  saved_cursor_x : Nat
  saved_cursor_y : Nat
  windowtitle : List Nat
  outbuf : List Nat
  outbuf_pos : Nat
  winbuf : List Nat
  fgbuf : List Nat
  bgbuf : List Nat
  rendbuf : List Nat
  charset : List Nat
  tabline : List Nat
  in_esc_sequence : Nat
  esc_sequence : List Nat
  wraparound : Nat
  just_wrapped_around : Nat
  rendition : Nat
  saved_rendition : Nat
  fgcolor : Nat
  bgcolor : Nat
  saved_fgcolor : Nat
  saved_bgcolor : Nat
  scroll_top_margin : Nat
  scroll_bottom_margin : Nat
  G0_charset : Nat
  G1_charset : Nat
  active_charset : Nat
  saved_G0_charset : Nat
  saved_G1_charset : Nat
  saved_active_charset : Nat
  application_keypad_mode : Nat
  application_cursor_mode : Nat
  saved_application_keypad_mode : Nat
  saved_application_cursor_mode : Nat
  insert_mode : Nat
  saved_insert_mode : Nat
  force_redraw : Nat
deriving DecidableEq, Repr

/-- The C `struct vim_shell_window`: its members, and the alternate screen
`alt`, which is `NULL` (`none`) or points to a copy of the members that owns
copies of the buffers. -/
structure vim_shell_window extends vim_shell_fields where
  alt : Option vim_shell_fields
deriving DecidableEq, Repr

/-! ## Memory primitives -/

/-- `memset(buf+pos, c, n)`; `n` has been converted to `size_t`, so a negative
`n` is a huge length. -/
def memset (buf : List Nat) (pos : Int) (c : Nat) (n : Int) : Option (List Nat) :=
  if 0 ≤ pos ∧ 0 ≤ n ∧ pos + n ≤ buf.length then
    some (buf.take pos.toNat ++ List.replicate n.toNat c ++ buf.drop (pos.toNat + n.toNat))
  else none

/-- `memmove(buf+dst, buf+src, n)` inside one buffer. -/
def memmove (buf : List Nat) (dst src : Int) (n : Int) : Option (List Nat) :=
  if 0 ≤ dst ∧ 0 ≤ src ∧ 0 ≤ n ∧ dst + n ≤ buf.length ∧ src + n ≤ buf.length then
    some (buf.take dst.toNat ++ (buf.drop src.toNat).take n.toNat ++
      buf.drop (dst.toNat + n.toNat))
  else none

/-- The store `buf[pos]=v`. -/
def poke (buf : List Nat) (pos : Int) (v : Nat) : Option (List Nat) :=
  if 0 ≤ pos ∧ pos < buf.length then some (buf.set pos.toNat v) else none

/-- The load `buf[pos]`. -/
def peek (buf : List Nat) (pos : Int) : Option Nat :=
  if 0 ≤ pos ∧ pos < buf.length then buf.get? pos.toNat else none

/-- The NUL-terminated string that starts at `mem+base`. -/
def cstr (mem : List Nat) (base : Nat) : Option (List Nat) :=
  if 0 ∈ mem.drop base then some ((mem.drop base).takeWhile (fun c => c != 0)) else none

/-- `strcat(mem+base, dummy)` for the one-character string `dummy = {c, 0}`. -/
def strcat1 (mem : List Nat) (base : Nat) (c : Nat) : Option (List Nat) :=
  match cstr mem base with
  | none => none
  | some str =>
    if base + str.length + 1 < mem.length then
      some ((mem.set (base + str.length) c).set (base + str.length + 1) 0)
    else none

/-- `strcpy(mem+base, "0")`. -/
def strcpy0 (mem : List Nat) (base : Nat) : Option (List Nat) :=
  if base + 1 < mem.length then some ((mem.set base 48).set (base + 1) 0) else none

/-- The predicate `c>='0' && c<='9'`. -/
def isdigit (c : Nat) : Bool := decide (48 ≤ c) && decide (c ≤ 57)

/-- `strtol(str, NULL, 10)` on a string of digits and `?`: the value of the
leading digits, saturated at `LONG_MAX`. -/
def strtol (str : List Nat) : Int :=
  min (((str.takeWhile isdigit).foldl (fun a d => a * 10 + (d - 48)) 0 : Nat) : Int)
    9223372036854775807

/-- The parameter table `char argv[20][20]`, a block of 400 bytes. -/
def argv_zero : List Nat := List.replicate 400 0

/-- The string `argv[i]`. -/
def argv_str (argv : List Nat) (i : Nat) : Option (List Nat) := cstr argv (i * 20)

/-- `strtol(argv[i], NULL, 10)`. -/
def argv_int (argv : List Nat) (i : Nat) : Option Int := (argv_str argv i).map strtol

/-- The fresh buffer filled by `memcpy(new, src, n)` after `new=malloc(n)`. -/
def memcpy_new (src : List Nat) (n : Int) : Option (List Nat) :=
  if 0 ≤ n ∧ n ≤ src.length then some (src.take n.toNat) else none

/-- The five-line idiom that blanks `n` cells from offset `pos`:
`memset(winbuf+pos,' ',n)`, `memset(fgbuf+pos,VIMSHELL_COLOR_DEFAULT,n)`,
`memset(bgbuf+pos,VIMSHELL_COLOR_DEFAULT,n)`, `memset(rendbuf+pos,0,n)`,
`memset(charset+pos,0,n)`. -/
def erase_cells (s : vim_shell_window) (pos n : Int) : Option vim_shell_window :=
  (memset s.winbuf pos 32 n).bind fun w =>
  (memset s.fgbuf pos VIMSHELL_COLOR_DEFAULT n).bind fun f =>
  (memset s.bgbuf pos VIMSHELL_COLOR_DEFAULT n).bind fun b =>
  (memset s.rendbuf pos 0 n).bind fun r =>
  (memset s.charset pos 0 n).bind fun c =>
    some { s with winbuf := w, fgbuf := f, bgbuf := b, rendbuf := r, charset := c }

/-- The five-line idiom that moves `n` cells from offset `src` to offset `dst`
in each of the five cell arrays. -/
def move_cells (s : vim_shell_window) (dst src n : Int) : Option vim_shell_window :=
  (memmove s.winbuf dst src n).bind fun w =>
  (memmove s.fgbuf dst src n).bind fun f =>
  (memmove s.bgbuf dst src n).bind fun b =>
  (memmove s.rendbuf dst src n).bind fun r =>
  (memmove s.charset dst src n).bind fun c =>
    some { s with winbuf := w, fgbuf := f, bgbuf := b, rendbuf := r, charset := c }

/-- Run `f` `n` times. -/
def repeat_n (f : vim_shell_window → Option vim_shell_window) :
    Nat → vim_shell_window → Option vim_shell_window
  | 0, s => some s
  | n + 1, s => (f s).bind (repeat_n f n)

/-- The loop `while(n--) f(shell);` on an `int` counter. A negative counter
never reaches zero without overflowing: undefined. -/
def while_dec (n : Int) (f : vim_shell_window → Option vim_shell_window)
    (s : vim_shell_window) : Option vim_shell_window :=
  if n < 0 then none else repeat_n f n.toNat s

/-- The offset `cursor_y*size_x+cursor_x`, an `int`. -/
def cursor_pos (s : vim_shell_window) : Int :=
  int32 ((s.cursor_y : Int) * s.size_x + s.cursor_x)

/-! ## `terminal.c` -/

/-- The `distance` of the cursor movements: `strtol(argv[0])`, with 0 read as 1. -/
def distance_arg (argv : List Nat) : Option Int :=
  (argv_int argv 0).map (fun v => if int32 v = 0 then 1 else int32 v)

def terminal_TBC (s : vim_shell_window) (argc : Nat) (argv : List Nat) :
    Option vim_shell_window :=
  if argc > 1 then some s
  else
    (argv_int argv 0).bind fun v =>
      if int32 v = 0 then
        (poke s.tabline s.cursor_x 0).map (fun t => { s with tabline := t })
      else if int32 v = 3 then
        (memset s.tabline 0 0 s.size_x).map (fun t => { s with tabline := t })
      else some s

def terminal_CUB (s : vim_shell_window) (argc : Nat) (argv : List Nat) :
    Option vim_shell_window :=
  if argc > 1 then some s
  else
    (distance_arg argv).bind fun distance =>
      if (s.cursor_x : Int) < distance then some { s with cursor_x := 0 }
      else some { s with cursor_x := u16 (s.cursor_x - distance) }

def terminal_CUU (s : vim_shell_window) (argc : Nat) (argv : List Nat) :
    Option vim_shell_window :=
  if argc > 1 then some s
  else
    (distance_arg argv).bind fun distance =>
      if (s.cursor_y : Int) - distance < s.scroll_top_margin then
        some { s with cursor_y := s.scroll_top_margin }
      else some { s with cursor_y := u16 (s.cursor_y - distance) }

def terminal_CUD (s : vim_shell_window) (argc : Nat) (argv : List Nat) :
    Option vim_shell_window :=
  if argc > 1 then some s
  else
    (distance_arg argv).bind fun distance =>
      let y := u16 (s.cursor_y + distance)
      if y + 1 ≥ s.scroll_bottom_margin then
        some { s with cursor_y := s.scroll_bottom_margin }
      else some { s with cursor_y := y }

def terminal_CUF (s : vim_shell_window) (argc : Nat) (argv : List Nat) :
    Option vim_shell_window :=
  if argc > 1 then some s
  else
    (distance_arg argv).bind fun distance =>
      let x := u16 (s.cursor_x + distance)
      if x + 1 ≥ s.size_x then some { s with cursor_x := u16 (s.size_x + 1) }
      else some { s with cursor_x := x }

/-- One round of the `switch` of `terminal_SGR`. -/
def terminal_SGR_val (s : vim_shell_window) (val : Int) : vim_shell_window :=
  if val = 0 then
    { s with rendition := 0, fgcolor := VIMSHELL_COLOR_DEFAULT,
             bgcolor := VIMSHELL_COLOR_DEFAULT }
  else if val = 1 then { s with rendition := s.rendition ||| RENDITION_BOLD }
  else if val = 2 then { s with rendition := s.rendition ||| RENDITION_DIM }
  else if val = 4 then { s with rendition := s.rendition ||| RENDITION_UNDERSCORE }
  else if val = 5 then { s with rendition := s.rendition ||| RENDITION_BLINK }
  else if val = 7 then { s with rendition := s.rendition ||| RENDITION_NEGATIVE }
  else if val = 8 then { s with rendition := s.rendition ||| RENDITION_HIDDEN }
  else if val = 22 then { s with rendition := s.rendition &&& (255 - RENDITION_BOLD) }
  else if val = 24 then { s with rendition := s.rendition &&& (255 - RENDITION_UNDERSCORE) }
  else if val = 25 then { s with rendition := s.rendition &&& (255 - RENDITION_BLINK) }
  else if val = 27 then { s with rendition := s.rendition &&& (255 - RENDITION_NEGATIVE) }
  else if 30 ≤ val ∧ val ≤ 37 then { s with fgcolor := u8 (val - 30) }
  else if 40 ≤ val ∧ val ≤ 47 then { s with bgcolor := u8 (val - 40) }
  else if val = 39 then { s with fgcolor := VIMSHELL_COLOR_DEFAULT }
  else if val = 49 then { s with bgcolor := VIMSHELL_COLOR_DEFAULT }
  else s

/-- The loop `for(i=0;i<argc;i++)` of `terminal_SGR`, from index `i`, with `n`
rounds left. -/
def terminal_SGR_loop (argv : List Nat) :
    Nat → Nat → vim_shell_window → Option vim_shell_window
  | 0, _, s => some s
  | n + 1, i, s =>
    (argv_int argv i).bind fun v =>
      terminal_SGR_loop argv n (i + 1) (terminal_SGR_val s (int32 v))

def terminal_SGR (s : vim_shell_window) (argc : Nat) (argv : List Nat) :
    Option vim_shell_window :=
  if argc = 0 then
    some { s with rendition := 0, fgcolor := VIMSHELL_COLOR_DEFAULT,
                  bgcolor := VIMSHELL_COLOR_DEFAULT }
  else terminal_SGR_loop argv argc 0 s

/-- An alternate screen already taken is freed first. The function then asks
for the structure (request 0) and, in this order, for `winbuf`, `fgbuf`,
`bgbuf`, `rendbuf` (requests 1 to 4, of `len = size_x*size_y` bytes each),
`tabline` (request 5, of `size_x` bytes) and `charset` (request 6, of `len`
bytes). When the structure is refused the function returns, with no alternate
screen. The test that follows the six requests for buffers reads
`winbuf==NULL` four times, then `charset==NULL` and `tabline==NULL`: when one
of these three is refused the function returns with no alternate screen; a
refused `fgbuf`, `bgbuf` or `rendbuf` goes unnoticed and is the destination
of a `memcpy`. Otherwise the alternate screen gets a copy of the structure
and buffers that hold the first `len` bytes of each cell array and the first
`size_x` bytes of the tab line. -/
def terminal_backup_screen (env : host) (s : vim_shell_window) : Option vim_shell_window :=
  if env.malloc 0 env.sizeof_window = false then some { s with alt := none }
  else
    let len := size_t (int32 ((s.size_x : Int) * s.size_y))
    if env.malloc 1 len = false ∨ env.malloc 6 len = false ∨
        env.malloc 5 (size_t s.size_x) = false then
      some { s with alt := none }
    else if env.malloc 2 len = false ∨ env.malloc 3 len = false ∨
        env.malloc 4 len = false then none
    else
      (memcpy_new s.winbuf (int32 ((s.size_x : Int) * s.size_y))).bind fun w =>
      (memcpy_new s.fgbuf (int32 ((s.size_x : Int) * s.size_y))).bind fun f =>
      (memcpy_new s.bgbuf (int32 ((s.size_x : Int) * s.size_y))).bind fun b =>
      (memcpy_new s.rendbuf (int32 ((s.size_x : Int) * s.size_y))).bind fun r =>
      (memcpy_new s.charset (int32 ((s.size_x : Int) * s.size_y))).bind fun c =>
      (memcpy_new s.tabline s.size_x).bind fun t =>
        some { s with alt := some { s.tovim_shell_fields with
          winbuf := w, fgbuf := f, bgbuf := b, rendbuf := r, charset := c, tabline := t } }

def terminal_restore_screen (s : vim_shell_window) : vim_shell_window :=
  match s.alt with
  | none => s
  | some a => { tovim_shell_fields := { a with force_redraw := 1 }, alt := none }

def terminal_EL (s : vim_shell_window) (argc : Nat) (argv : List Nat) :
    Option vim_shell_window :=
  if argc > 1 then some s
  else
    (if argc = 0 then some 0 else (argv_int argv 0).map int32).bind fun i =>
      if i = 0 then erase_cells s (cursor_pos s) ((s.size_x : Int) - s.cursor_x)
      else if i = 1 then erase_cells s ((s.cursor_y : Int) * s.size_x) s.cursor_x
      else if i = 2 then erase_cells s ((s.cursor_y : Int) * s.size_x) s.size_x
      else some s

def terminal_ED (s : vim_shell_window) (argc : Nat) (argv : List Nat) :
    Option vim_shell_window :=
  if argc > 1 then some s
  else
    (if argc = 0 then some 0 else (argv_int argv 0).map int32).bind fun i =>
      if i = 0 then
        erase_cells s (cursor_pos s) (int32 ((s.size_x : Int) * s.size_y) - cursor_pos s)
      else if i = 1 then erase_cells s 0 (cursor_pos s)
      else if i = 2 then erase_cells s 0 (int32 ((s.size_x : Int) * s.size_y))
      else some s

/-- The clamp of `terminal_CUP`: `if(c>=size) c=size-1;` on `uint16_t` values. -/
def cup_clamp (c size : Nat) : Nat := if c ≥ size then u16 ((size : Int) - 1) else c

def terminal_CUP (s : vim_shell_window) (argc : Nat) (argv : List Nat) :
    Option vim_shell_window :=
  if argc = 0 then some { s with cursor_x := 0, cursor_y := 0 }
  else if argc = 2 then
    (argv_int argv 0).bind fun vy =>
    (argv_int argv 1).bind fun vx =>
      some { s with
        cursor_x := cup_clamp (u16 ((if int32 vx = 0 then 1 else int32 vx) - 1)) s.size_x,
        cursor_y := cup_clamp (u16 ((if int32 vy = 0 then 1 else int32 vy) - 1)) s.size_y }
  else some s

def terminal_DECSTBM (s : vim_shell_window) (argc : Nat) (argv : List Nat) :
    Option vim_shell_window :=
  if argc ≠ 2 then some s
  else
    (argv_int argv 0).bind fun v0 =>
    (argv_int argv 1).bind fun v1 =>
      if u8 (v0 - 1) ≥ u8 (v1 - 1) then
        some { s with scroll_top_margin := 0,
                      scroll_bottom_margin := u8 ((s.size_y : Int) - 1) }
      else
        terminal_CUP { s with scroll_top_margin := u8 (v0 - 1),
                              scroll_bottom_margin := u8 (v1 - 1) } 0 []

def terminal_scroll_up (s : vim_shell_window) : Option vim_shell_window :=
  (move_cells s ((s.scroll_top_margin : Int) * s.size_x)
      ((s.size_x : Int) + (s.scroll_top_margin : Int) * s.size_x)
      (((s.scroll_bottom_margin : Int) - s.scroll_top_margin) * s.size_x)).bind
    (fun s1 => erase_cells s1 ((s.scroll_bottom_margin : Int) * s.size_x) s.size_x)

def terminal_scroll_down (s : vim_shell_window) : Option vim_shell_window :=
  (move_cells s ((s.scroll_top_margin : Int) * s.size_x + s.size_x)
      ((s.scroll_top_margin : Int) * s.size_x)
      (size_t (((s.scroll_bottom_margin : Int) - s.scroll_top_margin) * s.size_x))).bind
    (fun s1 => erase_cells s1 ((s.scroll_top_margin : Int) * s.size_x) s.size_x)

/-- The line count of `terminal_IL` and `terminal_DL`. -/
def lines_arg (s : vim_shell_window) (argc : Nat) (argv : List Nat) : Option Int :=
  (if argc = 0 then some 1
   else (argv_int argv 0).map (fun v => if int32 v = 0 then 1 else int32 v)).map fun lines =>
    if (s.scroll_bottom_margin : Int) - s.cursor_y < lines then
      (s.scroll_bottom_margin : Int) - s.cursor_y
    else lines

def terminal_IL (s : vim_shell_window) (argc : Nat) (argv : List Nat) :
    Option vim_shell_window :=
  if argc > 1 then some s
  else
    (lines_arg s argc argv).bind fun lines =>
      (while_dec lines terminal_scroll_down { s with scroll_top_margin := u8 s.cursor_y }).map
        (fun s1 => { s1 with scroll_top_margin := s.scroll_top_margin, cursor_x := 0 })

def terminal_DL (s : vim_shell_window) (argc : Nat) (argv : List Nat) :
    Option vim_shell_window :=
  if argc > 1 then some s
  else
    (lines_arg s argc argv).bind fun lines =>
      (while_dec lines terminal_scroll_up { s with scroll_top_margin := u8 s.cursor_y }).map
        (fun s1 => { s1 with scroll_top_margin := s.scroll_top_margin, cursor_x := 0 })

/-- The character count of `terminal_ICH` and `terminal_DCH`. -/
def chars_arg (argc : Nat) (argv : List Nat) : Option Int :=
  if argc = 0 then some 1
  else (argv_int argv 0).map (fun v => if int32 v = 0 then 1 else int32 v)

def terminal_ICH (s : vim_shell_window) (argc : Nat) (argv : List Nat) :
    Option vim_shell_window :=
  if argc > 1 then some s
  else
    (chars_arg argc argv).bind fun chars =>
      while_dec chars
        (fun s1 => (move_cells s1 (cursor_pos s + 1) (cursor_pos s)
            ((s.size_x : Int) - s.cursor_x - 1)).bind
          (fun s2 => erase_cells s2 (cursor_pos s) 1)) s

def terminal_DCH (s : vim_shell_window) (argc : Nat) (argv : List Nat) :
    Option vim_shell_window :=
  if argc > 1 then some s
  else
    (chars_arg argc argv).bind fun chars =>
      while_dec chars
        (fun s1 => (move_cells s1 (cursor_pos s) (cursor_pos s + 1)
            ((s.size_x : Int) - s.cursor_x - 1)).bind
          (fun s2 => erase_cells s2 (cursor_pos s + ((s.size_x : Int) - s.cursor_x - 1)) 1)) s

def terminal_BEL (s : vim_shell_window) : vim_shell_window := s

def terminal_BS (s : vim_shell_window) : vim_shell_window :=
  if s.cursor_x > 0 then { s with cursor_x := s.cursor_x - 1 } else s

def terminal_LF (s : vim_shell_window) : Option vim_shell_window :=
  if s.just_wrapped_around = 1 then some s
  else if ((u16 ((s.cursor_y : Int) + 1) : Nat) : Int) - 1 = s.scroll_bottom_margin then
    terminal_scroll_up { s with cursor_y := u16 (((u16 ((s.cursor_y : Int) + 1) : Nat) : Int) - 1) }
  else some { s with cursor_y := u16 ((s.cursor_y : Int) + 1) }

def terminal_CR (s : vim_shell_window) : vim_shell_window :=
  if s.just_wrapped_around = 1 then s else { s with cursor_x := 0 }

def terminal_RI (s : vim_shell_window) : Option vim_shell_window :=
  if s.cursor_y = s.scroll_top_margin then terminal_scroll_down s
  else some { s with cursor_y := u16 ((s.cursor_y : Int) - 1) }

def terminal_IND (s : vim_shell_window) : Option vim_shell_window :=
  if s.cursor_y = s.scroll_bottom_margin then terminal_scroll_up s
  else some { s with cursor_y := u16 ((s.cursor_y : Int) + 1) }

def terminal_save_attributes (s : vim_shell_window) : vim_shell_window :=
  { s with
    saved_cursor_x := s.cursor_x
    saved_cursor_y := s.cursor_y
    saved_rendition := s.rendition
    saved_fgcolor := s.fgcolor
    saved_bgcolor := s.bgcolor
    saved_G0_charset := s.G0_charset
    saved_G1_charset := s.G1_charset
    saved_application_keypad_mode := s.application_keypad_mode
    saved_application_cursor_mode := s.application_cursor_mode
    saved_insert_mode := s.insert_mode }

def terminal_restore_attributes (s : vim_shell_window) : vim_shell_window :=
  { s with
    cursor_x := s.saved_cursor_x
    cursor_y := s.saved_cursor_y
    rendition := s.saved_rendition
    fgcolor := s.saved_fgcolor
    bgcolor := s.saved_bgcolor
    G0_charset := s.saved_G0_charset
    G1_charset := s.saved_G1_charset
    application_keypad_mode := s.saved_application_keypad_mode
    application_cursor_mode := s.saved_application_cursor_mode
    insert_mode := s.saved_insert_mode }

/-- The parameter table of `terminal_init_screen`, after `strcpy(ed_argv[0], "2")`. -/
def ed_argv : List Nat := (argv_zero.set 0 50).set 1 0

def terminal_init_screen (s : vim_shell_window) : Option vim_shell_window :=
  (terminal_ED s 1 ed_argv).bind (fun s1 => terminal_CUP s1 0 [])

/-- One round of the loop of `terminal_mode`, for the parameter string `a`. -/
def terminal_mode_arg (env : host) (s : vim_shell_window) (set : Nat) (a : List Nat) :
    Option vim_shell_window :=
  if a = [52] then some { s with insert_mode := set }
  else if a = [63, 49] then some { s with application_cursor_mode := set }
  else if a = [63, 53] then some s
  else if a = [63, 54] then some s
  else if a = [63, 55] then some { s with wraparound := set }
  else if a = [51, 52] ∨ a = [63, 50, 53] then some { s with cursor_visible := set }
  else if a = [63, 52] then some s
  else if a = [63, 49, 48, 52, 57] ∨ a = [63, 49, 48, 52, 55] then
    if set = 1 then (terminal_backup_screen env s).bind terminal_init_screen
    else some (terminal_restore_screen s)
  else some s

/-- The loop `for(i=0;i<argc;i++)` of `terminal_mode`, from index `i`, with `n`
rounds left. -/
def terminal_mode_loop (env : host) (set : Nat) (argv : List Nat) :
    Nat → Nat → vim_shell_window → Option vim_shell_window
  | 0, _, s => some s
  | n + 1, i, s =>
    (argv_str argv i).bind fun a =>
      (terminal_mode_arg env s set a).bind (terminal_mode_loop env set argv n (i + 1))

def terminal_mode (env : host) (s : vim_shell_window) (set : Nat) (argc : Nat)
    (argv : List Nat) : Option vim_shell_window :=
  terminal_mode_loop env set argv argc 0 s

/-- The value `write(fd_master, outbuf, outbuf_pos)` returns: the answer `env`
of the environment for the bytes offered, kept within what `write(2)` can
return (`-1` or a count of at most `outbuf_pos`). -/
def write_result (env : host) (s : vim_shell_window) : Int :=
  max (-1) (min (env.write (s.outbuf.take s.outbuf_pos)) s.outbuf_pos)

/-- The state after `terminal_flush_output` and the value it returns. The
call of `write` reads `outbuf_pos` bytes of `outbuf`. -/
def terminal_flush_output (env : host) (s : vim_shell_window) :
    Option (vim_shell_window × Int) :=
  if s.outbuf_pos > 0 then
    if s.outbuf_pos > s.outbuf.length then none
    else if write_result env s < 0 then some ({ s with outbuf_pos := 0 }, -1)
    else if (s.outbuf_pos : Int) ≠ write_result env s then
      (memmove s.outbuf 0 (write_result env s) (write_result env s)).map fun ob =>
        ({ s with outbuf := ob, outbuf_pos := u8 (s.outbuf_pos - write_result env s) },
          write_result env s)
    else
      some ({ s with outbuf_pos := u8 (s.outbuf_pos - write_result env s) }, write_result env s)
  else some (s, 0)

/-- The end of `terminal_parse_esc_sequence`: `in_esc_sequence=0` and
`terminal_flush_output(shell)`. -/
def end_of_sequence (env : host) (s : vim_shell_window) : Option vim_shell_window :=
  (terminal_flush_output env { s with in_esc_sequence := 0 }).map Prod.fst

/-- The parameter loop of `terminal_parse_esc_sequence`, with `pseq` at the
head of the first argument (the characters up to the terminating NUL). The
result is `some none` where `ADVANCE_PSEQ` returns from the function, and
otherwise `argc`, `argv` and the characters from `pseq` on. -/
def csi_args : List Nat → Nat → List Nat → Option (Option (Nat × List Nat × List Nat))
  | [], _, _ => some none
  | c :: rest, argc, argv =>
    if isdigit c ∨ c = 63 then
      (strcat1 argv (argc * 20) c).bind fun argv1 =>
        if rest = [] then some none else csi_args rest argc argv1
    else
      (peek argv (argc * 20)).bind fun a0 =>
      (if a0 = 0 then strcpy0 argv (argc * 20) else some argv).bind fun argv1 =>
        if c = 59 then
          if rest = [] then some none else csi_args rest (argc + 1) argv1
        else some (some (argc + 1, argv1, c :: rest))

/-- The parameters and the final character of a CSI sequence, with `pseq` at
the `[` that heads the argument: `argc`, `argv` and `*pseq` as the `switch` of
the CSI branch finds them. `some none`: `ADVANCE_PSEQ` has returned. -/
def csi_parse : List Nat → Option (Option (Nat × List Nat × Nat))
  | [] => some none
  | _ :: [] => some none
  | _ :: c :: rest =>
    if isdigit c ∨ c = 63 ∨ c = 59 then
      (csi_args (c :: rest) 0 argv_zero).map
        (fun r => r.map (fun a => (a.1, a.2.1, a.2.2.headD 0)))
    else some (some (0, argv_zero, c))

/-- The `switch(*pseq)` on the final character of a CSI sequence. -/
def csi_dispatch (env : host) (s : vim_shell_window) (final : Nat) (argc : Nat)
    (argv : List Nat) : Option vim_shell_window :=
  if final = 102 ∨ final = 72 then terminal_CUP s argc argv
  else if final = 74 then terminal_ED s argc argv
  else if final = 75 then terminal_EL s argc argv
  else if final = 67 then terminal_CUF s argc argv
  else if final = 108 then terminal_mode env s 0 argc argv
  else if final = 104 then terminal_mode env s 1 argc argv
  else if final = 109 then terminal_SGR s argc argv
  else if final = 114 then terminal_DECSTBM s argc argv
  else if final = 66 then terminal_CUD s argc argv
  else if final = 68 then terminal_CUB s argc argv
  else if final = 65 then terminal_CUU s argc argv
  else if final = 77 then terminal_DL s argc argv
  else if final = 76 then terminal_IL s argc argv
  else if final = 64 then terminal_ICH s argc argv
  else if final = 80 then terminal_DCH s argc argv
  else if final = 69 then terminal_LF (terminal_CR s)
  else if final = 115 then some (terminal_save_attributes s)
  else if final = 117 then some (terminal_restore_attributes s)
  else if final = 103 then terminal_TBC s argc argv
  else some s

/-- The branch `if(*pseq=='[')`. `some none`: `ADVANCE_PSEQ` has returned. -/
def parse_csi (env : host) (s : vim_shell_window) (pseq : List Nat) :
    Option (Option vim_shell_window) :=
  (csi_parse pseq).bind fun r =>
    match r with
    | none => some none
    | some a => (csi_dispatch env s a.2.2 a.1 a.2.1).map some

/-- The loop that collects the window title, with `pseq` at the head of the
first argument. `some none`: `ADVANCE_PSEQ` has returned; `none`: `strcat` has
written past `title[49]`. -/
def title_loop : List Nat → List Nat → Option (Option (List Nat))
  | [], _ => some none
  | _ :: [], _ => some none
  | _ :: c :: rest, title =>
    if c = 7 then some (some title)
    else if title.length + 1 ≥ 50 then none
    else if title.length > 48 then some (some (title ++ [c]))
    else title_loop (c :: rest) (title ++ [c])

/-- The call `snprintf(windowtitle, sizeof(windowtitle), "%s", title)`. -/
def set_title (s : vim_shell_window) (title : List Nat) : vim_shell_window :=
  { s with windowtitle :=
      (title.take 49 ++ [0]) ++ s.windowtitle.drop ((title.take 49).length + 1) }

/-- The case `']'` of the second `switch`, with `pseq` at the `]`. -/
def parse_title (s : vim_shell_window) : List Nat → Option (Option vim_shell_window)
  | [] => some none
  | _ :: [] => some none
  | _ :: d :: rest1 =>
    if d = 49 ∨ d = 50 ∨ d = 48 then
      match rest1 with
      | [] => some none
      | e :: rest2 =>
        if e = 59 then
          (title_loop (e :: rest2) []).map (fun r => r.map (set_title s))
        else some (some s)
    else some (some s)

/-- The branch for the sequences that do not start with `[`, with `pseq` at
the head of the first argument. `some none`: `ADVANCE_PSEQ` has returned. -/
def parse_other (s : vim_shell_window) : List Nat → Option (Option vim_shell_window)
  | [] => some (some s)
  | c :: rest =>
    if c = 35 then
      match rest with
      | [] => some none
      | d :: _ =>
        if d = 56 then
          (memset s.winbuf 0 69 (int32 ((s.size_x : Int) * s.size_y))).map
            (fun w => some { s with winbuf := w })
        else some (some s)
    else if c = 40 then
      match rest with
      | [] => some none
      | d :: _ => some (some { s with G0_charset := d })
    else if c = 41 then
      match rest with
      | [] => some none
      | d :: _ => some (some { s with G1_charset := d })
    else if c = 68 then (terminal_IND s).map some
    else if c = 77 then (terminal_RI s).map some
    else if c = 55 then some (some (terminal_save_attributes s))
    else if c = 56 then some (some (terminal_restore_attributes s))
    else if c = 61 then some (some { s with application_keypad_mode := 1 })
    else if c = 62 then some (some { s with application_keypad_mode := 0 })
    else if c = 72 then
      (poke s.tabline s.cursor_x 1).map (fun t => some { s with tabline := t })
    else if c = 69 then (terminal_IND s).map (fun s1 => some { s1 with cursor_x := 0 })
    else if c = 93 then parse_title s (c :: rest)
    else some (some s)

/-- The two branches of `terminal_parse_esc_sequence` on the string `pseq`
(the characters of `esc_sequence+1` up to the terminating NUL). -/
def parse_seq (env : host) (s : vim_shell_window) (pseq : List Nat) :
    Option (Option vim_shell_window) :=
  if pseq.headD 0 = 91 then parse_csi env s pseq else parse_other s pseq

/-- What follows the parse: `some none` is a `return` of `ADVANCE_PSEQ`, which
leaves the sequence pending; otherwise the sequence is over. -/
def finish_seq (env : host) (s1 : vim_shell_window) :
    Option vim_shell_window → Option vim_shell_window
  | none => some s1
  | some s2 => end_of_sequence env s2

def terminal_parse_esc_sequence (env : host) (s : vim_shell_window) :
    Option vim_shell_window :=
  if s.in_esc_sequence = 0 ∨ peek s.esc_sequence 0 ≠ some 27 then end_of_sequence env s
  else if s.in_esc_sequence = 1 then some s
  else
    (poke s.esc_sequence s.in_esc_sequence 0).bind fun esc =>
    (cstr esc 1).bind fun pseq =>
    (parse_seq env { s with esc_sequence := esc } pseq).bind fun r =>
      finish_seq env { s with esc_sequence := esc } r

/-- The start of `terminal_normal_char`: `just_wrapped_around=0` and the wrap
out of the virtual column. -/
def wrap_column (s : vim_shell_window) : Option vim_shell_window :=
  if s.cursor_x = s.size_x then
    if s.wraparound = 1 then
      (terminal_LF (terminal_CR { s with just_wrapped_around := 0 })).map
        (fun t => { t with just_wrapped_around := 1 })
    else some { s with just_wrapped_around := 0, cursor_x := u16 ((s.cursor_x : Int) - 1) }
  else some { s with just_wrapped_around := 0 }

/-- The character set of the cell written: `VIMSHELL_CHARSET_DRAWING` when the
active table designates `'0'`. -/
def active_charset_tag (s : vim_shell_window) : Nat :=
  if s.active_charset = 1 then
    (if s.G1_charset = 48 then VIMSHELL_CHARSET_DRAWING else VIMSHELL_CHARSET_USASCII)
  else
    (if s.G0_charset = 48 then VIMSHELL_CHARSET_DRAWING else VIMSHELL_CHARSET_USASCII)

/-- The end of `terminal_normal_char`: the five stores at `pos` and
`cursor_x++`. -/
def store_char (s : vim_shell_window) (input : Nat) : Option vim_shell_window :=
  (poke s.winbuf (cursor_pos s) input).bind fun w =>
  (poke s.fgbuf (cursor_pos s) s.fgcolor).bind fun f =>
  (poke s.bgbuf (cursor_pos s) s.bgcolor).bind fun b =>
  (poke s.rendbuf (cursor_pos s) s.rendition).bind fun r =>
  (poke s.charset (cursor_pos s) (active_charset_tag s)).bind fun c =>
    some { s with winbuf := w, fgbuf := f, bgbuf := b, rendbuf := r, charset := c,
                  cursor_x := u16 ((s.cursor_x : Int) + 1) }

def terminal_normal_char (s : vim_shell_window) (input : Nat) : Option vim_shell_window :=
  (wrap_column s).bind fun s1 =>
  (if s1.insert_mode ≠ 0 then terminal_ICH s1 0 [] else some s1).bind fun s2 =>
    store_char s2 input

/-- The tab-stop search of `terminal_process_control_char`: the first `i` at or
after the second argument, below `size_x`, with `tabline[i]==1`; the first
argument bounds the number of rounds. -/
def next_tab (tabline : List Nat) (size_x : Nat) : Nat → Nat → Option (Option Nat)
  | 0, _ => some none
  | n + 1, i =>
    if i < size_x then
      (peek tabline i).bind fun v =>
        if v = 1 then some (some i) else next_tab tabline size_x n (i + 1)
    else some none

/-- The case `011` (TAB) of `terminal_process_control_char`. -/
def terminal_TAB (s : vim_shell_window) : Option vim_shell_window :=
  (next_tab s.tabline s.size_x (s.size_x - (s.cursor_x + 1)) (s.cursor_x + 1)).map fun r =>
    match r with
    | some i => { s with cursor_x := i }
    | none => { s with cursor_x := u16 ((s.size_x : Int) - 1) }

def terminal_process_control_char (s : vim_shell_window) (input : Nat) :
    Option vim_shell_window :=
  if input = 7 then some (terminal_BEL s)
  else if input = 8 then some (terminal_BS s)
  else if input = 9 then terminal_TAB s
  else if input = 11 ∨ input = 12 ∨ input = 10 then terminal_LF s
  else if input = 13 then some (terminal_CR s)
  else if input = 14 then some { s with active_charset := 1 }
  else if input = 15 then some { s with active_charset := 0 }
  else if input = 24 ∨ input = 26 then some { s with in_esc_sequence := 0 }
  else if input = 27 then
    (poke s.esc_sequence 0 27).map (fun e => { s with in_esc_sequence := 1, esc_sequence := e })
  else some s

/-- The branch of `terminal_input_char` that adds `input` to the pending
escape sequence and attempts to parse it. -/
def esc_input_char (env : host) (s : vim_shell_window) (input : Nat) :
    Option vim_shell_window :=
  (poke s.esc_sequence s.in_esc_sequence input).bind fun esc =>
    if u8 ((s.in_esc_sequence : Int) + 1) ≥ 50 then
      end_of_sequence env
        { s with esc_sequence := esc, in_esc_sequence := u8 ((s.in_esc_sequence : Int) + 1) }
    else
      terminal_parse_esc_sequence env
        { s with esc_sequence := esc, in_esc_sequence := u8 ((s.in_esc_sequence : Int) + 1) }

/-- One input byte (`0 ≤ input < 256`); the test `input>=0 && input<=037`
holds for the bytes 0 to 31 whether `char` is signed or not. -/
def terminal_input_char (env : host) (s : vim_shell_window) (input : Nat) :
    Option vim_shell_window :=
  if s.in_esc_sequence = 0 then
    if input ≤ 31 then terminal_process_control_char s input
    else terminal_normal_char s input
  else
    if input ≤ 31 then terminal_process_control_char s input
    else esc_input_char env s input

def vim_shell_terminal_input (env : host) :
    vim_shell_window → List Nat → Option vim_shell_window
  | s, [] => some s
  | s, c :: rest => (terminal_input_char env s c).bind (fun s1 => vim_shell_terminal_input env s1 rest)

/-! ### `vim_shell_terminal_output` -/

/-- The case labels of the `switch` of `vim_shell_terminal_output`, in source
order: `UP` stands for the macro `VIMSHELL_KEY_UP`, and so on. -/
inductive vimshell_key where
  | BACKSPACE | UP | DOWN | LEFT | RIGHT | HOME
  | F1 | F2 | F3 | F4 | F5 | F6 | F7 | F8 | F9 | F10 | F11 | F12
  | DC | END | IC | NPAGE | PPAGE
  | K0 | K1 | K2 | K3 | K4 | K5 | K6 | K7 | K8 | K9
  | KPLUS | KMINUS | KDIVIDE | KMULTIPLY | KENTER | KPOINT
deriving DecidableEq, Repr

/-- The string of either mode of a keypad key: `mode ? "\033O<app>" : "<lit>"`. -/
def keypad_string (mode lit app : Nat) : List Nat :=
  if mode ≠ 0 then [27, 79, app] else [lit]

/-- The string of an arrow key: `"\033%c<letter>"` with `mode ? 'O' : '['`. -/
def arrow_string (mode letter : Nat) : List Nat :=
  [27, if mode ≠ 0 then 79 else 91, letter]

/-- The cases of the `switch(c)` of `vim_shell_terminal_output`, in source
order: the value of the label and the string that `sprintf` prints into the
local `outbuf`. The macros `VIMSHELL_KEY_*` expand to the key codes `K_*` of
the editor, whose header is not among the sources: `code` gives their
values. -/
def key_cases (code : vimshell_key → Int) (s : vim_shell_window) : List (Int × List Nat) :=
  [(code vimshell_key.BACKSPACE, [127]),
   (code vimshell_key.UP, arrow_string s.application_cursor_mode 65),
   (code vimshell_key.DOWN, arrow_string s.application_cursor_mode 66),
   (code vimshell_key.LEFT, arrow_string s.application_cursor_mode 68),
   (code vimshell_key.RIGHT, arrow_string s.application_cursor_mode 67),
   (code vimshell_key.HOME, [27, 91, 49, 126]),
   (code vimshell_key.F1, [27, 79, 80]),
   (code vimshell_key.F2, [27, 79, 81]),
   (code vimshell_key.F3, [27, 79, 82]),
   (code vimshell_key.F4, [27, 79, 83]),
   (code vimshell_key.F5, [27, 91, 49, 53, 126]),
   (code vimshell_key.F6, [27, 91, 49, 55, 126]),
   (code vimshell_key.F7, [27, 91, 49, 56, 126]),
   (code vimshell_key.F8, [27, 91, 49, 57, 126]),
   (code vimshell_key.F9, [27, 91, 50, 48, 126]),
   (code vimshell_key.F10, [27, 91, 50, 49, 126]),
   (code vimshell_key.F11, [27, 91, 50, 51, 126]),
   (code vimshell_key.F12, [27, 91, 50, 52, 126]),
   (code vimshell_key.DC, [27, 91, 51, 126]),
   (code vimshell_key.END, [27, 91, 52, 126]),
   (code vimshell_key.IC, [27, 91, 50, 126]),
   (code vimshell_key.NPAGE, [27, 91, 54, 126]),
   (code vimshell_key.PPAGE, [27, 91, 53, 126]),
   (code vimshell_key.K0, keypad_string s.application_keypad_mode 48 112),
   (code vimshell_key.K1, keypad_string s.application_keypad_mode 49 113),
   (code vimshell_key.K2, keypad_string s.application_keypad_mode 50 114),
   (code vimshell_key.K3, keypad_string s.application_keypad_mode 51 115),
   (code vimshell_key.K4, keypad_string s.application_keypad_mode 52 116),
   (code vimshell_key.K5, keypad_string s.application_keypad_mode 53 117),
   (code vimshell_key.K6, keypad_string s.application_keypad_mode 54 118),
   (code vimshell_key.K7, keypad_string s.application_keypad_mode 55 119),
   (code vimshell_key.K8, keypad_string s.application_keypad_mode 56 120),
   (code vimshell_key.K9, keypad_string s.application_keypad_mode 57 121),
   (code vimshell_key.KPLUS, keypad_string s.application_keypad_mode 43 107),
   (code vimshell_key.KMINUS, keypad_string s.application_keypad_mode 45 109),
   (code vimshell_key.KDIVIDE, keypad_string s.application_keypad_mode 47 111),
   (code vimshell_key.KMULTIPLY, keypad_string s.application_keypad_mode 42 106),
   (code vimshell_key.KENTER, keypad_string s.application_keypad_mode 13 77),
   (code vimshell_key.KPOINT, keypad_string s.application_keypad_mode 46 110)]

/-- The initialised bytes of the local `outbuf` after the `switch`: the string
of the first case whose label is `c`, with its NUL, or, in the `default`
case, the byte `(char)c` followed by the NUL of `outbuf[1]=0`. -/
def key_outbuf (code : vimshell_key → Int) (s : vim_shell_window) (c : Int) : List Nat :=
  match (key_cases code s).lookup c with
  | some str => str ++ [0]
  | none => [u8 c, 0]

/-- The value of `strlen(outbuf)`. -/
def key_strlen (code : vimshell_key → Int) (s : vim_shell_window) (c : Int) : Nat :=
  ((key_outbuf code s c).takeWhile (fun b => b != 0)).length

/-- The value of `written`: `sizeof(shell->outbuf)-shell->outbuf_pos` (a
`size_t`) when `outbuf_pos+strlen(outbuf)>=sizeof(shell->outbuf)`, and
`strlen(outbuf)` otherwise. -/
def key_written (code : vimshell_key → Int) (s : vim_shell_window) (c : Int) : Int :=
  if (s.outbuf_pos : Int) + key_strlen code s c ≥ 100 then size_t (100 - (s.outbuf_pos : Int))
  else key_strlen code s c

/-- `memcpy(dst+pos, src, n)` from the initialised bytes `src` of another
buffer. -/
def memcpy (dst : List Nat) (pos : Int) (src : List Nat) (n : Int) : Option (List Nat) :=
  if 0 ≤ pos ∧ 0 ≤ n ∧ n ≤ src.length ∧ pos + n ≤ dst.length then
    some (dst.take pos.toNat ++ src.take n.toNat ++ dst.drop (pos.toNat + n.toNat))
  else none

/-- The state after `vim_shell_terminal_output(shell, c)` and the value it
returns: the bytes of the key are copied behind the queue, the queue is
flushed, and the result is `-1` when the flush fails and `written`
otherwise. -/
def vim_shell_terminal_output (code : vimshell_key → Int) (env : host)
    (s : vim_shell_window) (c : Int) : Option (vim_shell_window × Int) :=
  (memcpy s.outbuf s.outbuf_pos (key_outbuf code s c) (key_written code s c)).bind fun ob =>
    (terminal_flush_output env
      { s with outbuf := ob
               outbuf_pos := u8 ((s.outbuf_pos : Int) + key_written code s c) }).map
      fun r => (r.1, if r.2 < 0 then -1 else int32 (key_written code s c))

/-! ## `vim_shell.c` -/

/-- The tab line of `vim_shell_new`: a tab at each `i ≥ 1` with `(i+1)%8==0`
and `i+1<width`. -/
def default_tabline (width : Nat) : List Nat :=
  (List.range width).map (fun i => if 1 ≤ i ∧ (i + 1) % 8 = 0 ∧ i + 1 < width then 1 else 0)

def vim_shell_new (width height : Nat) : vim_shell_window :=
  { size_x := width
    size_y := height
    cursor_x := 0
    cursor_y := 0
    cursor_visible := 1
    saved_cursor_x := 0
    saved_cursor_y := 0
    windowtitle := List.replicate 50 0
    outbuf := List.replicate 100 0
    outbuf_pos := 0
    winbuf := List.replicate (width * height) 32
    fgbuf := List.replicate (width * height) VIMSHELL_COLOR_DEFAULT
    bgbuf := List.replicate (width * height) VIMSHELL_COLOR_DEFAULT
    rendbuf := List.replicate (width * height) 0
    charset := List.replicate (width * height) 0
    tabline := default_tabline width
    in_esc_sequence := 0
    esc_sequence := List.replicate 50 0
    wraparound := 1
    just_wrapped_around := 0
    rendition := 0
    saved_rendition := 0
    fgcolor := VIMSHELL_COLOR_DEFAULT
    bgcolor := VIMSHELL_COLOR_DEFAULT
    saved_fgcolor := 0
    saved_bgcolor := 0
    scroll_top_margin := 0
    scroll_bottom_margin := u8 ((height : Int) - 1)
    G0_charset := 66
    G1_charset := 48
    active_charset := 0
    saved_G0_charset := 0
    saved_G1_charset := 0
    saved_active_charset := 0
    application_keypad_mode := 0
    application_cursor_mode := 0
    saved_application_keypad_mode := 0
    saved_application_cursor_mode := 0
    insert_mode := 0
    saved_insert_mode := 0
    force_redraw := 0
    alt := none }


/-- `memcpy(dst+dpos, src+spos, n)` between two buffers. -/
def memcpy_at (dst : List Nat) (dpos : Int) (src : List Nat) (spos : Int) (n : Int) :
    Option (List Nat) :=
  if 0 ≤ dpos ∧ 0 ≤ spos ∧ 0 ≤ n ∧ dpos + n ≤ dst.length ∧ spos + n ≤ src.length then
    some (dst.take dpos.toNat ++ (src.drop spos.toNat).take n.toNat ++
      dst.drop (dpos.toNat + n.toNat))
  else none

/-- The loop `for(y=0;y<vlen;y++)` of `internal_screenbuf_resize`, `n` rounds
from row `y`: each round copies `len` cells of row `y+y_off` of the old arrays
(those of `o`) to row `y` of the new arrays (those of `s`). -/
def resize_rows (o : vim_shell_window) (width oldwidth oldheight len vlen : Int) :
    Nat → Int → vim_shell_window → Option vim_shell_window
  | 0, _, s => some s
  | n + 1, y, s =>
    let y_off := oldheight - vlen
    (memcpy_at s.winbuf (y * width) o.winbuf ((y + y_off) * oldwidth) len).bind fun w =>
    (memcpy_at s.fgbuf (y * width) o.fgbuf ((y + y_off) * oldwidth) len).bind fun f =>
    (memcpy_at s.bgbuf (y * width) o.bgbuf ((y + y_off) * oldwidth) len).bind fun b =>
    (memcpy_at s.rendbuf (y * width) o.rendbuf ((y + y_off) * oldwidth) len).bind fun r =>
    (memcpy_at s.charset (y * width) o.charset ((y + y_off) * oldwidth) len).bind fun c =>
      resize_rows o width oldwidth oldheight len vlen n (y + 1)
        { s with winbuf := w, fgbuf := f, bgbuf := b, rendbuf := r, charset := c }

/-- The loop `for(x=oldwidth;x<width;x++)` under "Correct tabs", `n` rounds
from column `x`. -/
def resize_tabs (width : Int) : Nat → Int → List Nat → Option (List Nat)
  | 0, _, t => some t
  | n + 1, x, t =>
    if (x + 1) % 8 = 0 ∧ x + 1 < width then
      (poke t x 1).bind fun t1 => resize_tabs width n (x + 1) t1
    else resize_tabs width n (x + 1) t

/-- Whether the six requests of `internal_screenbuf_resize` are granted:
`malloc k n` tells whether the `k`-th request, of `n` bytes, returns a buffer. -/
def resize_allocated (malloc : Nat → Int → Bool) (width height : Int) : Bool :=
  malloc 0 (size_t (width * height)) && malloc 1 (size_t (width * height)) &&
  malloc 2 (size_t (width * height)) && malloc 3 (size_t (width * height)) &&
  malloc 4 (size_t (width * height)) && malloc 5 (size_t width)

/-- The state after `internal_screenbuf_resize(shell, width, height)` and the
value it returns. The product `width*height` is an `int`; when one of the six
requests fails the old buffers and dimensions stay and the result is `-1`.
A granted request of a negative size (a `size_t` above `2^63`) is outside the
model. -/
def internal_screenbuf_resize (malloc : Nat → Int → Bool) (s : vim_shell_window)
    (width height : Int) : Option (vim_shell_window × Int) :=
  let oldwidth : Int := s.size_x
  let oldheight : Int := s.size_y
  if width * height < -2147483648 ∨ 2147483648 ≤ width * height then none
  else if resize_allocated malloc width height = false then some (s, -1)
  else if width < 0 ∨ width * height < 0 then none
  else
    let cells := (width * height).toNat
    let s0 : vim_shell_window :=
      { s with
        size_x := u16 width
        size_y := u16 height
        winbuf := List.replicate cells 32
        fgbuf := List.replicate cells s.fgcolor
        bgbuf := List.replicate cells s.bgcolor
        rendbuf := List.replicate cells 0
        charset := List.replicate cells 0
        tabline := List.replicate width.toNat 0 }
    let len := if oldwidth < width then oldwidth else width
    let vlen := if oldheight < height then oldheight else height
    (resize_rows s width oldwidth oldheight len vlen vlen.toNat 0 s0).bind fun s1 =>
    (memcpy_at s1.tabline 0 s.tabline 0 len).bind fun t1 =>
    (if oldwidth < width then resize_tabs width (width - oldwidth).toNat oldwidth t1
      else some t1).bind fun t2 =>
      let cx := if s1.cursor_x ≥ s1.size_x then u16 ((s1.size_x : Int) - 1) else s1.cursor_x
      let cy := if s1.cursor_y ≥ s1.size_y then u16 ((s1.size_y : Int) - 1) else s1.cursor_y
      some ({ s1 with
              tabline := t2
              cursor_x := cx
              cursor_y := cy
              scroll_top_margin := 0
              scroll_bottom_margin := u8 ((s1.size_y : Int) - 1)
              force_redraw := 1 }, 0)
/-! ## Notions used by the statements -/

/-- A host whose pty takes every byte offered (`write` returns the count it was
given) and whose allocator grants every request; the structure is taken to
have 256 bytes. -/
def pty_accepts : host :=
  { write := fun bytes => bytes.length, malloc := fun _ _ => true, sizeof_window := 256 }

/-- The buffers have the sizes the dimensions give, and the dimensions are
values of their C types (`uint16_t`, with a product that fits an `int`). -/
def grid_ok (s : vim_shell_window) : Prop :=
  s.size_x < 65536 ∧ s.size_y < 65536 ∧ s.size_x * s.size_y < 2147483648 ∧
  s.winbuf.length = s.size_x * s.size_y ∧ s.fgbuf.length = s.size_x * s.size_y ∧
  s.bgbuf.length = s.size_x * s.size_y ∧ s.rendbuf.length = s.size_x * s.size_y ∧
  s.charset.length = s.size_x * s.size_y

instance grid_ok_decidable (s : vim_shell_window) : Decidable (grid_ok s) := by
  unfold grid_ok
  infer_instance

/-- A 3x2 terminal with `a b c` on its first row, `d e f` on its second row
and the cursor on the second row. -/
def two_row_screen : vim_shell_window :=
  { vim_shell_new 3 2 with winbuf := [97, 98, 99, 100, 101, 102], cursor_y := 1 }

/-- The buffer `buf` after the stores `buf[pos]=v0`, `buf[pos+1]=v1`, ... -/
def put_list (buf : List Nat) : Nat → List Nat → List Nat
  | _, [] => buf
  | pos, v :: vs => put_list (buf.set pos v) (pos + 1) vs

/-- The buffer after `memset(buf+p, c, n)`. -/
def fill (buf : List Nat) (p n c : Nat) : List Nat :=
  buf.take p ++ List.replicate n c ++ buf.drop (p + n)

/-- The buffer after `memmove(buf+dst, buf+src, n)`. -/
def copy_within (buf : List Nat) (dst src n : Nat) : List Nat :=
  buf.take dst ++ (buf.drop src).take n ++ buf.drop (dst + n)

/-- One cell array after `terminal_scroll_up` on rows `top..bottom` of a grid
`W` cells wide, `c` being the blank of that array. -/
def scroll_up_buf (buf : List Nat) (W top bottom c : Nat) : List Nat :=
  fill (copy_within buf (top * W) (W + top * W) ((bottom - top) * W)) (bottom * W) W c

/-- The five attributes of the cell at row `r`, column `c`: glyph, foreground,
background, rendition, character set. -/
def cell_at (s : vim_shell_window) (r c : Nat) : Nat × Nat × Nat × Nat × Nat :=
  (s.winbuf.getD (r * s.size_x + c) 0, s.fgbuf.getD (r * s.size_x + c) 0,
   s.bgbuf.getD (r * s.size_x + c) 0, s.rendbuf.getD (r * s.size_x + c) 0,
   s.charset.getD (r * s.size_x + c) 0)

/-- The cell that the erase and scroll operations write. -/
def default_cell : Nat × Nat × Nat × Nat × Nat :=
  (32, VIMSHELL_COLOR_DEFAULT, VIMSHELL_COLOR_DEFAULT, 0, VIMSHELL_CHARSET_USASCII)

/-- The string that `terminal_parse_esc_sequence` parses when the byte `input`
arrives in state `s`: the characters of `esc_sequence+1` up to the NUL written
behind `input`. `none` when `input` does not reach the parser (NORMAL state, a
control byte, a full buffer, a buffer that does not start with ESC). -/
def parsed_string (s : vim_shell_window) (input : Nat) : Option (List Nat) :=
  if s.in_esc_sequence = 0 ∨ input ≤ 31 then none
  else
    (poke s.esc_sequence s.in_esc_sequence input).bind fun esc =>
      if u8 ((s.in_esc_sequence : Int) + 1) ≥ 50 then none
      else if u8 ((s.in_esc_sequence : Int) + 1) = 0 ∨ peek esc 0 ≠ some 27 then none
      else if u8 ((s.in_esc_sequence : Int) + 1) = 1 then none
      else (poke esc (u8 ((s.in_esc_sequence : Int) + 1)) 0).bind fun esc1 => cstr esc1 1

/-- One of the first `n` parameters from index `i` on is `?1049` or `?1047`. -/
def has_switch_arg (argv : List Nat) : Nat → Nat → Bool
  | 0, _ => false
  | n + 1, i =>
    (argv_str argv i == some [63, 49, 48, 52, 57] || argv_str argv i == some [63, 49, 48, 52, 55])
      || has_switch_arg argv n (i + 1)

/-- The string is a complete CSI sequence `h` or `l` with a parameter `?1049`
or `?1047`: it enters or leaves the alternate screen. -/
def seq_switches_screen (pseq : List Nat) : Bool :=
  pseq.headD 0 == 91 &&
    match csi_parse pseq with
    | some (some a) => (a.2.2 == 104 || a.2.2 == 108) && has_switch_arg a.2.1 a.1 0
    | _ => false

/-- The string is `ESC 7`, or a complete CSI sequence with final `s`: it saves
the register. -/
def seq_saves (pseq : List Nat) : Bool :=
  if pseq.headD 0 = 91 then
    match csi_parse pseq with
    | some (some a) => a.2.2 == 115
    | _ => false
  else pseq.headD 0 == 55

/-- The byte `input`, arriving in state `s`, completes a sequence that enters or
leaves the alternate screen. -/
def switches_screen (s : vim_shell_window) (input : Nat) : Bool :=
  match parsed_string s input with
  | some pseq => seq_switches_screen pseq
  | none => false

/-- The byte `input`, arriving in state `s`, completes a sequence that saves
the register. -/
def saves_register (s : vim_shell_window) (input : Nat) : Bool :=
  match parsed_string s input with
  | some pseq => seq_saves pseq
  | none => false

/-- No byte of the stream, fed from state `s`, enters or leaves the alternate
screen. -/
def no_screen_switch (env : host) : vim_shell_window → List Nat → Bool
  | _, [] => true
  | s, c :: rest =>
    !switches_screen s c &&
      match terminal_input_char env s c with
      | some s1 => no_screen_switch env s1 rest
      | none => true

/-- No byte of the stream, fed from state `s`, saves the register. -/
def no_save (env : host) : vim_shell_window → List Nat → Bool
  | _, [] => true
  | s, c :: rest =>
    !saves_register s c &&
      match terminal_input_char env s c with
      | some s1 => no_save env s1 rest
      | none => true

/-- What only a screen switch changes: the alternate screen, and the size of
the escape buffer. -/
def sealed_part (s : vim_shell_window) : Option vim_shell_fields × Nat :=
  (s.alt, s.esc_sequence.length)

/-- The saved register. -/
def register_part (s : vim_shell_window) :
    Nat × Nat × Nat × Nat × Nat × Nat × Nat × Nat × Nat × Nat :=
  (s.saved_cursor_x, s.saved_cursor_y, s.saved_rendition, s.saved_fgcolor, s.saved_bgcolor,
   s.saved_G0_charset, s.saved_G1_charset, s.saved_application_keypad_mode,
   s.saved_application_cursor_mode, s.saved_insert_mode)

/-- The parts of the state that no operation but a save or a screen switch
changes. -/
def kept (s : vim_shell_window) :
    (Option vim_shell_fields × Nat) × (Nat × Nat × Nat × Nat × Nat × Nat × Nat × Nat × Nat × Nat) :=
  (sealed_part s, register_part s)

/-- The frame of one dispatched sequence: the sealed part stays, and the
register too unless the sequence is a save. -/
def frame_ok (saves : Bool) (s s1 : vim_shell_window) : Prop :=
  sealed_part s1 = sealed_part s ∧ (saves = false → kept s1 = kept s)

/-- The bytes `ESC [ ? 1 0 4 9 h`. -/
def enter_alt : List Nat := [27, 91, 63, 49, 48, 52, 57, 104]

/-- The bytes `ESC [ ? 1 0 4 9 l`. -/
def leave_alt : List Nat := [27, 91, 63, 49, 48, 52, 57, 108]


/-- The live state that the register covers: cursor position, rendition,
colours, `G0`, `G1`, keypad mode, cursor-key mode, insert mode. -/
def live_part (s : vim_shell_window) :
    Nat × Nat × Nat × Nat × Nat × Nat × Nat × Nat × Nat × Nat :=
  (s.cursor_x, s.cursor_y, s.rendition, s.fgcolor, s.bgcolor, s.G0_charset, s.G1_charset,
   s.application_keypad_mode, s.application_cursor_mode, s.insert_mode)

/-- Every member but those of the escape parser (`in_esc_sequence`,
`esc_sequence`), of the output queue (`outbuf`, `outbuf_pos`) and
`force_redraw`: the dimensions, the five cell arrays, the tab line, the title,
cursor, rendition, colours, character sets, modes, margins, wrap flag and the
saved register. -/
def screen_part (s : vim_shell_window) : vim_shell_fields :=
  { s.tovim_shell_fields with
    in_esc_sequence := 0
    esc_sequence := []
    outbuf := []
    outbuf_pos := 0
    force_redraw := 0 }

/-- The bytes `ESC 7`. -/
def save_seq : List Nat := [27, 55]

/-- The bytes `ESC 8`. -/
def restore_seq : List Nat := [27, 56]

/-- The bytes `ESC [ 2 ; 2 H`, `ESC [ 1 m`, `ESC =`: cursor to row 1, column 1,
bold on, keypad application mode on. -/
def moves_and_modes : List Nat := [27, 91, 50, 59, 50, 72, 27, 91, 49, 109, 27, 61]

/-- The state that the bytes lead to from `s` (`s` itself where the run is
undefined). -/
def state_after (env : host) (s : vim_shell_window) (bytes : List Nat) :
    vim_shell_window :=
  (vim_shell_terminal_input env s bytes).getD s

/-- The state `s` with `n` bytes of a pending escape sequence in the buffer
`esc`. -/
def with_esc (s : vim_shell_window) (n : Nat) (esc : List Nat) : vim_shell_window :=
  { s with in_esc_sequence := n, esc_sequence := esc }

/-- The parameter table after the parse of the one parameter `?1049`. -/
def alt_argv : List Nat := [63, 49, 48, 52, 57] ++ List.replicate 395 0

/-- The bytes `x`, `y`, LF. -/
def two_glyphs_and_line_feed : List Nat := [120, 121, 10]

/-- One cell array after `terminal_scroll_down` on rows `top..bottom` of a grid
`W` cells wide, `c` being the blank of that array. -/
def scroll_down_buf (buf : List Nat) (W top bottom c : Nat) : List Nat :=
  fill (copy_within buf (top * W + W) (top * W) ((bottom - top) * W)) (top * W) W c

/-- A 2x3 terminal (two columns, three rows) with `a b`, `c d`, `e f` on its
rows. -/
def three_row_screen : vim_shell_window :=
  { vim_shell_new 2 3 with winbuf := [97, 98, 99, 100, 101, 102] }

/-- The parameter table that holds the one-character string `c` as its first
parameter. -/
def one_char_argv (c : Nat) : List Nat := argv_zero.set 0 c

/-- The bytes `A`, `B`, BS: two glyphs, then the cursor back on the `B`. -/
def two_glyphs_and_backspace : List Nat := [65, 66, 8]

/-! ## The parameters of a CSI sequence -/

/-- The parameter table whose bytes before the current slot are `A` and whose
current slot holds the string `cur`; the rest is NUL. -/
def argv_with (A cur : List Nat) : List Nat :=
  A ++ (cur ++ List.replicate (400 - A.length - cur.length) 0)

/-- The 20 bytes of a parameter slot that holds the string `q`. -/
def pad_slot (q : List Nat) : List Nat := q ++ List.replicate (20 - q.length) 0

/-- The parameter table that holds the strings `ps` in its first slots. -/
def argv_layout (ps : List (List Nat)) : List Nat :=
  argv_with (ps.map pad_slot).flatten []

/-- The string that the parser stores for the parameter `q`: `0` for an empty
parameter. -/
def stored_param (q : List Nat) : List Nat := if q = [] then [48] else q

/-- The parameters `ps` as they stand in a sequence: separated by `;`. -/
def render_params : List (List Nat) → List Nat
  | [] => []
  | [q] => q
  | q :: q1 :: qs => q ++ 59 :: render_params (q1 :: qs)

/-- The characters `p`, read from slot `d` on with `k` characters already in
that slot, stay inside the 20 slots of 20 bytes. -/
def csi_fits : Nat → Nat → List Nat → Bool
  | _, _, [] => true
  | k, d, c :: rest =>
    if c = 59 then decide (d + 1 < 20) && csi_fits 0 (d + 1) rest
    else decide (k < 19) && csi_fits (k + 1) d rest

/-- The bytes `A`, `B`. -/
def two_glyphs : List Nat := [65, 66]

/-- The rule of SGR for one parameter value `v`, on the rendition bit set and
the foreground and background colours: `0` clears the rendition and sets both
colours to DEFAULT; `1`, `2`, `4`, `5`, `7`, `8` add BOLD, DIM, UNDERSCORE,
BLINK, NEGATIVE, HIDDEN; `22`, `24`, `25`, `27` remove BOLD, UNDERSCORE, BLINK,
NEGATIVE from the 8-bit set; `30..37` set the foreground to `v-30`, `40..47`
the background to `v-40`; `39` and `49` reset the foreground and the
background to DEFAULT; any other value changes nothing. -/
def sgr_rule (a : Nat × Nat × Nat) (v : Int) : Nat × Nat × Nat :=
  if v = 0 then (0, VIMSHELL_COLOR_DEFAULT, VIMSHELL_COLOR_DEFAULT)
  else if v = 1 then (a.1 ||| RENDITION_BOLD, a.2.1, a.2.2)
  else if v = 2 then (a.1 ||| RENDITION_DIM, a.2.1, a.2.2)
  else if v = 4 then (a.1 ||| RENDITION_UNDERSCORE, a.2.1, a.2.2)
  else if v = 5 then (a.1 ||| RENDITION_BLINK, a.2.1, a.2.2)
  else if v = 7 then (a.1 ||| RENDITION_NEGATIVE, a.2.1, a.2.2)
  else if v = 8 then (a.1 ||| RENDITION_HIDDEN, a.2.1, a.2.2)
  else if v = 22 then (a.1 &&& (255 - RENDITION_BOLD), a.2.1, a.2.2)
  else if v = 24 then (a.1 &&& (255 - RENDITION_UNDERSCORE), a.2.1, a.2.2)
  else if v = 25 then (a.1 &&& (255 - RENDITION_BLINK), a.2.1, a.2.2)
  else if v = 27 then (a.1 &&& (255 - RENDITION_NEGATIVE), a.2.1, a.2.2)
  else if 30 ≤ v ∧ v ≤ 37 then (a.1, (v - 30).toNat, a.2.2)
  else if 40 ≤ v ∧ v ≤ 47 then (a.1, a.2.1, (v - 40).toNat)
  else if v = 39 then (a.1, VIMSHELL_COLOR_DEFAULT, a.2.2)
  else if v = 49 then (a.1, a.2.1, VIMSHELL_COLOR_DEFAULT)
  else a

/-- The state `s` with the rendition and the colours `a`. -/
def with_sgr (s : vim_shell_window) (a : Nat × Nat × Nat) : vim_shell_window :=
  { s with rendition := a.1, fgcolor := a.2.1, bgcolor := a.2.2 }

/-- The bytes of `CSI 2 J` (erase the whole display). -/
def erase_all_seq : List Nat := [27, 91, 50, 74]

/-- The bytes of `CSI 6 ; 11 r`: the scroll region of rows 5 to 10. -/
def region_5_10 : List Nat := [27, 91, 54, 59, 49, 49, 114]

/-! ## The encoder -/

/-- The state with the bytes `bytes` stored behind the queued output. -/
def enqueue (s : vim_shell_window) (bytes : List Nat) : vim_shell_window :=
  { s with outbuf := s.outbuf.take s.outbuf_pos ++ bytes ++
             s.outbuf.drop (s.outbuf_pos + bytes.length)
           outbuf_pos := s.outbuf_pos + bytes.length }

/-- The keys in the order of their cases. -/
def all_keys : List vimshell_key :=
  [vimshell_key.BACKSPACE, vimshell_key.UP, vimshell_key.DOWN, vimshell_key.LEFT,
   vimshell_key.RIGHT, vimshell_key.HOME, vimshell_key.F1, vimshell_key.F2, vimshell_key.F3,
   vimshell_key.F4, vimshell_key.F5, vimshell_key.F6, vimshell_key.F7, vimshell_key.F8,
   vimshell_key.F9, vimshell_key.F10, vimshell_key.F11, vimshell_key.F12, vimshell_key.DC,
   vimshell_key.END, vimshell_key.IC, vimshell_key.NPAGE, vimshell_key.PPAGE,
   vimshell_key.K0, vimshell_key.K1, vimshell_key.K2, vimshell_key.K3, vimshell_key.K4,
   vimshell_key.K5, vimshell_key.K6, vimshell_key.K7, vimshell_key.K8, vimshell_key.K9,
   vimshell_key.KPLUS, vimshell_key.KMINUS, vimshell_key.KDIVIDE, vimshell_key.KMULTIPLY,
   vimshell_key.KENTER, vimshell_key.KPOINT]

/-- A sample assignment of key codes, pairwise distinct and negative (outside
the range of the bytes): the key at position `i` of `all_keys` has the code
`-1-i`. -/
def sample_code (k : vimshell_key) : Int := -1 - (all_keys.indexOf k : Int)

/-- A host whose pty takes nothing while fewer than three bytes are offered,
and one byte otherwise; its allocator grants every request. -/
def pty_slow : host :=
  { write := fun bytes => if bytes.length < 3 then 0 else 1, malloc := fun _ _ => true,
    sizeof_window := 256 }

/-- A host whose pty takes no byte: `write` returns 0; its allocator grants
every request. -/
def pty_idle : host := { write := fun _ => 0, malloc := fun _ _ => true, sizeof_window := 256 }

/-- A fresh 80x24 terminal with the bytes `a b c` in its output queue. -/
def three_queued : vim_shell_window :=
  { vim_shell_new 80 24 with
    outbuf := [97, 98, 99] ++ List.replicate 97 0
    outbuf_pos := 3 }

/-! ## Loops over the cell arrays -/

/-- The state whose five cell arrays have been rewritten by `g`, which is
given the blank of the array (`' '`, `VIMSHELL_COLOR_DEFAULT` twice, 0, 0). -/
def map_grid (g : Nat → List Nat → List Nat) (s : vim_shell_window) : vim_shell_window :=
  { s with
    winbuf := g 32 s.winbuf
    fgbuf := g VIMSHELL_COLOR_DEFAULT s.fgbuf
    bgbuf := g VIMSHELL_COLOR_DEFAULT s.bgbuf
    rendbuf := g 0 s.rendbuf
    charset := g 0 s.charset }

/-- One cell array after one round of the loop of `terminal_ICH` with the
cursor at row `y`, column `x` of a grid `W` cells wide. -/
def ich_buf (W y x c : Nat) (buf : List Nat) : List Nat :=
  fill (copy_within buf (y * W + x + 1) (y * W + x) (W - x - 1)) (y * W + x) 1 c

/-- One cell array after one round of the loop of `terminal_DCH` with the
cursor at row `y`, column `x` of a grid `W` cells wide. -/
def dch_buf (W y x c : Nat) (buf : List Nat) : List Nat :=
  fill (copy_within buf (y * W + x) (y * W + x + 1) (W - x - 1)) (y * W + x + (W - x - 1)) 1 c

/-- The cell whose attributes stand at offset `i` of the five arrays. -/
def cell_of (s : vim_shell_window) (i : Nat) : Nat × Nat × Nat × Nat × Nat :=
  (s.winbuf.getD i 0, s.fgbuf.getD i 0, s.bgbuf.getD i 0, s.rendbuf.getD i 0,
   s.charset.getD i 0)

/-- The bytes `ESC [` followed by `n` semicolons. -/
def csi_semicolons (n : Nat) : List Nat := 27 :: 91 :: List.replicate n 59

/-- The string `[`, 25 digits `1` and `m`, as the parser finds it behind ESC. -/
def long_param_seq : List Nat := 91 :: (List.replicate 25 49 ++ [109])

/-- The bytes of `CSI 1 ; 2 r` and `CSI 6 ; 1 H`: the scroll region of rows 0
and 1, and the cursor on row 5, below it. -/
def cursor_below_region : List Nat := [27, 91, 49, 59, 50, 114, 27, 91, 54, 59, 49, 72]

/-- The buffer after `memcpy(dst+dpos, src+spos, n)`. -/
def copy_from (dst : List Nat) (dpos : Nat) (src : List Nat) (spos n : Nat) : List Nat :=
  dst.take dpos ++ (src.drop spos).take n ++ dst.drop (dpos + n)

/-- One new cell array after `n` rounds, from row `y`, of the row loop of
`internal_screenbuf_resize`: `W2` is the new width, `W` the old one, `len` the
number of cells copied per row and `d` the row offset. -/
def copy_rows (old : List Nat) (W2 W len d : Nat) : Nat → Nat → List Nat → List Nat
  | 0, _, b => b
  | n + 1, y, b => copy_rows old W2 W len d n (y + 1) (copy_from b (y * W2) old ((y + d) * W) len)

/-- The tab line after `n` rounds, from column `x`, of the loop under "Correct
tabs" for the new width `W2`. -/
def set_tabs (W2 : Nat) : Nat → Nat → List Nat → List Nat
  | 0, _, t => t
  | n + 1, x, t =>
    set_tabs W2 n (x + 1) (if (x + 1) % 8 = 0 ∧ x + 1 < W2 then t.set x 1 else t)

/-- An allocator that grants every request. -/
def malloc_grants : Nat → Int → Bool := fun _ _ => true

/-- The bytes of `CSI 3 1 m`: red foreground. -/
def red_foreground : List Nat := [27, 91, 51, 49, 109]

/-- The state that a granted `internal_screenbuf_resize(shell, W2, H2)` leaves,
array by array. -/
def resized (s : vim_shell_window) (W2 H2 : Nat) : vim_shell_window :=
  { s with
    size_x := u16 W2
    size_y := u16 H2
    winbuf := copy_rows s.winbuf W2 s.size_x (min s.size_x W2) (s.size_y - min s.size_y H2)
      (min s.size_y H2) 0 (List.replicate (W2 * H2) 32)
    fgbuf := copy_rows s.fgbuf W2 s.size_x (min s.size_x W2) (s.size_y - min s.size_y H2)
      (min s.size_y H2) 0 (List.replicate (W2 * H2) s.fgcolor)
    bgbuf := copy_rows s.bgbuf W2 s.size_x (min s.size_x W2) (s.size_y - min s.size_y H2)
      (min s.size_y H2) 0 (List.replicate (W2 * H2) s.bgcolor)
    rendbuf := copy_rows s.rendbuf W2 s.size_x (min s.size_x W2) (s.size_y - min s.size_y H2)
      (min s.size_y H2) 0 (List.replicate (W2 * H2) 0)
    charset := copy_rows s.charset W2 s.size_x (min s.size_x W2) (s.size_y - min s.size_y H2)
      (min s.size_y H2) 0 (List.replicate (W2 * H2) 0)
    tabline :=
      if s.size_x < W2 then
        set_tabs W2 (W2 - s.size_x) s.size_x
          (copy_from (List.replicate W2 0) 0 s.tabline 0 (min s.size_x W2))
      else copy_from (List.replicate W2 0) 0 s.tabline 0 (min s.size_x W2)
    cursor_x := if s.cursor_x ≥ u16 W2 then u16 ((u16 W2 : Int) - 1) else s.cursor_x
    cursor_y := if s.cursor_y ≥ u16 H2 then u16 ((u16 H2 : Int) - 1) else s.cursor_y
    scroll_top_margin := 0
    scroll_bottom_margin := u8 ((u16 H2 : Int) - 1)
    force_redraw := 1 }

/-- All seven requests of `terminal_backup_screen` in state `s` are granted. -/
def backup_allocated (env : host) (s : vim_shell_window) : Bool :=
  env.malloc 0 env.sizeof_window &&
  env.malloc 1 (size_t (int32 ((s.size_x : Int) * s.size_y))) &&
  env.malloc 2 (size_t (int32 ((s.size_x : Int) * s.size_y))) &&
  env.malloc 3 (size_t (int32 ((s.size_x : Int) * s.size_y))) &&
  env.malloc 4 (size_t (int32 ((s.size_x : Int) * s.size_y))) &&
  env.malloc 5 (size_t s.size_x) &&
  env.malloc 6 (size_t (int32 ((s.size_x : Int) * s.size_y)))

/-- A refusal that `terminal_backup_screen` notices: of the structure, or of
one of the buffers `winbuf`, `charset`, `tabline`. -/
def backup_refused (env : host) (s : vim_shell_window) : Bool :=
  !env.malloc 0 env.sizeof_window ||
  !env.malloc 1 (size_t (int32 ((s.size_x : Int) * s.size_y))) ||
  !env.malloc 6 (size_t (int32 ((s.size_x : Int) * s.size_y))) ||
  !env.malloc 5 (size_t s.size_x)

/-- A refusal that `terminal_backup_screen` does not notice: the structure
and the buffers it tests are granted, and one of `fgbuf`, `bgbuf`, `rendbuf`
is refused. -/
def backup_unnoticed (env : host) (s : vim_shell_window) : Bool :=
  !backup_refused env s &&
  (!env.malloc 2 (size_t (int32 ((s.size_x : Int) * s.size_y))) ||
   !env.malloc 3 (size_t (int32 ((s.size_x : Int) * s.size_y))) ||
   !env.malloc 4 (size_t (int32 ((s.size_x : Int) * s.size_y))))

/-- A host whose pty takes every byte and whose allocator refuses every
request. -/
def pty_no_memory : host :=
  { write := fun bytes => bytes.length, malloc := fun _ _ => false, sizeof_window := 256 }

/-- A host whose pty takes every byte and whose allocator refuses the third
request of a function (request 2, the `fgbuf` of `terminal_backup_screen`) and
grants the others. -/
def pty_no_fgbuf : host :=
  { write := fun bytes => bytes.length, malloc := fun k _ => k != 2, sizeof_window := 256 }
/-! ## Helper lemmas: machine integers and memory primitives -/

theorem int32_of_small (i : Int) (h0 : 0 ≤ i) (h1 : i < 2147483648) : int32 i = i := by
  unfold int32; omega

theorem u16_natCast (n : Nat) (h1 : n < 65536) : u16 (n : Int) = n := by
  unfold u16; omega

theorem u16_succ (n : Nat) (h1 : n + 1 < 65536) : u16 ((n : Int) + 1) = n + 1 := by
  unfold u16; omega

theorem u16_succ_pred (n : Nat) (h1 : n + 1 < 65536) :
    u16 (((n + 1 : Nat) : Int) - 1) = n := by
  unfold u16; omega

theorem cell_index_lt (W H x y : Nat) (hx : x < W) (hy : y < H) : y * W + x < W * H := by
  have : (y + 1) * W ≤ H * W := Nat.mul_le_mul_right W hy
  rw [Nat.mul_comm W H]
  rw [Nat.add_mul] at this
  omega

theorem cursor_pos_eq (s : vim_shell_window) (hg : grid_ok s) (hx : s.cursor_x < s.size_x)
    (hy : s.cursor_y < s.size_y) :
    cursor_pos s = ((s.cursor_y * s.size_x + s.cursor_x : Nat) : Int) := by
  obtain ⟨_, _, h3, _⟩ := hg
  have := cell_index_lt s.size_x s.size_y s.cursor_x s.cursor_y hx hy
  unfold cursor_pos
  rw [int32_of_small]
  · push_cast; rfl
  · positivity
  · have h : ((s.cursor_y * s.size_x + s.cursor_x : Nat) : Int) < 2147483648 := by omega
    push_cast at h; exact h

theorem poke_eq (buf : List Nat) (n : Nat) (v : Nat) (h : n < buf.length) :
    poke buf (n : Int) v = some (buf.set n v) := by
  unfold poke
  simp [h]

theorem grid_ok_new (w h : Nat) (hw : w < 65536) (hh : h < 65536)
    (hwh : w * h < 2147483648) : grid_ok (vim_shell_new w h) := by
  simp [grid_ok, vim_shell_new, hw, hh, hwh]

/-! ## Printable bytes -/

theorem store_char_eq (s : vim_shell_window) (b : Nat) (hg : grid_ok s)
    (hx : s.cursor_x < s.size_x) (hy : s.cursor_y < s.size_y) :
    store_char s b = some { s with
      winbuf := s.winbuf.set (s.cursor_y * s.size_x + s.cursor_x) b
      fgbuf := s.fgbuf.set (s.cursor_y * s.size_x + s.cursor_x) s.fgcolor
      bgbuf := s.bgbuf.set (s.cursor_y * s.size_x + s.cursor_x) s.bgcolor
      rendbuf := s.rendbuf.set (s.cursor_y * s.size_x + s.cursor_x) s.rendition
      charset := s.charset.set (s.cursor_y * s.size_x + s.cursor_x) (active_charset_tag s)
      cursor_x := s.cursor_x + 1 } := by
  have hpos := cell_index_lt s.size_x s.size_y s.cursor_x s.cursor_y hx hy
  have hcp := cursor_pos_eq s hg hx hy
  obtain ⟨h1, h2, h3, hw, hf, hbg, hr, hc⟩ := hg
  unfold store_char
  rw [hcp, poke_eq _ _ _ (hw ▸ hpos), poke_eq _ _ _ (hf ▸ hpos), poke_eq _ _ _ (hbg ▸ hpos),
    poke_eq _ _ _ (hr ▸ hpos), poke_eq _ _ _ (hc ▸ hpos), u16_succ _ (by omega)]
  rfl

/-- A printable byte in NORMAL state, cursor inside the grid, insert mode off:
the state that `terminal_input_char` returns. -/
theorem normal_char_step (env : host) (s : vim_shell_window) (b : Nat)
    (hg : grid_ok s) (hn : s.in_esc_sequence = 0) (hx : s.cursor_x < s.size_x)
    (hy : s.cursor_y < s.size_y) (hi : s.insert_mode = 0) (hb : 32 ≤ b) :
    terminal_input_char env s b = some { s with
      winbuf := s.winbuf.set (s.cursor_y * s.size_x + s.cursor_x) b
      fgbuf := s.fgbuf.set (s.cursor_y * s.size_x + s.cursor_x) s.fgcolor
      bgbuf := s.bgbuf.set (s.cursor_y * s.size_x + s.cursor_x) s.bgcolor
      rendbuf := s.rendbuf.set (s.cursor_y * s.size_x + s.cursor_x) s.rendition
      charset := s.charset.set (s.cursor_y * s.size_x + s.cursor_x) (active_charset_tag s)
      cursor_x := s.cursor_x + 1
      just_wrapped_around := 0 } := by
  have hne : s.cursor_x ≠ s.size_x := by omega
  have hb31 : ¬ b ≤ 31 := by omega
  have hi' : ¬ (s.insert_mode ≠ 0) := by simp [hi]
  unfold terminal_input_char
  rw [if_pos hn, if_neg hb31]
  unfold terminal_normal_char wrap_column
  rw [if_neg hne, Option.some_bind]
  dsimp only
  rw [if_neg hi', Option.some_bind]
  exact store_char_eq { s with just_wrapped_around := 0 } b hg hx hy

/-! ## The claims -/

/-- C1 (the code at the failing input): fed `ESC [ 7 9 C`, a fresh 80x24
terminal ends with `cursor_x = 81`, one past the virtual column `W = 80`;
`terminal_CUF` stores `size_x+1` where its comment promises the right margin. -/
theorem C1_cursor_forward_passes_virtual_column :
    (vim_shell_terminal_input pty_accepts (vim_shell_new 80 24) [27, 91, 55, 57, 67]).map
      (fun s => (s.cursor_x, s.size_x)) = some (81, 80) := by
  decide!

/-- C2 (the code at the failing input): fed `ESC [ 1 ; 1 0 0 r`, a fresh 80x24
terminal ends with `scroll_bottom_margin = 99`, a row that the 24-row grid does
not have; `terminal_DECSTBM` checks `top >= bottom` only. -/
theorem C2_bottom_margin_leaves_grid :
    (vim_shell_terminal_input pty_accepts (vim_shell_new 80 24)
      [27, 91, 49, 59, 49, 48, 48, 114]).map
      (fun s => (s.scroll_top_margin, s.scroll_bottom_margin, s.size_y)) = some (0, 99, 24) := by
  decide!

/-- C3 (the code at the failing input): fed `ESC [ 1 ; 1 0 0 r` and then
`ESC [ M`, a fresh 80x24 terminal scrolls a region of 100 rows: `terminal_DL`
has `terminal_scroll_up` move `99*80` bytes inside buffers of `24*80` bytes,
so the last row of the glyph grid is read from outside the buffer. The model
has no value for that run. -/
theorem C3_delete_line_reads_outside_grid :
    (vim_shell_terminal_input pty_accepts (vim_shell_new 80 24)
        [27, 91, 49, 59, 49, 48, 48, 114]).map
      (fun s => (s.scroll_bottom_margin, s.winbuf.length, terminal_scroll_up s)) =
      some (99, 1920, none) ∧
    vim_shell_terminal_input pty_accepts (vim_shell_new 80 24)
      [27, 91, 49, 59, 49, 48, 48, 114, 27, 91, 77] = none := by
  decide!

/-- C4: in NORMAL state with the cursor inside the grid and insert mode off, a
printable byte `b` is stored at the cursor cell, and only there, with the
current colours and rendition and the character set of the active table
(DRAWING iff its designator is `'0'`); `cursor_x` grows by one. -/
theorem C4_printable_writes_one_cell (env : host) (s : vim_shell_window) (b : Nat)
    (hg : grid_ok s) (hn : s.in_esc_sequence = 0) (hx : s.cursor_x < s.size_x)
    (hy : s.cursor_y < s.size_y) (hi : s.insert_mode = 0) (hb : 32 ≤ b) (_hb : b < 256) :
    ∃ s1, terminal_input_char env s b = some s1 ∧
      s.cursor_y * s.size_x + s.cursor_x < s.size_x * s.size_y ∧
      s1.winbuf = s.winbuf.set (s.cursor_y * s.size_x + s.cursor_x) b ∧
      s1.fgbuf = s.fgbuf.set (s.cursor_y * s.size_x + s.cursor_x) s.fgcolor ∧
      s1.bgbuf = s.bgbuf.set (s.cursor_y * s.size_x + s.cursor_x) s.bgcolor ∧
      s1.rendbuf = s.rendbuf.set (s.cursor_y * s.size_x + s.cursor_x) s.rendition ∧
      s1.charset = s.charset.set (s.cursor_y * s.size_x + s.cursor_x)
        (if (if s.active_charset = 1 then s.G1_charset else s.G0_charset) = 48
          then VIMSHELL_CHARSET_DRAWING else VIMSHELL_CHARSET_USASCII) ∧
      s1.cursor_x = s.cursor_x + 1 ∧ s1.cursor_y = s.cursor_y := by
  refine ⟨_, normal_char_step env s b hg hn hx hy hi hb, ?_, rfl, rfl, rfl, rfl, ?_, rfl, rfl⟩
  · exact cell_index_lt _ _ _ _ hx hy
  · show s.charset.set _ (active_charset_tag s) = _
    unfold active_charset_tag
    by_cases h : s.active_charset = 1 <;> simp only [h, if_true, if_false]

/-- C4 at a concrete input: `'A'` fed to a fresh 80x24 terminal. -/
theorem C4_printable_writes_one_cell_witness :
    ∃ s1, terminal_input_char pty_accepts (vim_shell_new 80 24) 65 = some s1 ∧
      s1.winbuf = (vim_shell_new 80 24).winbuf.set 0 65 ∧
      s1.charset = (vim_shell_new 80 24).charset.set 0 VIMSHELL_CHARSET_USASCII ∧
      s1.cursor_x = 1 ∧ s1.cursor_y = 0 := by
  obtain ⟨s1, h, _, hw, _, _, _, hc, hx, hy⟩ :=
    C4_printable_writes_one_cell pty_accepts (vim_shell_new 80 24) 65
      (grid_ok_new 80 24 (by decide) (by decide) (by decide)) rfl (by decide) (by decide) rfl
      (by decide) (by decide)
  exact ⟨s1, h, hw, hc, hx, hy⟩

theorem put_list_length (vs : List Nat) : ∀ (buf : List Nat) (pos : Nat),
    (put_list buf pos vs).length = buf.length := by
  induction vs with
  | nil => intro buf pos; rfl
  | cons v vs ih => intro buf pos; simp [put_list, ih]

theorem put_list_getElem? (vs : List Nat) : ∀ (buf : List Nat) (pos i : Nat),
    pos + vs.length ≤ buf.length →
    (put_list buf pos vs)[i]? =
      if pos ≤ i ∧ i < pos + vs.length then vs[i - pos]? else buf[i]? := by
  induction vs with
  | nil =>
    intro buf pos i _
    have : ¬ (pos ≤ i ∧ i < pos + ([] : List Nat).length) := by simp
    rw [if_neg this]; rfl
  | cons v vs ih =>
    intro buf pos i h
    simp only [put_list, List.length_cons] at h ⊢
    rw [ih _ _ _ (by simp; omega)]
    by_cases h1 : pos + 1 ≤ i ∧ i < pos + 1 + vs.length
    · rw [if_pos h1, if_pos (by omega)]
      have : i - pos = (i - (pos + 1)) + 1 := by omega
      rw [this, List.getElem?_cons_succ]
    · rw [if_neg h1]
      by_cases h2 : i = pos
      · subst h2
        rw [if_pos (by omega)]
        have hl : i < buf.length := by omega
        simp [hl]
      · rw [if_neg (by omega)]
        rw [List.getElem?_set_ne (by omega)]

theorem put_list_take (vs buf : List Nat) (h : vs.length ≤ buf.length) :
    (put_list buf 0 vs).take vs.length = vs := by
  apply List.ext_getElem?
  intro i
  rw [List.getElem?_take]
  by_cases hi : i < vs.length
  · rw [if_pos hi, put_list_getElem? _ _ _ _ (by omega), if_pos (by omega)]
    simp
  · rw [if_neg hi]
    simp at hi
    exact (List.getElem?_eq_none hi).symm

theorem take_set_ge (l : List Nat) (a n m : Nat) (h : m ≤ n) :
    (l.set n a).take m = l.take m :=
  List.ext_getElem? fun i => by
    rw [List.getElem?_take, List.getElem?_take]
    split
    · next h1 => rw [List.getElem?_set_ne (by omega)]
    · rfl

theorem put_list_same (n c : Nat) : ∀ (buf : List Nat) (pos : Nat),
    (∀ i, pos ≤ i → i < pos + n → buf[i]? = some c) →
    put_list buf pos (List.replicate n c) = buf := by
  induction n with
  | zero => intro buf pos _; rfl
  | succ n ih =>
    intro buf pos h
    simp only [List.replicate_succ, put_list]
    have h0 : buf.set pos c = buf := by
      apply List.ext_getElem?
      intro i
      by_cases hi : i = pos
      · subst hi
        have := h i (le_refl _) (by omega)
        rw [this]
        have hl : i < buf.length := by
          by_contra hc
          rw [List.getElem?_eq_none (by omega)] at this
          cases this
        simp [hl]
      · rw [List.getElem?_set_ne (by omega)]
    rw [h0]
    exact ih buf (pos + 1) (fun i h1 h2 => h i (by omega) (by omega))

theorem feed_append (env : host) (a b : List Nat) : ∀ s : vim_shell_window,
    vim_shell_terminal_input env s (a ++ b) =
      (vim_shell_terminal_input env s a).bind (fun s1 => vim_shell_terminal_input env s1 b) := by
  induction a with
  | nil => intro s; rfl
  | cons c a ih =>
    intro s
    simp only [List.cons_append, vim_shell_terminal_input]
    cases terminal_input_char env s c with
    | none => rfl
    | some s1 => simp only [Option.some_bind]; exact ih s1

theorem window_eq (s t : vim_shell_window) (h1 : s.tovim_shell_fields = t.tovim_shell_fields)
    (h2 : s.alt = t.alt) : s = t := by
  cases s; cases t; simp_all

theorem run_printable (env : host) (xs : List Nat) : ∀ s : vim_shell_window,
    grid_ok s → s.in_esc_sequence = 0 → s.insert_mode = 0 → s.cursor_y < s.size_y →
    s.cursor_x + xs.length ≤ s.size_x → (∀ b ∈ xs, 32 ≤ b) →
    vim_shell_terminal_input env s xs = some { s with
      winbuf := put_list s.winbuf (s.cursor_y * s.size_x + s.cursor_x) xs
      fgbuf := put_list s.fgbuf (s.cursor_y * s.size_x + s.cursor_x)
        (List.replicate xs.length s.fgcolor)
      bgbuf := put_list s.bgbuf (s.cursor_y * s.size_x + s.cursor_x)
        (List.replicate xs.length s.bgcolor)
      rendbuf := put_list s.rendbuf (s.cursor_y * s.size_x + s.cursor_x)
        (List.replicate xs.length s.rendition)
      charset := put_list s.charset (s.cursor_y * s.size_x + s.cursor_x)
        (List.replicate xs.length (active_charset_tag s))
      cursor_x := s.cursor_x + xs.length
      just_wrapped_around := if xs = [] then s.just_wrapped_around else 0 } := by
  induction xs with
  | nil => intro s _ _ _ _ _ _; rfl
  | cons b xs ih =>
    intro s hg hn hi hy hx hb
    have hx1 : s.cursor_x < s.size_x := by simp only [List.length_cons] at hx; omega
    simp only [vim_shell_terminal_input]
    rw [normal_char_step env s b hg hn hx1 hy hi (hb b (List.mem_cons_self _ _)), Option.some_bind]
    refine (ih _ ?_ ?_ ?_ ?_ ?_ ?_).trans ?_
    · simpa [grid_ok] using hg
    · exact hn
    · exact hi
    · exact hy
    · simp only [List.length_cons] at hx; show s.cursor_x + 1 + xs.length ≤ s.size_x; omega
    · exact fun c hc => hb c (List.mem_cons_of_mem _ hc)
    · congr 1
      apply window_eq
      · dsimp only
        congr 1
        · simp only [List.length_cons]; omega
        · simp
      · rfl

theorem terminal_LF_move (s : vim_shell_window) (hj : s.just_wrapped_around ≠ 1)
    (hy : s.cursor_y + 1 < 65536) (hb : s.cursor_y ≠ s.scroll_bottom_margin) :
    terminal_LF s = some { s with cursor_y := s.cursor_y + 1 } := by
  unfold terminal_LF
  rw [if_neg hj, u16_succ _ hy, if_neg]
  intro h
  apply hb
  omega

theorem terminal_LF_scroll (s : vim_shell_window) (hj : s.just_wrapped_around ≠ 1)
    (hy : s.cursor_y + 1 < 65536) (hb : s.cursor_y = s.scroll_bottom_margin) :
    terminal_LF s = terminal_scroll_up s := by
  unfold terminal_LF
  rw [if_neg hj, u16_succ _ hy, if_pos (by omega), u16_succ_pred _ hy]

/-- A printable byte in NORMAL state with the cursor in the virtual column,
wraparound on, insert mode off and the cursor above the bottom margin: the
cursor wraps to the next row, the byte goes to its first cell. -/
theorem wrap_char_step (env : host) (s : vim_shell_window) (b : Nat)
    (hg : grid_ok s) (hn : s.in_esc_sequence = 0) (hx : s.cursor_x = s.size_x)
    (hw : s.wraparound = 1) (hx0 : 0 < s.size_x) (hy : s.cursor_y + 1 < s.size_y)
    (hm : s.cursor_y ≠ s.scroll_bottom_margin) (hi : s.insert_mode = 0) (hb : 32 ≤ b) :
    terminal_input_char env s b = some { s with
      winbuf := s.winbuf.set ((s.cursor_y + 1) * s.size_x + 0) b
      fgbuf := s.fgbuf.set ((s.cursor_y + 1) * s.size_x + 0) s.fgcolor
      bgbuf := s.bgbuf.set ((s.cursor_y + 1) * s.size_x + 0) s.bgcolor
      rendbuf := s.rendbuf.set ((s.cursor_y + 1) * s.size_x + 0) s.rendition
      charset := s.charset.set ((s.cursor_y + 1) * s.size_x + 0) (active_charset_tag s)
      cursor_x := 0 + 1
      cursor_y := s.cursor_y + 1
      just_wrapped_around := 1 } := by
  have hb31 : ¬ b ≤ 31 := by omega
  have hi' : ¬ (s.insert_mode ≠ 0) := by simp [hi]
  have hy16 : s.cursor_y + 1 < 65536 := by have := hg.2.1; omega
  unfold terminal_input_char
  rw [if_pos hn, if_neg hb31]
  unfold terminal_normal_char wrap_column
  rw [if_pos hx, if_pos hw]
  unfold terminal_CR
  rw [if_neg (show ¬ ((0 : Nat) = 1) by decide)]
  dsimp only
  rw [terminal_LF_move]
  · rw [Option.map_some', Option.some_bind]
    dsimp only
    rw [if_neg hi', Option.some_bind]
    exact store_char_eq
      { s with just_wrapped_around := 1, cursor_x := 0, cursor_y := s.cursor_y + 1 } b hg hx0 hy
  · exact (show (0 : Nat) ≠ 1 by decide)
  · exact hy16
  · exact hm

theorem put_list_grid_ok (s : vim_shell_window) (hg : grid_ok s) (p : Nat)
    (w f b r c : List Nat) (x j : Nat) :
    grid_ok { s with winbuf := put_list s.winbuf p w, fgbuf := put_list s.fgbuf p f,
                     bgbuf := put_list s.bgbuf p b, rendbuf := put_list s.rendbuf p r,
                     charset := put_list s.charset p c, cursor_x := x,
                     just_wrapped_around := j } := by
  simpa [grid_ok, put_list_length] using hg

/-- A line feed with `just_wrapped_around` clear and the cursor off the bottom
margin, in either parser state. -/
theorem LF_char_move (env : host) (s : vim_shell_window) (b : Nat)
    (hb : b = 10 ∨ b = 11 ∨ b = 12) (hj : s.just_wrapped_around ≠ 1)
    (hy : s.cursor_y + 1 < 65536) (hm : s.cursor_y ≠ s.scroll_bottom_margin) :
    terminal_input_char env s b = some { s with cursor_y := s.cursor_y + 1 } := by
  have h31 : b ≤ 31 := by omega
  have hne : ¬ b = 7 ∧ ¬ b = 8 ∧ ¬ b = 9 := by omega
  have hor : b = 11 ∨ b = 12 ∨ b = 10 := by omega
  unfold terminal_input_char
  rw [if_pos h31, if_pos h31, ite_self]
  unfold terminal_process_control_char
  rw [if_neg hne.1, if_neg hne.2.1, if_neg hne.2.2, if_pos hor]
  exact terminal_LF_move s hj hy hm

/-- C5, amended: on a fresh 80x24 terminal, 80 printable bytes and one more
printable byte `y` leave row 0 holding the 80 bytes, cell (1,0) holding `y`, the
cursor at row 1 column 1, and `just_wrapped_around` set. -/
theorem C5_wrap_after_full_row (env : host) (xs : List Nat) (y : Nat)
    (hlen : xs.length = 80) (hxs : ∀ b ∈ xs, 32 ≤ b ∧ b < 256) (hy : 32 ≤ y) (_hy : y < 256) :
    ∃ s1, vim_shell_terminal_input env (vim_shell_new 80 24) (xs ++ [y]) = some s1 ∧
      s1.winbuf.take 80 = xs ∧ s1.winbuf[80]? = some y ∧
      s1.cursor_y = 1 ∧ s1.cursor_x = 1 ∧ s1.just_wrapped_around = 1 := by
  have hg0 : grid_ok (vim_shell_new 80 24) :=
    grid_ok_new 80 24 (by decide) (by decide) (by decide)
  have hrun := run_printable env xs (vim_shell_new 80 24) hg0 rfl rfl (by decide)
    (by rw [hlen]; decide) (fun b hb => (hxs b hb).1)
  rw [feed_append, hrun, Option.some_bind]
  simp only [vim_shell_terminal_input]
  rw [wrap_char_step]
  · rw [Option.some_bind]
    refine ⟨_, rfl, ?_, ?_, rfl, rfl, rfl⟩
    · show (List.set (put_list (List.replicate (80 * 24) 32) (0 * 80 + 0) xs) ((0 + 1) * 80 + 0)
        y).take 80 = xs
      have h80 := put_list_take xs (List.replicate (80 * 24) 32) (by rw [List.length_replicate, hlen]; decide)
      rw [hlen] at h80
      rw [take_set_ge _ _ _ _ (by decide)]
      exact h80
    · show (List.set (put_list (List.replicate (80 * 24) 32) (0 * 80 + 0) xs) ((0 + 1) * 80 + 0)
        y)[80]? = some y
      rw [List.getElem?_set_self]
      rw [put_list_length, List.length_replicate]
      decide
  · exact put_list_grid_ok _ hg0 _ _ _ _ _ _ _ _
  · rfl
  · show 0 + xs.length = 80
    rw [hlen]
  · rfl
  · show 0 < 80
    decide
  · show 0 + 1 < 24
    decide
  · show (0 : Nat) ≠ u8 (((24 : Nat) : Int) - 1)
    decide!
  · rfl
  · exact hy

/-- C5 as stated fails: after eighty `X` and one `Y` on a fresh 80x24 terminal
the cursor is at row 1 column 1 and `just_wrapped_around` is 1, not clear. -/
theorem C5_flag_is_set_after_wrap :
    (vim_shell_terminal_input pty_accepts (vim_shell_new 80 24)
        (List.replicate 80 88 ++ [89])).map
      (fun s => (s.cursor_y, s.cursor_x, s.winbuf[80]?, s.just_wrapped_around)) =
      some (1, 1, some 89, 1) := by
  decide!

/-- C5 amended, at a concrete input: eighty `X` and one `Y`. -/
theorem C5_wrap_after_full_row_witness :
    ∃ s1, vim_shell_terminal_input pty_accepts (vim_shell_new 80 24)
        (List.replicate 80 88 ++ [89]) = some s1 ∧
      s1.winbuf.take 80 = List.replicate 80 88 ∧ s1.winbuf[80]? = some 89 ∧
      s1.cursor_y = 1 ∧ s1.cursor_x = 1 ∧ s1.just_wrapped_around = 1 :=
  C5_wrap_after_full_row pty_accepts (List.replicate 80 88) 89 (by decide)
    (by decide) (by decide) (by decide)


/-- C6, amended: on a fresh 80x24 terminal, 80 printable bytes and a line feed
leave row 0 holding the 80 bytes and the cursor at row 1 column 80: the line
feed is performed, since `just_wrapped_around` is clear after the 80th byte;
it is clear afterwards too. -/
theorem C6_line_feed_after_full_row (env : host) (xs : List Nat)
    (hlen : xs.length = 80) (hxs : ∀ b ∈ xs, 32 ≤ b ∧ b < 256) :
    ∃ s1, vim_shell_terminal_input env (vim_shell_new 80 24) (xs ++ [10]) = some s1 ∧
      s1.winbuf.take 80 = xs ∧ s1.cursor_y = 1 ∧ s1.cursor_x = 80 ∧
      s1.just_wrapped_around = 0 := by
  have hg0 : grid_ok (vim_shell_new 80 24) :=
    grid_ok_new 80 24 (by decide) (by decide) (by decide)
  have hrun := run_printable env xs (vim_shell_new 80 24) hg0 rfl rfl (by decide)
    (by rw [hlen]; decide) (fun b hb => (hxs b hb).1)
  have hne : xs ≠ [] := by
    intro h; rw [h] at hlen; cases hlen
  rw [feed_append, hrun, Option.some_bind]
  simp only [vim_shell_terminal_input]
  rw [LF_char_move]
  · rw [Option.some_bind]
    refine ⟨_, rfl, ?_, rfl, ?_, ?_⟩
    · show (put_list (List.replicate (80 * 24) 32) (0 * 80 + 0) xs).take 80 = xs
      have h80 := put_list_take xs (List.replicate (80 * 24) 32) (by rw [List.length_replicate, hlen]; decide)
      rw [hlen] at h80
      exact h80
    · show 0 + xs.length = 80
      rw [hlen]
    · show (if xs = [] then 0 else 0) = 0
      rw [ite_self]
  · left; rfl
  · show (if xs = [] then 0 else 0) ≠ 1
    rw [ite_self]
    decide
  · show 0 + 1 < 65536
    decide
  · show (0 : Nat) ≠ u8 (((24 : Nat) : Int) - 1)
    decide!

/-- C6 as stated fails: after eighty `X` and a line feed on a fresh 80x24
terminal the cursor is at row 1 column 80, not at row 0: the line feed is not
suppressed. -/
theorem C6_line_feed_is_performed :
    (vim_shell_terminal_input pty_accepts (vim_shell_new 80 24)
        (List.replicate 80 88 ++ [10])).map
      (fun s => (s.cursor_y, s.cursor_x, s.just_wrapped_around)) = some (1, 80, 0) := by
  decide!

/-- C6 amended, at a concrete input: eighty `X` and a line feed. -/
theorem C6_line_feed_after_full_row_witness :
    ∃ s1, vim_shell_terminal_input pty_accepts (vim_shell_new 80 24)
        (List.replicate 80 88 ++ [10]) = some s1 ∧
      s1.winbuf.take 80 = List.replicate 80 88 ∧ s1.cursor_y = 1 ∧ s1.cursor_x = 80 ∧
      s1.just_wrapped_around = 0 :=
  C6_line_feed_after_full_row pty_accepts (List.replicate 80 88) (by decide) (by decide)

/-- With `just_wrapped_around` set, LF, VT, FF and CR change nothing. -/
theorem suppressed_char (env : host) (s : vim_shell_window) (b : Nat)
    (hj : s.just_wrapped_around = 1) (hb : b = 10 ∨ b = 11 ∨ b = 12 ∨ b = 13) :
    terminal_input_char env s b = some s := by
  have h31 : b ≤ 31 := by omega
  have hne : ¬ b = 7 ∧ ¬ b = 8 ∧ ¬ b = 9 := by omega
  unfold terminal_input_char
  rw [if_pos h31, if_pos h31, ite_self]
  unfold terminal_process_control_char
  rw [if_neg hne.1, if_neg hne.2.1, if_neg hne.2.2]
  by_cases h13 : b = 13
  · rw [if_neg (by omega), if_pos h13]
    unfold terminal_CR
    rw [if_pos hj]
  · rw [if_pos (by omega)]
    unfold terminal_LF
    rw [if_pos hj]

/-- C7, what LF, VT, FF and CR do with `just_wrapped_around` set: any run of
these bytes leaves the whole state as it is, cursor and grid, and the flag
too. `terminal_LF` and `terminal_CR` return at once and do not clear the
flag, so a second line feed is suppressed like the first, and so is every
carriage return, until a printable byte arrives. -/
theorem C7_wrap_flag_suppresses_every_line_feed (env : host) (bs : List Nat) :
    ∀ s : vim_shell_window, s.just_wrapped_around = 1 →
      (∀ b ∈ bs, b = 10 ∨ b = 11 ∨ b = 12 ∨ b = 13) →
      vim_shell_terminal_input env s bs = some s := by
  induction bs with
  | nil => intro s _ _; rfl
  | cons b bs ih =>
    intro s hj hb
    simp only [vim_shell_terminal_input]
    rw [suppressed_char env s b hj (hb b (List.mem_cons_self _ _)), Option.some_bind]
    exact ih s hj (fun c hc => hb c (List.mem_cons_of_mem _ hc))

/-- C7 at concrete inputs. LF, CR, LF fed to a fresh 80x24 terminal whose flag
is set change nothing. After 81 `X` on a fresh 80x24 terminal (the flag is
set, the cursor at row 1 column 1), one line feed leaves the flag set, and a
second line feed leaves the cursor at row 1. After 81 `X`, CR, LF and `N`
the `N` stands in row 1, column 1, right behind the wrapped `X`, and the
cursor is at row 1, column 2: neither the carriage return nor the line feed
was performed. -/
theorem C7_wrap_flag_suppresses_every_line_feed_witness :
    vim_shell_terminal_input pty_accepts
        { vim_shell_new 80 24 with just_wrapped_around := 1 } [10, 13, 10] =
      some { vim_shell_new 80 24 with just_wrapped_around := 1 } ∧
    (vim_shell_terminal_input pty_accepts (vim_shell_new 80 24) (List.replicate 81 88)).map
      (fun s => (s.cursor_y, s.cursor_x, s.just_wrapped_around)) = some (1, 1, 1) ∧
    (vim_shell_terminal_input pty_accepts (vim_shell_new 80 24)
        (List.replicate 81 88 ++ [10])).map
      (fun s => (s.cursor_y, s.cursor_x, s.just_wrapped_around)) = some (1, 1, 1) ∧
    (vim_shell_terminal_input pty_accepts (vim_shell_new 80 24)
        (List.replicate 81 88 ++ [10, 10])).map
      (fun s => (s.cursor_y, s.cursor_x, s.just_wrapped_around)) = some (1, 1, 1) ∧
    (vim_shell_terminal_input pty_accepts (vim_shell_new 80 24)
        (List.replicate 81 88 ++ [13, 10, 78])).map
      (fun s => (s.cursor_y, s.cursor_x, s.winbuf[80]?, s.winbuf[81]?)) =
      some (1, 2, some 88, some 78) :=
  ⟨C7_wrap_flag_suppresses_every_line_feed pty_accepts [10, 13, 10]
      { vim_shell_new 80 24 with just_wrapped_around := 1 } rfl (by decide),
    by decide!, by decide!, by decide!, by decide!⟩
/-! ## Erase and scroll -/

theorem fill_length (buf : List Nat) (p n c : Nat) (h : p + n ≤ buf.length) :
    (fill buf p n c).length = buf.length := by
  simp [fill]; omega

theorem copy_within_length (buf : List Nat) (dst src n : Nat) (h1 : dst + n ≤ buf.length)
    (h2 : src + n ≤ buf.length) : (copy_within buf dst src n).length = buf.length := by
  simp [copy_within]; omega

theorem fill_getD (buf : List Nat) (p n c i : Nat) (h : p + n ≤ buf.length) :
    (fill buf p n c).getD i 0 = if p ≤ i ∧ i < p + n then c else buf.getD i 0 := by
  unfold fill
  simp only [List.getD_eq_getElem?_getD]
  by_cases h1 : i < p
  · rw [List.append_assoc, List.getElem?_append_left (by simp; omega), if_neg (by omega)]
    rw [List.getElem?_take, if_pos h1]
  · rw [List.append_assoc, List.getElem?_append_right (by simp; omega)]
    simp only [List.length_take, Nat.min_eq_left (show p ≤ buf.length by omega)]
    by_cases h2 : i < p + n
    · rw [List.getElem?_append_left (by simp; omega), if_pos (by omega)]
      rw [List.getElem?_replicate, if_pos (by omega)]
      rfl
    · rw [List.getElem?_append_right (by simp; omega), if_neg (by omega)]
      simp only [List.length_replicate, List.getElem?_drop]
      congr 2
      omega

theorem copy_within_getD (buf : List Nat) (dst src n i : Nat) (h1 : dst + n ≤ buf.length)
    (h2 : src + n ≤ buf.length) :
    (copy_within buf dst src n).getD i 0 =
      if dst ≤ i ∧ i < dst + n then buf.getD (i - dst + src) 0 else buf.getD i 0 := by
  unfold copy_within
  simp only [List.getD_eq_getElem?_getD]
  by_cases h3 : i < dst
  · rw [List.append_assoc, List.getElem?_append_left (by simp; omega), if_neg (by omega)]
    rw [List.getElem?_take, if_pos h3]
  · rw [List.append_assoc, List.getElem?_append_right (by simp; omega)]
    simp only [List.length_take, Nat.min_eq_left (show dst ≤ buf.length by omega)]
    by_cases h4 : i < dst + n
    · rw [List.getElem?_append_left (by simp; omega), if_pos (by omega)]
      rw [List.getElem?_take, if_pos (by omega), List.getElem?_drop]
      congr 2
      omega
    · rw [List.getElem?_append_right (by simp; omega), if_neg (by omega)]
      simp only [List.length_take, List.length_drop, List.getElem?_drop]
      congr 2
      omega

theorem memset_eq (buf : List Nat) (pos n : Int) (c p m : Nat) (hp : pos = (p : Int))
    (hn : n = (m : Int)) (h : p + m ≤ buf.length) :
    memset buf pos c n = some (fill buf p m c) := by
  subst hp hn
  unfold memset fill
  rw [if_pos ⟨by omega, by omega, by omega⟩]
  simp

theorem memmove_eq (buf : List Nat) (dst src n : Int) (d r m : Nat) (hd : dst = (d : Int))
    (hs : src = (r : Int)) (hn : n = (m : Int)) (h1 : d + m ≤ buf.length)
    (h2 : r + m ≤ buf.length) :
    memmove buf dst src n = some (copy_within buf d r m) := by
  subst hd hs hn
  unfold memmove copy_within
  rw [if_pos ⟨by omega, by omega, by omega, by omega, by omega⟩]
  simp

theorem erase_cells_eq (s : vim_shell_window) (pos n : Int) (p m : Nat) (hp : pos = (p : Int))
    (hn : n = (m : Int)) (hg : grid_ok s) (h : p + m ≤ s.size_x * s.size_y) :
    erase_cells s pos n = some { s with
      winbuf := fill s.winbuf p m 32
      fgbuf := fill s.fgbuf p m VIMSHELL_COLOR_DEFAULT
      bgbuf := fill s.bgbuf p m VIMSHELL_COLOR_DEFAULT
      rendbuf := fill s.rendbuf p m 0
      charset := fill s.charset p m 0 } := by
  obtain ⟨_, _, _, hw, hf, hb, hr, hc⟩ := hg
  unfold erase_cells
  rw [memset_eq _ _ _ _ p m hp hn (by omega), memset_eq _ _ _ _ p m hp hn (by omega),
    memset_eq _ _ _ _ p m hp hn (by omega), memset_eq _ _ _ _ p m hp hn (by omega),
    memset_eq _ _ _ _ p m hp hn (by omega)]
  rfl

theorem move_cells_eq (s : vim_shell_window) (dst src n : Int) (d r m : Nat)
    (hd : dst = (d : Int)) (hs : src = (r : Int)) (hn : n = (m : Int)) (hg : grid_ok s)
    (h1 : d + m ≤ s.size_x * s.size_y) (h2 : r + m ≤ s.size_x * s.size_y) :
    move_cells s dst src n = some { s with
      winbuf := copy_within s.winbuf d r m
      fgbuf := copy_within s.fgbuf d r m
      bgbuf := copy_within s.bgbuf d r m
      rendbuf := copy_within s.rendbuf d r m
      charset := copy_within s.charset d r m } := by
  obtain ⟨_, _, _, hw, hf, hb, hr, hc⟩ := hg
  unfold move_cells
  rw [memmove_eq _ _ _ _ d r m hd hs hn (by omega) (by omega),
    memmove_eq _ _ _ _ d r m hd hs hn (by omega) (by omega),
    memmove_eq _ _ _ _ d r m hd hs hn (by omega) (by omega),
    memmove_eq _ _ _ _ d r m hd hs hn (by omega) (by omega),
    memmove_eq _ _ _ _ d r m hd hs hn (by omega) (by omega)]
  rfl

theorem row_lt (W r c k : Nat) (hc : c < W) : r * W + c < k * W ↔ r < k := by
  constructor
  · intro h
    by_contra hn
    have : k * W ≤ r * W := Nat.mul_le_mul_right W (by omega)
    omega
  · intro h
    have : (r + 1) * W ≤ k * W := Nat.mul_le_mul_right W h
    rw [Nat.add_mul] at this
    omega

theorem row_le (W r c k : Nat) (hc : c < W) : k * W ≤ r * W + c ↔ k ≤ r := by
  constructor
  · intro h
    by_contra hn
    have : (r + 1) * W ≤ k * W := Nat.mul_le_mul_right W (by omega)
    rw [Nat.add_mul] at this
    omega
  · intro h
    have : k * W ≤ r * W := Nat.mul_le_mul_right W h
    omega

theorem scroll_up_eq (s : vim_shell_window) (hg : grid_ok s)
    (htb : s.scroll_top_margin ≤ s.scroll_bottom_margin)
    (hb : s.scroll_bottom_margin < s.size_y) :
    terminal_scroll_up s = some { s with
      winbuf := scroll_up_buf s.winbuf s.size_x s.scroll_top_margin s.scroll_bottom_margin 32
      fgbuf := scroll_up_buf s.fgbuf s.size_x s.scroll_top_margin s.scroll_bottom_margin
        VIMSHELL_COLOR_DEFAULT
      bgbuf := scroll_up_buf s.bgbuf s.size_x s.scroll_top_margin s.scroll_bottom_margin
        VIMSHELL_COLOR_DEFAULT
      rendbuf := scroll_up_buf s.rendbuf s.size_x s.scroll_top_margin s.scroll_bottom_margin 0
      charset := scroll_up_buf s.charset s.size_x s.scroll_top_margin s.scroll_bottom_margin 0 } := by
  have hbW : (s.scroll_bottom_margin + 1) * s.size_x ≤ s.size_y * s.size_x :=
    Nat.mul_le_mul_right _ hb
  have htW : s.scroll_top_margin * s.size_x ≤ s.scroll_bottom_margin * s.size_x :=
    Nat.mul_le_mul_right _ htb
  have hsub : (s.scroll_bottom_margin - s.scroll_top_margin) * s.size_x =
      s.scroll_bottom_margin * s.size_x - s.scroll_top_margin * s.size_x := Nat.sub_mul _ _ _
  rw [Nat.add_mul, Nat.one_mul, Nat.mul_comm s.size_y] at hbW
  have hg1 := hg
  obtain ⟨_, _, _, hw, hf, hbg, hr, hc⟩ := hg
  unfold terminal_scroll_up
  rw [move_cells_eq s _ _ _ (s.scroll_top_margin * s.size_x)
    (s.size_x + s.scroll_top_margin * s.size_x)
    ((s.scroll_bottom_margin - s.scroll_top_margin) * s.size_x) (by push_cast; rfl)
    (by push_cast; rfl) (by rw [Nat.cast_mul, Nat.cast_sub htb]) hg1 (by omega) (by omega),
    Option.some_bind]
  rw [erase_cells_eq _ _ _ (s.scroll_bottom_margin * s.size_x) s.size_x (by push_cast; rfl) rfl
    ?_ (by show _ ≤ s.size_x * s.size_y; omega)]
  · rfl
  · refine ⟨by assumption, by assumption, by assumption, ?_, ?_, ?_, ?_, ?_⟩ <;>
      (show (copy_within _ _ _ _).length = s.size_x * s.size_y
       rw [copy_within_length _ _ _ _ (by omega) (by omega)]
       assumption)

theorem scroll_up_buf_getD (buf : List Nat) (W H top bottom fc r c : Nat)
    (hl : buf.length = W * H) (htb : top ≤ bottom) (hb : bottom < H) (hc : c < W) :
    (scroll_up_buf buf W top bottom fc).getD (r * W + c) 0 =
      if top ≤ r ∧ r < bottom then buf.getD ((r + 1) * W + c) 0
      else if r = bottom then fc else buf.getD (r * W + c) 0 := by
  have hbW : (bottom + 1) * W ≤ H * W := Nat.mul_le_mul_right _ hb
  have htW : top * W ≤ bottom * W := Nat.mul_le_mul_right _ htb
  have hsub : (bottom - top) * W = bottom * W - top * W := Nat.sub_mul _ _ _
  rw [Nat.add_mul, Nat.one_mul, Nat.mul_comm H] at hbW
  have h1 := row_lt W r c bottom hc
  have h2 := row_le W r c top hc
  have h3 := row_le W r c bottom hc
  have h4 := row_lt W r c (bottom + 1) hc
  rw [Nat.add_mul, Nat.one_mul] at h4
  have hr1 : (r + 1) * W = r * W + W := by rw [Nat.add_mul, Nat.one_mul]
  unfold scroll_up_buf
  rw [fill_getD _ _ _ _ _ (by rw [copy_within_length _ _ _ _ (by omega) (by omega)]; omega),
    copy_within_getD _ _ _ _ _ (by omega) (by omega)]
  by_cases hrb : r = bottom
  · subst hrb
    rw [if_pos ⟨by omega, by omega⟩, if_neg (by omega), if_pos rfl]
  · rw [if_neg (by omega)]
    by_cases htr : top ≤ r ∧ r < bottom
    · rw [if_pos htr, if_pos ⟨by omega, by omega⟩]
      congr 1
      omega
    · rw [if_neg htr, if_neg hrb, if_neg (by omega)]

/-- A line feed with `just_wrapped_around` clear and the cursor on the bottom
margin, in either parser state: the scroll. -/
theorem LF_char_scroll (env : host) (s : vim_shell_window) (b : Nat)
    (hb : b = 10 ∨ b = 11 ∨ b = 12) (hj : s.just_wrapped_around ≠ 1)
    (hy : s.cursor_y + 1 < 65536) (hm : s.cursor_y = s.scroll_bottom_margin) :
    terminal_input_char env s b = terminal_scroll_up s := by
  have h31 : b ≤ 31 := by omega
  have hne : ¬ b = 7 ∧ ¬ b = 8 ∧ ¬ b = 9 := by omega
  have hor : b = 11 ∨ b = 12 ∨ b = 10 := by omega
  unfold terminal_input_char
  rw [if_pos h31, if_pos h31, ite_self]
  unfold terminal_process_control_char
  rw [if_neg hne.1, if_neg hne.2.1, if_neg hne.2.2, if_pos hor]
  exact terminal_LF_scroll s hj hy hm

/-- C8: a line feed (LF, VT or FF) with `just_wrapped_around` clear, in a state
whose buffers match its dimensions, whose cursor row is on the grid and whose
margins satisfy `top ≤ bottom < H`. On the bottom margin the cursor stays and
the region scrolls up: each row `top ≤ r < bottom` takes the cells of row
`r+1` in all five arrays, row `bottom` becomes default cells, every other row
keeps its cells. Elsewhere `cursor_y` grows by one and the five arrays are
unchanged. `cursor_x` is unchanged in both cases. -/
theorem C8_line_feed_scrolls_or_moves (env : host) (s : vim_shell_window) (b : Nat)
    (hb : b = 10 ∨ b = 11 ∨ b = 12) (hj : s.just_wrapped_around = 0) (hg : grid_ok s)
    (hy : s.cursor_y < s.size_y) (htb : s.scroll_top_margin ≤ s.scroll_bottom_margin)
    (hbm : s.scroll_bottom_margin < s.size_y) :
    ∃ s1, terminal_input_char env s b = some s1 ∧ s1.cursor_x = s.cursor_x ∧
      (s.cursor_y = s.scroll_bottom_margin →
        s1.cursor_y = s.cursor_y ∧
        ∀ r c, r < s.size_y → c < s.size_x →
          cell_at s1 r c =
            if s.scroll_top_margin ≤ r ∧ r < s.scroll_bottom_margin then cell_at s (r + 1) c
            else if r = s.scroll_bottom_margin then default_cell else cell_at s r c) ∧
      (s.cursor_y ≠ s.scroll_bottom_margin →
        s1.cursor_y = s.cursor_y + 1 ∧ s1.winbuf = s.winbuf ∧ s1.fgbuf = s.fgbuf ∧
        s1.bgbuf = s.bgbuf ∧ s1.rendbuf = s.rendbuf ∧ s1.charset = s.charset) := by
  have hj1 : s.just_wrapped_around ≠ 1 := by omega
  have hy16 : s.cursor_y + 1 < 65536 := by have := hg.2.1; omega
  by_cases hm : s.cursor_y = s.scroll_bottom_margin
  · refine ⟨_, (LF_char_scroll env s b hb hj1 hy16 hm).trans (scroll_up_eq s hg htb hbm), rfl,
      fun _ => ⟨rfl, ?_⟩, fun h => absurd hm h⟩
    intro r c _ hc
    obtain ⟨_, _, _, hw, hf, hbg, hr, hcs⟩ := hg
    show (_, _, _, _, _) = _
    dsimp only
    rw [scroll_up_buf_getD _ _ s.size_y _ _ _ r c hw htb hbm hc,
      scroll_up_buf_getD _ _ s.size_y _ _ _ r c hf htb hbm hc,
      scroll_up_buf_getD _ _ s.size_y _ _ _ r c hbg htb hbm hc,
      scroll_up_buf_getD _ _ s.size_y _ _ _ r c hr htb hbm hc,
      scroll_up_buf_getD _ _ s.size_y _ _ _ r c hcs htb hbm hc]
    by_cases h1 : s.scroll_top_margin ≤ r ∧ r < s.scroll_bottom_margin
    · simp only [if_pos h1]; rfl
    · simp only [if_neg h1]
      by_cases h2 : r = s.scroll_bottom_margin
      · simp only [if_pos h2]; rfl
      · simp only [if_neg h2]; rfl
  · exact ⟨_, LF_char_move env s b hb hj1 hy16 hm, rfl, fun h => absurd h hm,
      fun _ => ⟨rfl, rfl, rfl, rfl, rfl, rfl⟩⟩

/-- C8 at a concrete input: a line feed on the last row of a 3x2 terminal whose
first row holds `a b c` and whose second row holds `d e f`. -/
theorem C8_line_feed_scrolls_or_moves_witness :
    ∃ s1, terminal_input_char pty_accepts two_row_screen 10 = some s1 ∧
      s1.cursor_x = 0 ∧ s1.cursor_y = 1 ∧
      cell_at s1 0 0 = (100, 9, 9, 0, 0) ∧ cell_at s1 1 0 = default_cell := by
  obtain ⟨s1, h, hx, h1, _⟩ := C8_line_feed_scrolls_or_moves pty_accepts two_row_screen 10
    (Or.inl rfl) (by decide!) (by decide!) (by decide!) (by decide!) (by decide!)
  have h2 := h1 (by decide!)
  refine ⟨s1, h, hx, h2.1, ?_, ?_⟩
  · rw [h2.2 0 0 (by decide!) (by decide!)]
    decide!
  · rw [h2.2 1 0 (by decide!) (by decide!)]
    decide!

/-! ## What the operations leave alone -/

theorem bind_kept {α : Type} (o : Option α) (f : α → Option vim_shell_window)
    (s s1 : vim_shell_window) (h : o.bind f = some s1)
    (hf : ∀ a, f a = some s1 → kept s1 = kept s) : kept s1 = kept s := by
  cases o with
  | none => cases h
  | some a => exact hf a h

theorem map_kept {α : Type} (o : Option α) (f : α → vim_shell_window)
    (s s1 : vim_shell_window) (h : o.map f = some s1)
    (hf : ∀ a, kept (f a) = kept s) : kept s1 = kept s := by
  cases o with
  | none => cases h
  | some a => cases h; exact hf a

theorem erase_cells_kept (s s1 : vim_shell_window) (pos n : Int)
    (h : erase_cells s pos n = some s1) : kept s1 = kept s := by
  unfold erase_cells at h
  refine bind_kept _ _ _ _ h (fun w h => ?_)
  refine bind_kept _ _ _ _ h (fun f h => ?_)
  refine bind_kept _ _ _ _ h (fun b h => ?_)
  refine bind_kept _ _ _ _ h (fun r h => ?_)
  refine bind_kept _ _ _ _ h (fun c h => ?_)
  cases h
  rfl

theorem move_cells_kept (s s1 : vim_shell_window) (dst src n : Int)
    (h : move_cells s dst src n = some s1) : kept s1 = kept s := by
  unfold move_cells at h
  refine bind_kept _ _ _ _ h (fun w h => ?_)
  refine bind_kept _ _ _ _ h (fun f h => ?_)
  refine bind_kept _ _ _ _ h (fun b h => ?_)
  refine bind_kept _ _ _ _ h (fun r h => ?_)
  refine bind_kept _ _ _ _ h (fun c h => ?_)
  cases h
  rfl

theorem repeat_n_kept (f : vim_shell_window → Option vim_shell_window)
    (hf : ∀ s s1, f s = some s1 → kept s1 = kept s) (n : Nat) :
    ∀ s s1, repeat_n f n s = some s1 → kept s1 = kept s := by
  induction n with
  | zero => intro s s1 h; cases h; rfl
  | succ n ih =>
    intro s s1 h
    unfold repeat_n at h
    cases hfs : f s with
    | none => rw [hfs] at h; cases h
    | some s2 =>
      rw [hfs, Option.some_bind] at h
      exact (ih s2 s1 h).trans (hf s s2 hfs)

theorem while_dec_kept (f : vim_shell_window → Option vim_shell_window)
    (hf : ∀ s s1, f s = some s1 → kept s1 = kept s) (n : Int) (s s1 : vim_shell_window)
    (h : while_dec n f s = some s1) : kept s1 = kept s := by
  unfold while_dec at h
  split at h
  · cases h
  · exact repeat_n_kept f hf _ s s1 h

theorem terminal_scroll_up_kept (s s1 : vim_shell_window) (h : terminal_scroll_up s = some s1) :
    kept s1 = kept s := by
  unfold terminal_scroll_up at h
  cases hm : move_cells s ((s.scroll_top_margin : Int) * s.size_x)
      ((s.size_x : Int) + (s.scroll_top_margin : Int) * s.size_x)
      (((s.scroll_bottom_margin : Int) - s.scroll_top_margin) * s.size_x) with
  | none => rw [hm] at h; cases h
  | some s2 =>
    rw [hm, Option.some_bind] at h
    exact (erase_cells_kept _ _ _ _ h).trans (move_cells_kept _ _ _ _ _ hm)

theorem terminal_scroll_down_kept (s s1 : vim_shell_window)
    (h : terminal_scroll_down s = some s1) : kept s1 = kept s := by
  unfold terminal_scroll_down at h
  cases hm : move_cells s ((s.scroll_top_margin : Int) * s.size_x + s.size_x)
      ((s.scroll_top_margin : Int) * s.size_x)
      (size_t (((s.scroll_bottom_margin : Int) - s.scroll_top_margin) * s.size_x)) with
  | none => rw [hm] at h; cases h
  | some s2 =>
    rw [hm, Option.some_bind] at h
    exact (erase_cells_kept _ _ _ _ h).trans (move_cells_kept _ _ _ _ _ hm)

theorem terminal_TBC_kept (s s1 : vim_shell_window) (argc : Nat) (argv : List Nat)
    (h : terminal_TBC s argc argv = some s1) : kept s1 = kept s := by
  unfold terminal_TBC at h
  split at h
  · cases h; rfl
  · refine bind_kept _ _ _ _ h (fun v h => ?_)
    split at h
    · exact map_kept _ _ _ _ h (fun _ => rfl)
    · split at h
      · exact map_kept _ _ _ _ h (fun _ => rfl)
      · cases h; rfl

theorem terminal_CUB_kept (s s1 : vim_shell_window) (argc : Nat) (argv : List Nat)
    (h : terminal_CUB s argc argv = some s1) : kept s1 = kept s := by
  unfold terminal_CUB at h
  split at h
  · cases h; rfl
  · refine bind_kept _ _ _ _ h (fun v h => ?_)
    split at h <;> (cases h; rfl)

theorem terminal_CUU_kept (s s1 : vim_shell_window) (argc : Nat) (argv : List Nat)
    (h : terminal_CUU s argc argv = some s1) : kept s1 = kept s := by
  unfold terminal_CUU at h
  split at h
  · cases h; rfl
  · refine bind_kept _ _ _ _ h (fun v h => ?_)
    split at h <;> (cases h; rfl)

theorem terminal_CUD_kept (s s1 : vim_shell_window) (argc : Nat) (argv : List Nat)
    (h : terminal_CUD s argc argv = some s1) : kept s1 = kept s := by
  unfold terminal_CUD at h
  split at h
  · cases h; rfl
  · refine bind_kept _ _ _ _ h (fun v h => ?_)
    dsimp only at h
    split at h <;> (cases h; rfl)

theorem terminal_CUF_kept (s s1 : vim_shell_window) (argc : Nat) (argv : List Nat)
    (h : terminal_CUF s argc argv = some s1) : kept s1 = kept s := by
  unfold terminal_CUF at h
  split at h
  · cases h; rfl
  · refine bind_kept _ _ _ _ h (fun v h => ?_)
    dsimp only at h
    split at h <;> (cases h; rfl)

theorem ite_kept (c : Prop) [Decidable c] (a b s : vim_shell_window) (ha : kept a = kept s)
    (hb : kept b = kept s) : kept (if c then a else b) = kept s := by
  split <;> assumption

theorem terminal_SGR_val_kept (s : vim_shell_window) (val : Int) :
    kept (terminal_SGR_val s val) = kept s := by
  unfold terminal_SGR_val
  repeat (first | rfl | refine ite_kept _ _ _ _ rfl ?_)

theorem terminal_SGR_loop_kept (argv : List Nat) (n : Nat) :
    ∀ (i : Nat) (s s1 : vim_shell_window), terminal_SGR_loop argv n i s = some s1 →
      kept s1 = kept s := by
  induction n with
  | zero => intro i s s1 h; cases h; rfl
  | succ n ih =>
    intro i s s1 h
    unfold terminal_SGR_loop at h
    refine bind_kept _ _ _ _ h (fun v h => ?_)
    exact (ih _ _ _ h).trans (terminal_SGR_val_kept s _)

theorem terminal_SGR_kept (s s1 : vim_shell_window) (argc : Nat) (argv : List Nat)
    (h : terminal_SGR s argc argv = some s1) : kept s1 = kept s := by
  unfold terminal_SGR at h
  split at h
  · cases h; rfl
  · exact terminal_SGR_loop_kept argv argc 0 s s1 h

theorem terminal_EL_kept (s s1 : vim_shell_window) (argc : Nat) (argv : List Nat)
    (h : terminal_EL s argc argv = some s1) : kept s1 = kept s := by
  unfold terminal_EL at h
  split at h
  · cases h; rfl
  · refine bind_kept _ _ _ _ h (fun v h => ?_)
    split at h
    · exact erase_cells_kept _ _ _ _ h
    · split at h
      · exact erase_cells_kept _ _ _ _ h
      · split at h
        · exact erase_cells_kept _ _ _ _ h
        · cases h; rfl

theorem terminal_ED_kept (s s1 : vim_shell_window) (argc : Nat) (argv : List Nat)
    (h : terminal_ED s argc argv = some s1) : kept s1 = kept s := by
  unfold terminal_ED at h
  split at h
  · cases h; rfl
  · refine bind_kept _ _ _ _ h (fun v h => ?_)
    split at h
    · exact erase_cells_kept _ _ _ _ h
    · split at h
      · exact erase_cells_kept _ _ _ _ h
      · split at h
        · exact erase_cells_kept _ _ _ _ h
        · cases h; rfl

theorem terminal_CUP_kept (s s1 : vim_shell_window) (argc : Nat) (argv : List Nat)
    (h : terminal_CUP s argc argv = some s1) : kept s1 = kept s := by
  unfold terminal_CUP at h
  split at h
  · cases h; rfl
  · split at h
    · refine bind_kept _ _ _ _ h (fun vy h => ?_)
      refine bind_kept _ _ _ _ h (fun vx h => ?_)
      cases h; rfl
    · cases h; rfl

theorem terminal_DECSTBM_kept (s s1 : vim_shell_window) (argc : Nat) (argv : List Nat)
    (h : terminal_DECSTBM s argc argv = some s1) : kept s1 = kept s := by
  unfold terminal_DECSTBM at h
  split at h
  · cases h; rfl
  · refine bind_kept _ _ _ _ h (fun v0 h => ?_)
    refine bind_kept _ _ _ _ h (fun v1 h => ?_)
    split at h
    · cases h; rfl
    · exact (terminal_CUP_kept _ _ _ _ h).trans rfl

theorem terminal_IL_kept (s s1 : vim_shell_window) (argc : Nat) (argv : List Nat)
    (h : terminal_IL s argc argv = some s1) : kept s1 = kept s := by
  unfold terminal_IL at h
  split at h
  · cases h; rfl
  · refine bind_kept _ _ _ _ h (fun lines h => ?_)
    cases hw : while_dec lines terminal_scroll_down
        { s with scroll_top_margin := u8 s.cursor_y } with
    | none => rw [hw] at h; cases h
    | some s2 =>
      rw [hw] at h
      cases h
      exact Eq.trans rfl ((while_dec_kept _ terminal_scroll_down_kept _ _ _ hw).trans rfl)

theorem terminal_DL_kept (s s1 : vim_shell_window) (argc : Nat) (argv : List Nat)
    (h : terminal_DL s argc argv = some s1) : kept s1 = kept s := by
  unfold terminal_DL at h
  split at h
  · cases h; rfl
  · refine bind_kept _ _ _ _ h (fun lines h => ?_)
    cases hw : while_dec lines terminal_scroll_up
        { s with scroll_top_margin := u8 s.cursor_y } with
    | none => rw [hw] at h; cases h
    | some s2 =>
      rw [hw] at h
      cases h
      exact Eq.trans rfl ((while_dec_kept _ terminal_scroll_up_kept _ _ _ hw).trans rfl)

theorem move_erase_kept (dst src n pos m : Int) (s s1 : vim_shell_window)
    (h : (move_cells s dst src n).bind (fun s2 => erase_cells s2 pos m) = some s1) :
    kept s1 = kept s := by
  cases hm : move_cells s dst src n with
  | none => rw [hm] at h; cases h
  | some s2 =>
    rw [hm, Option.some_bind] at h
    exact (erase_cells_kept _ _ _ _ h).trans (move_cells_kept _ _ _ _ _ hm)

theorem terminal_ICH_kept (s s1 : vim_shell_window) (argc : Nat) (argv : List Nat)
    (h : terminal_ICH s argc argv = some s1) : kept s1 = kept s := by
  unfold terminal_ICH at h
  split at h
  · cases h; rfl
  · refine bind_kept _ _ _ _ h (fun chars h => ?_)
    exact while_dec_kept _ (fun t t1 ht => move_erase_kept _ _ _ _ _ t t1 ht) _ _ _ h

theorem terminal_DCH_kept (s s1 : vim_shell_window) (argc : Nat) (argv : List Nat)
    (h : terminal_DCH s argc argv = some s1) : kept s1 = kept s := by
  unfold terminal_DCH at h
  split at h
  · cases h; rfl
  · refine bind_kept _ _ _ _ h (fun chars h => ?_)
    exact while_dec_kept _ (fun t t1 ht => move_erase_kept _ _ _ _ _ t t1 ht) _ _ _ h

theorem terminal_BS_kept (s : vim_shell_window) : kept (terminal_BS s) = kept s := by
  unfold terminal_BS
  split <;> rfl

theorem terminal_CR_kept (s : vim_shell_window) : kept (terminal_CR s) = kept s := by
  unfold terminal_CR
  split <;> rfl

theorem terminal_LF_kept (s s1 : vim_shell_window) (h : terminal_LF s = some s1) :
    kept s1 = kept s := by
  unfold terminal_LF at h
  split at h
  · cases h; rfl
  · split at h
    · exact (terminal_scroll_up_kept _ _ h).trans rfl
    · cases h; rfl

theorem terminal_RI_kept (s s1 : vim_shell_window) (h : terminal_RI s = some s1) :
    kept s1 = kept s := by
  unfold terminal_RI at h
  split at h
  · exact terminal_scroll_down_kept _ _ h
  · cases h; rfl

theorem terminal_IND_kept (s s1 : vim_shell_window) (h : terminal_IND s = some s1) :
    kept s1 = kept s := by
  unfold terminal_IND at h
  split at h
  · exact terminal_scroll_up_kept _ _ h
  · cases h; rfl

theorem terminal_TAB_kept (s s1 : vim_shell_window) (h : terminal_TAB s = some s1) :
    kept s1 = kept s := by
  unfold terminal_TAB at h
  refine map_kept _ _ _ _ h (fun r => ?_)
  cases r <;> rfl

theorem poke_length (buf buf1 : List Nat) (pos : Int) (v : Nat) (h : poke buf pos v = some buf1) :
    buf1.length = buf.length := by
  unfold poke at h
  split at h
  · cases h; simp
  · cases h

theorem ite_some_kept (c : Prop) [Decidable c] (a b : Option vim_shell_window)
    (s s1 : vim_shell_window) (h : (if c then a else b) = some s1)
    (ha : a = some s1 → kept s1 = kept s) (hb : b = some s1 → kept s1 = kept s) :
    kept s1 = kept s := by
  split at h
  · exact ha h
  · exact hb h

theorem terminal_process_control_char_kept (s s1 : vim_shell_window) (input : Nat)
    (h : terminal_process_control_char s input = some s1) : kept s1 = kept s := by
  unfold terminal_process_control_char at h
  refine ite_some_kept _ _ _ _ _ h (fun h => ?_) (fun h => ?_)
  · cases h; rfl
  refine ite_some_kept _ _ _ _ _ h (fun h => ?_) (fun h => ?_)
  · cases h; exact terminal_BS_kept s
  refine ite_some_kept _ _ _ _ _ h (fun h => ?_) (fun h => ?_)
  · exact terminal_TAB_kept _ _ h
  refine ite_some_kept _ _ _ _ _ h (fun h => ?_) (fun h => ?_)
  · exact terminal_LF_kept _ _ h
  refine ite_some_kept _ _ _ _ _ h (fun h => ?_) (fun h => ?_)
  · cases h; exact terminal_CR_kept s
  refine ite_some_kept _ _ _ _ _ h (fun h => ?_) (fun h => ?_)
  · cases h; rfl
  refine ite_some_kept _ _ _ _ _ h (fun h => ?_) (fun h => ?_)
  · cases h; rfl
  refine ite_some_kept _ _ _ _ _ h (fun h => ?_) (fun h => ?_)
  · cases h; rfl
  refine ite_some_kept _ _ _ _ _ h (fun h => ?_) (fun h => ?_)
  · cases he : poke s.esc_sequence 0 27 with
    | none => rw [he] at h; cases h
    | some e =>
      rw [he] at h
      cases h
      have := poke_length _ _ _ _ he
      simp only [kept, sealed_part, this]
      rfl
  · cases h; rfl

theorem flush_kept (env : host) (s s1 : vim_shell_window) (k : Int)
    (h : terminal_flush_output env s = some (s1, k)) : kept s1 = kept s := by
  unfold terminal_flush_output at h
  split at h
  · split at h
    · cases h
    · split at h
      · cases h; rfl
      · split at h
        · cases hm : memmove s.outbuf 0 (write_result env s) (write_result env s) with
          | none => rw [hm] at h; cases h
          | some ob => rw [hm] at h; cases h; rfl
        · cases h; rfl
  · cases h; rfl

theorem end_of_sequence_kept (env : host) (s s1 : vim_shell_window)
    (h : end_of_sequence env s = some s1) : kept s1 = kept s := by
  unfold end_of_sequence at h
  cases hf : terminal_flush_output env { s with in_esc_sequence := 0 } with
  | none => rw [hf] at h; cases h
  | some r =>
    rw [hf] at h
    cases h
    exact (flush_kept env _ r.1 r.2 hf).trans rfl

theorem terminal_init_screen_kept (s s1 : vim_shell_window)
    (h : terminal_init_screen s = some s1) : kept s1 = kept s := by
  unfold terminal_init_screen at h
  cases he : terminal_ED s 1 ed_argv with
  | none => rw [he] at h; cases h
  | some s2 =>
    rw [he, Option.some_bind] at h
    exact (terminal_CUP_kept _ _ _ _ h).trans (terminal_ED_kept _ _ _ _ he)

/-- The parameter string is `?1049` or `?1047`. -/
theorem terminal_mode_arg_kept {env : host} (s s1 : vim_shell_window) (set : Nat) (a : List Nat)
    (hne : ¬ (a = [63, 49, 48, 52, 57] ∨ a = [63, 49, 48, 52, 55]))
    (h : terminal_mode_arg env s set a = some s1) : kept s1 = kept s := by
  unfold terminal_mode_arg at h
  refine ite_some_kept _ _ _ _ _ h (fun h => ?_) (fun h => ?_)
  · cases h; rfl
  refine ite_some_kept _ _ _ _ _ h (fun h => ?_) (fun h => ?_)
  · cases h; rfl
  refine ite_some_kept _ _ _ _ _ h (fun h => ?_) (fun h => ?_)
  · cases h; rfl
  refine ite_some_kept _ _ _ _ _ h (fun h => ?_) (fun h => ?_)
  · cases h; rfl
  refine ite_some_kept _ _ _ _ _ h (fun h => ?_) (fun h => ?_)
  · cases h; rfl
  refine ite_some_kept _ _ _ _ _ h (fun h => ?_) (fun h => ?_)
  · cases h; rfl
  refine ite_some_kept _ _ _ _ _ h (fun h => ?_) (fun h => ?_)
  · cases h; rfl
  rw [if_neg hne] at h
  cases h; rfl

theorem terminal_mode_loop_kept {env : host} (set : Nat) (argv : List Nat) (n : Nat) :
    ∀ (i : Nat) (s s1 : vim_shell_window), has_switch_arg argv n i = false →
      terminal_mode_loop env set argv n i s = some s1 → kept s1 = kept s := by
  induction n with
  | zero => intro i s s1 _ h; cases h; rfl
  | succ n ih =>
    intro i s s1 hs h
    unfold has_switch_arg at hs
    unfold terminal_mode_loop at h
    cases ha : argv_str argv i with
    | none => rw [ha] at h; cases h
    | some a =>
      rw [ha, Option.some_bind] at h
      rw [ha] at hs
      have hne : ¬ (a = [63, 49, 48, 52, 57] ∨ a = [63, 49, 48, 52, 55]) := by
        intro hc
        rcases hc with hc | hc <;> (subst hc; simp at hs)
      have hrest : has_switch_arg argv n (i + 1) = false := by
        cases hh : has_switch_arg argv n (i + 1) with
        | false => rfl
        | true => rw [hh] at hs; simp at hs
      cases hm : terminal_mode_arg env s set a with
      | none => rw [hm] at h; cases h
      | some s2 =>
        rw [hm, Option.some_bind] at h
        exact (ih _ _ _ hrest h).trans (terminal_mode_arg_kept _ _ _ _ hne hm)

theorem save_attributes_sealed (s : vim_shell_window) :
    sealed_part (terminal_save_attributes s) = sealed_part s := rfl

theorem restore_attributes_kept (s : vim_shell_window) :
    kept (terminal_restore_attributes s) = kept s := rfl

theorem frame_of_kept (saves : Bool) (s s1 : vim_shell_window) (h : kept s1 = kept s) :
    frame_ok saves s s1 :=
  ⟨congrArg Prod.fst h, fun _ => h⟩

theorem csi_dispatch_frame {env : host} (s s1 : vim_shell_window) (final argc : Nat) (argv : List Nat)
    (hs : ((final == 104 || final == 108) && has_switch_arg argv argc 0) = false)
    (h : csi_dispatch env s final argc argv = some s1) :
    frame_ok (final == 115) s s1 := by
  by_cases h115 : final = 115
  · subst h115
    unfold csi_dispatch at h
    simp only [show ¬ ((115 : Nat) = 102 ∨ (115 : Nat) = 72) by decide, if_false,
      show ¬ ((115 : Nat) = 74) by decide, show ¬ ((115 : Nat) = 75) by decide,
      show ¬ ((115 : Nat) = 67) by decide, show ¬ ((115 : Nat) = 108) by decide,
      show ¬ ((115 : Nat) = 104) by decide, show ¬ ((115 : Nat) = 109) by decide,
      show ¬ ((115 : Nat) = 114) by decide, show ¬ ((115 : Nat) = 66) by decide,
      show ¬ ((115 : Nat) = 68) by decide, show ¬ ((115 : Nat) = 65) by decide,
      show ¬ ((115 : Nat) = 77) by decide, show ¬ ((115 : Nat) = 76) by decide,
      show ¬ ((115 : Nat) = 64) by decide, show ¬ ((115 : Nat) = 80) by decide,
      show ¬ ((115 : Nat) = 69) by decide, if_true] at h
    cases h
    exact ⟨rfl, fun hc => by simp at hc⟩
  · apply frame_of_kept
    unfold csi_dispatch at h
    refine ite_some_kept _ _ _ _ _ h (fun h => ?_) (fun h => ?_)
    · exact terminal_CUP_kept _ _ _ _ h
    refine ite_some_kept _ _ _ _ _ h (fun h => ?_) (fun h => ?_)
    · exact terminal_ED_kept _ _ _ _ h
    refine ite_some_kept _ _ _ _ _ h (fun h => ?_) (fun h => ?_)
    · exact terminal_EL_kept _ _ _ _ h
    refine ite_some_kept _ _ _ _ _ h (fun h => ?_) (fun h => ?_)
    · exact terminal_CUF_kept _ _ _ _ h
    by_cases h108 : final = 108
    · rw [if_pos h108] at h
      subst h108
      exact terminal_mode_loop_kept _ _ _ _ _ _ (by simpa using hs) h
    rw [if_neg h108] at h
    by_cases h104 : final = 104
    · rw [if_pos h104] at h
      subst h104
      exact terminal_mode_loop_kept _ _ _ _ _ _ (by simpa using hs) h
    rw [if_neg h104] at h
    refine ite_some_kept _ _ _ _ _ h (fun h => ?_) (fun h => ?_)
    · exact terminal_SGR_kept _ _ _ _ h
    refine ite_some_kept _ _ _ _ _ h (fun h => ?_) (fun h => ?_)
    · exact terminal_DECSTBM_kept _ _ _ _ h
    refine ite_some_kept _ _ _ _ _ h (fun h => ?_) (fun h => ?_)
    · exact terminal_CUD_kept _ _ _ _ h
    refine ite_some_kept _ _ _ _ _ h (fun h => ?_) (fun h => ?_)
    · exact terminal_CUB_kept _ _ _ _ h
    refine ite_some_kept _ _ _ _ _ h (fun h => ?_) (fun h => ?_)
    · exact terminal_CUU_kept _ _ _ _ h
    refine ite_some_kept _ _ _ _ _ h (fun h => ?_) (fun h => ?_)
    · exact terminal_DL_kept _ _ _ _ h
    refine ite_some_kept _ _ _ _ _ h (fun h => ?_) (fun h => ?_)
    · exact terminal_IL_kept _ _ _ _ h
    refine ite_some_kept _ _ _ _ _ h (fun h => ?_) (fun h => ?_)
    · exact terminal_ICH_kept _ _ _ _ h
    refine ite_some_kept _ _ _ _ _ h (fun h => ?_) (fun h => ?_)
    · exact terminal_DCH_kept _ _ _ _ h
    refine ite_some_kept _ _ _ _ _ h (fun h => ?_) (fun h => ?_)
    · exact (terminal_LF_kept _ _ h).trans (terminal_CR_kept s)
    rw [if_neg h115] at h
    refine ite_some_kept _ _ _ _ _ h (fun h => ?_) (fun h => ?_)
    · cases h; exact restore_attributes_kept s
    refine ite_some_kept _ _ _ _ _ h (fun h => ?_) (fun h => ?_)
    · exact terminal_TBC_kept _ _ _ _ h
    · cases h; rfl

theorem ite_cases {α : Type} (c : Prop) [Decidable c] (a b x : α) (P : Prop)
    (h : (if c then a else b) = x) (ha : c → a = x → P) (hb : ¬ c → b = x → P) : P := by
  split at h
  · next hc => exact ha hc h
  · next hc => exact hb hc h

theorem parse_csi_frame {env : host} (s s1 : vim_shell_window) (pseq : List Nat)
    (hh : pseq.headD 0 = 91) (hs : seq_switches_screen pseq = false)
    (h : parse_csi env s pseq = some (some s1)) : frame_ok (seq_saves pseq) s s1 := by
  unfold parse_csi at h
  unfold seq_switches_screen at hs
  unfold seq_saves
  rw [if_pos hh]
  rw [hh] at hs
  cases hp : csi_parse pseq with
  | none => rw [hp] at h; cases h
  | some r =>
    rw [hp, Option.some_bind] at h
    rw [hp] at hs
    cases r with
    | none => cases h
    | some a =>
      dsimp only at h hs ⊢
      cases hd : csi_dispatch env s a.2.2 a.1 a.2.1 with
      | none => rw [hd] at h; cases h
      | some s2 =>
        rw [hd] at h
        cases h
        exact csi_dispatch_frame _ _ _ _ _ (by simpa using hs) hd

theorem parse_title_kept (s s1 : vim_shell_window) (pseq : List Nat)
    (h : parse_title s pseq = some (some s1)) : kept s1 = kept s := by
  cases pseq with
  | nil => cases h
  | cons c rest =>
    cases rest with
    | nil => cases h
    | cons d rest1 =>
      simp only [parse_title] at h
      refine ite_cases _ _ _ _ _ h (fun _ h => ?_) (fun _ h => ?_)
      · cases rest1 with
        | nil => cases h
        | cons e rest2 =>
          refine ite_cases _ _ _ _ _ h (fun _ h => ?_) (fun _ h => ?_)
          · cases ht : title_loop (e :: rest2) [] with
            | none => rw [ht] at h; cases h
            | some r =>
              rw [ht] at h
              cases r with
              | none => cases h
              | some title => cases h; rfl
          · cases h; rfl
      · cases h; rfl

theorem parse_other_frame (s s1 : vim_shell_window) (pseq : List Nat)
    (hh : ¬ pseq.headD 0 = 91) (h : parse_other s pseq = some (some s1)) :
    frame_ok (seq_saves pseq) s s1 := by
  unfold seq_saves
  rw [if_neg hh]
  cases pseq with
  | nil => cases h; exact frame_of_kept _ _ _ rfl
  | cons c rest =>
    simp only [parse_other] at h
    refine ite_cases _ _ _ _ _ h (fun _ h => ?_) (fun _ h => ?_)
    · apply frame_of_kept
      cases rest with
      | nil => cases h
      | cons d rest1 =>
        refine ite_cases _ _ _ _ _ h (fun _ h => ?_) (fun _ h => ?_)
        · cases hm : memset s.winbuf 0 69 (int32 ((s.size_x : Int) * s.size_y)) with
          | none => rw [hm] at h; cases h
          | some w => rw [hm] at h; cases h; rfl
        · cases h; rfl
    refine ite_cases _ _ _ _ _ h (fun _ h => ?_) (fun _ h => ?_)
    · apply frame_of_kept
      cases rest with
      | nil => cases h
      | cons d rest1 => cases h; rfl
    refine ite_cases _ _ _ _ _ h (fun _ h => ?_) (fun _ h => ?_)
    · apply frame_of_kept
      cases rest with
      | nil => cases h
      | cons d rest1 => cases h; rfl
    refine ite_cases _ _ _ _ _ h (fun _ h => ?_) (fun _ h => ?_)
    · apply frame_of_kept
      cases hi : terminal_IND s with
      | none => rw [hi] at h; cases h
      | some s2 => rw [hi] at h; cases h; exact terminal_IND_kept _ _ hi
    refine ite_cases _ _ _ _ _ h (fun _ h => ?_) (fun _ h => ?_)
    · apply frame_of_kept
      cases hi : terminal_RI s with
      | none => rw [hi] at h; cases h
      | some s2 => rw [hi] at h; cases h; exact terminal_RI_kept _ _ hi
    refine ite_cases _ _ _ _ _ h (fun h55 h => ?_) (fun h55 h => ?_)
    · cases h
      subst h55
      exact ⟨rfl, fun hc => by simp at hc⟩
    have hsv : ((c :: rest).headD 0 == 55) = false := by simpa using h55
    rw [hsv]
    apply frame_of_kept
    refine ite_cases _ _ _ _ _ h (fun _ h => ?_) (fun _ h => ?_)
    · cases h; exact restore_attributes_kept s
    refine ite_cases _ _ _ _ _ h (fun _ h => ?_) (fun _ h => ?_)
    · cases h; rfl
    refine ite_cases _ _ _ _ _ h (fun _ h => ?_) (fun _ h => ?_)
    · cases h; rfl
    refine ite_cases _ _ _ _ _ h (fun _ h => ?_) (fun _ h => ?_)
    · cases hp : poke s.tabline s.cursor_x 1 with
      | none => rw [hp] at h; cases h
      | some t => rw [hp] at h; cases h; rfl
    refine ite_cases _ _ _ _ _ h (fun _ h => ?_) (fun _ h => ?_)
    · cases hi : terminal_IND s with
      | none => rw [hi] at h; cases h
      | some s2 =>
        rw [hi] at h
        cases h
        exact (show kept _ = kept s2 from rfl).trans (terminal_IND_kept _ _ hi)
    refine ite_cases _ _ _ _ _ h (fun _ h => ?_) (fun _ h => ?_)
    · exact parse_title_kept _ _ _ h
    · cases h; rfl

theorem parse_seq_frame {env : host} (s s1 : vim_shell_window) (pseq : List Nat)
    (hs : seq_switches_screen pseq = false) (h : parse_seq env s pseq = some (some s1)) :
    frame_ok (seq_saves pseq) s s1 := by
  unfold parse_seq at h
  refine ite_cases _ _ _ _ _ h (fun hh h => ?_) (fun hh h => ?_)
  · exact parse_csi_frame s s1 pseq hh hs h
  · exact parse_other_frame s s1 pseq hh h

theorem kept_of_esc (s : vim_shell_window) (esc : List Nat) (n : Nat)
    (hl : esc.length = s.esc_sequence.length) :
    kept { s with esc_sequence := esc, in_esc_sequence := n } = kept s := by
  simp only [kept, sealed_part, hl]
  rfl

theorem kept_of_esc_only (s : vim_shell_window) (esc : List Nat)
    (hl : esc.length = s.esc_sequence.length) :
    kept { s with esc_sequence := esc } = kept s := by
  simp only [kept, sealed_part, hl]
  rfl

theorem finish_seq_kept (env : host) (s1 s2 : vim_shell_window)
    (r : Option vim_shell_window) (h : finish_seq env s1 r = some s2) :
    (r = none ∧ s2 = s1) ∨ (∃ t, r = some t ∧ kept s2 = kept t) := by
  cases r with
  | none => left; cases h; exact ⟨rfl, rfl⟩
  | some t => right; exact ⟨t, rfl, end_of_sequence_kept env t s2 h⟩

theorem frame_ok_trans_left (saves : Bool) (s t s1 : vim_shell_window) (h1 : kept t = kept s)
    (h2 : frame_ok saves t s1) : frame_ok saves s s1 :=
  ⟨h2.1.trans (congrArg Prod.fst h1), fun hs => (h2.2 hs).trans h1⟩

theorem frame_ok_trans_right (saves : Bool) (s t s1 : vim_shell_window)
    (h1 : frame_ok saves s t) (h2 : kept s1 = kept t) : frame_ok saves s s1 :=
  ⟨(congrArg Prod.fst h2).trans h1.1, fun hs => h2.trans (h1.2 hs)⟩

theorem esc_input_char_frame (env : host) (s s1 : vim_shell_window) (b : Nat)
    (hn : ¬ s.in_esc_sequence = 0) (hb : ¬ b ≤ 31) (hs : switches_screen s b = false)
    (h : esc_input_char env s b = some s1) : frame_ok (saves_register s b) s s1 := by
  unfold esc_input_char at h
  unfold switches_screen at hs
  unfold saves_register
  unfold parsed_string at hs ⊢
  have hnb : ¬ (s.in_esc_sequence = 0 ∨ b ≤ 31) := by
    intro hc; rcases hc with hc | hc
    · exact hn hc
    · exact hb hc
  rw [if_neg hnb] at hs ⊢
  generalize he : poke s.esc_sequence s.in_esc_sequence b = oe at h hs ⊢
  cases oe with
  | none => cases h
  | some esc =>
    have hl := poke_length _ _ _ _ he
    rw [Option.some_bind] at h hs ⊢
    refine ite_cases _ _ _ _ _ h (fun h50 h => ?_) (fun h50 h => ?_)
    · exact frame_of_kept _ _ _ ((end_of_sequence_kept env _ _ h).trans (kept_of_esc s esc _ hl))
    rw [if_neg h50] at hs ⊢
    unfold terminal_parse_esc_sequence at h
    refine ite_cases _ _ _ _ _ h (fun h0 h => ?_) (fun h0 h => ?_)
    · exact frame_of_kept _ _ _ ((end_of_sequence_kept env _ _ h).trans (kept_of_esc s esc _ hl))
    rw [if_neg h0] at hs ⊢
    refine ite_cases _ _ _ _ _ h (fun h1 h => ?_) (fun h1 h => ?_)
    · cases h
      exact frame_of_kept _ _ _ (kept_of_esc s esc _ hl)
    rw [if_neg h1] at hs ⊢
    dsimp only at h
    generalize he1 : poke esc (u8 ((s.in_esc_sequence : Int) + 1)) 0 = oe1 at h hs ⊢
    cases oe1 with
    | none => cases h
    | some esc1 =>
      have hl1 := poke_length _ _ _ _ he1
      rw [Option.some_bind] at h hs ⊢
      generalize hc : cstr esc1 1 = oc at h hs ⊢
      cases oc with
      | none => cases h
      | some pseq =>
        rw [Option.some_bind] at h
        dsimp only at hs ⊢
        generalize hp : parse_seq env _ pseq = op at h
        cases op with
        | none => cases h
        | some r =>
          rw [Option.some_bind] at h
          have hk := (kept_of_esc_only _ esc1 (hl1.trans (show esc.length = _ from rfl))).trans
            (kept_of_esc s esc (u8 ((s.in_esc_sequence : Int) + 1)) hl)
          rcases finish_seq_kept env _ _ _ h with ⟨_, h2⟩ | ⟨t, hr, h2⟩
          · rw [h2]
            exact frame_of_kept _ _ _ hk
          · rw [hr] at hp
            exact frame_ok_trans_right _ _ _ _
              (frame_ok_trans_left _ _ _ _ hk (parse_seq_frame _ _ _ hs hp)) h2

theorem wrap_column_kept (s s1 : vim_shell_window) (h : wrap_column s = some s1) :
    kept s1 = kept s := by
  unfold wrap_column at h
  refine ite_cases _ _ _ _ _ h (fun _ h => ?_) (fun _ h => ?_)
  · refine ite_cases _ _ _ _ _ h (fun _ h => ?_) (fun _ h => ?_)
    · generalize hl : terminal_LF _ = ol at h
      cases ol with
      | none => cases h
      | some t =>
        cases h
        exact (show kept _ = kept t from rfl).trans
          ((terminal_LF_kept _ _ hl).trans ((terminal_CR_kept _).trans rfl))
    · cases h; rfl
  · cases h; rfl

theorem store_char_kept (s s1 : vim_shell_window) (input : Nat)
    (h : store_char s input = some s1) : kept s1 = kept s := by
  unfold store_char at h
  refine bind_kept _ _ _ _ h (fun w h => ?_)
  refine bind_kept _ _ _ _ h (fun f h => ?_)
  refine bind_kept _ _ _ _ h (fun b h => ?_)
  refine bind_kept _ _ _ _ h (fun r h => ?_)
  refine bind_kept _ _ _ _ h (fun c h => ?_)
  cases h
  rfl

theorem terminal_normal_char_kept (s s1 : vim_shell_window) (input : Nat)
    (h : terminal_normal_char s input = some s1) : kept s1 = kept s := by
  unfold terminal_normal_char at h
  generalize hw : wrap_column s = ow at h
  cases ow with
  | none => cases h
  | some t =>
    rw [Option.some_bind] at h
    have h1 := wrap_column_kept s t hw
    generalize hi : (if t.insert_mode ≠ 0 then terminal_ICH t 0 [] else some t) = oi at h
    cases oi with
    | none => cases h
    | some t2 =>
      rw [Option.some_bind] at h
      have h2 : kept t2 = kept t := by
        refine ite_cases _ _ _ _ _ hi (fun _ hi => ?_) (fun _ hi => ?_)
        · exact terminal_ICH_kept _ _ _ _ hi
        · cases hi; rfl
      exact (store_char_kept _ _ _ h).trans (h2.trans h1)

/-- One input byte that does not switch screens leaves the alternate screen
and the size of the escape buffer as they are, and the saved register too
unless it completes a save. -/
theorem input_char_frame (env : host) (s s1 : vim_shell_window) (b : Nat)
    (hs : switches_screen s b = false) (h : terminal_input_char env s b = some s1) :
    frame_ok (saves_register s b) s s1 := by
  unfold terminal_input_char at h
  refine ite_cases _ _ _ _ _ h (fun _ h => ?_) (fun hn h => ?_)
  · refine ite_cases _ _ _ _ _ h (fun _ h => ?_) (fun _ h => ?_)
    · exact frame_of_kept _ _ _ (terminal_process_control_char_kept _ _ _ h)
    · exact frame_of_kept _ _ _ (terminal_normal_char_kept _ _ _ h)
  · refine ite_cases _ _ _ _ _ h (fun _ h => ?_) (fun hb h => ?_)
    · exact frame_of_kept _ _ _ (terminal_process_control_char_kept _ _ _ h)
    · exact esc_input_char_frame env s s1 b hn hb hs h

/-- A byte stream that does not switch screens leaves the alternate screen and
the size of the escape buffer as they are. -/
theorem run_sealed (env : host) (t : List Nat) :
    ∀ s s1 : vim_shell_window, vim_shell_terminal_input env s t = some s1 →
      no_screen_switch env s t = true → sealed_part s1 = sealed_part s := by
  induction t with
  | nil => intro s s1 h _; cases h; rfl
  | cons c rest ih =>
    intro s s1 h hq
    simp only [vim_shell_terminal_input] at h
    simp only [no_screen_switch] at hq
    generalize hc : terminal_input_char env s c = oc at h hq
    cases oc with
    | none => cases h
    | some s2 =>
      rw [Option.some_bind] at h
      simp only [Bool.and_eq_true, Bool.not_eq_true'] at hq
      exact (ih s2 s1 h hq.2).trans (input_char_frame env s s2 c hq.1 hc).1

/-- A byte stream that neither switches screens nor saves leaves the saved
register as it is, too. -/
theorem run_kept (env : host) (t : List Nat) :
    ∀ s s1 : vim_shell_window, vim_shell_terminal_input env s t = some s1 →
      no_screen_switch env s t = true → no_save env s t = true → kept s1 = kept s := by
  induction t with
  | nil => intro s s1 h _ _; cases h; rfl
  | cons c rest ih =>
    intro s s1 h hq hv
    simp only [vim_shell_terminal_input] at h
    simp only [no_screen_switch] at hq
    simp only [no_save] at hv
    generalize hc : terminal_input_char env s c = oc at h hq hv
    cases oc with
    | none => cases h
    | some s2 =>
      rw [Option.some_bind] at h
      simp only [Bool.and_eq_true, Bool.not_eq_true'] at hq hv
      exact (ih s2 s1 h hq.2 hv.2).trans ((input_char_frame env s s2 c hq.1 hc).2 hv.1)

/-! ## Evaluation of escape sequences from an arbitrary state -/

theorem u8_succ (n : Nat) (h : n + 1 < 256) : u8 ((n : Int) + 1) = n + 1 := by
  unfold u8; omega

theorem peek_zero_set (l : List Nat) (k b : Nat) (h50 : 0 < l.length)
    (h0 : l.get? 0 = some 27) : peek (l.set (k + 1) b) 0 = some 27 := by
  unfold peek
  rw [if_pos (by rw [List.length_set]; omega)]
  cases l with
  | nil => cases h0
  | cons a r => exact h0

/-- The byte ESC starts a sequence in every state. -/
theorem esc_byte (env : host) (s : vim_shell_window)
    (h : s.esc_sequence.length = 50) :
    terminal_input_char env s 27 =
      some { s with in_esc_sequence := 1, esc_sequence := s.esc_sequence.set 0 27 } := by
  have hp : poke s.esc_sequence 0 27 = some (s.esc_sequence.set 0 27) := by
    simpa using poke_eq s.esc_sequence 0 27 (by omega)
  have h27 : (27 : Nat) ≤ 31 := by decide
  unfold terminal_input_char
  rw [if_pos h27, if_pos h27, ite_self]
  unfold terminal_process_control_char
  rw [if_neg (by decide), if_neg (by decide), if_neg (by decide), if_neg (by decide),
    if_neg (by decide), if_neg (by decide), if_neg (by decide), if_neg (by decide),
    if_pos rfl, hp]
  rfl

/-- A printable byte that arrives in a pending sequence is stored with a NUL
behind it, and the sequence is parsed. -/
theorem pending_byte (env : host) (s : vim_shell_window) (b k : Nat)
    (hk : s.in_esc_sequence = k + 1) (hk47 : k + 1 ≤ 47)
    (h50 : s.esc_sequence.length = 50) (h0 : s.esc_sequence.get? 0 = some 27)
    (hb : ¬ b ≤ 31) :
    terminal_input_char env s b =
      (cstr ((s.esc_sequence.set (k + 1) b).set (k + 2) 0) 1).bind fun pseq =>
        (parse_seq env { s with esc_sequence := (s.esc_sequence.set (k + 1) b).set (k + 2) 0
                                in_esc_sequence := k + 2 } pseq).bind
          (finish_seq env { s with esc_sequence := (s.esc_sequence.set (k + 1) b).set (k + 2) 0
                                   in_esc_sequence := k + 2 }) := by
  have hu : u8 (((k + 1 : Nat) : Int) + 1) = k + 2 := u8_succ (k + 1) (by omega)
  unfold terminal_input_char
  rw [if_neg (by omega), if_neg hb]
  unfold esc_input_char
  rw [hk, hu, poke_eq _ _ _ (by omega), Option.some_bind, if_neg (by omega)]
  unfold terminal_parse_esc_sequence
  dsimp only
  rw [if_neg (by
      rw [peek_zero_set _ _ _ (by omega) h0]
      simp),
    if_neg (by omega), poke_eq _ _ _ (by rw [List.length_set]; omega), Option.some_bind]

theorem parse_seq_pending {env : host} (s : vim_shell_window) (pseq : List Nat)
    (h91 : pseq.headD 0 = 91) (hc : csi_parse pseq = some none) :
    parse_seq env s pseq = some none := by
  unfold parse_seq
  rw [if_pos h91]
  unfold parse_csi
  rw [hc]
  rfl

theorem parse_seq_final {env : host} (s : vim_shell_window) (pseq : List Nat) (argc final : Nat)
    (argv : List Nat) (h91 : pseq.headD 0 = 91)
    (hc : csi_parse pseq = some (some (argc, argv, final))) :
    parse_seq env s pseq = (csi_dispatch env s final argc argv).map some := by
  unfold parse_seq
  rw [if_pos h91]
  unfold parse_csi
  rw [hc]
  rfl

/-- A buffer of 50 bytes, seen as its first nine bytes and the rest. -/
theorem esc_split (l : List Nat) (h : l.length = 50) :
    ∃ e0 e1 e2 e3 e4 e5 e6 e7 e8 rest,
      l = e0 :: e1 :: e2 :: e3 :: e4 :: e5 :: e6 :: e7 :: e8 :: rest := by
  match l, h with
  | e0 :: e1 :: e2 :: e3 :: e4 :: e5 :: e6 :: e7 :: e8 :: rest, _ =>
    exact ⟨e0, e1, e2, e3, e4, e5, e6, e7, e8, rest, rfl⟩

/-- The flush at the end of a sequence depends on the output queue only: where
it is defined for one state, it is defined for every state with that queue. -/
theorem end_of_sequence_defined (env : host) (s t : vim_shell_window)
    (ho : t.outbuf = s.outbuf) (hp : t.outbuf_pos = s.outbuf_pos)
    (hf : terminal_flush_output env s ≠ none) :
    ∃ ob op, end_of_sequence env t =
      some { t with in_esc_sequence := 0, outbuf := ob, outbuf_pos := op } := by
  unfold end_of_sequence
  unfold terminal_flush_output write_result at hf ⊢
  dsimp only
  rw [ho, hp]
  by_cases h1 : s.outbuf_pos > 0
  · rw [if_pos h1] at hf ⊢
    by_cases h2 : s.outbuf_pos > s.outbuf.length
    · rw [if_pos h2] at hf; exact absurd rfl hf
    · rw [if_neg h2] at hf ⊢
      by_cases h3 : max (-1) (min (env.write (s.outbuf.take s.outbuf_pos)) (s.outbuf_pos : Int)) < 0
      · rw [if_pos h3]; exact ⟨_, _, rfl⟩
      · rw [if_neg h3] at hf ⊢
        by_cases h4 : (s.outbuf_pos : Int) ≠
            max (-1) (min (env.write (s.outbuf.take s.outbuf_pos)) (s.outbuf_pos : Int))
        · rw [if_pos h4] at hf ⊢
          generalize memmove s.outbuf 0
            (max (-1) (min (env.write (s.outbuf.take s.outbuf_pos)) (s.outbuf_pos : Int)))
            (max (-1) (min (env.write (s.outbuf.take s.outbuf_pos)) (s.outbuf_pos : Int))) = om at hf ⊢
          cases om with
          | none => exact absurd rfl hf
          | some ob => exact ⟨_, _, rfl⟩
        · rw [if_neg h4]; exact ⟨_, _, rfl⟩
  · rw [if_neg h1]; exact ⟨s.outbuf, s.outbuf_pos, rfl⟩

/-- A defined end of sequence is a defined flush. -/
theorem flush_of_end (env : host) (s s1 : vim_shell_window)
    (h : end_of_sequence env s = some s1) :
    terminal_flush_output env { s with in_esc_sequence := 0 } ≠ none := by
  unfold end_of_sequence at h
  intro hn
  rw [hn] at h
  cases h

/-- The two bytes ESC `c`: the string `c` is parsed, in a state whose escape
buffer holds ESC, `c`, NUL. -/
theorem esc_two (env : host) (s : vim_shell_window) (c : Nat)
    (he : s.esc_sequence.length = 50) (hc : ¬ c ≤ 31) :
    vim_shell_terminal_input env s [27, c] =
      (parse_seq env { s with in_esc_sequence := 2
                              esc_sequence := ((s.esc_sequence.set 0 27).set 1 c).set 2 0 } [c]).bind
        (finish_seq env { s with in_esc_sequence := 2
                                 esc_sequence := ((s.esc_sequence.set 0 27).set 1 c).set 2 0 }) := by
  obtain ⟨e0, e1, e2, e3, e4, e5, e6, e7, e8, rest, hs⟩ := esc_split _ he
  have hr : rest.length = 41 := by rw [hs] at he; simpa using he
  simp only [vim_shell_terminal_input]
  rw [esc_byte env s he, Option.some_bind,
    pending_byte env _ c 0 rfl (by decide) (by dsimp only; rw [List.length_set]; exact he)
      (by dsimp only; rw [hs]; rfl) hc]
  have hcs : cstr (((s.esc_sequence.set 0 27).set (0 + 1) c).set (0 + 2) 0) 1 = some [c] := by
    have hc0 : (c != 0) = true := by
      rw [bne_iff_ne]; omega
    rw [hs]
    simp [cstr, List.takeWhile, hc0]
  dsimp only
  rw [hcs, Option.some_bind]
  exact (Option.bind_some _).trans rfl

theorem esc_byte_with (env : host) (s : vim_shell_window) (E : List Nat)
    (h : s.esc_sequence.length = 50) (hE : s.esc_sequence.set 0 27 = E) :
    terminal_input_char env s 27 = some (with_esc s 1 E) := by
  rw [esc_byte env s h, hE]
  rfl

theorem pending_byte_with (env : host) (s : vim_shell_window) (b k : Nat)
    (L : List Nat) (hk47 : k + 1 ≤ 47) (h50 : L.length = 50) (h0 : L.get? 0 = some 27)
    (hb : ¬ b ≤ 31) :
    terminal_input_char env (with_esc s (k + 1) L) b =
      (cstr ((L.set (k + 1) b).set (k + 2) 0) 1).bind fun pseq =>
        (parse_seq env (with_esc s (k + 2) ((L.set (k + 1) b).set (k + 2) 0)) pseq).bind
          (finish_seq env (with_esc s (k + 2) ((L.set (k + 1) b).set (k + 2) 0))) :=
  pending_byte env (with_esc s (k + 1) L) b k rfl hk47 h50 h0 hb

/-- A byte that leaves a CSI sequence pending. -/
theorem pending_csi_byte (env : host) (s : vim_shell_window) (b n m : Nat)
    (L E pseq : List Nat) (hn1 : 1 ≤ n) (hn47 : n ≤ 47) (hm : m = n + 1)
    (h50 : L.length = 50) (h0 : L.get? 0 = some 27) (hb : ¬ b ≤ 31)
    (hE : (L.set n b).set m 0 = E) (hc : cstr E 1 = some pseq) (h91 : pseq.headD 0 = 91)
    (hp : csi_parse pseq = some none) :
    terminal_input_char env (with_esc s n L) b = some (with_esc s m E) := by
  subst hm
  obtain ⟨k, rfl⟩ : ∃ k, n = k + 1 := ⟨n - 1, by omega⟩
  rw [pending_byte_with env s b k L hn47 h50 h0 hb]
  rw [show k + 2 = k + 1 + 1 from rfl, hE, hc, Option.some_bind,
    parse_seq_pending _ _ h91 hp, Option.some_bind]
  rfl

/-- The byte that completes a CSI sequence. -/
theorem final_csi_byte (env : host) (s : vim_shell_window) (b n m : Nat)
    (L E pseq : List Nat) (argc final : Nat) (argv : List Nat)
    (hn1 : 1 ≤ n) (hn47 : n ≤ 47) (hm : m = n + 1)
    (h50 : L.length = 50) (h0 : L.get? 0 = some 27) (hb : ¬ b ≤ 31)
    (hE : (L.set n b).set m 0 = E) (hc : cstr E 1 = some pseq) (h91 : pseq.headD 0 = 91)
    (hp : csi_parse pseq = some (some (argc, argv, final))) :
    terminal_input_char env (with_esc s n L) b =
      (csi_dispatch env (with_esc s m E) final argc argv).bind (end_of_sequence env) := by
  subst hm
  obtain ⟨k, rfl⟩ : ∃ k, n = k + 1 := ⟨n - 1, by omega⟩
  rw [pending_byte_with env s b k L hn47 h50 h0 hb]
  rw [show k + 2 = k + 1 + 1 from rfl, hE, hc, Option.some_bind,
    parse_seq_final _ _ _ _ _ h91 hp]
  cases csi_dispatch env (with_esc s (k + 1 + 1) E) final argc argv with
  | none => rfl
  | some x => rfl

/-- The seven bytes `ESC [ ? 1 0 4 9` leave the sequence pending. -/
theorem csi_1049_prefix (env : host) (s : vim_shell_window)
    (e0 e1 e2 e3 e4 e5 e6 e7 e8 : Nat) (rest : List Nat)
    (hs : s.esc_sequence = (e0 :: e1 :: e2 :: e3 :: e4 :: e5 :: e6 :: e7 :: e8 :: rest)) (hr : rest.length = 41) :
    vim_shell_terminal_input env s [27, 91, 63, 49, 48, 52, 57] =
      some (with_esc s 7 (27 :: 91 :: 63 :: 49 :: 48 :: 52 :: 57 :: 0 :: e8 :: rest)) := by
  have he : s.esc_sequence.length = 50 := by rw [hs]; simp [hr]
  simp only [vim_shell_terminal_input]
  rw [esc_byte_with env s (27 :: e1 :: e2 :: e3 :: e4 :: e5 :: e6 :: e7 :: e8 :: rest) he (by rw [hs]; rfl), Option.some_bind]
  rw [pending_csi_byte env s 91 1 2
    (27 :: e1 :: e2 :: e3 :: e4 :: e5 :: e6 :: e7 :: e8 :: rest)
    (27 :: 91 :: 0 :: e3 :: e4 :: e5 :: e6 :: e7 :: e8 :: rest)
    [91] (by decide) (by decide) rfl (by simp [hr]) rfl (by decide) rfl
    (by simp [cstr, List.takeWhile]) rfl (by decide!), Option.some_bind]
  rw [pending_csi_byte env s 63 2 3
    (27 :: 91 :: 0 :: e3 :: e4 :: e5 :: e6 :: e7 :: e8 :: rest)
    (27 :: 91 :: 63 :: 0 :: e4 :: e5 :: e6 :: e7 :: e8 :: rest)
    [91, 63] (by decide) (by decide) rfl (by simp [hr]) rfl (by decide) rfl
    (by simp [cstr, List.takeWhile]) rfl (by decide!), Option.some_bind]
  rw [pending_csi_byte env s 49 3 4
    (27 :: 91 :: 63 :: 0 :: e4 :: e5 :: e6 :: e7 :: e8 :: rest)
    (27 :: 91 :: 63 :: 49 :: 0 :: e5 :: e6 :: e7 :: e8 :: rest)
    [91, 63, 49] (by decide) (by decide) rfl (by simp [hr]) rfl (by decide) rfl
    (by simp [cstr, List.takeWhile]) rfl (by decide!), Option.some_bind]
  rw [pending_csi_byte env s 48 4 5
    (27 :: 91 :: 63 :: 49 :: 0 :: e5 :: e6 :: e7 :: e8 :: rest)
    (27 :: 91 :: 63 :: 49 :: 48 :: 0 :: e6 :: e7 :: e8 :: rest)
    [91, 63, 49, 48] (by decide) (by decide) rfl (by simp [hr]) rfl (by decide) rfl
    (by simp [cstr, List.takeWhile]) rfl (by decide!), Option.some_bind]
  rw [pending_csi_byte env s 52 5 6
    (27 :: 91 :: 63 :: 49 :: 48 :: 0 :: e6 :: e7 :: e8 :: rest)
    (27 :: 91 :: 63 :: 49 :: 48 :: 52 :: 0 :: e7 :: e8 :: rest)
    [91, 63, 49, 48, 52] (by decide) (by decide) rfl (by simp [hr]) rfl (by decide) rfl
    (by simp [cstr, List.takeWhile]) rfl (by decide!), Option.some_bind]
  rw [pending_csi_byte env s 57 6 7
    (27 :: 91 :: 63 :: 49 :: 48 :: 52 :: 0 :: e7 :: e8 :: rest)
    (27 :: 91 :: 63 :: 49 :: 48 :: 52 :: 57 :: 0 :: e8 :: rest)
    [91, 63, 49, 48, 52, 57] (by decide) (by decide) rfl (by simp [hr]) rfl (by decide) rfl
    (by simp [cstr, List.takeWhile]) rfl (by decide!), Option.some_bind]

/-- The byte `h` after `ESC [ ? 1 0 4 9` dispatches the sequence with the one
parameter `?1049`. -/
theorem csi_1049_enter (env : host) (s : vim_shell_window)
    (e8 : Nat) (rest : List Nat) (hr : rest.length = 41) :
    terminal_input_char env (with_esc s 7 (27 :: 91 :: 63 :: 49 :: 48 :: 52 :: 57 :: 0 :: e8 :: rest)) 104 =
      (csi_dispatch env (with_esc s 8 (27 :: 91 :: 63 :: 49 :: 48 :: 52 :: 57 :: 104 :: 0 :: rest)) 104 1 alt_argv).bind (end_of_sequence env) :=
  final_csi_byte env s 104 7 8
    (27 :: 91 :: 63 :: 49 :: 48 :: 52 :: 57 :: 0 :: e8 :: rest)
    (27 :: 91 :: 63 :: 49 :: 48 :: 52 :: 57 :: 104 :: 0 :: rest)
    [91, 63, 49, 48, 52, 57, 104] 1 104 alt_argv (by decide) (by decide) rfl (by simp [hr]) rfl
    (by decide) rfl (by simp [cstr, List.takeWhile]) rfl (by decide!)

/-- The byte `l` after `ESC [ ? 1 0 4 9` dispatches the sequence with the one
parameter `?1049`. -/
theorem csi_1049_leave (env : host) (s : vim_shell_window)
    (e8 : Nat) (rest : List Nat) (hr : rest.length = 41) :
    terminal_input_char env (with_esc s 7 (27 :: 91 :: 63 :: 49 :: 48 :: 52 :: 57 :: 0 :: e8 :: rest)) 108 =
      (csi_dispatch env (with_esc s 8 (27 :: 91 :: 63 :: 49 :: 48 :: 52 :: 57 :: 108 :: 0 :: rest)) 108 1 alt_argv).bind (end_of_sequence env) :=
  final_csi_byte env s 108 7 8
    (27 :: 91 :: 63 :: 49 :: 48 :: 52 :: 57 :: 0 :: e8 :: rest)
    (27 :: 91 :: 63 :: 49 :: 48 :: 52 :: 57 :: 108 :: 0 :: rest)
    [91, 63, 49, 48, 52, 57, 108] 1 108 alt_argv (by decide) (by decide) rfl (by simp [hr]) rfl
    (by decide) rfl (by simp [cstr, List.takeWhile]) rfl (by decide!)

theorem mode_arg_enter {env : host} (s : vim_shell_window) :
    terminal_mode_arg env s 1 [63, 49, 48, 52, 57] =
      (terminal_backup_screen env s).bind terminal_init_screen := by
  unfold terminal_mode_arg
  rw [if_neg (by decide), if_neg (by decide), if_neg (by decide), if_neg (by decide),
    if_neg (by decide), if_neg (by decide), if_neg (by decide), if_pos (Or.inl rfl), if_pos rfl]

theorem mode_arg_leave {env : host} (s : vim_shell_window) :
    terminal_mode_arg env s 0 [63, 49, 48, 52, 57] = some (terminal_restore_screen s) := by
  unfold terminal_mode_arg
  rw [if_neg (by decide), if_neg (by decide), if_neg (by decide), if_neg (by decide),
    if_neg (by decide), if_neg (by decide), if_neg (by decide), if_pos (Or.inl rfl),
    if_neg (by decide)]

theorem mode_one_arg {env : host} (s : vim_shell_window) (set : Nat) :
    terminal_mode env s set 1 alt_argv = terminal_mode_arg env s set [63, 49, 48, 52, 57] := by
  have h : argv_str alt_argv 0 = some [63, 49, 48, 52, 57] := by decide!
  unfold terminal_mode
  rw [show (1 : Nat) = 0 + 1 from rfl, terminal_mode_loop, h, Option.some_bind]
  exact Option.bind_some _

/-- `CSI ?1049h` takes the snapshot, then erases the screen and homes the cursor. -/
theorem dispatch_enter {env : host} (s : vim_shell_window) :
    csi_dispatch env s 104 1 alt_argv = (terminal_backup_screen env s).bind terminal_init_screen := by
  unfold csi_dispatch
  rw [if_neg (by decide), if_neg (by decide), if_neg (by decide), if_neg (by decide),
    if_neg (by decide), if_pos rfl, mode_one_arg, mode_arg_enter]

/-- `CSI ?1049l` restores the snapshot. -/
theorem dispatch_leave {env : host} (s : vim_shell_window) :
    csi_dispatch env s 108 1 alt_argv = some (terminal_restore_screen s) := by
  unfold csi_dispatch
  rw [if_neg (by decide), if_neg (by decide), if_neg (by decide), if_neg (by decide),
    if_pos rfl, mode_one_arg, mode_arg_leave]

theorem memcpy_new_all (l : List Nat) (n : Nat) (i : Int) (h : l.length = n) (hi : i = n) :
    memcpy_new l i = some l := by
  subst hi
  unfold memcpy_new
  rw [if_pos ⟨by omega, by omega⟩, Int.toNat_ofNat, List.take_of_length_le (by omega)]

theorem grid_size_eq (s : vim_shell_window) (hg : grid_ok s) :
    int32 ((s.size_x : Int) * s.size_y) = ((s.size_x * s.size_y : Nat) : Int) := by
  obtain ⟨_, _, h3, _⟩ := hg
  rw [int32_of_small]
  · push_cast; rfl
  · positivity
  · have h : ((s.size_x * s.size_y : Nat) : Int) < 2147483648 := by omega
    push_cast at h; exact h

/-- With buffers of the sizes the dimensions give and all seven requests
granted, the snapshot equals the members of the state. -/
theorem backup_eq (env : host) (s : vim_shell_window) (hg : grid_ok s)
    (ht : s.tabline.length = s.size_x) (hm : backup_allocated env s = true) :
    terminal_backup_screen env s = some { s with alt := some s.tovim_shell_fields } := by
  have hn := grid_size_eq s hg
  obtain ⟨_, _, _, hw, hf, hb, hr, hc⟩ := hg
  unfold backup_allocated at hm
  simp only [Bool.and_eq_true] at hm
  obtain ⟨⟨⟨⟨⟨⟨m0, m1⟩, m2⟩, m3⟩, m4⟩, m5⟩, m6⟩ := hm
  unfold terminal_backup_screen
  dsimp only
  rw [if_neg (by rw [m0]; decide), if_neg (by rw [m1, m6, m5]; decide),
    if_neg (by rw [m2, m3, m4]; decide),
    memcpy_new_all _ _ _ hw hn, memcpy_new_all _ _ _ hf hn, memcpy_new_all _ _ _ hb hn,
    memcpy_new_all _ _ _ hr hn, memcpy_new_all _ _ _ hc hn, memcpy_new_all _ _ _ ht rfl]
  rfl

/-- A refusal that the function notices leaves the state without a snapshot. -/
theorem backup_refused_eq (env : host) (s : vim_shell_window)
    (hm : backup_refused env s = true) :
    terminal_backup_screen env s = some { s with alt := none } := by
  unfold backup_refused at hm
  unfold terminal_backup_screen
  dsimp only
  by_cases h0 : env.malloc 0 env.sizeof_window = false
  · rw [if_pos h0]
  · rw [if_neg h0]
    rw [Bool.not_eq_false] at h0
    rw [h0] at hm
    rw [if_pos (by
      cases h1 : env.malloc 1 (size_t (int32 ((s.size_x : Int) * s.size_y)))
      · exact Or.inl rfl
      · cases h6 : env.malloc 6 (size_t (int32 ((s.size_x : Int) * s.size_y)))
        · exact Or.inr (Or.inl rfl)
        · cases h5 : env.malloc 5 (size_t s.size_x)
          · exact Or.inr (Or.inr rfl)
          · rw [h1, h6, h5] at hm
            exact absurd hm (by decide))]

/-- A refusal that the function does not notice: a `memcpy` into `NULL`. -/
theorem backup_unnoticed_eq (env : host) (s : vim_shell_window)
    (hm : backup_unnoticed env s = true) :
    terminal_backup_screen env s = none := by
  unfold backup_unnoticed backup_refused at hm
  unfold terminal_backup_screen
  dsimp only
  cases h0 : env.malloc 0 env.sizeof_window <;>
  cases h1 : env.malloc 1 (size_t (int32 ((s.size_x : Int) * s.size_y))) <;>
  cases h6 : env.malloc 6 (size_t (int32 ((s.size_x : Int) * s.size_y))) <;>
  cases h5 : env.malloc 5 (size_t s.size_x) <;>
  cases h2 : env.malloc 2 (size_t (int32 ((s.size_x : Int) * s.size_y))) <;>
  cases h3 : env.malloc 3 (size_t (int32 ((s.size_x : Int) * s.size_y))) <;>
  cases h4 : env.malloc 4 (size_t (int32 ((s.size_x : Int) * s.size_y))) <;>
  rw [h0, h1, h6, h5, h2, h3, h4] at hm <;>
  first
    | exact absurd hm (by decide)
    | simp

theorem init_screen_eq (s : vim_shell_window) (hg : grid_ok s) :
    terminal_init_screen s = some { s with
      winbuf := fill s.winbuf 0 (s.size_x * s.size_y) 32
      fgbuf := fill s.fgbuf 0 (s.size_x * s.size_y) VIMSHELL_COLOR_DEFAULT
      bgbuf := fill s.bgbuf 0 (s.size_x * s.size_y) VIMSHELL_COLOR_DEFAULT
      rendbuf := fill s.rendbuf 0 (s.size_x * s.size_y) 0
      charset := fill s.charset 0 (s.size_x * s.size_y) 0
      cursor_x := 0
      cursor_y := 0 } := by
  have hn := grid_size_eq s hg
  have ha : argv_int ed_argv 0 = some 2 := by decide!
  have h2 : int32 2 = 2 := int32_of_small 2 (by decide) (by decide)
  unfold terminal_init_screen terminal_ED
  rw [if_neg (by decide), if_neg (by decide), ha, Option.map_some', h2, Option.some_bind,
    if_neg (by decide), if_neg (by decide), if_pos rfl,
    erase_cells_eq s 0 _ 0 (s.size_x * s.size_y) rfl hn hg (by omega), Option.some_bind]
  rfl

/-! ## The alternate screen -/

/-- `CSI ?1049h` from any state: `terminal_backup_screen` and
`terminal_init_screen` run in a state that differs from `s` in the escape
buffer only, and the sequence is ended. -/
theorem enter_alt_run (env : host) (s : vim_shell_window)
    (he : s.esc_sequence.length = 50) :
    ∃ E : List Nat, E.length = 50 ∧
      vim_shell_terminal_input env s enter_alt =
        ((terminal_backup_screen env (with_esc s 8 E)).bind terminal_init_screen).bind
          (end_of_sequence env) := by
  obtain ⟨e0, e1, e2, e3, e4, e5, e6, e7, e8, rest, hs⟩ := esc_split _ he
  have hr : rest.length = 41 := by rw [hs] at he; simpa using he
  refine ⟨27 :: 91 :: 63 :: 49 :: 48 :: 52 :: 57 :: 104 :: 0 :: rest, by simp [hr], ?_⟩
  show vim_shell_terminal_input env s ([27, 91, 63, 49, 48, 52, 57] ++ [104]) = _
  rw [feed_append, csi_1049_prefix env s e0 e1 e2 e3 e4 e5 e6 e7 e8 rest hs hr,
    Option.some_bind]
  simp only [vim_shell_terminal_input]
  rw [csi_1049_enter env s e8 rest hr, dispatch_enter]
  exact Option.bind_some _

/-- `CSI ?1049h` from a state with buffers of the right sizes, all requests
granted: the sequence is over in a state whose snapshot holds every member of
`s` (with the escape buffer as the sequence has left it) and whose output
queue is that of `s`. -/
theorem enter_alt_eval (env : host) (s : vim_shell_window) (hg : grid_ok s)
    (ht : s.tabline.length = s.size_x) (he : s.esc_sequence.length = 50)
    (hm : backup_allocated env s = true) :
    ∃ (E : List Nat) (I : vim_shell_window),
      vim_shell_terminal_input env s enter_alt = end_of_sequence env I ∧
      I.alt = some (with_esc s 8 E).tovim_shell_fields ∧
      I.outbuf = s.outbuf ∧ I.outbuf_pos = s.outbuf_pos ∧ I.esc_sequence.length = 50 := by
  obtain ⟨E, hE, hrun⟩ := enter_alt_run env s he
  have hgP : grid_ok (with_esc s 8 E) := hg
  have hgB : grid_ok { with_esc s 8 E with alt := some (with_esc s 8 E).tovim_shell_fields } :=
    hg
  rw [backup_eq env _ hgP ht hm, Option.some_bind, init_screen_eq _ hgB, Option.some_bind]
    at hrun
  exact ⟨E, _, hrun, rfl, rfl, rfl, hE⟩

/-- `CSI ?1049h` when `terminal_backup_screen` notices a refusal: the sequence
is over in a state without a snapshot whose five arrays are blank and whose
cursor is at (0,0). -/
theorem enter_alt_refused (env : host) (s : vim_shell_window) (hg : grid_ok s)
    (he : s.esc_sequence.length = 50) (hm : backup_refused env s = true) :
    ∃ (E : List Nat), E.length = 50 ∧
      vim_shell_terminal_input env s enter_alt = end_of_sequence env { with_esc s 8 E with
        alt := none
        winbuf := fill s.winbuf 0 (s.size_x * s.size_y) 32
        fgbuf := fill s.fgbuf 0 (s.size_x * s.size_y) VIMSHELL_COLOR_DEFAULT
        bgbuf := fill s.bgbuf 0 (s.size_x * s.size_y) VIMSHELL_COLOR_DEFAULT
        rendbuf := fill s.rendbuf 0 (s.size_x * s.size_y) 0
        charset := fill s.charset 0 (s.size_x * s.size_y) 0
        cursor_x := 0
        cursor_y := 0 } := by
  obtain ⟨E, hE, hrun⟩ := enter_alt_run env s he
  have hgB : grid_ok { with_esc s 8 E with alt := none } := hg
  have hmB : backup_refused env (with_esc s 8 E) = true := hm
  rw [backup_refused_eq env _ hmB, Option.some_bind, init_screen_eq _ hgB, Option.some_bind]
    at hrun
  exact ⟨E, hE, hrun⟩

/-- `CSI ?1049l` from a state that holds a snapshot: the sequence ends in the
snapshot, with `force_redraw` set and no snapshot left. -/
theorem leave_alt_eval (env : host) (s : vim_shell_window) (a : vim_shell_fields)
    (he : s.esc_sequence.length = 50) (ha : s.alt = some a) :
    vim_shell_terminal_input env s leave_alt =
      end_of_sequence env { tovim_shell_fields := { a with force_redraw := 1 }, alt := none } := by
  obtain ⟨e0, e1, e2, e3, e4, e5, e6, e7, e8, rest, hs⟩ := esc_split _ he
  have hr : rest.length = 41 := by rw [hs] at he; simpa using he
  have hrs : terminal_restore_screen
      (with_esc s 8 (27 :: 91 :: 63 :: 49 :: 48 :: 52 :: 57 :: 108 :: 0 :: rest)) =
      { tovim_shell_fields := { a with force_redraw := 1 }, alt := none } := by
    unfold terminal_restore_screen
    rw [show (with_esc s 8 (27 :: 91 :: 63 :: 49 :: 48 :: 52 :: 57 :: 108 :: 0 :: rest)).alt =
      some a from ha]
  show vim_shell_terminal_input env s ([27, 91, 63, 49, 48, 52, 57] ++ [108]) = _
  rw [feed_append, csi_1049_prefix env s e0 e1 e2 e3 e4 e5 e6 e7 e8 rest hs hr,
    Option.some_bind]
  simp only [vim_shell_terminal_input]
  rw [csi_1049_leave env s e8 rest hr, dispatch_leave, Option.some_bind, hrs]
  exact Option.bind_some _

/-- `CSI ?1049l` from a state that holds no snapshot: nothing is restored, and
the sequence ends in the state it started from. -/
theorem leave_alt_none (env : host) (s : vim_shell_window)
    (he : s.esc_sequence.length = 50) (ha : s.alt = none) :
    ∃ E : List Nat, vim_shell_terminal_input env s leave_alt =
      end_of_sequence env (with_esc s 8 E) := by
  obtain ⟨e0, e1, e2, e3, e4, e5, e6, e7, e8, rest, hs⟩ := esc_split _ he
  have hr : rest.length = 41 := by rw [hs] at he; simpa using he
  have hrs : terminal_restore_screen
      (with_esc s 8 (27 :: 91 :: 63 :: 49 :: 48 :: 52 :: 57 :: 108 :: 0 :: rest)) =
      with_esc s 8 (27 :: 91 :: 63 :: 49 :: 48 :: 52 :: 57 :: 108 :: 0 :: rest) := by
    unfold terminal_restore_screen
    rw [show (with_esc s 8 (27 :: 91 :: 63 :: 49 :: 48 :: 52 :: 57 :: 108 :: 0 :: rest)).alt =
      none from ha]
  refine ⟨27 :: 91 :: 63 :: 49 :: 48 :: 52 :: 57 :: 108 :: 0 :: rest, ?_⟩
  show vim_shell_terminal_input env s ([27, 91, 63, 49, 48, 52, 57] ++ [108]) = _
  rw [feed_append, csi_1049_prefix env s e0 e1 e2 e3 e4 e5 e6 e7 e8 rest hs hr,
    Option.some_bind]
  simp only [vim_shell_terminal_input]
  rw [csi_1049_leave env s e8 rest hr, dispatch_leave, Option.some_bind, hrs]
  exact Option.bind_some _
/-! ## C10: the register round trip -/

/-- C10. From any state `s` (with its 50-byte escape buffer) in which `ESC 7`
runs to a state `s1`: if a byte stream `t` runs from `s1` to a state `s2`
without completing a save (`ESC 7`, `CSI s`) or a screen switch, and the output
queue of `s2` can be flushed, then `ESC 7`, `t`, `ESC 8` runs to a state whose
cursor_x, cursor_y, rendition, fgcolor, bgcolor, G0_charset, G1_charset,
application_keypad_mode, application_cursor_mode and insert_mode are those of
`s`. -/
theorem C10_save_restore_round_trip (env : host) (s s1 s2 : vim_shell_window)
    (t : List Nat) (he : s.esc_sequence.length = 50)
    (h1 : vim_shell_terminal_input env s save_seq = some s1)
    (h2 : vim_shell_terminal_input env s1 t = some s2)
    (hv : no_save env s1 t = true) (hq : no_screen_switch env s1 t = true)
    (hf : terminal_flush_output env s2 ≠ none) :
    ∃ s3, vim_shell_terminal_input env s (save_seq ++ t ++ restore_seq) = some s3 ∧
      live_part s3 = live_part s := by
  have hs1 : end_of_sequence env (terminal_save_attributes
      { s with in_esc_sequence := 2
               esc_sequence := ((s.esc_sequence.set 0 27).set 1 55).set 2 0 }) = some s1 :=
    ((esc_two env s 55 he (by decide)).symm.trans h1 : _)
  have hk1 := end_of_sequence_kept env _ _ hs1
  have hk2 := run_kept env t s1 s2 h2 hq hv
  have he2 : s2.esc_sequence.length = 50 := by
    have h := congrArg (fun k => k.1.2) (hk2.trans hk1)
    refine (h : s2.esc_sequence.length = _).trans ?_
    show (((s.esc_sequence.set 0 27).set 1 55).set 2 0).length = 50
    rw [List.length_set, List.length_set, List.length_set, he]
  have hr : register_part s2 = live_part s := congrArg Prod.snd (hk2.trans hk1)
  obtain ⟨ob, op, h3⟩ := end_of_sequence_defined env s2 (terminal_restore_attributes
      { s2 with in_esc_sequence := 2
                esc_sequence := ((s2.esc_sequence.set 0 27).set 1 56).set 2 0 }) rfl rfl hf
  have h4 : vim_shell_terminal_input env s (save_seq ++ t ++ restore_seq) =
      vim_shell_terminal_input env s2 restore_seq := by
    rw [feed_append, feed_append, h1, Option.some_bind, h2, Option.some_bind]
  exact ⟨_, h4.trans ((esc_two env s2 56 he2 (by decide)).trans h3), hr⟩

/-- C10 at a concrete input: on a 3x2 terminal with the cursor at row 1,
column 0, `ESC 7`, then a move to row 1, column 1, bold and keypad application
mode, then `ESC 8`. -/
theorem C10_save_restore_round_trip_witness :
    (state_after pty_accepts (state_after pty_accepts two_row_screen save_seq)
      moves_and_modes).cursor_x = 1 ∧
    ∃ s3, vim_shell_terminal_input pty_accepts two_row_screen
        (save_seq ++ moves_and_modes ++ restore_seq) = some s3 ∧
      live_part s3 = (0, 1, 0, 9, 9, 66, 48, 0, 0, 0) :=
  ⟨by decide!,
    C10_save_restore_round_trip pty_accepts two_row_screen
      (state_after pty_accepts two_row_screen save_seq)
      (state_after pty_accepts (state_after pty_accepts two_row_screen save_seq) moves_and_modes)
      moves_and_modes (by decide!) (by decide!) (by decide!) (by decide!) (by decide!)
      (by decide!)⟩

/-! ## C12: scroll up, then scroll down -/

theorem size_t_of_small (i : Int) (h0 : 0 ≤ i) (h1 : i < 18446744073709551616) :
    size_t i = i := by
  unfold size_t; omega

theorem scroll_down_eq (s : vim_shell_window) (hg : grid_ok s)
    (htb : s.scroll_top_margin ≤ s.scroll_bottom_margin)
    (hb : s.scroll_bottom_margin < s.size_y) :
    terminal_scroll_down s = some { s with
      winbuf := scroll_down_buf s.winbuf s.size_x s.scroll_top_margin s.scroll_bottom_margin 32
      fgbuf := scroll_down_buf s.fgbuf s.size_x s.scroll_top_margin s.scroll_bottom_margin
        VIMSHELL_COLOR_DEFAULT
      bgbuf := scroll_down_buf s.bgbuf s.size_x s.scroll_top_margin s.scroll_bottom_margin
        VIMSHELL_COLOR_DEFAULT
      rendbuf := scroll_down_buf s.rendbuf s.size_x s.scroll_top_margin s.scroll_bottom_margin 0
      charset := scroll_down_buf s.charset s.size_x s.scroll_top_margin s.scroll_bottom_margin 0 } := by
  have hbW : (s.scroll_bottom_margin + 1) * s.size_x ≤ s.size_y * s.size_x :=
    Nat.mul_le_mul_right _ hb
  have htW : s.scroll_top_margin * s.size_x ≤ s.scroll_bottom_margin * s.size_x :=
    Nat.mul_le_mul_right _ htb
  have hsub : (s.scroll_bottom_margin - s.scroll_top_margin) * s.size_x =
      s.scroll_bottom_margin * s.size_x - s.scroll_top_margin * s.size_x := Nat.sub_mul _ _ _
  rw [Nat.add_mul, Nat.one_mul, Nat.mul_comm s.size_y] at hbW
  have hg1 := hg
  obtain ⟨_, _, h31, hw, hf, hbg, hr, hc⟩ := hg
  have hlen : size_t (((s.scroll_bottom_margin : Int) - s.scroll_top_margin) * s.size_x) =
      (((s.scroll_bottom_margin - s.scroll_top_margin) * s.size_x : Nat) : Int) := by
    have h0 : (((s.scroll_bottom_margin - s.scroll_top_margin) * s.size_x : Nat) : Int) =
        ((s.scroll_bottom_margin : Int) - s.scroll_top_margin) * s.size_x := by
      rw [Nat.cast_mul, Nat.cast_sub htb]
    rw [← h0]
    exact size_t_of_small _ (by positivity) (by omega)
  unfold terminal_scroll_down
  rw [move_cells_eq s _ _ _ (s.scroll_top_margin * s.size_x + s.size_x)
    (s.scroll_top_margin * s.size_x)
    ((s.scroll_bottom_margin - s.scroll_top_margin) * s.size_x) (by push_cast; rfl)
    (by push_cast; rfl) hlen hg1 (by omega) (by omega),
    Option.some_bind]
  rw [erase_cells_eq _ _ _ (s.scroll_top_margin * s.size_x) s.size_x (by push_cast; rfl) rfl
    ?_ (by show _ ≤ s.size_x * s.size_y; omega)]
  · rfl
  · refine ⟨by assumption, by assumption, by assumption, ?_, ?_, ?_, ?_, ?_⟩ <;>
      (show (copy_within _ _ _ _).length = s.size_x * s.size_y
       rw [copy_within_length _ _ _ _ (by omega) (by omega)]
       assumption)

theorem scroll_down_buf_getD (buf : List Nat) (W H top bottom fc r c : Nat)
    (hl : buf.length = W * H) (htb : top ≤ bottom) (hb : bottom < H) (hc : c < W) :
    (scroll_down_buf buf W top bottom fc).getD (r * W + c) 0 =
      if top < r ∧ r ≤ bottom then buf.getD ((r - 1) * W + c) 0
      else if r = top then fc else buf.getD (r * W + c) 0 := by
  have hbW : (bottom + 1) * W ≤ H * W := Nat.mul_le_mul_right _ hb
  have htW : top * W ≤ bottom * W := Nat.mul_le_mul_right _ htb
  have hsub : (bottom - top) * W = bottom * W - top * W := Nat.sub_mul _ _ _
  rw [Nat.add_mul, Nat.one_mul, Nat.mul_comm H] at hbW
  have h2 := row_le W r c top hc
  have h3 := row_lt W r c (top + 1) hc
  have h4 := row_lt W r c (bottom + 1) hc
  have h5 := row_le W r c (top + 1) hc
  rw [Nat.add_mul, Nat.one_mul] at h3 h4 h5
  unfold scroll_down_buf
  rw [fill_getD _ _ _ _ _ (by rw [copy_within_length _ _ _ _ (by omega) (by omega)]; omega),
    copy_within_getD _ _ _ _ _ (by omega) (by omega)]
  by_cases hrt : r = top
  · subst hrt
    rw [if_pos ⟨by omega, by omega⟩, if_neg (by omega), if_pos rfl]
  · rw [if_neg (by omega)]
    by_cases htr : top < r ∧ r ≤ bottom
    · rw [if_pos htr, if_pos ⟨by omega, by omega⟩]
      have hr1 : r * W = (r - 1) * W + W := by
        have hk : r = (r - 1) + 1 := by omega
        conv_lhs => rw [hk, Nat.add_mul, Nat.one_mul]
      congr 1
      omega
    · rw [if_neg htr, if_neg hrt, if_neg (by omega)]

theorem scroll_up_buf_length (buf : List Nat) (W H top bottom fc : Nat)
    (hl : buf.length = W * H) (htb : top ≤ bottom) (hb : bottom < H) :
    (scroll_up_buf buf W top bottom fc).length = W * H := by
  have hbW : (bottom + 1) * W ≤ H * W := Nat.mul_le_mul_right _ hb
  have htW : top * W ≤ bottom * W := Nat.mul_le_mul_right _ htb
  have hsub : (bottom - top) * W = bottom * W - top * W := Nat.sub_mul _ _ _
  rw [Nat.add_mul, Nat.one_mul, Nat.mul_comm H] at hbW
  unfold scroll_up_buf
  rw [fill_length _ _ _ _ (by rw [copy_within_length _ _ _ _ (by omega) (by omega)]; omega),
    copy_within_length _ _ _ _ (by omega) (by omega), hl]

/-- One cell array after a scroll up and a scroll down: row `top` is blank,
every other row is as before. -/
theorem up_down_getD (buf : List Nat) (W H top bottom fc r c : Nat)
    (hl : buf.length = W * H) (htb : top ≤ bottom) (hb : bottom < H) (hc : c < W) :
    (scroll_down_buf (scroll_up_buf buf W top bottom fc) W top bottom fc).getD (r * W + c) 0 =
      if r = top then fc else buf.getD (r * W + c) 0 := by
  rw [scroll_down_buf_getD _ W H top bottom fc r c
    (scroll_up_buf_length buf W H top bottom fc hl htb hb) htb hb hc]
  by_cases h1 : top < r ∧ r ≤ bottom
  · rw [if_pos h1, if_neg (by omega),
      scroll_up_buf_getD buf W H top bottom fc (r - 1) c hl htb hb hc,
      if_pos ⟨by omega, by omega⟩, Nat.sub_add_cancel (by omega)]
  · rw [if_neg h1]
    by_cases h2 : r = top
    · rw [if_pos h2, if_pos h2]
    · rw [if_neg h2, if_neg h2, scroll_up_buf_getD buf W H top bottom fc r c hl htb hb hc,
        if_neg (by omega), if_neg (by omega)]

/-- C12. In a state whose buffers match its dimensions and whose margins
satisfy `top ≤ bottom < H`, `terminal_scroll_up` and then
`terminal_scroll_down` both run, and afterwards row `top` holds default cells
while every other row of the grid, inside and outside the region, holds the
cells it held at the start, in all five arrays. In particular rows
`top+1 .. bottom-1` and the rows outside `[top, bottom]` are unchanged. -/
theorem C12_scroll_up_then_scroll_down (s : vim_shell_window) (hg : grid_ok s)
    (htb : s.scroll_top_margin ≤ s.scroll_bottom_margin)
    (hb : s.scroll_bottom_margin < s.size_y) :
    ∃ s1 s2, terminal_scroll_up s = some s1 ∧ terminal_scroll_down s1 = some s2 ∧
      ∀ r c, r < s.size_y → c < s.size_x →
        cell_at s2 r c = if r = s.scroll_top_margin then default_cell else cell_at s r c := by
  have hg1 := hg
  obtain ⟨h1, h2, h3, hw, hf, hbg, hr, hcs⟩ := hg
  have hgu : grid_ok { s with
      winbuf := scroll_up_buf s.winbuf s.size_x s.scroll_top_margin s.scroll_bottom_margin 32
      fgbuf := scroll_up_buf s.fgbuf s.size_x s.scroll_top_margin s.scroll_bottom_margin
        VIMSHELL_COLOR_DEFAULT
      bgbuf := scroll_up_buf s.bgbuf s.size_x s.scroll_top_margin s.scroll_bottom_margin
        VIMSHELL_COLOR_DEFAULT
      rendbuf := scroll_up_buf s.rendbuf s.size_x s.scroll_top_margin s.scroll_bottom_margin 0
      charset := scroll_up_buf s.charset s.size_x s.scroll_top_margin s.scroll_bottom_margin 0 } :=
    ⟨h1, h2, h3, scroll_up_buf_length _ _ _ _ _ _ hw htb hb,
      scroll_up_buf_length _ _ _ _ _ _ hf htb hb, scroll_up_buf_length _ _ _ _ _ _ hbg htb hb,
      scroll_up_buf_length _ _ _ _ _ _ hr htb hb, scroll_up_buf_length _ _ _ _ _ _ hcs htb hb⟩
  refine ⟨_, _, scroll_up_eq s hg1 htb hb, scroll_down_eq _ hgu htb hb, ?_⟩
  intro r c _ hc
  show (_, _, _, _, _) = _
  dsimp only
  rw [up_down_getD _ _ s.size_y _ _ _ r c hw htb hb hc,
    up_down_getD _ _ s.size_y _ _ _ r c hf htb hb hc,
    up_down_getD _ _ s.size_y _ _ _ r c hbg htb hb hc,
    up_down_getD _ _ s.size_y _ _ _ r c hr htb hb hc,
    up_down_getD _ _ s.size_y _ _ _ r c hcs htb hb hc]
  by_cases h : r = s.scroll_top_margin
  · simp only [if_pos h]; rfl
  · simp only [if_neg h]; rfl

/-- C12 at a concrete input: a 2x3 terminal with rows `a b`, `c d`, `e f` and
the region 0..2. After the two scrolls row 0 is blank and rows 1 and 2 hold
`c d` and `e f`. -/
theorem C12_scroll_up_then_scroll_down_witness :
    ∃ s1 s2, terminal_scroll_up three_row_screen = some s1 ∧
      terminal_scroll_down s1 = some s2 ∧
      s1.winbuf = [99, 100, 101, 102, 32, 32] ∧
      cell_at s2 0 1 = default_cell ∧ cell_at s2 1 0 = (99, 9, 9, 0, 0) ∧
      cell_at s2 2 1 = (102, 9, 9, 0, 0) := by
  obtain ⟨s1, s2, h1, h2, h⟩ := C12_scroll_up_then_scroll_down three_row_screen
    (by decide!) (by decide!) (by decide!)
  have e1 : s1 = { three_row_screen with winbuf := [99, 100, 101, 102, 32, 32] } :=
    Option.some.inj (h1.symm.trans (by decide!))
  refine ⟨s1, s2, h1, h2, by rw [e1], ?_, ?_, ?_⟩
  · rw [h 0 1 (by decide!) (by decide!)]; decide!
  · rw [h 1 0 (by decide!) (by decide!)]; decide!
  · rw [h 2 1 (by decide!) (by decide!)]; decide!

/-! ## C18, C19: erase in display, erase in line -/

/-- The cells after the five `memset`s of an erase of `m` cells from offset `p`. -/
theorem erase_cells_cell (s s1 : vim_shell_window) (pos n : Int) (p m r c : Nat)
    (hp : pos = (p : Int)) (hn : n = (m : Int)) (hg : grid_ok s)
    (h : p + m ≤ s.size_x * s.size_y) (he : erase_cells s pos n = some s1) :
    cell_at s1 r c =
      if p ≤ r * s.size_x + c ∧ r * s.size_x + c < p + m then default_cell
      else cell_at s r c := by
  rw [erase_cells_eq s pos n p m hp hn hg h] at he
  cases he
  obtain ⟨_, _, _, hw, hf, hb, hr, hc⟩ := hg
  show (_, _, _, _, _) = _
  dsimp only
  rw [fill_getD _ _ _ _ _ (by omega), fill_getD _ _ _ _ _ (by omega),
    fill_getD _ _ _ _ _ (by omega), fill_getD _ _ _ _ _ (by omega),
    fill_getD _ _ _ _ _ (by omega)]
  by_cases hi : p ≤ r * s.size_x + c ∧ r * s.size_x + c < p + m
  · simp only [if_pos hi]; rfl
  · simp only [if_neg hi]; rfl

theorem erase_cells_cursor (s s1 : vim_shell_window) (pos n : Int)
    (he : erase_cells s pos n = some s1) :
    s1.cursor_x = s.cursor_x ∧ s1.cursor_y = s.cursor_y ∧ s1.size_x = s.size_x := by
  unfold erase_cells at he
  cases hw : memset s.winbuf pos 32 n with
  | none => rw [hw] at he; cases he
  | some w =>
    rw [hw, Option.some_bind] at he
    cases hf : memset s.fgbuf pos VIMSHELL_COLOR_DEFAULT n with
    | none => rw [hf] at he; cases he
    | some f =>
      rw [hf, Option.some_bind] at he
      cases hb : memset s.bgbuf pos VIMSHELL_COLOR_DEFAULT n with
      | none => rw [hb] at he; cases he
      | some b =>
        rw [hb, Option.some_bind] at he
        cases hr : memset s.rendbuf pos 0 n with
        | none => rw [hr] at he; cases he
        | some r =>
          rw [hr, Option.some_bind] at he
          cases hc : memset s.charset pos 0 n with
          | none => rw [hc] at he; cases he
          | some c =>
            rw [hc, Option.some_bind] at he
            cases he
            exact ⟨rfl, rfl, rfl⟩

/-- Row-major order: cell `(r, c)` comes before cell `(y, x)`. -/
theorem cell_before (W r c y x : Nat) (hc : c < W) (hx : x < W) :
    r * W + c < y * W + x ↔ r < y ∨ (r = y ∧ c < x) := by
  rcases Nat.lt_trichotomy r y with h | h | h
  · have : (r + 1) * W ≤ y * W := Nat.mul_le_mul_right W h
    rw [Nat.add_mul, Nat.one_mul] at this
    constructor
    · intro _; exact Or.inl h
    · intro _; omega
  · subst h
    constructor
    · intro h1; exact Or.inr ⟨rfl, by omega⟩
    · intro h1; omega
  · have : (y + 1) * W ≤ r * W := Nat.mul_le_mul_right W h
    rw [Nat.add_mul, Nat.one_mul] at this
    constructor
    · intro h1; omega
    · intro h1; omega

/-- C18, what `terminal_ED` does with one parameter `0`, `1` or `2`, the
cursor being inside the grid: the cursor stays, and the cells set to default
are, for `0`, those from the cursor cell to the end of the grid, for `2`, all,
and for `1`, those from the start of the grid up to the cursor cell, which is
itself left as it is; every other cell is unchanged. The claim has the cursor
cell erased by `1`, as the comment in that branch says (`inclusive`). -/
theorem C18_erase_display_stops_before_cursor (s : vim_shell_window) (argv : List Nat)
    (mode : Int) (hg : grid_ok s) (hx : s.cursor_x < s.size_x) (hy : s.cursor_y < s.size_y)
    (ha : argv_int argv 0 = some mode) (hm : mode = 0 ∨ mode = 1 ∨ mode = 2) :
    ∃ s1, terminal_ED s 1 argv = some s1 ∧ s1.cursor_x = s.cursor_x ∧
      s1.cursor_y = s.cursor_y ∧
      ∀ r c, r < s.size_y → c < s.size_x →
        cell_at s1 r c =
          if (mode = 0 ∧ (s.cursor_y < r ∨ (r = s.cursor_y ∧ s.cursor_x ≤ c))) ∨
              (mode = 1 ∧ (r < s.cursor_y ∨ (r = s.cursor_y ∧ c < s.cursor_x))) ∨ mode = 2
          then default_cell else cell_at s r c := by
  have hpos := cursor_pos_eq s hg hx hy
  have hsz := grid_size_eq s hg
  have hin := cell_index_lt s.size_x s.size_y s.cursor_x s.cursor_y hx hy
  have h0 : int32 0 = 0 := int32_of_small 0 (by decide) (by decide)
  have h1 : int32 1 = 1 := int32_of_small 1 (by decide) (by decide)
  have h2 : int32 2 = 2 := int32_of_small 2 (by decide) (by decide)
  unfold terminal_ED
  rw [if_neg (by decide), if_neg (by decide), ha, Option.map_some', Option.some_bind]
  rcases hm with rfl | rfl | rfl
  · rw [h0, if_pos rfl]
    have hn : int32 ((s.size_x : Int) * s.size_y) - cursor_pos s =
        ((s.size_x * s.size_y - (s.cursor_y * s.size_x + s.cursor_x) : Nat) : Int) := by
      rw [hsz, hpos]; omega
    have he := erase_cells_eq s _ _ (s.cursor_y * s.size_x + s.cursor_x)
      (s.size_x * s.size_y - (s.cursor_y * s.size_x + s.cursor_x)) hpos hn hg (by omega)
    refine ⟨_, he, rfl, rfl, fun r c hr hc => ?_⟩
    rw [erase_cells_cell s _ _ _ (s.cursor_y * s.size_x + s.cursor_x)
      (s.size_x * s.size_y - (s.cursor_y * s.size_x + s.cursor_x)) r c hpos hn hg (by omega) he]
    have hb := cell_before s.size_x r c s.cursor_y s.cursor_x hc hx
    have hi := cell_index_lt s.size_x s.size_y c r hc hr
    exact if_congr (by omega) rfl rfl
  · rw [h1, if_neg (by decide), if_pos rfl]
    have he := erase_cells_eq s 0 _ 0 (s.cursor_y * s.size_x + s.cursor_x) rfl hpos hg
      (by omega)
    refine ⟨_, he, rfl, rfl, fun r c hr hc => ?_⟩
    rw [erase_cells_cell s _ 0 _ 0 (s.cursor_y * s.size_x + s.cursor_x) r c rfl hpos hg
      (by omega) he]
    have hb := cell_before s.size_x r c s.cursor_y s.cursor_x hc hx
    exact if_congr (by omega) rfl rfl
  · rw [h2, if_neg (by decide), if_neg (by decide), if_pos rfl]
    have he := erase_cells_eq s 0 _ 0 (s.size_x * s.size_y) rfl hsz hg (by omega)
    refine ⟨_, he, rfl, rfl, fun r c hr hc => ?_⟩
    rw [erase_cells_cell s _ 0 _ 0 (s.size_x * s.size_y) r c rfl hsz hg (by omega) he]
    have hi := cell_index_lt s.size_x s.size_y c r hc hr
    exact if_congr (by omega) rfl rfl

/-- C18 at the failing input: `A`, `B` and a backspace on a fresh 80x24
terminal leave the cursor on the `B` at row 0, column 1; erase in display with
parameter 1 (the bytes `ESC [ 1 J`) then blanks cell (0,0) and leaves the `B`
in the cursor cell. -/
theorem C18_erase_display_stops_before_cursor_witness :
    (∃ s1, terminal_ED
        (state_after pty_accepts (vim_shell_new 80 24) two_glyphs_and_backspace) 1
        (one_char_argv 49) = some s1 ∧
      cell_at s1 0 0 = default_cell ∧ cell_at s1 0 1 = (66, 9, 9, 0, 0)) ∧
    (vim_shell_terminal_input pty_accepts (vim_shell_new 80 24)
        (two_glyphs_and_backspace ++ [27, 91, 49, 74])).map
      (fun s => (s.cursor_x, cell_at s 0 1)) = some (1, (66, 9, 9, 0, 0)) := by
  obtain ⟨s1, h, _, _, hc⟩ := C18_erase_display_stops_before_cursor
    (state_after pty_accepts (vim_shell_new 80 24) two_glyphs_and_backspace)
    (one_char_argv 49) 1 (by decide!) (by decide!) (by decide!) (by decide!)
    (Or.inr (Or.inl rfl))
  refine ⟨⟨s1, h, ?_, ?_⟩, by decide!⟩
  · rw [hc 0 0 (by decide!) (by decide!)]; decide!
  · rw [hc 0 1 (by decide!) (by decide!)]; decide!

/-- C19, what `terminal_EL` does with one parameter `0`, `1` or `2`, the
cursor being inside the grid: the cursor stays, and the cells of the cursor row
set to default are, for `0`, the columns `cursor_x .. W-1`, for `2`, all, and
for `1`, the columns `0 .. cursor_x-1`: the cursor cell is left as it is. Every
other cell of the grid is unchanged. The claim has the cursor cell erased by
`1`, as the comment in that branch says (`inclusive`). -/
theorem C19_erase_line_stops_before_cursor (s : vim_shell_window) (argv : List Nat)
    (mode : Int) (hg : grid_ok s) (hx : s.cursor_x < s.size_x) (hy : s.cursor_y < s.size_y)
    (ha : argv_int argv 0 = some mode) (hm : mode = 0 ∨ mode = 1 ∨ mode = 2) :
    ∃ s1, terminal_EL s 1 argv = some s1 ∧ s1.cursor_x = s.cursor_x ∧
      s1.cursor_y = s.cursor_y ∧
      ∀ r c, r < s.size_y → c < s.size_x →
        cell_at s1 r c =
          if r = s.cursor_y ∧ ((mode = 0 ∧ s.cursor_x ≤ c) ∨ (mode = 1 ∧ c < s.cursor_x) ∨
              mode = 2)
          then default_cell else cell_at s r c := by
  have hpos := cursor_pos_eq s hg hx hy
  have hin := cell_index_lt s.size_x s.size_y s.cursor_x s.cursor_y hx hy
  have hrow : s.cursor_y * s.size_x + s.size_x ≤ s.size_x * s.size_y := by
    have h := Nat.mul_le_mul_right s.size_x (show s.cursor_y + 1 ≤ s.size_y from hy)
    rw [Nat.add_mul, Nat.one_mul, Nat.mul_comm s.size_y] at h
    exact h
  have h0 : int32 0 = 0 := int32_of_small 0 (by decide) (by decide)
  have h1 : int32 1 = 1 := int32_of_small 1 (by decide) (by decide)
  have h2 : int32 2 = 2 := int32_of_small 2 (by decide) (by decide)
  have hrowc : ∀ r c, c < s.size_x → (s.cursor_y * s.size_x ≤ r * s.size_x + c ∧
      r * s.size_x + c < s.cursor_y * s.size_x + s.size_x ↔ r = s.cursor_y) := by
    intro r c hc
    have ha := row_le s.size_x r c s.cursor_y hc
    have hb := row_lt s.size_x r c (s.cursor_y + 1) hc
    rw [Nat.add_mul, Nat.one_mul] at hb
    omega
  unfold terminal_EL
  rw [if_neg (by decide), if_neg (by decide), ha, Option.map_some', Option.some_bind]
  rcases hm with rfl | rfl | rfl
  · rw [h0, if_pos rfl]
    have hn : (s.size_x : Int) - s.cursor_x = ((s.size_x - s.cursor_x : Nat) : Int) := by
      omega
    have he := erase_cells_eq s _ _ (s.cursor_y * s.size_x + s.cursor_x)
      (s.size_x - s.cursor_x) hpos hn hg (by omega)
    refine ⟨_, he, rfl, rfl, fun r c hr hc => ?_⟩
    rw [erase_cells_cell s _ _ _ (s.cursor_y * s.size_x + s.cursor_x)
      (s.size_x - s.cursor_x) r c hpos hn hg (by omega) he]
    have hb := cell_before s.size_x r c s.cursor_y s.cursor_x hc hx
    have hrc := hrowc r c hc
    exact if_congr (by omega) rfl rfl
  · rw [h1, if_neg (by decide), if_pos rfl]
    have hp : (s.cursor_y : Int) * s.size_x = ((s.cursor_y * s.size_x : Nat) : Int) := by
      push_cast; rfl
    have he := erase_cells_eq s _ _ (s.cursor_y * s.size_x) s.cursor_x hp rfl hg (by omega)
    refine ⟨_, he, rfl, rfl, fun r c hr hc => ?_⟩
    rw [erase_cells_cell s _ _ _ (s.cursor_y * s.size_x) s.cursor_x r c hp rfl hg
      (by omega) he]
    have hb := cell_before s.size_x r c s.cursor_y s.cursor_x hc hx
    have hrc := hrowc r c hc
    exact if_congr (by omega) rfl rfl
  · rw [h2, if_neg (by decide), if_neg (by decide), if_pos rfl]
    have hp : (s.cursor_y : Int) * s.size_x = ((s.cursor_y * s.size_x : Nat) : Int) := by
      push_cast; rfl
    have he := erase_cells_eq s _ _ (s.cursor_y * s.size_x) s.size_x hp rfl hg (by omega)
    refine ⟨_, he, rfl, rfl, fun r c hr hc => ?_⟩
    rw [erase_cells_cell s _ _ _ (s.cursor_y * s.size_x) s.size_x r c hp rfl hg
      (by omega) he]
    have hrc := hrowc r c hc
    exact if_congr (by omega) rfl rfl

/-- C19 at the failing input: `A`, `B` and a backspace on a fresh 80x24
terminal leave the cursor on the `B` at row 0, column 1; erase in line with
parameter 1 (the bytes `ESC [ 1 K`) then blanks cell (0,0) and leaves the `B`
in the cursor cell. -/
theorem C19_erase_line_stops_before_cursor_witness :
    (∃ s1, terminal_EL
        (state_after pty_accepts (vim_shell_new 80 24) two_glyphs_and_backspace) 1
        (one_char_argv 49) = some s1 ∧
      cell_at s1 0 0 = default_cell ∧ cell_at s1 0 1 = (66, 9, 9, 0, 0)) ∧
    (vim_shell_terminal_input pty_accepts (vim_shell_new 80 24)
        (two_glyphs_and_backspace ++ [27, 91, 49, 75])).map
      (fun s => (s.cursor_x, cell_at s 0 1)) = some (1, (66, 9, 9, 0, 0)) := by
  obtain ⟨s1, h, _, _, hc⟩ := C19_erase_line_stops_before_cursor
    (state_after pty_accepts (vim_shell_new 80 24) two_glyphs_and_backspace)
    (one_char_argv 49) 1 (by decide!) (by decide!) (by decide!) (by decide!)
    (Or.inr (Or.inl rfl))
  refine ⟨⟨s1, h, ?_, ?_⟩, by decide!⟩
  · rw [hc 0 0 (by decide!) (by decide!)]; decide!
  · rw [hc 0 1 (by decide!) (by decide!)]; decide!

/-! ## C20: the title sequence -/

/-- C20. `ESC ] 0 ; h i BEL` on a fresh 80x24 terminal: the bell is handled as
a control character and never reaches the parser of the title, so the title is
still empty and the sequence still pending (six bytes stored) after it; an `X`
that follows is stored as the seventh byte of the sequence and leaves cell
(0,0) blank and the cursor at column 0. The claim has the title set to `hi`
and the parser back in NORMAL state after the bell. -/
theorem C20_bell_does_not_end_title :
    (vim_shell_terminal_input pty_accepts (vim_shell_new 80 24)
        [27, 93, 48, 59, 104, 105, 7]).map
      (fun s => (s.in_esc_sequence, cstr s.windowtitle 0)) = some (6, some []) ∧
    (vim_shell_terminal_input pty_accepts (vim_shell_new 80 24)
        [27, 93, 48, 59, 104, 105, 7, 88]).map
      (fun s => (s.in_esc_sequence, cstr s.windowtitle 0, s.cursor_x, s.winbuf[0]?)) =
      some (7, some [], 0, some 32) := by
  decide!

/-! ## Escape sequences of any length, from any state -/

theorem takeWhile_nonzero (cs R : List Nat) (h : ∀ c ∈ cs, c ≠ 0) :
    (cs ++ 0 :: R).takeWhile (fun c => c != 0) = cs := by
  induction cs with
  | nil => simp
  | cons c cs ih =>
    have hc : (c != 0) = true := by
      rw [bne_iff_ne]; exact h c (List.mem_cons_self _ _)
    rw [List.cons_append, List.takeWhile_cons, hc]
    simp only [if_true]
    rw [ih (fun d hd => h d (List.mem_cons_of_mem _ hd))]

/-- The string at offset `n` of a block that holds `cs` and a NUL there. -/
theorem cstr_at (A cs R : List Nat) (h : ∀ c ∈ cs, c ≠ 0) :
    cstr (A ++ (cs ++ 0 :: R)) A.length = some cs := by
  unfold cstr
  rw [List.drop_left, if_pos (by simp), takeWhile_nonzero cs R h]

theorem cstr_of_initial (cs R : List Nat) (h : ∀ c ∈ cs, c ≠ 0) :
    cstr ((27 :: cs) ++ 0 :: R) 1 = some cs :=
  cstr_at [27] cs R h

theorem set_pending (cs T : List Nat) (b : Nat) (hT : 2 ≤ T.length) :
    (((27 :: cs) ++ T).set (cs.length + 1) b).set (cs.length + 2) 0 =
      (27 :: (cs ++ [b])) ++ 0 :: T.drop 2 := by
  match T, hT with
  | x :: y :: R, _ =>
    have h1 : ((27 :: cs) ++ x :: y :: R).set (cs.length + 1) b = (27 :: cs) ++ b :: y :: R := by
      rw [List.set_append_right _ _ (by simp)]
      simp
    have h2 : ((27 :: cs) ++ b :: y :: R).set (cs.length + 2) 0 = (27 :: cs) ++ b :: 0 :: R := by
      rw [List.set_append_right _ _ (by simp)]
      simp
    rw [h1, h2]
    simp

/-- A printable byte that arrives while the bytes `cs` are pending: the string
`cs ++ [b]` is parsed. -/
theorem pending_step (env : host) (s : vim_shell_window) (cs T : List Nat) (b : Nat)
    (hlen : T.length + cs.length = 49) (hn : cs.length ≤ 46) (hcs : ∀ c ∈ cs, c ≠ 0)
    (hb : ¬ b ≤ 31) :
    terminal_input_char env (with_esc s (cs.length + 1) ((27 :: cs) ++ T)) b =
      (parse_seq env (with_esc s (cs.length + 2) ((27 :: (cs ++ [b])) ++ 0 :: T.drop 2))
          (cs ++ [b])).bind
        (finish_seq env (with_esc s (cs.length + 2) ((27 :: (cs ++ [b])) ++ 0 :: T.drop 2))) := by
  have hcb : ∀ c ∈ cs ++ [b], c ≠ 0 := by
    intro c hc
    rcases List.mem_append.1 hc with h | h
    · exact hcs c h
    · rw [List.mem_singleton] at h; omega
  rw [pending_byte_with env s b cs.length ((27 :: cs) ++ T) (by omega)
    (by simp; omega) rfl hb, set_pending cs T b (by omega),
    cstr_of_initial (cs ++ [b]) (T.drop 2) hcb, Option.some_bind]

/-- The bytes `bs` arrive while `cs` is pending, and every string on the way
leaves the parser waiting: all of them are stored. -/
theorem feed_pending (env : host) (s : vim_shell_window) (bs : List Nat) :
    ∀ (cs T : List Nat), T.length + cs.length = 49 → cs.length + bs.length ≤ 47 →
      (∀ c ∈ cs, c ≠ 0) → (∀ b ∈ bs, ¬ b ≤ 31) →
      (∀ p, p ≠ [] → p <+: bs → ∀ S, parse_seq env S (cs ++ p) = some none) →
      ∃ T', T'.length + (cs.length + bs.length) = 49 ∧
        vim_shell_terminal_input env (with_esc s (cs.length + 1) ((27 :: cs) ++ T)) bs =
          some (with_esc s (cs.length + bs.length + 1) ((27 :: (cs ++ bs)) ++ T')) := by
  induction bs with
  | nil =>
    intro cs T hT _ _ _ _
    exact ⟨T, hT, by rw [List.append_nil]; rfl⟩
  | cons b bs ih =>
    intro cs T hT hn hcs hbs hp
    have hb : ¬ b ≤ 31 := hbs b (List.mem_cons_self _ _)
    have hl : (cs ++ [b]).length = cs.length + 1 := by simp
    have hcb : ∀ c ∈ cs ++ [b], c ≠ 0 := by
      intro c hc
      rcases List.mem_append.1 hc with h | h
      · exact hcs c h
      · rw [List.mem_singleton] at h; omega
    simp only [List.length_cons] at hn
    obtain ⟨T', hT', hrun⟩ := ih (cs ++ [b]) (0 :: T.drop 2)
      (by simp only [List.length_cons, List.length_drop]; omega) (by omega) hcb
      (fun c hc => hbs c (List.mem_cons_of_mem _ hc))
      (fun p hpne hpre S => by
        rw [List.append_assoc]
        exact hp (b :: p) (List.cons_ne_nil _ _) ((List.prefix_cons_inj b).2 hpre) S)
    rw [hl] at hT' hrun
    refine ⟨T', by simp only [List.length_cons]; omega, ?_⟩
    simp only [vim_shell_terminal_input]
    rw [pending_step env s cs T b hT (by omega) hcs hb,
      hp [b] (List.cons_ne_nil _ _) ((List.prefix_cons_inj b).2 List.nil_prefix),
      Option.some_bind]
    show (some _).bind _ = _
    rw [Option.some_bind]
    refine hrun.trans ?_
    rw [List.append_assoc]
    simp only [List.length_cons, List.singleton_append]
    rw [show cs.length + 1 + bs.length + 1 = cs.length + (bs.length + 1) + 1 by omega]

/-- The byte that follows the pending bytes `cs` is parsed with them. -/
theorem feed_final (env : host) (s : vim_shell_window) (cs T : List Nat) (f : Nat)
    (hlen : T.length + cs.length = 49) (hn : cs.length ≤ 46) (hcs : ∀ c ∈ cs, c ≠ 0)
    (hf : ¬ f ≤ 31) :
    ∃ E, E.length = 50 ∧
      terminal_input_char env (with_esc s (cs.length + 1) ((27 :: cs) ++ T)) f =
        (parse_seq env (with_esc s (cs.length + 2) E) (cs ++ [f])).bind
          (finish_seq env (with_esc s (cs.length + 2) E)) :=
  ⟨(27 :: (cs ++ [f])) ++ 0 :: T.drop 2,
    by simp only [List.length_append, List.length_cons, List.length_drop, List.length_nil]; omega,
    pending_step env s cs T f hlen hn hcs hf⟩

/-- A complete CSI sequence from any state: if every proper prefix of
`[ body final` leaves the parser waiting and the whole string parses to
`argc`, `argv` and the final byte, then the sequence is dispatched with these
in a state that differs from `s` in the escape buffer only, and ended. -/
theorem feed_csi (env : host) (s : vim_shell_window) (body : List Nat)
    (f argc : Nat) (argv : List Nat) (he : s.esc_sequence.length = 50)
    (hlen : body.length ≤ 45) (hbody : ∀ b ∈ body, ¬ b ≤ 31) (hf : ¬ f ≤ 31)
    (hpend : ∀ p, p ≠ [] → p <+: body → csi_parse (91 :: p) = some none)
    (hfin : csi_parse (91 :: (body ++ [f])) = some (some (argc, argv, f))) :
    ∃ E, E.length = 50 ∧
      vim_shell_terminal_input env s (27 :: 91 :: (body ++ [f])) =
        (csi_dispatch env (with_esc s (body.length + 3) E) f argc argv).bind
          (end_of_sequence env) := by
  obtain ⟨x, T, hs⟩ : ∃ x T, s.esc_sequence = x :: T := by
    cases hE : s.esc_sequence with
    | nil => rw [hE] at he; cases he
    | cons x T => exact ⟨x, T, rfl⟩
  have hT : T.length = 49 := by rw [hs] at he; simpa using he
  have h1 : terminal_input_char env s 27 = some (with_esc s 1 (27 :: T)) := by
    rw [esc_byte env s he, hs]; rfl
  have hnz : ∀ c ∈ (91 :: body), c ≠ 0 := by
    intro c hc
    rcases List.mem_cons.1 hc with h | h
    · omega
    · have := hbody c h; omega
  obtain ⟨T', hT', hrun⟩ := feed_pending env s (91 :: body) [] T (by simpa using hT)
    (by simp only [List.length_cons, List.length_nil]; omega) (fun c hc => by cases hc)
    (fun b hb => by
      rcases List.mem_cons.1 hb with h | h
      · omega
      · exact hbody b h)
    (fun p hpne hpre S => by
      rcases List.prefix_cons_iff.1 hpre with h | ⟨p', rfl, hp'⟩
      · exact absurd h hpne
      · refine parse_seq_pending S _ rfl ?_
        cases p' with
        | nil => rfl
        | cons c p'' => exact hpend _ (List.cons_ne_nil _ _) hp')
  obtain ⟨E, hE, hfinal⟩ := feed_final env s (91 :: body) T' f
    (by simp only [List.length_cons, List.length_nil] at hT' ⊢; omega)
    (by simp only [List.length_cons]; omega) hnz hf
  refine ⟨E, hE, ?_⟩
  have hsplit : (27 :: 91 :: (body ++ [f])) = 27 :: ((91 :: body) ++ [f]) := rfl
  have h0 : vim_shell_terminal_input env s (27 :: ((91 :: body) ++ [f])) =
      (terminal_input_char env s 27).bind
        (fun s1 => vim_shell_terminal_input env s1 ((91 :: body) ++ [f])) := rfl
  have h2 : ∀ S : vim_shell_window, vim_shell_terminal_input env S [f] =
      (terminal_input_char env S f).bind (fun s1 => some s1) := fun _ => rfl
  rw [hsplit, h0, h1, Option.some_bind, feed_append]
  rw [show with_esc s 1 (27 :: T) = with_esc s (([] : List Nat).length + 1) ((27 :: []) ++ T)
    from rfl, hrun, Option.some_bind, h2]
  rw [show ([] : List Nat).length + (91 :: body).length + 1 = (91 :: body).length + 1 by simp,
    List.nil_append, hfinal, parse_seq_final _ ((91 :: body) ++ [f]) argc f argv rfl hfin]
  simp only [List.length_cons]
  cases csi_dispatch env (with_esc s (body.length + 1 + 2) E) f argc argv with
  | none => rfl
  | some x => exact Option.bind_some _

/-! ## The parameter table during the parse -/

theorem replicate_succ_zero (k : Nat) : List.replicate (k + 1) 0 = 0 :: List.replicate k 0 := rfl

theorem argv_with_length (A cur : List Nat) (h : A.length + cur.length ≤ 400) :
    (argv_with A cur).length = 400 := by
  unfold argv_with
  simp only [List.length_append, List.length_replicate]
  omega

theorem cstr_argv_with (A cur : List Nat) (argc : Nat) (hA : A.length = argc * 20)
    (h : A.length + cur.length < 400) (hc : ∀ c ∈ cur, c ≠ 0) :
    cstr (argv_with A cur) (argc * 20) = some cur := by
  obtain ⟨k, hk⟩ : ∃ k, 400 - A.length - cur.length = k + 1 :=
    ⟨400 - A.length - cur.length - 1, by omega⟩
  unfold argv_with
  rw [hk, replicate_succ_zero, ← hA]
  exact cstr_at A cur _ hc

theorem peek_argv_with (A cur : List Nat) (argc : Nat) (hA : A.length = argc * 20)
    (h : A.length + cur.length < 400) :
    peek (argv_with A cur) ((argc * 20 : Nat) : Int) = some (cur.headD 0) := by
  obtain ⟨k, hk⟩ : ∃ k, 400 - A.length - cur.length = k + 1 :=
    ⟨400 - A.length - cur.length - 1, by omega⟩
  unfold peek
  rw [if_pos ⟨by omega, by rw [argv_with_length A cur (by omega)]; omega⟩, Int.toNat_ofNat,
    ← hA]
  unfold argv_with
  rw [hk, replicate_succ_zero, List.get?_eq_getElem?, List.getElem?_append_right (le_refl _),
    Nat.sub_self]
  cases cur with
  | nil => simp
  | cons c cs => simp

theorem strcat1_argv_with (A cur : List Nat) (argc c : Nat) (hA : A.length = argc * 20)
    (h : A.length + cur.length + 2 ≤ 400) (hc : ∀ c ∈ cur, c ≠ 0) :
    strcat1 (argv_with A cur) (argc * 20) c = some (argv_with A (cur ++ [c])) := by
  obtain ⟨k, hk⟩ : ∃ k, 400 - A.length - cur.length = k + 2 :=
    ⟨400 - A.length - cur.length - 2, by omega⟩
  have hk1 : 400 - A.length - (cur ++ [c]).length = k + 1 := by
    simp only [List.length_append, List.length_cons, List.length_nil]; omega
  unfold strcat1
  rw [cstr_argv_with A cur argc hA (by omega) hc]
  dsimp only
  rw [if_pos (by rw [argv_with_length A cur (by omega)]; omega), ← hA]
  unfold argv_with
  rw [hk, hk1]
  congr 1
  have e1 : A ++ (cur ++ List.replicate (k + 2) 0) =
      (A ++ cur) ++ (0 :: 0 :: List.replicate k 0) := by
    rw [List.append_assoc]; rfl
  have e2 : ((A ++ cur) ++ (0 :: 0 :: List.replicate k 0)).set (A.length + cur.length) c =
      (A ++ cur) ++ (c :: 0 :: List.replicate k 0) := by
    rw [List.set_append_right _ _ (by simp)]; simp
  have e3 : ((A ++ cur) ++ (c :: 0 :: List.replicate k 0)).set (A.length + cur.length + 1) 0 =
      (A ++ cur) ++ (c :: 0 :: List.replicate k 0) := by
    rw [List.set_append_right _ _ (by simp)]; simp
  rw [e1, e2, e3, List.append_assoc, List.append_assoc]
  rfl

theorem strcpy0_argv_with (A : List Nat) (argc : Nat) (hA : A.length = argc * 20)
    (h : A.length + 2 ≤ 400) :
    strcpy0 (argv_with A []) (argc * 20) = some (argv_with A [48]) := by
  obtain ⟨k, hk⟩ : ∃ k, 400 - A.length - ([] : List Nat).length = k + 2 :=
    ⟨400 - A.length - 2, by simp only [List.length_nil]; omega⟩
  have hk1 : 400 - A.length - ([48] : List Nat).length = k + 1 := by
    simp only [List.length_cons, List.length_nil] at hk ⊢; omega
  unfold strcpy0
  rw [if_pos (by rw [argv_with_length A [] (by simp only [List.length_nil]; omega)]; omega),
    ← hA]
  unfold argv_with
  rw [hk, hk1]
  congr 1
  have e2 : (A ++ ([] ++ List.replicate (k + 2) 0)).set A.length 48 =
      A ++ (48 :: 0 :: List.replicate k 0) := by
    rw [List.set_append_right _ _ (le_refl _)]; simp [List.replicate_succ]
  have e3 : (A ++ (48 :: 0 :: List.replicate k 0)).set (A.length + 1) 0 =
      A ++ (48 :: 0 :: List.replicate k 0) := by
    rw [List.set_append_right _ _ (by omega)]; simp
  rw [e2, e3]
  rfl

/-! ## The parameter loop on strings of any length -/

theorem param_char_ne_zero (c : Nat) (h : isdigit c = true ∨ c = 63) : c ≠ 0 := by
  rcases h with h | h
  · unfold isdigit at h
    simp only [Bool.and_eq_true, decide_eq_true_eq] at h
    omega
  · omega

theorem param_char_printable (c : Nat) (h : isdigit c = true ∨ c = 63 ∨ c = 59) : ¬ c ≤ 31 := by
  rcases h with h | h | h
  · unfold isdigit at h
    simp only [Bool.and_eq_true, decide_eq_true_eq] at h
    omega
  · omega
  · omega

theorem csi_args_or_nil (l : List Nat) (argc : Nat) (argv : List Nat) :
    (if l = [] then some none else csi_args l argc argv) = csi_args l argc argv := by
  cases l with
  | nil => rfl
  | cons c r => rw [if_neg (List.cons_ne_nil _ _)]

/-- The parameter characters `q` are appended to the current slot. -/
theorem csi_args_param (argc : Nat) (A : List Nat) (hA : A.length = argc * 20)
    (tail : List Nat) :
    ∀ (q cur : List Nat), (∀ c ∈ q, isdigit c = true ∨ c = 63) → (∀ c ∈ cur, c ≠ 0) →
      A.length + cur.length + q.length + 1 ≤ 400 →
      csi_args (q ++ tail) argc (argv_with A cur) =
        csi_args tail argc (argv_with A (cur ++ q)) := by
  intro q
  induction q with
  | nil => intro cur _ _ _; rw [List.append_nil]; rfl
  | cons c q ih =>
    intro cur hq hcur hlen
    have hc := hq c (List.mem_cons_self _ _)
    simp only [List.length_cons] at hlen
    have hcc : ∀ x ∈ cur ++ [c], x ≠ 0 := by
      intro x hx
      rcases List.mem_append.1 hx with h | h
      · exact hcur x h
      · rw [List.mem_singleton] at h; rw [h]; exact param_char_ne_zero c hc
    rw [List.cons_append, csi_args, if_pos hc,
      strcat1_argv_with A cur argc c hA (by omega) hcur, Option.some_bind, csi_args_or_nil,
      ih (cur ++ [c]) (fun x hx => hq x (List.mem_cons_of_mem _ hx)) hcc
        (by simp only [List.length_append, List.length_cons, List.length_nil]; omega),
      List.append_assoc]
    rfl

/-- A character that is no parameter character closes the current slot. -/
theorem csi_args_close (argc : Nat) (A : List Nat) (hA : A.length = argc * 20)
    (cur : List Nat) (c : Nat) (tail : List Nat) (hc : ¬ (isdigit c = true ∨ c = 63))
    (hcur : ∀ x ∈ cur, x ≠ 0) (hlen : A.length + cur.length + 1 ≤ 400)
    (hlen2 : A.length + 2 ≤ 400) :
    csi_args (c :: tail) argc (argv_with A cur) =
      if c = 59 then csi_args tail (argc + 1) (argv_with A (stored_param cur))
      else some (some (argc + 1, argv_with A (stored_param cur), c :: tail)) := by
  have hi : ((argc : Int) * 20) = ((argc * 20 : Nat) : Int) := by push_cast; rfl
  rw [csi_args, if_neg hc, hi, peek_argv_with A cur argc hA (by omega), Option.some_bind]
  cases cur with
  | nil =>
    rw [show ([] : List Nat).headD 0 = 0 from rfl, if_pos rfl,
      strcpy0_argv_with A argc hA hlen2, Option.some_bind, csi_args_or_nil]
    rfl
  | cons x xs =>
    rw [show (x :: xs).headD 0 = x from rfl, if_neg (hcur x (List.mem_cons_self _ _)),
      Option.some_bind, csi_args_or_nil]
    rfl

theorem pad_slot_length (q : List Nat) (h : q.length ≤ 20) : (pad_slot q).length = 20 := by
  unfold pad_slot
  simp only [List.length_append, List.length_replicate]
  omega

theorem slots_length (done : List (List Nat)) (h : ∀ q ∈ done, q.length ≤ 20) :
    ((done.map pad_slot).flatten).length = done.length * 20 := by
  induction done with
  | nil => rfl
  | cons q done ih =>
    rw [List.map_cons, List.flatten_cons, List.length_append,
      pad_slot_length q (h q (List.mem_cons_self _ _)),
      ih (fun x hx => h x (List.mem_cons_of_mem _ hx)), List.length_cons]
    omega

/-- A closed slot: the table with `cur` in the current slot is the table with
`cur` among the slots before an empty current slot. -/
theorem argv_with_next (A cur : List Nat) (hc : cur.length ≤ 20) (hA : A.length + 20 ≤ 400) :
    argv_with A cur = argv_with (A ++ pad_slot cur) [] := by
  unfold argv_with pad_slot
  simp only [List.length_append, List.length_replicate, List.length_nil, List.nil_append,
    List.append_assoc]
  congr 2
  rw [List.append_replicate_replicate]
  congr 1
  omega

theorem argv_layout_snoc (done : List (List Nat)) (cur : List Nat) (hc : cur.length ≤ 20)
    (hd : ∀ q ∈ done, q.length ≤ 20) (hn : done.length < 20) :
    argv_with (done.map pad_slot).flatten cur = argv_layout (done ++ [cur]) := by
  unfold argv_layout
  rw [argv_with_next _ cur hc (by rw [slots_length done hd]; omega), List.map_append,
    List.flatten_append]
  simp

theorem stored_param_length (q : List Nat) (h : q.length ≤ 19) :
    (stored_param q).length ≤ 19 := by
  unfold stored_param
  split
  · simp
  · exact h

theorem render_params_cons (q q1 : List Nat) (qs : List (List Nat)) :
    render_params (q :: q1 :: qs) = q ++ 59 :: render_params (q1 :: qs) := rfl

/-- The parameter loop on the parameters `ps` and a final character `f`:
`argc` is their number and the table holds them, an empty one as `0`. -/
theorem csi_args_params (f : Nat) (tail : List Nat) (hf : ¬ (isdigit f = true ∨ f = 63))
    (hf59 : f ≠ 59) :
    ∀ (ps done : List (List Nat)), ps ≠ [] →
      (∀ q ∈ ps, q.length ≤ 19 ∧ ∀ c ∈ q, isdigit c = true ∨ c = 63) →
      (∀ q ∈ done, q.length ≤ 20) → done.length + ps.length ≤ 20 →
      csi_args (render_params ps ++ f :: tail) done.length (argv_layout done) =
        some (some (done.length + ps.length, argv_layout (done ++ ps.map stored_param),
          f :: tail)) := by
  intro ps
  induction ps with
  | nil => intro done h; exact absurd rfl h
  | cons q ps ih =>
    intro done _ hps hdone hn
    have hq := hps q (List.mem_cons_self _ _)
    have hA := slots_length done hdone
    have hqz : ∀ c ∈ ([] : List Nat) ++ q, c ≠ 0 :=
      fun c hc => param_char_ne_zero c (hq.2 c (by simpa using hc))
    simp only [List.length_cons] at hn
    have hs := stored_param_length q hq.1
    cases ps with
    | nil =>
      show csi_args (q ++ f :: tail) done.length (argv_with _ []) = _
      rw [csi_args_param done.length _ hA (f :: tail) q [] hq.2 (fun c hc => by cases hc)
        (by rw [hA]; simp only [List.length_nil]; omega),
        csi_args_close done.length _ hA ([] ++ q) f tail hf hqz
          (by rw [hA]; simp only [List.nil_append]; omega) (by rw [hA]; omega),
        if_neg hf59, List.nil_append, argv_layout_snoc done (stored_param q) (by omega) hdone
          (by omega)]
      rfl
    | cons q1 qs =>
      rw [render_params_cons, List.append_assoc, List.cons_append]
      show csi_args (q ++ 59 :: (render_params (q1 :: qs) ++ f :: tail)) done.length
        (argv_with _ []) = _
      rw [csi_args_param done.length _ hA _ q [] hq.2 (fun c hc => by cases hc)
        (by rw [hA]; simp only [List.length_nil]; omega),
        csi_args_close done.length _ hA ([] ++ q) 59 _ (by decide) hqz
          (by rw [hA]; simp only [List.nil_append]; omega) (by rw [hA]; omega),
        if_pos rfl, List.nil_append, argv_layout_snoc done (stored_param q) (by omega) hdone
          (by simp only [List.length_cons] at hn; omega)]
      have h := ih (done ++ [stored_param q]) (List.cons_ne_nil _ _)
        (fun x hx => hps x (List.mem_cons_of_mem _ hx))
        (fun x hx => by
          rcases List.mem_append.1 hx with h | h
          · exact hdone x h
          · rw [List.mem_singleton] at h; rw [h]; omega)
        (by simp only [List.length_append, List.length_cons, List.length_nil] at hn ⊢; omega)
      rw [List.length_append, List.length_singleton] at h
      rw [h, List.append_assoc]
      simp only [List.length_cons, List.map_cons, List.singleton_append]
      rw [show done.length + 1 + (qs.length + 1) = done.length + (qs.length + 1 + 1) by omega]

/-- A string of parameter characters and `;` that fits the table leaves the
parameter loop waiting for more. -/
theorem csi_args_pending :
    ∀ (p : List Nat) (d : Nat) (A cur : List Nat), A.length = d * 20 → d < 20 →
      cur.length ≤ 19 → (∀ c ∈ cur, c ≠ 0) →
      (∀ c ∈ p, isdigit c = true ∨ c = 63 ∨ c = 59) → csi_fits cur.length d p = true →
      csi_args p d (argv_with A cur) = some none := by
  intro p
  induction p with
  | nil => intro d A cur _ _ _ _ _ _; rfl
  | cons c rest ih =>
    intro d A cur hA hd hcl hcur hp hfit
    have hrest : ∀ x ∈ rest, isdigit x = true ∨ x = 63 ∨ x = 59 :=
      fun x hx => hp x (List.mem_cons_of_mem _ hx)
    by_cases h59 : c = 59
    · subst h59
      rw [csi_fits, if_pos rfl, Bool.and_eq_true, decide_eq_true_eq] at hfit
      rw [csi_args_close d A hA cur 59 rest (by decide) hcur (by omega) (by omega), if_pos rfl,
        argv_with_next A (stored_param cur)
          (by have := stored_param_length cur hcl; omega) (by omega)]
      exact ih (d + 1) _ [] (by
          rw [List.length_append, pad_slot_length _
            (by have := stored_param_length cur hcl; omega), hA]; omega)
        hfit.1 (by simp) (fun x hx => by cases hx) hrest hfit.2
    · have hc : isdigit c = true ∨ c = 63 := by
        rcases hp c (List.mem_cons_self _ _) with h | h | h
        · exact Or.inl h
        · exact Or.inr h
        · exact absurd h h59
      rw [csi_fits, if_neg h59, Bool.and_eq_true, decide_eq_true_eq] at hfit
      have hcc : ∀ x ∈ cur ++ [c], x ≠ 0 := by
        intro x hx
        rcases List.mem_append.1 hx with h | h
        · exact hcur x h
        · rw [List.mem_singleton] at h; rw [h]; exact param_char_ne_zero c hc
      have h1 := csi_args_param d A hA rest [c] cur
        (fun x hx => by rw [List.mem_singleton] at hx; rw [hx]; exact hc) hcur
        (by simp only [List.length_cons, List.length_nil]; omega)
      rw [List.singleton_append] at h1
      rw [h1]
      exact ih d A (cur ++ [c]) hA hd
        (by simp only [List.length_append, List.length_cons, List.length_nil]; omega) hcc hrest
        (by simpa using hfit.2)

theorem csi_fits_initial :
    ∀ (p r : List Nat) (k d : Nat), csi_fits k d (p ++ r) = true → csi_fits k d p = true := by
  intro p
  induction p with
  | nil => intro r k d _; rfl
  | cons c p ih =>
    intro r k d h
    rw [List.cons_append, csi_fits] at h
    rw [csi_fits]
    by_cases h59 : c = 59
    · rw [if_pos h59, Bool.and_eq_true] at h ⊢
      exact ⟨h.1, ih r _ _ h.2⟩
    · rw [if_neg h59, Bool.and_eq_true] at h ⊢
      exact ⟨h.1, ih r _ _ h.2⟩

theorem csi_fits_param :
    ∀ (q rest : List Nat) (k d : Nat), (∀ c ∈ q, isdigit c = true ∨ c = 63) →
      k + q.length ≤ 19 → csi_fits (k + q.length) d rest = true →
      csi_fits k d (q ++ rest) = true := by
  intro q
  induction q with
  | nil => intro rest k d _ _ h; simpa using h
  | cons c q ih =>
    intro rest k d hq hk h
    have hc : c ≠ 59 := by
      rcases hq c (List.mem_cons_self _ _) with h1 | h1
      · unfold isdigit at h1
        simp only [Bool.and_eq_true, decide_eq_true_eq] at h1
        omega
      · omega
    simp only [List.length_cons] at hk h
    rw [List.cons_append, csi_fits, if_neg hc, Bool.and_eq_true, decide_eq_true_eq]
    refine ⟨by omega, ih rest (k + 1) d (fun x hx => hq x (List.mem_cons_of_mem _ hx))
      (by omega) ?_⟩
    rw [show k + 1 + q.length = k + (q.length + 1) by omega]
    exact h

theorem csi_fits_render :
    ∀ (ps : List (List Nat)) (d : Nat),
      (∀ q ∈ ps, q.length ≤ 19 ∧ ∀ c ∈ q, isdigit c = true ∨ c = 63) → d + ps.length ≤ 20 →
      csi_fits 0 d (render_params ps) = true := by
  intro ps
  induction ps with
  | nil => intro d _ _; rfl
  | cons q ps ih =>
    intro d hps hn
    have hq := hps q (List.mem_cons_self _ _)
    cases ps with
    | nil =>
      have h := csi_fits_param q [] 0 d hq.2 (by omega) rfl
      rw [List.append_nil] at h
      exact h
    | cons q1 qs =>
      simp only [List.length_cons] at hn
      rw [render_params_cons]
      refine csi_fits_param q _ 0 d hq.2 (by omega) ?_
      rw [csi_fits, if_pos rfl, Bool.and_eq_true, decide_eq_true_eq]
      exact ⟨by omega, ih (d + 1) (fun x hx => hps x (List.mem_cons_of_mem _ hx))
        (by simp only [List.length_cons]; omega)⟩

theorem render_params_class :
    ∀ (ps : List (List Nat)), (∀ q ∈ ps, q.length ≤ 19 ∧ ∀ c ∈ q, isdigit c = true ∨ c = 63) →
      ∀ c ∈ render_params ps, isdigit c = true ∨ c = 63 ∨ c = 59 := by
  intro ps
  induction ps with
  | nil => intro _ c hc; cases hc
  | cons q ps ih =>
    intro hps c hc
    have hq := hps q (List.mem_cons_self _ _)
    cases ps with
    | nil =>
      rcases hq.2 c hc with h | h
      · exact Or.inl h
      · exact Or.inr (Or.inl h)
    | cons q1 qs =>
      rw [render_params_cons] at hc
      rcases List.mem_append.1 hc with h | h
      · rcases hq.2 c h with h1 | h1
        · exact Or.inl h1
        · exact Or.inr (Or.inl h1)
      · rcases List.mem_cons.1 h with h1 | h1
        · exact Or.inr (Or.inr h1)
        · exact ih (fun x hx => hps x (List.mem_cons_of_mem _ hx)) c h1

theorem argv_zero_eq : argv_zero = argv_with [] [] := rfl

/-- A nonempty string of parameter characters and `;` that fits the table
leaves the CSI parser waiting. -/
theorem csi_parse_pending (p : List Nat) (hne : p ≠ [])
    (hp : ∀ c ∈ p, isdigit c = true ∨ c = 63 ∨ c = 59) (hfit : csi_fits 0 0 p = true) :
    csi_parse (91 :: p) = some none := by
  cases p with
  | nil => exact absurd rfl hne
  | cons c rest =>
    rw [csi_parse, if_pos (hp c (List.mem_cons_self _ _)), argv_zero_eq,
      csi_args_pending (c :: rest) 0 [] [] rfl (by decide) (by decide)
        (fun x hx => by cases hx) hp hfit]
    rfl

/-- The CSI parser on the parameters `ps` and a final character `f`. -/
theorem csi_parse_params (ps : List (List Nat)) (f : Nat)
    (hps : ∀ q ∈ ps, q.length ≤ 19 ∧ ∀ c ∈ q, isdigit c = true ∨ c = 63)
    (hn : ps.length ≤ 20) (hne : render_params ps ≠ [])
    (hf : ¬ (isdigit f = true ∨ f = 63 ∨ f = 59)) :
    csi_parse (91 :: (render_params ps ++ [f])) =
      some (some (ps.length, argv_layout (ps.map stored_param), f)) := by
  have hps0 : ps ≠ [] := by
    intro h; rw [h] at hne; exact hne rfl
  have hrun := csi_args_params f [] (fun h => hf (h.elim Or.inl (fun h => Or.inr (Or.inl h))))
    (fun h => hf (Or.inr (Or.inr h))) ps [] hps0 hps (fun q hq => by cases hq)
    (by simpa using hn)
  have hcl := render_params_class ps hps
  cases hr : render_params ps with
  | nil => exact absurd hr hne
  | cons c rest =>
    rw [hr] at hrun hcl
    rw [List.cons_append, csi_parse, if_pos (hcl c (List.mem_cons_self _ _))]
    rw [List.cons_append] at hrun
    rw [show argv_zero = argv_layout [] from rfl]
    rw [show (([] : List (List Nat)).length) = 0 from rfl] at hrun
    rw [hrun]
    simp

theorem argv_str_layout_mid (pre post : List (List Nat)) (q : List Nat)
    (hpre : ∀ x ∈ pre, x.length ≤ 20) (hq : q.length ≤ 19) (hz : ∀ c ∈ q, c ≠ 0) :
    argv_str (argv_layout (pre ++ q :: post)) pre.length = some q := by
  have hA := slots_length pre hpre
  obtain ⟨k, hk⟩ : ∃ k, 20 - q.length = k + 1 := ⟨20 - q.length - 1, by omega⟩
  unfold argv_str argv_layout argv_with
  rw [← hA, List.map_append, List.flatten_append, List.map_cons, List.flatten_cons]
  unfold pad_slot
  rw [hk, replicate_succ_zero]
  simp only [List.append_assoc, List.cons_append]
  exact cstr_at _ _ _ hz

/-- The slots of the table hold the strings. -/
theorem argv_str_layout (qs : List (List Nat)) (i : Nat) (hi : i < qs.length)
    (hq : ∀ q ∈ qs, q.length ≤ 19 ∧ ∀ c ∈ q, c ≠ 0) :
    argv_str (argv_layout qs) i = some qs[i] := by
  have hsplit : qs.take i ++ qs[i] :: qs.drop (i + 1) = qs := by
    rw [← List.drop_eq_getElem_cons hi, List.take_append_drop]
  have hqi := hq qs[i] (List.getElem_mem _)
  have h := argv_str_layout_mid (qs.take i) (qs.drop (i + 1)) qs[i]
    (fun q hq1 => by have := (hq q (List.mem_of_mem_take hq1)).1; omega) hqi.1 hqi.2
  rw [hsplit, List.length_take, Nat.min_eq_left (by omega)] at h
  exact h

theorem stored_param_ne_zero (q : List Nat) (h : ∀ c ∈ q, isdigit c = true ∨ c = 63) :
    ∀ c ∈ stored_param q, c ≠ 0 := by
  intro c hc
  unfold stored_param at hc
  split at hc
  · rw [List.mem_singleton] at hc; omega
  · exact param_char_ne_zero c (h c hc)

/-- A complete CSI sequence with the parameters `ps` and the final byte `f`,
from any state: the sequence is dispatched with `argc` the number of
parameters and a table that holds them, in a state that differs from `s` in
the escape buffer only, and ended. -/
theorem feed_params (env : host) (s : vim_shell_window) (ps : List (List Nat))
    (f : Nat) (he : s.esc_sequence.length = 50)
    (hps : ∀ q ∈ ps, q.length ≤ 19 ∧ ∀ c ∈ q, isdigit c = true ∨ c = 63)
    (hn : ps.length ≤ 20) (hne : render_params ps ≠ [])
    (hlen : (render_params ps).length ≤ 45) (hf31 : ¬ f ≤ 31)
    (hf : ¬ (isdigit f = true ∨ f = 63 ∨ f = 59)) :
    ∃ E, E.length = 50 ∧
      vim_shell_terminal_input env s (27 :: 91 :: (render_params ps ++ [f])) =
        (csi_dispatch env (with_esc s ((render_params ps).length + 3) E) f ps.length
          (argv_layout (ps.map stored_param))).bind (end_of_sequence env) := by
  have hcl := render_params_class ps hps
  have hfit := csi_fits_render ps 0 hps (by omega)
  refine feed_csi env s (render_params ps) f ps.length _ he hlen
    (fun b hb => param_char_printable b (hcl b hb)) hf31 ?_
    (csi_parse_params ps f hps hn hne hf)
  intro p hpne hpre
  obtain ⟨r, hr⟩ := hpre
  refine csi_parse_pending p hpne (fun c hc => hcl c ?_) (csi_fits_initial p r 0 0 ?_)
  · rw [← hr]; exact List.mem_append_left _ hc
  · rw [hr]; exact hfit

theorem strtol_stored_param (q : List Nat) : strtol (stored_param q) = strtol q := by
  unfold stored_param
  split
  · next h => rw [h]; decide
  · rfl

/-- The value of parameter `i` in the table. -/
theorem argv_int_layout (ps : List (List Nat)) (i : Nat) (hi : i < ps.length)
    (hps : ∀ q ∈ ps, q.length ≤ 19 ∧ ∀ c ∈ q, isdigit c = true ∨ c = 63) :
    argv_int (argv_layout (ps.map stored_param)) i = some (strtol ps[i]) := by
  unfold argv_int
  rw [argv_str_layout (ps.map stored_param) i (by rw [List.length_map]; exact hi)
    (fun q hq => by
      obtain ⟨q0, hq0, rfl⟩ := List.mem_map.1 hq
      exact ⟨stored_param_length q0 (hps q0 hq0).1, stored_param_ne_zero q0 (hps q0 hq0).2⟩),
    Option.map_some', List.getElem_map, strtol_stored_param]

/-- The state in which a sequence ends: the state it was dispatched to, with
the parser back in NORMAL state and the output queue as the flush leaves it. -/
theorem end_of_sequence_shape (env : host) (X s1 : vim_shell_window)
    (h : end_of_sequence env X = some s1) :
    ∃ ob op, s1 = { X with in_esc_sequence := 0, outbuf := ob, outbuf_pos := op } := by
  unfold end_of_sequence at h
  unfold terminal_flush_output write_result at h
  dsimp only at h
  by_cases h1 : X.outbuf_pos > 0
  · rw [if_pos h1] at h
    by_cases h2 : X.outbuf_pos > X.outbuf.length
    · rw [if_pos h2] at h; cases h
    · rw [if_neg h2] at h
      by_cases h3 : max (-1) (min (env.write (X.outbuf.take X.outbuf_pos)) (X.outbuf_pos : Int)) < 0
      · rw [if_pos h3] at h; cases h; exact ⟨_, _, rfl⟩
      · rw [if_neg h3] at h
        by_cases h4 : (X.outbuf_pos : Int) ≠
            max (-1) (min (env.write (X.outbuf.take X.outbuf_pos)) (X.outbuf_pos : Int))
        · rw [if_pos h4] at h
          generalize memmove X.outbuf 0
            (max (-1) (min (env.write (X.outbuf.take X.outbuf_pos)) (X.outbuf_pos : Int)))
            (max (-1) (min (env.write (X.outbuf.take X.outbuf_pos)) (X.outbuf_pos : Int))) = om at h
          cases om with
          | none => cases h
          | some ob => cases h; exact ⟨_, _, rfl⟩
        · rw [if_neg h4] at h; cases h; exact ⟨_, _, rfl⟩
  · rw [if_neg h1] at h; cases h; exact ⟨X.outbuf, X.outbuf_pos, rfl⟩

/-! ## Sequences with one and with two numeric parameters -/

theorem digits_are_params (d : List Nat) (hd : ∀ c ∈ d, isdigit c = true) :
    ∀ c ∈ d, isdigit c = true ∨ c = 63 :=
  fun c hc => Or.inl (hd c hc)

/-- `CSI d f` for a string `d` of 1 to 19 digits, from any state. -/
theorem feed_one_param (env : host) (s : vim_shell_window) (d : List Nat) (f : Nat)
    (he : s.esc_sequence.length = 50) (hd : ∀ c ∈ d, isdigit c = true) (hd1 : d ≠ [])
    (hd19 : d.length ≤ 19) (hf31 : ¬ f ≤ 31) (hf : ¬ (isdigit f = true ∨ f = 63 ∨ f = 59)) :
    ∃ n E argv, E.length = 50 ∧ argv_int argv 0 = some (strtol d) ∧
      vim_shell_terminal_input env s (27 :: 91 :: (d ++ [f])) =
        (csi_dispatch env (with_esc s n E) f 1 argv).bind (end_of_sequence env) := by
  have hps : ∀ q ∈ [d], q.length ≤ 19 ∧ ∀ c ∈ q, isdigit c = true ∨ c = 63 := by
    intro q hq
    rw [List.mem_singleton] at hq; rw [hq]; exact ⟨hd19, digits_are_params d hd⟩
  obtain ⟨E, hE, hrun⟩ := feed_params env s [d] f he hps (show (1 : Nat) ≤ 20 by decide) hd1
    (by show d.length ≤ 45; omega) hf31 hf
  exact ⟨_, E, _, hE, argv_int_layout [d] 0 (by simp) hps, hrun⟩

/-- `CSI d1 ; d2 f` for two strings of at most 19 digits, from any state. -/
theorem feed_two_params (env : host) (s : vim_shell_window) (d1 d2 : List Nat)
    (f : Nat) (he : s.esc_sequence.length = 50) (hd1 : ∀ c ∈ d1, isdigit c = true)
    (hd2 : ∀ c ∈ d2, isdigit c = true) (h1 : d1.length ≤ 19) (h2 : d2.length ≤ 19)
    (hf31 : ¬ f ≤ 31) (hf : ¬ (isdigit f = true ∨ f = 63 ∨ f = 59)) :
    ∃ n E argv, E.length = 50 ∧ argv_int argv 0 = some (strtol d1) ∧
      argv_int argv 1 = some (strtol d2) ∧
      vim_shell_terminal_input env s (27 :: 91 :: (d1 ++ 59 :: (d2 ++ [f]))) =
        (csi_dispatch env (with_esc s n E) f 2 argv).bind (end_of_sequence env) := by
  have hps : ∀ q ∈ [d1, d2], q.length ≤ 19 ∧ ∀ c ∈ q, isdigit c = true ∨ c = 63 := by
    intro q hq
    rcases List.mem_cons.1 hq with h | h
    · rw [h]; exact ⟨h1, digits_are_params d1 hd1⟩
    · rw [List.mem_singleton] at h; rw [h]; exact ⟨h2, digits_are_params d2 hd2⟩
  have hr : render_params [d1, d2] = d1 ++ 59 :: d2 := rfl
  obtain ⟨E, hE, hrun⟩ := feed_params env s [d1, d2] f he hps (show (2 : Nat) ≤ 20 by decide)
    (by rw [hr]; simp)
    (by rw [hr]; simp only [List.length_append, List.length_cons]; omega) hf31 hf
  rw [hr, List.append_assoc, List.cons_append] at hrun
  exact ⟨_, E, _, hE, argv_int_layout [d1, d2] 0 (by simp) hps,
    argv_int_layout [d1, d2] 1 (by simp) hps, hrun⟩

/-! ## C13, C14: cursor position -/

theorem dispatch_CUP {env : host} (s : vim_shell_window) (f argc : Nat) (argv : List Nat)
    (hf : f = 72 ∨ f = 102) : csi_dispatch env s f argc argv = terminal_CUP s argc argv := by
  unfold csi_dispatch
  rw [if_pos (hf.elim Or.inr Or.inl)]

/-- C14, what `CSI n H` does with a single parameter (a string of 1 to 19
digits), fed in any state whose output queue can be flushed: it changes
neither the cursor nor any other member but those of the parser and of the
output queue. `terminal_CUP` handles no parameter and two parameters and
returns on one, although its comment gives the parameters the default value
1 and `CSI n ; H`, with the second parameter empty, moves to row `n`. -/
theorem C14_single_parameter_is_ignored (env : host) (s : vim_shell_window)
    (d : List Nat) (he : s.esc_sequence.length = 50)
    (hflush : terminal_flush_output env s ≠ none) (hd : ∀ c ∈ d, isdigit c = true)
    (hd1 : d ≠ []) (hd19 : d.length ≤ 19) :
    ∃ s1, vim_shell_terminal_input env s (27 :: 91 :: (d ++ [72])) = some s1 ∧
      s1.cursor_x = s.cursor_x ∧ s1.cursor_y = s.cursor_y ∧
      screen_part s1 = screen_part s ∧ s1.in_esc_sequence = 0 := by
  obtain ⟨E, _, hrun⟩ := feed_params env s [d] 72 he
    (fun q hq => by
      rw [List.mem_singleton] at hq; rw [hq]; exact ⟨hd19, digits_are_params d hd⟩)
    (show (1 : Nat) ≤ 20 by decide) hd1 (by show d.length ≤ 45; omega) (by decide) (by decide)
  have hrun1 : vim_shell_terminal_input env s (27 :: 91 :: (d ++ [72])) =
      (csi_dispatch env (with_esc s (d.length + 3) E) 72 1 (argv_layout [stored_param d])).bind
        (end_of_sequence env) := hrun
  have hcup : csi_dispatch env (with_esc s (d.length + 3) E) 72 1 (argv_layout [stored_param d]) =
      some (with_esc s (d.length + 3) E) := by
    rw [dispatch_CUP _ _ _ _ (Or.inl rfl)]
    unfold terminal_CUP
    rw [if_neg (show ¬ (1 : Nat) = 0 by decide), if_neg (show ¬ (1 : Nat) = 2 by decide)]
  obtain ⟨ob, op, hend⟩ := end_of_sequence_defined env s (with_esc s (d.length + 3) E) rfl rfl
    hflush
  rw [hcup, Option.some_bind, hend] at hrun1
  exact ⟨_, hrun1, rfl, rfl, rfl, rfl⟩

/-- C14 at concrete inputs, on a fresh 80x24 terminal after `A`, `B` (cursor
at row 0, column 2): `ESC [ 5 H` leaves the cursor at row 0, column 2, not at
row 4, column 0; `ESC [ 5 ; H` moves it to row 4, column 0. -/
theorem C14_single_parameter_is_ignored_witness :
    (∃ s1, vim_shell_terminal_input pty_accepts
        (state_after pty_accepts (vim_shell_new 80 24) two_glyphs) [27, 91, 53, 72] = some s1 ∧
      s1.cursor_x = 2 ∧ s1.cursor_y = 0) ∧
    (vim_shell_terminal_input pty_accepts (vim_shell_new 80 24)
        (two_glyphs ++ [27, 91, 53, 72])).map
      (fun s => (s.cursor_y, s.cursor_x)) = some (0, 2) ∧
    (vim_shell_terminal_input pty_accepts (vim_shell_new 80 24)
        (two_glyphs ++ [27, 91, 53, 59, 72])).map
      (fun s => (s.cursor_y, s.cursor_x)) = some (4, 0) := by
  obtain ⟨s1, h, hx, hy, _⟩ := C14_single_parameter_is_ignored pty_accepts
    (state_after pty_accepts (vim_shell_new 80 24) two_glyphs) [53] (by decide!) (by decide!)
    (by decide) (by decide) (by decide)
  exact ⟨⟨s1, h, hx.trans (by decide!), hy.trans (by decide!)⟩, by decide!, by decide!⟩

/-- The coordinate that `terminal_CUP` stores for a parameter `p`: the value
is stored into a `uint16_t` before it is compared with the size. -/
theorem u16_mod (n : Nat) : u16 (n : Int) = n % 65536 := by
  unfold u16; omega

theorem cup_value (p W : Nat) (hp : p < 2147483648) (hW1 : 1 ≤ W) (hW : W < 65536) :
    cup_clamp (u16 ((if int32 (p : Int) = 0 then 1 else int32 (p : Int)) - 1)) W =
      min ((max p 1 - 1) % 65536) (W - 1) := by
  have e1 : (if int32 (p : Int) = 0 then 1 else int32 (p : Int)) - 1 =
      ((max p 1 - 1 : Nat) : Int) := by
    rw [int32_of_small (p : Int) (by omega) (by omega)]
    rcases Nat.eq_zero_or_pos p with h | h
    · subst h; rfl
    · rw [if_neg (by omega), Nat.max_eq_left h]; omega
  have e2 : u16 ((W : Int) - 1) = W - 1 := by
    unfold u16; omega
  rw [e1, u16_mod]
  unfold cup_clamp
  rw [e2]
  generalize (max p 1 - 1) % 65536 = m
  split
  · rw [Nat.min_eq_right (by omega)]
  · rw [Nat.min_eq_left (by omega)]

/-- C13, what `CSI p1 ; p2 H` (or `f`) does for parameters below `2^31`, from
any state whose output queue can be flushed: the five cell arrays are
unchanged, and the cursor goes to row `min((max(p1,1)-1) mod 65536, H-1)`,
column `min((max(p2,1)-1) mod 65536, W-1)`. The value is reduced modulo `2^16`
by the store into the `uint16_t` member before it is clamped: up to 65536 the
result is the `min(max(p,1),size)-1` of the claim, from 65537 on it is not. -/
theorem C13_cursor_position_wraps (env : host) (s : vim_shell_window)
    (d1 d2 : List Nat) (p1 p2 f : Nat) (he : s.esc_sequence.length = 50)
    (hflush : terminal_flush_output env s ≠ none)
    (hW : 1 ≤ s.size_x ∧ s.size_x < 65536) (hH : 1 ≤ s.size_y ∧ s.size_y < 65536)
    (hd1 : ∀ c ∈ d1, isdigit c = true) (hd2 : ∀ c ∈ d2, isdigit c = true)
    (h1 : d1.length ≤ 19) (h2 : d2.length ≤ 19)
    (hp1 : strtol d1 = (p1 : Int)) (hp2 : strtol d2 = (p2 : Int))
    (hb1 : p1 < 2147483648) (hb2 : p2 < 2147483648) (hf : f = 72 ∨ f = 102) :
    ∃ s1, vim_shell_terminal_input env s (27 :: 91 :: (d1 ++ 59 :: (d2 ++ [f]))) = some s1 ∧
      s1.cursor_y = min ((max p1 1 - 1) % 65536) (s.size_y - 1) ∧
      s1.cursor_x = min ((max p2 1 - 1) % 65536) (s.size_x - 1) ∧
      s1.winbuf = s.winbuf ∧ s1.fgbuf = s.fgbuf ∧ s1.bgbuf = s.bgbuf ∧
      s1.rendbuf = s.rendbuf ∧ s1.charset = s.charset := by
  obtain ⟨n, E, argv, _, ha0, ha1, hrun⟩ := feed_two_params env s d1 d2 f he hd1 hd2 h1 h2
    (by rcases hf with h | h <;> omega)
    (by rcases hf with h | h <;> (subst h; decide))
  have hcup : csi_dispatch env (with_esc s n E) f 2 argv = some { with_esc s n E with
      cursor_x := min ((max p2 1 - 1) % 65536) (s.size_x - 1)
      cursor_y := min ((max p1 1 - 1) % 65536) (s.size_y - 1) } := by
    rw [dispatch_CUP _ _ _ _ hf]
    unfold terminal_CUP
    rw [if_neg (show ¬ (2 : Nat) = 0 by decide), if_pos rfl, ha0, ha1, Option.some_bind,
      Option.some_bind, hp1, hp2]
    show some { with_esc s n E with
      cursor_x := cup_clamp (u16 ((if int32 (p2 : Int) = 0 then 1 else int32 (p2 : Int)) - 1))
        s.size_x
      cursor_y := cup_clamp (u16 ((if int32 (p1 : Int) = 0 then 1 else int32 (p1 : Int)) - 1))
        s.size_y } = _
    rw [cup_value p2 s.size_x hb2 hW.1 hW.2, cup_value p1 s.size_y hb1 hH.1 hH.2]
  obtain ⟨ob, op, hend⟩ := end_of_sequence_defined env s { with_esc s n E with
      cursor_x := min ((max p2 1 - 1) % 65536) (s.size_x - 1)
      cursor_y := min ((max p1 1 - 1) % 65536) (s.size_y - 1) } rfl rfl hflush
  rw [hcup, Option.some_bind, hend] at hrun
  exact ⟨_, hrun, rfl, rfl, rfl, rfl, rfl, rfl, rfl⟩

/-- C13 at the failing input: on a fresh 80x24 terminal `ESC [ 6 5 5 3 7 ; 1 H`
puts the cursor on row 0, where the claim has row `min(65537, 24) - 1 = 23`.
The scenario of the claim holds: after `A`, `ESC [ 1 ; 1 H`, `B` cell (0,0)
holds `B`, cell (0,1) is blank and the cursor is at row 0, column 1. -/
theorem C13_cursor_position_wraps_witness :
    (∃ s1, vim_shell_terminal_input pty_accepts (vim_shell_new 80 24)
        [27, 91, 54, 53, 53, 51, 55, 59, 49, 72] = some s1 ∧
      s1.cursor_y = 0 ∧ s1.cursor_x = 0) ∧
    (vim_shell_terminal_input pty_accepts (vim_shell_new 80 24)
        [65, 27, 91, 49, 59, 49, 72, 66]).map
      (fun s => (s.cursor_y, s.cursor_x, s.winbuf[0]?, s.winbuf[1]?)) =
      some (0, 1, some 66, some 32) := by
  obtain ⟨s1, h, hy, hx, _⟩ := C13_cursor_position_wraps pty_accepts (vim_shell_new 80 24)
    [54, 53, 53, 51, 55] [49] 65537 1 72 (by decide!) (by decide!) (by decide!) (by decide!)
    (by decide) (by decide) (by decide) (by decide) (by decide!) (by decide!) (by decide)
    (by decide) (Or.inl rfl)
  exact ⟨⟨s1, h, hy.trans (by decide!), hx.trans (by decide!)⟩, by decide!⟩

/-! ## C16, C17: the scroll region -/

theorem dispatch_DECSTBM {env : host} (s : vim_shell_window) (argc : Nat) (argv : List Nat) :
    csi_dispatch env s 114 argc argv = terminal_DECSTBM s argc argv := by
  unfold csi_dispatch
  rw [if_neg (by decide), if_neg (by decide), if_neg (by decide), if_neg (by decide),
    if_neg (by decide), if_neg (by decide), if_neg (by decide), if_pos rfl]

theorem u8_pred (p : Nat) (hp : 1 ≤ p) : u8 ((p : Int) - 1) = (p - 1) % 256 := by
  unfold u8; omega

/-- C16, what `CSI p1 ; p2 r` does for parameters `p1, p2 ≥ 1` whose margins
`(p1-1) mod 256 < (p2-1) mod 256` pass the test of `terminal_DECSTBM`, from any
state whose output queue can be flushed: `scroll_top_margin = (p1-1) mod 256`,
`scroll_bottom_margin = (p2-1) mod 256`, and the cursor goes to (0,0). The
margins are `uint8_t` members: for `p2 ≤ 256` they are the `p1-1`, `p2-1` of
the claim, and on a terminal of more than 256 rows a parameter `p2` in
`257 .. H` gives another bottom margin. -/
theorem C16_margins_are_stored_modulo_256 (env : host) (s : vim_shell_window)
    (d1 d2 : List Nat) (p1 p2 : Nat) (he : s.esc_sequence.length = 50)
    (hflush : terminal_flush_output env s ≠ none)
    (hd1 : ∀ c ∈ d1, isdigit c = true) (hd2 : ∀ c ∈ d2, isdigit c = true)
    (h1 : d1.length ≤ 19) (h2 : d2.length ≤ 19)
    (hp1 : strtol d1 = (p1 : Int)) (hp2 : strtol d2 = (p2 : Int))
    (hb1 : 1 ≤ p1) (hb2 : 1 ≤ p2) (hlt : (p1 - 1) % 256 < (p2 - 1) % 256) :
    ∃ s1, vim_shell_terminal_input env s (27 :: 91 :: (d1 ++ 59 :: (d2 ++ [114]))) = some s1 ∧
      s1.scroll_top_margin = (p1 - 1) % 256 ∧ s1.scroll_bottom_margin = (p2 - 1) % 256 ∧
      s1.cursor_x = 0 ∧ s1.cursor_y = 0 := by
  obtain ⟨n, E, argv, _, ha0, ha1, hrun⟩ := feed_two_params env s d1 d2 114 he hd1 hd2 h1 h2
    (by decide) (by decide)
  have hstbm : csi_dispatch env (with_esc s n E) 114 2 argv = some { with_esc s n E with
      scroll_top_margin := (p1 - 1) % 256
      scroll_bottom_margin := (p2 - 1) % 256
      cursor_x := 0
      cursor_y := 0 } := by
    rw [dispatch_DECSTBM]
    unfold terminal_DECSTBM
    rw [if_neg (by decide), ha0, ha1, Option.some_bind, Option.some_bind, hp1, hp2,
      u8_pred p1 hb1, u8_pred p2 hb2, if_neg (by omega)]
    rfl
  obtain ⟨ob, op, hend⟩ := end_of_sequence_defined env s { with_esc s n E with
      scroll_top_margin := (p1 - 1) % 256
      scroll_bottom_margin := (p2 - 1) % 256
      cursor_x := 0
      cursor_y := 0 } rfl rfl hflush
  rw [hstbm, Option.some_bind, hend] at hrun
  exact ⟨_, hrun, rfl, rfl, rfl, rfl⟩

/-- C16 at the failing input: on a fresh terminal of 1 column and 300 rows,
`ESC [ 1 ; 2 5 8 r` gives the margins 0 and 1, where the claim has 0 and 257.
The scenario of the claim holds: on a fresh 80x24 terminal with the cursor
moved to row 5, `ESC [ 2 ; 5 r`, `ESC [ H` gives the margins 1 and 4 and the
cursor at (0,0). -/
theorem C16_margins_are_stored_modulo_256_witness :
    (∃ s1, vim_shell_terminal_input pty_accepts (vim_shell_new 1 300)
        [27, 91, 49, 59, 50, 53, 56, 114] = some s1 ∧
      s1.scroll_top_margin = 0 ∧ s1.scroll_bottom_margin = 1) ∧
    (vim_shell_terminal_input pty_accepts (vim_shell_new 80 24)
        [27, 91, 54, 59, 49, 72]).map (fun s => (s.cursor_y, s.cursor_x)) = some (5, 0) ∧
    (vim_shell_terminal_input pty_accepts (vim_shell_new 80 24)
        [27, 91, 54, 59, 49, 72, 27, 91, 50, 59, 53, 114, 27, 91, 72]).map
      (fun s => (s.scroll_top_margin, s.scroll_bottom_margin, s.cursor_y, s.cursor_x)) =
      some (1, 4, 0, 0) := by
  obtain ⟨s1, h, ht, hb, _⟩ := C16_margins_are_stored_modulo_256 pty_accepts
    (vim_shell_new 1 300) [49] [50, 53, 56] 1 258 (by decide!) (by decide!) (by decide)
    (by decide) (by decide) (by decide) (by decide!) (by decide!) (by decide) (by decide)
    (by decide)
  exact ⟨⟨s1, h, ht, hb⟩, by decide!, by decide!⟩

/-- C17, what `CSI p1 ; p2 r` does for two parameters of at most 19 digits
each, of any value, from any state whose output queue can be flushed.
`terminal_DECSTBM` stores `p1-1` and `p2-1` in the `uint8_t` margins (`u8`)
and tests the stored values. When the stored top is not below the stored
bottom, the margins are reset to 0 and to `size_y - 1` as a `uint8_t`, and the
function returns before the move to the home position: the cursor stays where
it is. Otherwise the stored values are the margins and the cursor goes to
(0,0). -/
theorem C17_invalid_region_returns_before_home (env : host) (s : vim_shell_window)
    (d1 d2 : List Nat) (he : s.esc_sequence.length = 50)
    (hflush : terminal_flush_output env s ≠ none)
    (hd1 : ∀ c ∈ d1, isdigit c = true) (hd2 : ∀ c ∈ d2, isdigit c = true)
    (h1 : d1.length ≤ 19) (h2 : d2.length ≤ 19) :
    ∃ s1, vim_shell_terminal_input env s (27 :: 91 :: (d1 ++ 59 :: (d2 ++ [114]))) = some s1 ∧
      (u8 (strtol d1 - 1) ≥ u8 (strtol d2 - 1) →
        s1.scroll_top_margin = 0 ∧ s1.scroll_bottom_margin = u8 ((s.size_y : Int) - 1) ∧
        s1.cursor_x = s.cursor_x ∧ s1.cursor_y = s.cursor_y) ∧
      (u8 (strtol d1 - 1) < u8 (strtol d2 - 1) →
        s1.scroll_top_margin = u8 (strtol d1 - 1) ∧
        s1.scroll_bottom_margin = u8 (strtol d2 - 1) ∧
        s1.cursor_x = 0 ∧ s1.cursor_y = 0) := by
  obtain ⟨n, E, argv, _, ha0, ha1, hrun⟩ := feed_two_params env s d1 d2 114 he hd1 hd2 h1 h2
    (by decide) (by decide)
  by_cases hc : u8 (strtol d1 - 1) ≥ u8 (strtol d2 - 1)
  · have hstbm : csi_dispatch env (with_esc s n E) 114 2 argv = some { with_esc s n E with
        scroll_top_margin := 0
        scroll_bottom_margin := u8 ((s.size_y : Int) - 1) } := by
      rw [dispatch_DECSTBM]
      unfold terminal_DECSTBM
      rw [if_neg (by decide), ha0, ha1, Option.some_bind, Option.some_bind, if_pos hc]
      rfl
    obtain ⟨ob, op, hend⟩ := end_of_sequence_defined env s { with_esc s n E with
        scroll_top_margin := 0
        scroll_bottom_margin := u8 ((s.size_y : Int) - 1) } rfl rfl hflush
    rw [hstbm, Option.some_bind, hend] at hrun
    exact ⟨_, hrun, fun _ => ⟨rfl, rfl, rfl, rfl⟩, fun h => absurd hc (Nat.not_le.2 h)⟩
  · have hstbm : csi_dispatch env (with_esc s n E) 114 2 argv = some { with_esc s n E with
        scroll_top_margin := u8 (strtol d1 - 1)
        scroll_bottom_margin := u8 (strtol d2 - 1)
        cursor_x := 0
        cursor_y := 0 } := by
      rw [dispatch_DECSTBM]
      unfold terminal_DECSTBM
      rw [if_neg (by decide), ha0, ha1, Option.some_bind, Option.some_bind, if_neg hc]
      rfl
    obtain ⟨ob, op, hend⟩ := end_of_sequence_defined env s { with_esc s n E with
        scroll_top_margin := u8 (strtol d1 - 1)
        scroll_bottom_margin := u8 (strtol d2 - 1)
        cursor_x := 0
        cursor_y := 0 } rfl rfl hflush
    rw [hstbm, Option.some_bind, hend] at hrun
    exact ⟨_, hrun, fun h => absurd h hc, fun _ => ⟨rfl, rfl, rfl, rfl⟩⟩

/-- C17 at concrete inputs, on a fresh 80x24 terminal after `A`, `B` (cursor at
row 0, column 2). `ESC [ 5 ; 3 r` resets the margins to 0 and 23 and leaves
the cursor at row 0, column 2, not at (0,0). `ESC [ 5 ; 0 r`, for which
`p1-1 = 4 ≥ p2-1 = -1`, is taken as the region of rows 4 to 255 and homes the
cursor: `-1` is 255 in the `uint8_t`. -/
theorem C17_invalid_region_returns_before_home_witness :
    (∃ s1, vim_shell_terminal_input pty_accepts
        (state_after pty_accepts (vim_shell_new 80 24) two_glyphs)
        (27 :: 91 :: ([53] ++ 59 :: ([51] ++ [114]))) = some s1 ∧
      s1.scroll_top_margin = 0 ∧
      s1.scroll_bottom_margin =
        u8 (((state_after pty_accepts (vim_shell_new 80 24) two_glyphs).size_y : Int) - 1) ∧
      s1.cursor_x = (state_after pty_accepts (vim_shell_new 80 24) two_glyphs).cursor_x ∧
      s1.cursor_y = (state_after pty_accepts (vim_shell_new 80 24) two_glyphs).cursor_y) ∧
    (vim_shell_terminal_input pty_accepts (vim_shell_new 80 24)
        (two_glyphs ++ [27, 91, 53, 59, 51, 114])).map
      (fun s => (s.scroll_top_margin, s.scroll_bottom_margin, s.cursor_y, s.cursor_x)) =
      some (0, 23, 0, 2) ∧
    (vim_shell_terminal_input pty_accepts (vim_shell_new 80 24)
        (two_glyphs ++ [27, 91, 53, 59, 48, 114])).map
      (fun s => (s.scroll_top_margin, s.scroll_bottom_margin, s.cursor_y, s.cursor_x)) =
      some (4, 255, 0, 0) := by
  obtain ⟨s1, h, hrej, _⟩ := C17_invalid_region_returns_before_home pty_accepts
    (state_after pty_accepts (vim_shell_new 80 24) two_glyphs) [53] [51] (by decide!)
    (by decide!) (by decide) (by decide) (by decide) (by decide)
  exact ⟨⟨s1, h, hrej (by decide!)⟩, by decide!, by decide!⟩
/-! ## C15: select graphic rendition -/

theorem dispatch_SGR {env : host} (s : vim_shell_window) (argc : Nat) (argv : List Nat) :
    csi_dispatch env s 109 argc argv = terminal_SGR s argc argv := by
  unfold csi_dispatch
  rw [if_neg (by decide), if_neg (by decide), if_neg (by decide), if_neg (by decide),
    if_neg (by decide), if_neg (by decide), if_pos rfl]

/-- One round of the `switch` of `terminal_SGR` is the rule of SGR. -/
theorem sgr_val_eq (s : vim_shell_window) (a : Nat × Nat × Nat) (v : Int) :
    terminal_SGR_val (with_sgr s a) v = with_sgr s (sgr_rule a v) := by
  have hu30 : 30 ≤ v → v ≤ 37 → u8 (v - 30) = (v - 30).toNat := by
    intro h1 h2; unfold u8; omega
  have hu40 : 40 ≤ v → v ≤ 47 → u8 (v - 40) = (v - 40).toNat := by
    intro h1 h2; unfold u8; omega
  unfold terminal_SGR_val sgr_rule
  by_cases h0 : v = 0
  · rw [if_pos h0, if_pos h0]; rfl
  rw [if_neg h0, if_neg h0]
  by_cases h1 : v = 1
  · rw [if_pos h1, if_pos h1]; rfl
  rw [if_neg h1, if_neg h1]
  by_cases h2 : v = 2
  · rw [if_pos h2, if_pos h2]; rfl
  rw [if_neg h2, if_neg h2]
  by_cases h4 : v = 4
  · rw [if_pos h4, if_pos h4]; rfl
  rw [if_neg h4, if_neg h4]
  by_cases h5 : v = 5
  · rw [if_pos h5, if_pos h5]; rfl
  rw [if_neg h5, if_neg h5]
  by_cases h7 : v = 7
  · rw [if_pos h7, if_pos h7]; rfl
  rw [if_neg h7, if_neg h7]
  by_cases h8 : v = 8
  · rw [if_pos h8, if_pos h8]; rfl
  rw [if_neg h8, if_neg h8]
  by_cases h22 : v = 22
  · rw [if_pos h22, if_pos h22]; rfl
  rw [if_neg h22, if_neg h22]
  by_cases h24 : v = 24
  · rw [if_pos h24, if_pos h24]; rfl
  rw [if_neg h24, if_neg h24]
  by_cases h25 : v = 25
  · rw [if_pos h25, if_pos h25]; rfl
  rw [if_neg h25, if_neg h25]
  by_cases h27 : v = 27
  · rw [if_pos h27, if_pos h27]; rfl
  rw [if_neg h27, if_neg h27]
  by_cases h30 : 30 ≤ v ∧ v ≤ 37
  · rw [if_pos h30, if_pos h30, hu30 h30.1 h30.2]; rfl
  rw [if_neg h30, if_neg h30]
  by_cases h40 : 40 ≤ v ∧ v ≤ 47
  · rw [if_pos h40, if_pos h40, hu40 h40.1 h40.2]; rfl
  rw [if_neg h40, if_neg h40]
  by_cases h39 : v = 39
  · rw [if_pos h39, if_pos h39]; rfl
  rw [if_neg h39, if_neg h39]
  by_cases h49 : v = 49
  · rw [if_pos h49, if_pos h49]; rfl
  rw [if_neg h49, if_neg h49]

/-- The loop of `terminal_SGR` over a table whose slots hold the values `vs`:
each value is stored into an `int` and the rule applied to what the `int`
holds. -/
theorem sgr_loop_eq (argv : List Nat) (s : vim_shell_window) :
    ∀ (vs : List Int) (i : Nat) (a : Nat × Nat × Nat),
      (∀ j (h : j < vs.length), argv_int argv (i + j) = some vs[j]) →
      terminal_SGR_loop argv vs.length i (with_sgr s a) =
        some (with_sgr s (vs.foldl (fun b v => sgr_rule b (int32 v)) a)) := by
  intro vs
  induction vs with
  | nil => intro i a _; rfl
  | cons v vs ih =>
    intro i a hv
    have h0 := hv 0 (by simp)
    rw [Nat.add_zero] at h0
    rw [List.length_cons, terminal_SGR_loop, h0, Option.some_bind]
    show terminal_SGR_loop argv vs.length (i + 1) (terminal_SGR_val (with_sgr s a) (int32 v)) = _
    rw [sgr_val_eq,
      ih (i + 1) (sgr_rule a (int32 v)) (fun j h => by
        have := hv (j + 1) (by simp only [List.length_cons]; omega)
        rw [show i + 1 + j = i + (j + 1) by omega]
        exact this)]
    rfl

theorem strtol_nonneg (d : List Nat) : 0 ≤ strtol d := by
  unfold strtol; omega

theorem render_params_nil (ds : List (List Nat)) (hne : ds ≠ [])
    (hr : render_params ds = []) : ds = [[]] := by
  match ds, hne, hr with
  | [q], _, hr => rw [show render_params [q] = q from rfl] at hr; rw [hr]
  | q :: q1 :: qs, _, hr =>
    rw [render_params_cons] at hr
    exact absurd hr (by simp)

/-- C15, what `CSI v1 ; ... ; vn m` does for 1 to 20 parameters, each a string
of at most 19 digits of any value, with at most 45 bytes between `CSI` and
`m`, from any state whose output queue can be flushed. `terminal_SGR` stores
each value in an `int`: the rendition and the two colours are those that the
rule of SGR gives, applied from left to right to the values reduced into the
32-bit range (`int32`); the five cell arrays and the cursor are unchanged. A
value below `2^31` is its own reduction; a value such as `4294967296` is
reduced to 0 and clears the rendition, where the rule has it change nothing.
The list with one empty parameter is `CSI m`, which acts as the value 0. -/
theorem C15_sgr_applies_rule_to_int_values (env : host) (s : vim_shell_window)
    (ds : List (List Nat)) (he : s.esc_sequence.length = 50)
    (hflush : terminal_flush_output env s ≠ none) (hne : ds ≠ [])
    (hds : ∀ d ∈ ds, d.length ≤ 19 ∧ ∀ c ∈ d, isdigit c = true) (hn : ds.length ≤ 20)
    (hlen : (render_params ds).length ≤ 45) :
    ∃ s1, vim_shell_terminal_input env s (27 :: 91 :: (render_params ds ++ [109])) = some s1 ∧
      (s1.rendition, s1.fgcolor, s1.bgcolor) =
        ds.foldl (fun a d => sgr_rule a (int32 (strtol d)))
          (s.rendition, s.fgcolor, s.bgcolor) ∧
      (∀ d ∈ ds, strtol d < 2147483648 → int32 (strtol d) = strtol d) ∧
      s1.winbuf = s.winbuf ∧ s1.fgbuf = s.fgbuf ∧ s1.bgbuf = s.bgbuf ∧
      s1.rendbuf = s.rendbuf ∧ s1.charset = s.charset ∧
      s1.cursor_x = s.cursor_x ∧ s1.cursor_y = s.cursor_y := by
  have hsmall : ∀ d ∈ ds, strtol d < 2147483648 → int32 (strtol d) = strtol d :=
    fun d _ h => int32_of_small (strtol d) (strtol_nonneg d) h
  have hps : ∀ q ∈ ds, q.length ≤ 19 ∧ ∀ c ∈ q, isdigit c = true ∨ c = 63 :=
    fun q hq => ⟨(hds q hq).1, digits_are_params q (hds q hq).2⟩
  by_cases hr : render_params ds = []
  · have hds1 := render_params_nil ds hne hr
    subst hds1
    obtain ⟨E, _, hrun⟩ := feed_csi env s [] 109 0 argv_zero he (by decide)
      (fun b hb => by cases hb) (by decide) (fun p hp hpre => by
        rw [List.prefix_nil] at hpre; exact absurd hpre hp) rfl
    have hsgr : csi_dispatch env (with_esc s (([] : List Nat).length + 3) E) 109 0 argv_zero =
        some (with_sgr (with_esc s (([] : List Nat).length + 3) E)
          (0, VIMSHELL_COLOR_DEFAULT, VIMSHELL_COLOR_DEFAULT)) := by
      rw [dispatch_SGR]; rfl
    have h00 : int32 (strtol []) = 0 := int32_of_small 0 (by decide) (by decide)
    have hfold : [([] : List Nat)].foldl (fun a d => sgr_rule a (int32 (strtol d)))
        (s.rendition, s.fgcolor, s.bgcolor) =
        (0, VIMSHELL_COLOR_DEFAULT, VIMSHELL_COLOR_DEFAULT) := by
      show sgr_rule (s.rendition, s.fgcolor, s.bgcolor) (int32 (strtol [])) = _
      rw [h00]
      rfl
    obtain ⟨ob, op, hend⟩ := end_of_sequence_defined env s
      (with_sgr (with_esc s (([] : List Nat).length + 3) E)
        (0, VIMSHELL_COLOR_DEFAULT, VIMSHELL_COLOR_DEFAULT)) rfl rfl hflush
    rw [hsgr, Option.some_bind, hend] at hrun
    exact ⟨_, hrun, hfold.symm, hsmall, rfl, rfl, rfl, rfl, rfl, rfl, rfl⟩
  · obtain ⟨E, _, hrun⟩ := feed_params env s ds 109 he hps hn hr hlen (by decide) (by decide)
    have hloop := sgr_loop_eq (argv_layout (ds.map stored_param))
      (with_esc s ((render_params ds).length + 3) E) (ds.map strtol) 0
      (s.rendition, s.fgcolor, s.bgcolor)
      (fun j h => by
        rw [List.length_map] at h
        rw [Nat.zero_add, argv_int_layout ds j h hps, List.getElem_map])
    rw [List.length_map, List.foldl_map] at hloop
    have hsgr : csi_dispatch env (with_esc s ((render_params ds).length + 3) E) 109 ds.length
        (argv_layout (ds.map stored_param)) =
        some (with_sgr (with_esc s ((render_params ds).length + 3) E)
          (ds.foldl (fun a d => sgr_rule a (int32 (strtol d)))
            (s.rendition, s.fgcolor, s.bgcolor))) := by
      rw [dispatch_SGR]
      unfold terminal_SGR
      rw [if_neg (by
        intro h0
        exact hne (List.length_eq_zero.1 h0))]
      exact hloop
    obtain ⟨ob, op, hend⟩ := end_of_sequence_defined env s
      (with_sgr (with_esc s ((render_params ds).length + 3) E)
        (ds.foldl (fun a d => sgr_rule a (int32 (strtol d)))
          (s.rendition, s.fgcolor, s.bgcolor)))
      rfl rfl hflush
    rw [hsgr, Option.some_bind, hend] at hrun
    exact ⟨_, hrun, rfl, hsmall, rfl, rfl, rfl, rfl, rfl, rfl, rfl⟩

/-- C15 at concrete inputs, on a fresh 80x24 terminal. `ESC [ 1 ; 4 ; 3 1 m`
sets bold and underscore and a red foreground. After `ESC [ 3 1 m`, `A`,
`ESC [ 0 m`, `B` cell (0,0) holds `A` with foreground 1 and cell (0,1) holds
`B` with the default foreground. After `ESC [ 1 m` (bold), the sequence
`ESC [ 4 2 9 4 9 6 7 2 9 6 m` clears the rendition: the value `2^32` is 0 in
an `int`. -/
theorem C15_sgr_applies_rule_to_int_values_witness :
    (∃ s1, vim_shell_terminal_input pty_accepts (vim_shell_new 80 24)
        [27, 91, 49, 59, 52, 59, 51, 49, 109] = some s1 ∧
      (s1.rendition, s1.fgcolor, s1.bgcolor) = (3, 1, 9)) ∧
    (vim_shell_terminal_input pty_accepts (vim_shell_new 80 24)
        [27, 91, 51, 49, 109, 65, 27, 91, 48, 109, 66]).map
      (fun s => (s.winbuf[0]?, s.fgbuf[0]?, s.winbuf[1]?, s.fgbuf[1]?)) =
      some (some 65, some 1, some 66, some 9) ∧
    (vim_shell_terminal_input pty_accepts (vim_shell_new 80 24) [27, 91, 49, 109]).map
      (fun s => s.rendition) = some 1 ∧
    strtol [52, 50, 57, 52, 57, 54, 55, 50, 57, 54] = 4294967296 ∧
    sgr_rule (1, 9, 9) 4294967296 = (1, 9, 9) ∧
    (vim_shell_terminal_input pty_accepts (vim_shell_new 80 24)
        [27, 91, 49, 109, 27, 91, 52, 50, 57, 52, 57, 54, 55, 50, 57, 54, 109]).map
      (fun s => s.rendition) = some 0 := by
  obtain ⟨s1, h, hr, _⟩ := C15_sgr_applies_rule_to_int_values pty_accepts (vim_shell_new 80 24)
    [[49], [52], [51, 49]] (by decide!) (by decide!) (by decide) (by decide) (by decide)
    (by decide)
  exact ⟨⟨s1, h, hr.trans (by decide!)⟩, by decide!, by decide!, by decide!, by decide!,
    by decide!⟩
/-! ## C11: erase in display, twice -/

theorem dispatch_ED {env : host} (s : vim_shell_window) (argc : Nat) (argv : List Nat) :
    csi_dispatch env s 74 argc argv = terminal_ED s argc argv := by
  unfold csi_dispatch
  rw [if_neg (by decide), if_pos rfl]

theorem fill_all (buf : List Nat) (n c : Nat) (h : buf.length = n) :
    fill buf 0 n c = List.replicate n c := by
  unfold fill
  rw [List.take_zero, List.nil_append, Nat.zero_add, List.drop_of_length_le (by omega),
    List.append_nil]

/-- Erase in display with the parameter 2 blanks the five arrays. -/
theorem ED_two (s : vim_shell_window) (argv : List Nat) (hg : grid_ok s)
    (ha : argv_int argv 0 = some 2) :
    terminal_ED s 1 argv = some { s with
      winbuf := List.replicate (s.size_x * s.size_y) 32
      fgbuf := List.replicate (s.size_x * s.size_y) VIMSHELL_COLOR_DEFAULT
      bgbuf := List.replicate (s.size_x * s.size_y) VIMSHELL_COLOR_DEFAULT
      rendbuf := List.replicate (s.size_x * s.size_y) 0
      charset := List.replicate (s.size_x * s.size_y) 0 } := by
  have hn := grid_size_eq s hg
  have h2 : int32 2 = 2 := int32_of_small 2 (by decide) (by decide)
  have hg1 := hg
  obtain ⟨_, _, _, hw, hf, hb, hr, hc⟩ := hg
  unfold terminal_ED
  rw [if_neg (by decide), if_neg (by decide), ha, Option.map_some', h2, Option.some_bind,
    if_neg (by decide), if_neg (by decide), if_pos rfl,
    erase_cells_eq s 0 _ 0 (s.size_x * s.size_y) rfl hn hg1 (by omega),
    fill_all _ _ _ hw, fill_all _ _ _ hf, fill_all _ _ _ hb, fill_all _ _ _ hr,
    fill_all _ _ _ hc]

theorem replicate_getD (n c i : Nat) (h : i < n) : (List.replicate n c).getD i 0 = c := by
  rw [List.getD_eq_getElem?_getD, List.getElem?_replicate, if_pos h]
  rfl

/-- C11. From any state `s` with a well-formed grid (and its 50-byte escape
buffer) in which `CSI 2 J` runs to a state `s1` whose output queue can be
flushed: `CSI 2 J` fed twice runs to a state with the five cell arrays and the
cursor of `s1` (and all other members outside the parser and the output queue),
and every cell of `s1` is the default cell. -/
theorem C11_erase_display_twice (env : host) (s s1 : vim_shell_window)
    (hg : grid_ok s) (he : s.esc_sequence.length = 50)
    (h1 : vim_shell_terminal_input env s erase_all_seq = some s1)
    (hf1 : terminal_flush_output env s1 ≠ none) :
    ∃ s2, vim_shell_terminal_input env s (erase_all_seq ++ erase_all_seq) = some s2 ∧
      (s2.winbuf, s2.fgbuf, s2.bgbuf, s2.rendbuf, s2.charset) =
        (s1.winbuf, s1.fgbuf, s1.bgbuf, s1.rendbuf, s1.charset) ∧
      (s2.cursor_x, s2.cursor_y) = (s1.cursor_x, s1.cursor_y) ∧
      screen_part s2 = screen_part s1 ∧
      ∀ r c, r < s1.size_y → c < s1.size_x → cell_at s1 r c = default_cell := by
  have h2 : strtol [50] = 2 := by decide
  obtain ⟨n, E, argv, hE, ha, hrun⟩ := feed_one_param env s [50] 74 he (by decide) (by decide)
    (by decide) (by decide) (by decide)
  rw [h2] at ha
  have hgE : grid_ok (with_esc s n E) := hg
  have hrun1 : vim_shell_terminal_input env s erase_all_seq =
      (csi_dispatch env (with_esc s n E) 74 1 argv).bind (end_of_sequence env) := hrun
  rw [dispatch_ED, ED_two _ argv hgE ha, Option.some_bind, h1] at hrun1
  obtain ⟨ob, op, hs1⟩ := end_of_sequence_shape env _ s1 hrun1.symm
  have hg1 : grid_ok s1 := by
    obtain ⟨a, b, c, _, _, _, _, _⟩ := hg
    rw [hs1]
    exact ⟨a, b, c, List.length_replicate _ _, List.length_replicate _ _,
      List.length_replicate _ _, List.length_replicate _ _, List.length_replicate _ _⟩
  have he1 : s1.esc_sequence.length = 50 := by rw [hs1]; exact hE
  obtain ⟨m, F, argw, _, hb, hrun2⟩ := feed_one_param env s1 [50] 74 he1 (by decide) (by decide)
    (by decide) (by decide) (by decide)
  rw [h2] at hb
  have hgF : grid_ok (with_esc s1 m F) := hg1
  have hrun3 : vim_shell_terminal_input env s1 erase_all_seq =
      (csi_dispatch env (with_esc s1 m F) 74 1 argw).bind (end_of_sequence env) := hrun2
  rw [dispatch_ED, ED_two _ argw hgF hb, Option.some_bind] at hrun3
  obtain ⟨ob2, op2, h3⟩ := end_of_sequence_defined env s1 { with_esc s1 m F with
      winbuf := List.replicate (s1.size_x * s1.size_y) 32
      fgbuf := List.replicate (s1.size_x * s1.size_y) VIMSHELL_COLOR_DEFAULT
      bgbuf := List.replicate (s1.size_x * s1.size_y) VIMSHELL_COLOR_DEFAULT
      rendbuf := List.replicate (s1.size_x * s1.size_y) 0
      charset := List.replicate (s1.size_x * s1.size_y) 0 } rfl rfl hf1
  have hrun4 := hrun3.trans h3
  have h4 : vim_shell_terminal_input env s (erase_all_seq ++ erase_all_seq) =
      vim_shell_terminal_input env s1 erase_all_seq := by
    rw [feed_append, h1, Option.some_bind]
  have hw : s1.winbuf = List.replicate (s1.size_x * s1.size_y) 32 := by rw [hs1]
  have hf : s1.fgbuf = List.replicate (s1.size_x * s1.size_y) VIMSHELL_COLOR_DEFAULT := by
    rw [hs1]
  have hb1 : s1.bgbuf = List.replicate (s1.size_x * s1.size_y) VIMSHELL_COLOR_DEFAULT := by
    rw [hs1]
  have hr : s1.rendbuf = List.replicate (s1.size_x * s1.size_y) 0 := by rw [hs1]
  have hc : s1.charset = List.replicate (s1.size_x * s1.size_y) 0 := by rw [hs1]
  refine ⟨_, h4.trans hrun4, ?_, rfl, ?_, ?_⟩
  · show (List.replicate (s1.size_x * s1.size_y) 32,
      List.replicate (s1.size_x * s1.size_y) VIMSHELL_COLOR_DEFAULT,
      List.replicate (s1.size_x * s1.size_y) VIMSHELL_COLOR_DEFAULT,
      List.replicate (s1.size_x * s1.size_y) 0, List.replicate (s1.size_x * s1.size_y) 0) = _
    rw [hw, hf, hb1, hr, hc]
  · unfold screen_part
    dsimp only [with_esc]
    rw [hw, hf, hb1, hr, hc]
  · intro r c hr1 hc1
    have hlt : r * s1.size_x + c < s1.size_x * s1.size_y := by
      have h : (r + 1) * s1.size_x ≤ s1.size_y * s1.size_x := Nat.mul_le_mul_right _ hr1
      have e : s1.size_y * s1.size_x = s1.size_x * s1.size_y := Nat.mul_comm _ _
      have e1 : (r + 1) * s1.size_x = r * s1.size_x + s1.size_x := Nat.succ_mul _ _
      omega
    unfold cell_at default_cell
    rw [hw, hf, hb1, hr, hc, replicate_getD _ _ _ hlt, replicate_getD _ _ _ hlt,
      replicate_getD _ _ _ hlt]
    rfl

/-- C11 at a concrete input: on the 80x24 terminal after the glyphs `A`, `B`
(cell (0,0) holds `A` before the erasure, the cursor stays at column 2). -/
theorem C11_erase_display_twice_witness :
    (cell_at (state_after pty_accepts (vim_shell_new 80 24) two_glyphs) 0 0,
      (state_after pty_accepts (state_after pty_accepts (vim_shell_new 80 24) two_glyphs)
        erase_all_seq).cursor_x) = ((65, 9, 9, 0, 0), 2) ∧
    ∃ s2, vim_shell_terminal_input pty_accepts
        (state_after pty_accepts (vim_shell_new 80 24) two_glyphs)
        (erase_all_seq ++ erase_all_seq) = some s2 ∧
      (s2.winbuf, s2.fgbuf, s2.bgbuf, s2.rendbuf, s2.charset) =
        ((state_after pty_accepts (state_after pty_accepts (vim_shell_new 80 24) two_glyphs)
            erase_all_seq).winbuf,
         (state_after pty_accepts (state_after pty_accepts (vim_shell_new 80 24) two_glyphs)
            erase_all_seq).fgbuf,
         (state_after pty_accepts (state_after pty_accepts (vim_shell_new 80 24) two_glyphs)
            erase_all_seq).bgbuf,
         (state_after pty_accepts (state_after pty_accepts (vim_shell_new 80 24) two_glyphs)
            erase_all_seq).rendbuf,
         (state_after pty_accepts (state_after pty_accepts (vim_shell_new 80 24) two_glyphs)
            erase_all_seq).charset) ∧
      (s2.cursor_x, s2.cursor_y) =
        ((state_after pty_accepts (state_after pty_accepts (vim_shell_new 80 24) two_glyphs)
            erase_all_seq).cursor_x,
         (state_after pty_accepts (state_after pty_accepts (vim_shell_new 80 24) two_glyphs)
            erase_all_seq).cursor_y) ∧
      screen_part s2 = screen_part (state_after pty_accepts
        (state_after pty_accepts (vim_shell_new 80 24) two_glyphs) erase_all_seq) ∧
      ∀ r c,
        r < (state_after pty_accepts (state_after pty_accepts (vim_shell_new 80 24) two_glyphs)
          erase_all_seq).size_y →
        c < (state_after pty_accepts (state_after pty_accepts (vim_shell_new 80 24) two_glyphs)
          erase_all_seq).size_x →
        cell_at (state_after pty_accepts
          (state_after pty_accepts (vim_shell_new 80 24) two_glyphs) erase_all_seq) r c =
          default_cell :=
  ⟨by decide!,
    C11_erase_display_twice pty_accepts (state_after pty_accepts (vim_shell_new 80 24) two_glyphs)
      (state_after pty_accepts (state_after pty_accepts (vim_shell_new 80 24) two_glyphs)
        erase_all_seq) (by decide!) (by decide!) (by decide!) (by decide!)⟩
/-! ## A complete sequence `CSI n f` with one numeric parameter -/

/-- `CSI d f` from any state whose output queue can be flushed: the sequence
runs whenever the function dispatched on `f` does, and the result is what
that function returns, with the parser back in NORMAL state and the queue
flushed. -/
theorem run_one_param (env : host) (s : vim_shell_window) (d : List Nat) (f : Nat)
    (P : vim_shell_window → Prop) (he : s.esc_sequence.length = 50)
    (hflush : terminal_flush_output env s ≠ none)
    (hd : ∀ c ∈ d, isdigit c = true) (hd1 : d ≠ []) (hd19 : d.length ≤ 19)
    (hf31 : ¬ f ≤ 31) (hf : ¬ (isdigit f = true ∨ f = 63 ∨ f = 59))
    (hrun : ∀ n E argv, E.length = 50 → argv_int argv 0 = some (strtol d) →
      ∃ y, csi_dispatch env (with_esc s n E) f 1 argv = some y ∧ y.outbuf = s.outbuf ∧
        y.outbuf_pos = s.outbuf_pos ∧ P y) :
    ∃ y ob op, P y ∧ vim_shell_terminal_input env s (27 :: 91 :: (d ++ [f])) =
      some { y with in_esc_sequence := 0, outbuf := ob, outbuf_pos := op } := by
  obtain ⟨n, E, argv, hE, ha, hfeed⟩ := feed_one_param env s d f he hd hd1 hd19 hf31 hf
  obtain ⟨y, hy, ho, hp, hP⟩ := hrun n E argv hE ha
  obtain ⟨ob, op, hend⟩ := end_of_sequence_defined env s y ho hp hflush
  rw [hy, Option.some_bind, hend] at hfeed
  exact ⟨y, ob, op, hP, hfeed⟩

/-- The `distance` of a cursor movement for a parameter value `p`. -/
theorem distance_arg_eq (argv : List Nat) (p : Nat) (ha : argv_int argv 0 = some (p : Int))
    (hp : p < 2147483648) : distance_arg argv = some ((max p 1 : Nat) : Int) := by
  unfold distance_arg
  rw [ha, Option.map_some', int32_of_small (p : Int) (by omega) (by omega)]
  rcases Nat.eq_zero_or_pos p with h | h
  · subst h; rfl
  · rw [if_neg (by omega), Nat.max_eq_left h]

theorem dispatch_CUD {env : host} (s : vim_shell_window) (argc : Nat) (argv : List Nat) :
    csi_dispatch env s 66 argc argv = terminal_CUD s argc argv := by
  unfold csi_dispatch
  rw [if_neg (by decide), if_neg (by decide), if_neg (by decide), if_neg (by decide),
    if_neg (by decide), if_neg (by decide), if_neg (by decide), if_neg (by decide),
    if_pos rfl]

theorem dispatch_CUF {env : host} (s : vim_shell_window) (argc : Nat) (argv : List Nat) :
    csi_dispatch env s 67 argc argv = terminal_CUF s argc argv := by
  unfold csi_dispatch
  rw [if_neg (by decide), if_neg (by decide), if_neg (by decide), if_pos rfl]

theorem dispatch_CUU {env : host} (s : vim_shell_window) (argc : Nat) (argv : List Nat) :
    csi_dispatch env s 65 argc argv = terminal_CUU s argc argv := by
  unfold csi_dispatch
  rw [if_neg (by decide), if_neg (by decide), if_neg (by decide), if_neg (by decide),
    if_neg (by decide), if_neg (by decide), if_neg (by decide), if_neg (by decide),
    if_neg (by decide), if_neg (by decide), if_pos rfl]

/-- `terminal_CUD` with one parameter of value `p`. -/
theorem CUD_eq (s : vim_shell_window) (argv : List Nat) (p : Nat)
    (ha : argv_int argv 0 = some (p : Int)) (hb : p < 2147483648) :
    terminal_CUD s 1 argv = some { s with
      cursor_y := if (s.cursor_y + max p 1) % 65536 + 1 ≥ s.scroll_bottom_margin
        then s.scroll_bottom_margin else (s.cursor_y + max p 1) % 65536 } := by
  have hu : u16 ((s.cursor_y : Int) + ((max p 1 : Nat) : Int)) =
      (s.cursor_y + max p 1) % 65536 := by
    rw [← Nat.cast_add, u16_mod]
  unfold terminal_CUD
  rw [if_neg (by decide), distance_arg_eq argv p ha hb, Option.some_bind]
  dsimp only
  rw [hu]
  by_cases hc : (s.cursor_y + max p 1) % 65536 + 1 ≥ s.scroll_bottom_margin
  · rw [if_pos hc, if_pos hc]
  · rw [if_neg hc, if_neg hc]

/-- `terminal_CUF` with one parameter of value `p`. -/
theorem CUF_eq (s : vim_shell_window) (argv : List Nat) (p : Nat)
    (ha : argv_int argv 0 = some (p : Int)) (hb : p < 2147483648) :
    terminal_CUF s 1 argv = some { s with
      cursor_x := if (s.cursor_x + max p 1) % 65536 + 1 ≥ s.size_x
        then (s.size_x + 1) % 65536 else (s.cursor_x + max p 1) % 65536 } := by
  have hu : u16 ((s.cursor_x : Int) + ((max p 1 : Nat) : Int)) =
      (s.cursor_x + max p 1) % 65536 := by
    rw [← Nat.cast_add, u16_mod]
  have hw : u16 ((s.size_x : Int) + 1) = (s.size_x + 1) % 65536 := by
    rw [show (s.size_x : Int) + 1 = ((s.size_x + 1 : Nat) : Int) by omega, u16_mod]
  unfold terminal_CUF
  rw [if_neg (by decide), distance_arg_eq argv p ha hb, Option.some_bind]
  dsimp only
  rw [hu, hw]
  by_cases hc : (s.cursor_x + max p 1) % 65536 + 1 ≥ s.size_x
  · rw [if_pos hc, if_pos hc]
  · rw [if_neg hc, if_neg hc]

/-- `terminal_CUU` with one parameter of value `p`. -/
theorem CUU_eq (s : vim_shell_window) (argv : List Nat) (p : Nat)
    (ha : argv_int argv 0 = some (p : Int)) (hb : p < 2147483648) (hy : s.cursor_y < 65536) :
    terminal_CUU s 1 argv = some { s with
      cursor_y := if s.cursor_y < s.scroll_top_margin + max p 1
        then s.scroll_top_margin else s.cursor_y - max p 1 } := by
  unfold terminal_CUU
  rw [if_neg (by decide), distance_arg_eq argv p ha hb, Option.some_bind]
  by_cases hc : s.cursor_y < s.scroll_top_margin + max p 1
  · rw [if_pos (by omega), if_pos hc]
  · have hu : u16 ((s.cursor_y : Int) - ((max p 1 : Nat) : Int)) = s.cursor_y - max p 1 := by
      rw [show (s.cursor_y : Int) - ((max p 1 : Nat) : Int) =
        ((s.cursor_y - max p 1 : Nat) : Int) by omega, u16_mod]
      exact Nat.mod_eq_of_lt (by omega)
    rw [if_neg (by omega), if_neg hc, hu]

/-! ## C24, C25, C26: cursor down, forward, up -/

/-- C24, what `CSI n B` does for a parameter `n` below `2^31`, from any state
whose output queue can be flushed: `cursor_x` is unchanged, and with
`y = (cursor_y + max(n,1)) mod 65536` the new `cursor_y` is the bottom margin
when `y + 1 ≥ scroll_bottom`, and `y` otherwise. The cursor is put on the
bottom margin from the row above it already: for `cursor_y + max(n,1) =
scroll_bottom - 1` the result is `scroll_bottom`, where the claim has
`scroll_bottom - 1`. -/
theorem C24_cursor_down_snaps_to_margin (env : host) (s : vim_shell_window)
    (d : List Nat) (p : Nat) (he : s.esc_sequence.length = 50)
    (hflush : terminal_flush_output env s ≠ none)
    (hd : ∀ c ∈ d, isdigit c = true) (hd1 : d ≠ []) (hd19 : d.length ≤ 19)
    (hp : strtol d = (p : Int)) (hb : p < 2147483648) :
    ∃ s1, vim_shell_terminal_input env s (27 :: 91 :: (d ++ [66])) = some s1 ∧
      s1.cursor_x = s.cursor_x ∧
      s1.cursor_y = (if (s.cursor_y + max p 1) % 65536 + 1 ≥ s.scroll_bottom_margin
        then s.scroll_bottom_margin else (s.cursor_y + max p 1) % 65536) := by
  obtain ⟨y, ob, op, hP, hfeed⟩ := run_one_param env s d 66
    (fun y => y.cursor_x = s.cursor_x ∧
      y.cursor_y = (if (s.cursor_y + max p 1) % 65536 + 1 ≥ s.scroll_bottom_margin
        then s.scroll_bottom_margin else (s.cursor_y + max p 1) % 65536))
    he hflush hd hd1 hd19 (by decide) (by decide)
    (fun n E argv _ ha => ⟨_, (dispatch_CUD _ _ _).trans
      (CUD_eq (with_esc s n E) argv p (hp ▸ ha) hb), rfl, rfl, rfl, rfl⟩)
  exact ⟨_, hfeed, hP.1, hP.2⟩

/-- C24 at the failing input: on a fresh 80x24 terminal (cursor on row 0,
bottom margin 23) `ESC [ 2 2 B` puts the cursor on row 23, where the claim has
row `min(0 + 22, 23) = 22`. -/
theorem C24_cursor_down_snaps_to_margin_witness :
    ∃ s1, vim_shell_terminal_input pty_accepts (vim_shell_new 80 24)
        (27 :: 91 :: ([50, 50] ++ [66])) = some s1 ∧
      s1.cursor_x = 0 ∧ s1.cursor_y = 23 := by
  obtain ⟨s1, h, hx, hy⟩ := C24_cursor_down_snaps_to_margin pty_accepts (vim_shell_new 80 24)
    [50, 50] 22 (by decide!) (by decide!) (by decide) (by decide) (by decide) (by decide)
    (by decide)
  exact ⟨s1, h, hx, hy.trans (by decide!)⟩

/-- C25, what `CSI n C` does for a parameter `n` below `2^31`, from any state
whose output queue can be flushed: `cursor_y` is unchanged, and with
`x = (cursor_x + max(n,1)) mod 65536` the new `cursor_x` is `W + 1` (as a
`uint16_t`) when `x + 1 ≥ W`, and `x` otherwise. So the cursor passes the
virtual column `W` whenever the move reaches column `W - 1` or beyond. -/
theorem C25_cursor_forward_stops_past_virtual_column (env : host)
    (s : vim_shell_window) (d : List Nat) (p : Nat) (he : s.esc_sequence.length = 50)
    (hflush : terminal_flush_output env s ≠ none)
    (hd : ∀ c ∈ d, isdigit c = true) (hd1 : d ≠ []) (hd19 : d.length ≤ 19)
    (hp : strtol d = (p : Int)) (hb : p < 2147483648) :
    ∃ s1, vim_shell_terminal_input env s (27 :: 91 :: (d ++ [67])) = some s1 ∧
      s1.cursor_y = s.cursor_y ∧
      s1.cursor_x = (if (s.cursor_x + max p 1) % 65536 + 1 ≥ s.size_x
        then (s.size_x + 1) % 65536 else (s.cursor_x + max p 1) % 65536) := by
  obtain ⟨y, ob, op, hP, hfeed⟩ := run_one_param env s d 67
    (fun y => y.cursor_y = s.cursor_y ∧
      y.cursor_x = (if (s.cursor_x + max p 1) % 65536 + 1 ≥ s.size_x
        then (s.size_x + 1) % 65536 else (s.cursor_x + max p 1) % 65536))
    he hflush hd hd1 hd19 (by decide) (by decide)
    (fun n E argv _ ha => ⟨_, (dispatch_CUF _ _ _).trans
      (CUF_eq (with_esc s n E) argv p (hp ▸ ha) hb), rfl, rfl, rfl, rfl⟩)
  exact ⟨_, hfeed, hP.1, hP.2⟩

/-- C25 at the failing input: on a fresh 80x24 terminal `ESC [ 1 0 0 C` puts the
cursor on column 81, where the claim has column `min(0 + 100, 80) = 80`. -/
theorem C25_cursor_forward_stops_past_virtual_column_witness :
    ∃ s1, vim_shell_terminal_input pty_accepts (vim_shell_new 80 24)
        (27 :: 91 :: ([49, 48, 48] ++ [67])) = some s1 ∧
      s1.cursor_y = 0 ∧ s1.cursor_x = 81 := by
  obtain ⟨s1, h, hy, hx⟩ := C25_cursor_forward_stops_past_virtual_column pty_accepts
    (vim_shell_new 80 24) [49, 48, 48] 100 (by decide!) (by decide!) (by decide) (by decide)
    (by decide) (by decide) (by decide)
  exact ⟨s1, h, hy, hx.trans (by decide!)⟩

/-- C26, what `CSI n A` does for a parameter `n` below `2^31`, from any state
whose output queue can be flushed: `cursor_x` is unchanged, and the new
`cursor_y` is the top margin when `cursor_y - max(n,1) < scroll_top`, and
`cursor_y - max(n,1)` otherwise. For a cursor on or below the top margin this
is `max(cursor_y - max(n,1), scroll_top)`; a cursor above the top margin is
moved down onto it. -/
theorem C26_cursor_up_moves_to_top_margin (env : host) (s : vim_shell_window)
    (d : List Nat) (p : Nat) (he : s.esc_sequence.length = 50)
    (hflush : terminal_flush_output env s ≠ none) (hy : s.cursor_y < 65536)
    (hd : ∀ c ∈ d, isdigit c = true) (hd1 : d ≠ []) (hd19 : d.length ≤ 19)
    (hp : strtol d = (p : Int)) (hb : p < 2147483648) :
    ∃ s1, vim_shell_terminal_input env s (27 :: 91 :: (d ++ [65])) = some s1 ∧
      s1.cursor_x = s.cursor_x ∧
      s1.cursor_y = (if s.cursor_y < s.scroll_top_margin + max p 1
        then s.scroll_top_margin else s.cursor_y - max p 1) := by
  obtain ⟨y, ob, op, hP, hfeed⟩ := run_one_param env s d 65
    (fun y => y.cursor_x = s.cursor_x ∧
      y.cursor_y = (if s.cursor_y < s.scroll_top_margin + max p 1
        then s.scroll_top_margin else s.cursor_y - max p 1))
    he hflush hd hd1 hd19 (by decide) (by decide)
    (fun n E argv _ ha => ⟨_, (dispatch_CUU _ _ _).trans
      (CUU_eq (with_esc s n E) argv p (hp ▸ ha) hb hy), rfl, rfl, rfl, rfl⟩)
  exact ⟨_, hfeed, hP.1, hP.2⟩

/-- C26 at the failing input: on a fresh 80x24 terminal `ESC [ 6 ; 1 1 r` sets
the region to rows 5..10 and homes the cursor to row 0, above the region;
`ESC [ 1 A` then puts the cursor on row 5: it has moved down. -/
theorem C26_cursor_up_moves_to_top_margin_witness :
    (state_after pty_accepts (vim_shell_new 80 24) region_5_10).cursor_y = 0 ∧
    ∃ s1, vim_shell_terminal_input pty_accepts
        (state_after pty_accepts (vim_shell_new 80 24) region_5_10)
        (27 :: 91 :: ([49] ++ [65])) = some s1 ∧
      s1.cursor_x = 0 ∧ s1.cursor_y = 5 := by
  refine ⟨by decide!, ?_⟩
  obtain ⟨s1, h, hx, hy⟩ := C26_cursor_up_moves_to_top_margin pty_accepts
    (state_after pty_accepts (vim_shell_new 80 24) region_5_10) [49] 1 (by decide!)
    (by decide!) (by decide!) (by decide) (by decide) (by decide) (by decide) (by decide)
  exact ⟨s1, h, hx.trans (by decide!), hy.trans (by decide!)⟩
/-! ## C27: horizontal tab -/

/-- The search of the TAB case over the columns `i .. i+n-1` of a tab line that
holds them all: it returns the least column with a tab stop, or fails. -/
theorem next_tab_least (tabline : List Nat) (W : Nat) :
    ∀ (n i : Nat), i + n ≤ W → W ≤ tabline.length →
      (∃ j, next_tab tabline W n i = some (some j) ∧ i ≤ j ∧ j < i + n ∧
          tabline.getD j 0 = 1 ∧ ∀ k, i ≤ k → k < j → tabline.getD k 0 ≠ 1) ∨
      (next_tab tabline W n i = some none ∧
          ∀ k, i ≤ k → k < i + n → tabline.getD k 0 ≠ 1) := by
  intro n
  induction n with
  | zero =>
    intro i _ _
    exact Or.inr ⟨rfl, fun k h1 h2 => absurd h2 (by omega)⟩
  | succ n ih =>
    intro i hi hW
    have hlt : i < tabline.length := by omega
    have hpeek : peek tabline (i : Int) = some (tabline.getD i 0) := by
      unfold peek
      rw [if_pos ⟨by omega, by omega⟩, Int.toNat_ofNat, List.get?_eq_getElem?,
        List.getD_eq_getElem?_getD, List.getElem?_eq_getElem hlt]
      rfl
    rw [next_tab, if_pos (by omega), hpeek, Option.some_bind]
    by_cases h1 : tabline.getD i 0 = 1
    · rw [if_pos h1]
      exact Or.inl ⟨i, rfl, Nat.le_refl _, by omega, h1, fun k a b => absurd b (by omega)⟩
    · rw [if_neg h1]
      rcases ih (i + 1) (by omega) hW with ⟨j, hj, a, b, c, e⟩ | ⟨hj, e⟩
      · refine Or.inl ⟨j, hj, by omega, by omega, c, fun k hk1 hk2 => ?_⟩
        rcases Nat.eq_or_lt_of_le hk1 with hk | hk
        · rw [← hk]; exact h1
        · exact e k hk hk2
      · refine Or.inr ⟨hj, fun k hk1 hk2 => ?_⟩
        rcases Nat.eq_or_lt_of_le hk1 with hk | hk
        · rw [← hk]; exact h1
        · exact e k hk (by omega)

/-- C27. TAB (0x09) fed in any state whose tab line has `W` bytes (`W ≥ 1`),
in NORMAL state or inside an escape sequence: only `cursor_x` changes, and it
becomes the least column `i` with `cursor_x < i < W` and `tabline[i] = 1`, or
`W - 1` when no such column exists. -/
theorem C27_tab_moves_to_next_stop (env : host) (s : vim_shell_window)
    (ht : s.tabline.length = s.size_x) (hW : 1 ≤ s.size_x) (hW16 : s.size_x < 65536) :
    ∃ x, vim_shell_terminal_input env s [9] = some { s with cursor_x := x } ∧
      ((s.cursor_x < x ∧ x < s.size_x ∧ s.tabline.getD x 0 = 1 ∧
          ∀ k, s.cursor_x < k → k < x → s.tabline.getD k 0 ≠ 1) ∨
       (x = s.size_x - 1 ∧ ∀ k, s.cursor_x < k → k < s.size_x → s.tabline.getD k 0 ≠ 1)) := by
  have hfeed : vim_shell_terminal_input env s [9] = terminal_TAB s := by
    show (terminal_input_char env s 9).bind (fun s1 => some s1) = _
    rw [Option.bind_some]
    have h31 : (9 : Nat) ≤ 31 := by decide
    unfold terminal_input_char
    rw [if_pos h31, if_pos h31, ite_self]
    unfold terminal_process_control_char
    rw [if_neg (by decide), if_neg (by decide), if_pos rfl]
  have hu : u16 ((s.size_x : Int) - 1) = s.size_x - 1 := by
    unfold u16; omega
  rw [hfeed]
  unfold terminal_TAB
  by_cases hc : s.cursor_x + 1 ≤ s.size_x
  · rcases next_tab_least s.tabline s.size_x (s.size_x - (s.cursor_x + 1)) (s.cursor_x + 1)
      (by omega) (by omega) with ⟨j, hj, a, b, c, e⟩ | ⟨hj, e⟩
    · rw [hj, Option.map_some']
      exact ⟨j, rfl, Or.inl ⟨by omega, by omega, c, fun k h1 h2 => e k (by omega) h2⟩⟩
    · rw [hj, Option.map_some', hu]
      exact ⟨_, rfl, Or.inr ⟨rfl, fun k h1 h2 => e k (by omega) (by omega)⟩⟩
  · rw [show s.size_x - (s.cursor_x + 1) = 0 by omega,
      show next_tab s.tabline s.size_x 0 (s.cursor_x + 1) = some none from rfl,
      Option.map_some', hu]
    exact ⟨_, rfl, Or.inr ⟨rfl, fun k h1 h2 => absurd h2 (by omega)⟩⟩

/-- C27 at concrete inputs: on a fresh 80x24 terminal (tab stops at columns 7,
15, ..., 71) TAB moves the cursor from column 0 to column 7, and from column 75
(after `ESC [ 7 5 C`) to column 79, the last one. -/
theorem C27_tab_moves_to_next_stop_witness :
    (∃ x, vim_shell_terminal_input pty_accepts (vim_shell_new 80 24) [9] =
        some { vim_shell_new 80 24 with cursor_x := x } ∧
      ((0 < x ∧ x < 80 ∧ (default_tabline 80).getD x 0 = 1 ∧
          ∀ k, 0 < k → k < x → (default_tabline 80).getD k 0 ≠ 1) ∨
       (x = 80 - 1 ∧ ∀ k, 0 < k → k < 80 → (default_tabline 80).getD k 0 ≠ 1))) ∧
    (vim_shell_terminal_input pty_accepts (vim_shell_new 80 24) [9]).map
      (fun s => s.cursor_x) = some 7 ∧
    (vim_shell_terminal_input pty_accepts (vim_shell_new 80 24)
      [27, 91, 55, 53, 67, 9]).map (fun s => s.cursor_x) = some 79 :=
  ⟨C27_tab_moves_to_next_stop pty_accepts (vim_shell_new 80 24) (by decide!) (by decide)
    (by decide), by decide!, by decide!⟩
/-! ## The encoder -/

theorem lookup_of_not_mem {β : Type} (l : List (Int × β)) (c : Int)
    (hm : c ∉ l.map Prod.fst) : l.lookup c = none := by
  induction l with
  | nil => rfl
  | cons a l ih =>
    obtain ⟨a1, a2⟩ := a
    rw [List.map_cons, List.mem_cons, not_or] at hm
    have hne : (c == a1) = false := by
      rw [beq_eq_false_iff_ne]; exact hm.1
    rw [List.lookup_cons, hne]
    exact ih hm.2

theorem key_labels (code : vimshell_key → Int) (s : vim_shell_window) :
    (key_cases code s).map Prod.fst = all_keys.map code := rfl

/-- A key whose local `outbuf` holds the string `str` and its NUL, with room
for the string in the queue: the string is stored behind the queue, and the
queue is flushed. -/
theorem output_of_string (code : vimshell_key → Int) (env : host)
    (s : vim_shell_window) (c : Int) (str R : List Nat)
    (hob : key_outbuf code s c = str ++ 0 :: R) (hnz : ∀ b ∈ str, b ≠ 0)
    (hl : s.outbuf.length = 100) (hroom : s.outbuf_pos + str.length ≤ 100) :
    vim_shell_terminal_output code env s c =
      (terminal_flush_output env (enqueue s str)).map
        (fun r => (r.1, if r.2 < 0 then -1 else (str.length : Int))) := by
  have hlen : key_strlen code s c = str.length := by
    unfold key_strlen
    rw [hob, takeWhile_nonzero str R hnz]
  have hw : key_written code s c = (str.length : Int) := by
    unfold key_written
    rw [hlen]
    by_cases h : (s.outbuf_pos : Int) + (str.length : Int) ≥ 100
    · rw [if_pos h]
      unfold size_t
      omega
    · rw [if_neg h]
  have hu : u8 ((s.outbuf_pos : Int) + (str.length : Int)) = s.outbuf_pos + str.length := by
    unfold u8; omega
  have hi : int32 (str.length : Int) = (str.length : Int) :=
    int32_of_small _ (by omega) (by omega)
  unfold vim_shell_terminal_output
  rw [hw, hob, hu, hi]
  unfold memcpy
  rw [if_pos ⟨by omega, by omega,
      by rw [List.length_append, List.length_cons]; omega, by omega⟩,
    Option.some_bind, Int.toNat_ofNat, Int.toNat_ofNat, List.take_left]
  rfl

/-- C22, what `vim_shell_terminal_output` does with a key code `c` in 0..255
that is no label of the `switch`, with room for one byte in the 100-byte
queue: for `c ≥ 1` the byte `c` is stored behind the queue, the queue is
flushed and the result is 1 (or `-1` when the flush fails); for `c = 0`
nothing is stored and the result is 0, because the length of the output is
taken with `strlen`. -/
theorem C22_raw_byte_is_queued_unless_zero (code : vimshell_key → Int)
    (env : host) (s : vim_shell_window) (c : Nat) (hc : c ≤ 255)
    (hk : ∀ k, code k ≠ (c : Int)) (hl : s.outbuf.length = 100)
    (hroom : s.outbuf_pos + 1 ≤ 100) :
    vim_shell_terminal_output code env s (c : Int) =
      (terminal_flush_output env (enqueue s (if c = 0 then [] else [c]))).map
        (fun r => (r.1, if r.2 < 0 then -1 else if c = 0 then 0 else 1)) := by
  have hnot : (c : Int) ∉ (key_cases code s).map Prod.fst := by
    rw [key_labels]
    intro hm
    obtain ⟨k, _, hk1⟩ := List.mem_map.1 hm
    exact hk k hk1
  have hu : u8 (c : Int) = c := by
    unfold u8; omega
  have hob : key_outbuf code s (c : Int) = [c, 0] := by
    unfold key_outbuf
    rw [lookup_of_not_mem _ _ hnot, hu]
  by_cases h0 : c = 0
  · rw [if_pos h0, if_pos h0]
    have hob0 : key_outbuf code s (c : Int) = [] ++ 0 :: [0] := by rw [hob, h0]; rfl
    have h := output_of_string code env s (c : Int) [] [0] hob0 (fun b hb => by cases hb) hl
      (by rw [List.length_nil]; omega)
    exact h
  · rw [if_neg h0, if_neg h0]
    have hob1 : key_outbuf code s (c : Int) = [c] ++ 0 :: [] := hob
    have h := output_of_string code env s (c : Int) [c] [] hob1
      (fun b hb => by rw [List.mem_singleton] at hb; rw [hb]; exact h0) hl hroom
    exact h

/-- C22 at concrete inputs, with the sample key codes, on a fresh 80x24
terminal: the key code 0 queues nothing and returns 0, where the claim has
the byte `00` queued and the result 1; the key code 97 queues `61` and
returns 1. (The pty of the last two runs takes no byte, so that the queue can
be read.) -/
theorem C22_raw_byte_is_queued_unless_zero_witness :
    vim_shell_terminal_output sample_code pty_accepts (vim_shell_new 80 24) ((0 : Nat) : Int) =
      (terminal_flush_output pty_accepts
        (enqueue (vim_shell_new 80 24) (if (0 : Nat) = 0 then [] else [0]))).map
        (fun r => (r.1, if r.2 < 0 then -1 else if (0 : Nat) = 0 then 0 else 1)) ∧
    (vim_shell_terminal_output sample_code pty_idle (vim_shell_new 80 24) 0).map
      (fun r => (r.1.outbuf.take r.1.outbuf_pos, r.2)) = some ([], 0) ∧
    (vim_shell_terminal_output sample_code pty_idle (vim_shell_new 80 24) 97).map
      (fun r => (r.1.outbuf.take r.1.outbuf_pos, r.2)) = some ([97], 1) :=
  ⟨C22_raw_byte_is_queued_unless_zero sample_code pty_accepts (vim_shell_new 80 24) 0
      (by decide) (fun k => by cases k <;> decide) (by decide!) (by decide!),
    by decide!, by decide!⟩
/-! ## C23: a partial drain of the output queue -/

/-- C23, what `terminal_flush_output` leaves in the queue: with `n` queued
bytes `q` in the 100-byte buffer and a write result `k ≤ n` (`k = n` or
`2k ≤ 100`, so that the `memmove` stays inside the buffer), the new queue has
`n-k` bytes, namely the bytes `q[k..2k)` followed by the bytes `q[k..n-k)`.
For `n ≤ 2k` that is `q[k..n)`, the last `n-k` bytes; for `n > 2k` it is not:
the `memmove` copies `k` bytes instead of `n-k`, and the bytes from `q[2k]` on
are lost. -/
theorem C23_partial_drain_keeps_wrong_bytes (env : host) (s : vim_shell_window)
    (n k : Nat) (hl : s.outbuf.length = 100) (hn : s.outbuf_pos = n) (hn0 : 0 < n)
    (hn100 : n ≤ 100) (hw : env.write (s.outbuf.take n) = (k : Int)) (hkn : k ≤ n)
    (hk : k = n ∨ 2 * k ≤ 100) :
    ∃ s1, terminal_flush_output env s = some (s1, (k : Int)) ∧ s1.outbuf_pos = n - k ∧
      s1.outbuf.take s1.outbuf_pos =
        (((s.outbuf.take n).drop k).take k) ++ (((s.outbuf.take n).drop k).take (n - 2 * k)) := by
  have hres : write_result env s = (k : Int) := by
    unfold write_result
    rw [hn, hw]
    omega
  have hu : u8 ((s.outbuf_pos : Int) - (k : Int)) = n - k := by
    rw [hn]
    unfold u8
    omega
  unfold terminal_flush_output
  rw [if_pos (by omega), if_neg (by omega), hres, if_neg (by omega), hu]
  by_cases hkeq : k = n
  · rw [if_neg (by rw [hn, hkeq]; exact not_not.2 rfl)]
    refine ⟨_, rfl, rfl, ?_⟩
    show s.outbuf.take (n - k) = _
    rw [hkeq, List.drop_take, Nat.sub_self, List.take_zero]
    simp
  · have h2 : 2 * k ≤ 100 := by
      rcases hk with h | h
      · exact absurd h hkeq
      · exact h
    rw [if_pos (by rw [hn]; omega),
      memmove_eq s.outbuf 0 (k : Int) (k : Int) 0 k k rfl rfl rfl (by omega) (by omega),
      Option.map_some']
    refine ⟨_, rfl, rfl, ?_⟩
    show (copy_within s.outbuf 0 k k).take (n - k) = _
    unfold copy_within
    rw [List.take_zero, List.nil_append, Nat.zero_add, List.drop_take]
    have hlen : ((s.outbuf.drop k).take k).length = k := by
      rw [List.length_take, List.length_drop]; omega
    rw [List.take_append_eq_append_take, List.take_take, List.take_take, List.take_take, hlen,
      Nat.min_comm k (n - k), Nat.min_eq_left (show n - 2 * k ≤ n - k by omega),
      show n - k - k = n - 2 * k by omega]

/-- C23 at the failing input: with `a b c` queued and a pty that takes one
byte, the flush leaves `b b` in the queue, where the claim has `b c`. The same
through the encoder, with the sample key codes: the keys `a`, `b`, `c` on a
fresh terminal, the pty taking nothing for the first two and one byte at the
third, leave `b b` queued. -/
theorem C23_partial_drain_keeps_wrong_bytes_witness :
    (∃ s1, terminal_flush_output pty_slow three_queued = some (s1, ((1 : Nat) : Int)) ∧
      s1.outbuf_pos = 3 - 1 ∧
      s1.outbuf.take s1.outbuf_pos =
        (((three_queued.outbuf.take 3).drop 1).take 1) ++
          (((three_queued.outbuf.take 3).drop 1).take (3 - 2 * 1))) ∧
    (terminal_flush_output pty_slow three_queued).map
      (fun r => (r.1.outbuf.take r.1.outbuf_pos, r.2)) = some ([98, 98], 1) ∧
    (((vim_shell_terminal_output sample_code pty_slow (vim_shell_new 80 24) 97).bind
        (fun r => vim_shell_terminal_output sample_code pty_slow r.1 98)).bind
        (fun r => vim_shell_terminal_output sample_code pty_slow r.1 99)).map
      (fun r => (r.1.outbuf.take r.1.outbuf_pos, r.2)) = some ([98, 98], 1) :=
  ⟨C23_partial_drain_keeps_wrong_bytes pty_slow three_queued 3 1 (by decide!) (by decide!)
      (by decide) (by decide) (by decide!) (by decide) (by decide),
    by decide!, by decide!⟩
/-! ## Loops that rewrite the five cell arrays -/

/-- A loop body that rewrites the arrays by `g` in every state that satisfies
`Q`, and keeps `Q`: `j` rounds rewrite the arrays by the `j`-th iterate. -/
theorem repeat_map_grid (f : vim_shell_window → Option vim_shell_window)
    (g : Nat → List Nat → List Nat) (Q : vim_shell_window → Prop)
    (hstep : ∀ s, Q s → f s = some (map_grid g s))
    (hQ : ∀ s, Q s → Q (map_grid g s)) :
    ∀ (j : Nat) (s : vim_shell_window), Q s →
      repeat_n f j s = some (map_grid (fun c buf => (g c)^[j] buf) s) := by
  intro j
  induction j with
  | zero => intro s _; rfl
  | succ j ih =>
    intro s hs
    rw [repeat_n, hstep s hs, Option.some_bind, ih _ (hQ s hs)]
    rfl

/-- A cell of the rewritten grid, from what the rewriting does at its offset
in each array. -/
theorem map_grid_cell (G : Nat → List Nat → List Nat) (s : vim_shell_window) (r c i : Nat)
    (cond : Prop) [Decidable cond] (hg : grid_ok s)
    (h : ∀ fc buf, buf.length = s.size_x * s.size_y →
      (G fc buf).getD (r * s.size_x + c) 0 = if cond then fc else buf.getD i 0) :
    cell_at (map_grid G s) r c = if cond then default_cell else cell_of s i := by
  obtain ⟨_, _, _, hw, hf, hb, hr, hc⟩ := hg
  show ((G 32 s.winbuf).getD (r * s.size_x + c) 0,
    (G VIMSHELL_COLOR_DEFAULT s.fgbuf).getD (r * s.size_x + c) 0,
    (G VIMSHELL_COLOR_DEFAULT s.bgbuf).getD (r * s.size_x + c) 0,
    (G 0 s.rendbuf).getD (r * s.size_x + c) 0,
    (G 0 s.charset).getD (r * s.size_x + c) 0) = _
  rw [h _ _ hw, h _ _ hf, h _ _ hb, h _ _ hr, h _ _ hc]
  by_cases hc : cond
  · simp only [if_pos hc]; rfl
  · simp only [if_neg hc]; rfl

theorem map_grid_ok (G : Nat → List Nat → List Nat) (s : vim_shell_window) (hg : grid_ok s)
    (h : ∀ fc buf, buf.length = s.size_x * s.size_y →
      (G fc buf).length = s.size_x * s.size_y) : grid_ok (map_grid G s) := by
  obtain ⟨a, b, c, hw, hf, hb, hr, hc⟩ := hg
  exact ⟨a, b, c, h _ _ hw, h _ _ hf, h _ _ hb, h _ _ hr, h _ _ hc⟩

theorem scroll_down_buf_length (buf : List Nat) (W H top bottom fc : Nat)
    (hl : buf.length = W * H) (htb : top ≤ bottom) (hb : bottom < H) :
    (scroll_down_buf buf W top bottom fc).length = W * H := by
  have hbW : (bottom + 1) * W ≤ H * W := Nat.mul_le_mul_right _ hb
  have htW : top * W ≤ bottom * W := Nat.mul_le_mul_right _ htb
  have hsub : (bottom - top) * W = bottom * W - top * W := Nat.sub_mul _ _ _
  rw [Nat.add_mul, Nat.one_mul, Nat.mul_comm H] at hbW
  unfold scroll_down_buf
  rw [fill_length _ _ _ _ (by rw [copy_within_length _ _ _ _ (by omega) (by omega)]; omega),
    copy_within_length _ _ _ _ (by omega) (by omega), hl]

/-- One cell array after `j` scrolls down of the rows `top..bottom`: the first
`j` rows of the region are blank, the others hold what stood `j` rows above. -/
theorem scroll_down_iter (W H top bottom fc : Nat) (htb : top ≤ bottom) (hb : bottom < H) :
    ∀ (j : Nat) (buf : List Nat), buf.length = W * H →
      ((fun b => scroll_down_buf b W top bottom fc)^[j] buf).length = W * H ∧
      ∀ r c, c < W →
        ((fun b => scroll_down_buf b W top bottom fc)^[j] buf).getD (r * W + c) 0 =
          if (top ≤ r ∧ r ≤ bottom) ∧ r < top + j then fc
          else buf.getD ((if top ≤ r ∧ r ≤ bottom then r - j else r) * W + c) 0 := by
  intro j
  induction j with
  | zero =>
    intro buf hl
    refine ⟨hl, fun r c _ => ?_⟩
    rw [if_neg (by omega), Nat.sub_zero, ite_self]
    rfl
  | succ j ih =>
    intro buf hl
    obtain ⟨hlen, hcell⟩ := ih buf hl
    rw [Function.iterate_succ_apply']
    refine ⟨scroll_down_buf_length _ W H top bottom fc hlen htb hb, fun r c hc => ?_⟩
    rw [scroll_down_buf_getD _ W H top bottom fc r c hlen htb hb hc]
    by_cases h1 : top < r ∧ r ≤ bottom
    · rw [if_pos h1, hcell (r - 1) c hc]
      split_ifs <;> first
        | rfl
        | (exfalso; omega)
        | (rw [show r - 1 - j = r - (j + 1) by omega])
    · rw [if_neg h1]
      by_cases h3 : r = top
      · rw [if_pos h3, if_pos ⟨⟨by omega, by omega⟩, by omega⟩]
      · rw [if_neg h3, hcell r c hc]
        split_ifs <;> first
          | rfl
          | (exfalso; omega)

/-! ## C30: insert lines -/

/-- The loop of `terminal_IL`: `j` scrolls down of the region `top..bottom`. -/
theorem scroll_down_rounds (W H top bottom : Nat) (htb : top ≤ bottom) (hb : bottom < H)
    (j : Nat) (s : vim_shell_window) (hg : grid_ok s) (hW : s.size_x = W)
    (hH : s.size_y = H) (ht : s.scroll_top_margin = top)
    (hbm : s.scroll_bottom_margin = bottom) :
    repeat_n terminal_scroll_down j s =
      some (map_grid (fun c buf => (fun b => scroll_down_buf b W top bottom c)^[j] buf) s) := by
  refine repeat_map_grid terminal_scroll_down (fun c b => scroll_down_buf b W top bottom c)
    (fun x => grid_ok x ∧ x.size_x = W ∧ x.size_y = H ∧ x.scroll_top_margin = top ∧
      x.scroll_bottom_margin = bottom) ?_ ?_ j s ⟨hg, hW, hH, ht, hbm⟩
  · intro x hx
    obtain ⟨hgx, h1, h2, h3, h4⟩ := hx
    subst h1 h2 h3 h4
    exact scroll_down_eq x hgx htb hb
  · intro x hx
    obtain ⟨hgx, h1, h2, h3, h4⟩ := hx
    refine ⟨map_grid_ok _ x hgx (fun fc buf hl => ?_), h1, h2, h3, h4⟩
    rw [h1, h2] at hl ⊢
    exact scroll_down_buf_length buf W H top bottom fc hl htb hb

/-- `terminal_IL` with one parameter that is `k ≥ 0` once stored in the `int`,
the cursor on or above the bottom margin: `min(max(k,1), bottom - cursor_y)`
scrolls down of the rows from the cursor row to the bottom margin. -/
theorem IL_eq (s : vim_shell_window) (argv : List Nat) (v : Int) (k : Nat) (hg : grid_ok s)
    (hb : s.scroll_bottom_margin < s.size_y) (hb8 : s.scroll_bottom_margin < 256)
    (hcy : s.cursor_y ≤ s.scroll_bottom_margin)
    (ha : argv_int argv 0 = some v) (hk : int32 v = (k : Int)) :
    terminal_IL s 1 argv = some { map_grid (fun c buf =>
        (fun b => scroll_down_buf b s.size_x s.cursor_y s.scroll_bottom_margin c)^[
          min (max k 1) (s.scroll_bottom_margin - s.cursor_y)] buf) s with cursor_x := 0 } := by
  have hlines : lines_arg s 1 argv =
      some ((min (max k 1) (s.scroll_bottom_margin - s.cursor_y) : Nat) : Int) := by
    have hm : (if (k : Int) = 0 then (1 : Int) else (k : Int)) = ((max k 1 : Nat) : Int) := by
      rcases Nat.eq_zero_or_pos k with h | h
      · subst h; rfl
      · rw [if_neg (by omega), Nat.max_eq_left h]
    unfold lines_arg
    rw [if_neg (by decide), ha, Option.map_some', hk, hm, Option.map_some']
    congr 1
    by_cases hm : max k 1 ≤ s.scroll_bottom_margin - s.cursor_y
    · rw [Nat.min_eq_left hm, if_neg (by omega)]
    · rw [Nat.min_eq_right (by omega), if_pos (by omega)]
      omega
  have hu : u8 (s.cursor_y : Int) = s.cursor_y := by
    unfold u8; omega
  unfold terminal_IL
  rw [if_neg (by decide), hlines, Option.some_bind]
  unfold while_dec
  rw [if_neg (by omega), Int.toNat_ofNat, hu,
    scroll_down_rounds s.size_x s.size_y s.cursor_y s.scroll_bottom_margin hcy hb _
      { s with scroll_top_margin := s.cursor_y } hg rfl rfl rfl rfl]
  rfl

/-- `terminal_IL` with a parameter that is negative in the `int`, the cursor
on or above the bottom margin: the loop `while(lines--)` starts on a negative
count. -/
theorem IL_neg (s : vim_shell_window) (argv : List Nat) (v : Int)
    (hcy : s.cursor_y ≤ s.scroll_bottom_margin)
    (ha : argv_int argv 0 = some v) (hn : int32 v < 0) : terminal_IL s 1 argv = none := by
  have hlines : lines_arg s 1 argv = some (int32 v) := by
    unfold lines_arg
    rw [if_neg (by decide), ha, Option.map_some', if_neg (by omega), Option.map_some',
      if_neg (by omega)]
  unfold terminal_IL
  rw [if_neg (by decide), hlines, Option.some_bind]
  unfold while_dec
  rw [if_pos hn]
  rfl

theorem dispatch_IL {env : host} (s : vim_shell_window) (argc : Nat) (argv : List Nat) :
    csi_dispatch env s 76 argc argv = terminal_IL s argc argv := by
  unfold csi_dispatch
  rw [if_neg (by decide), if_neg (by decide), if_neg (by decide), if_neg (by decide),
    if_neg (by decide), if_neg (by decide), if_neg (by decide), if_neg (by decide),
    if_neg (by decide), if_neg (by decide), if_neg (by decide), if_neg (by decide),
    if_pos rfl]

/-- The cells after `k` scrolls down of the rows `y..bottom`. -/
theorem scroll_down_cells (s : vim_shell_window) (y k r c : Nat) (hg : grid_ok s)
    (hy : y ≤ s.scroll_bottom_margin) (hb : s.scroll_bottom_margin < s.size_y)
    (hc : c < s.size_x) :
    cell_at (map_grid (fun fc buf =>
        (fun b => scroll_down_buf b s.size_x y s.scroll_bottom_margin fc)^[k] buf) s) r c =
      if y ≤ r ∧ r ≤ s.scroll_bottom_margin then
        (if r < y + k then default_cell else cell_at s (r - k) c)
      else cell_at s r c := by
  rw [map_grid_cell _ s r c
    ((if y ≤ r ∧ r ≤ s.scroll_bottom_margin then r - k else r) * s.size_x + c)
    ((y ≤ r ∧ r ≤ s.scroll_bottom_margin) ∧ r < y + k) hg
    (fun fc buf hl =>
      (scroll_down_iter s.size_x s.size_y y s.scroll_bottom_margin fc hy hb k buf hl).2 r c hc)]
  by_cases h1 : y ≤ r ∧ r ≤ s.scroll_bottom_margin
  · rw [if_pos h1, if_pos h1]
    by_cases h2 : r < y + k
    · rw [if_pos ⟨h1, h2⟩, if_pos h2]
    · rw [if_neg (fun h => h2 h.2), if_neg h2]
      rfl
  · rw [if_neg h1, if_neg h1, if_neg (fun h => h1 h.1)]
    rfl

/-- C30, what `CSI n L` does for a parameter `n` of 1 to 19 digits of any
value, from any state with a well-formed grid whose bottom margin is inside
the grid and whose cursor is on or above the bottom margin, and whose output
queue can be flushed. `terminal_IL` stores the value in an `int` (`int32`).
When the `int` is not negative, with
`k = min(max(int,1), scroll_bottom - cursor_y)`: the rows `cursor_y ..
cursor_y+k-1` become default cells, each row `r` from `cursor_y+k` to
`scroll_bottom` holds the old row `r-k`, every row outside
`[cursor_y, scroll_bottom]` is unchanged, both margins and `cursor_y` keep
their values, and `cursor_x` is 0. For `n < 2^31` the `int` is `n`;
`n = 4294967297` is stored as 1 and inserts one line. When the `int` is
negative the loop `while(lines--)` starts on a negative count and the sequence
has no defined result. -/
theorem C30_insert_lines_counts_in_int (env : host) (s : vim_shell_window)
    (d : List Nat) (he : s.esc_sequence.length = 50)
    (hflush : terminal_flush_output env s ≠ none) (hg : grid_ok s)
    (hb : s.scroll_bottom_margin < s.size_y) (hb8 : s.scroll_bottom_margin < 256)
    (hcy : s.cursor_y ≤ s.scroll_bottom_margin)
    (hd : ∀ c ∈ d, isdigit c = true) (hd1 : d ≠ []) (hd19 : d.length ≤ 19) :
    (0 ≤ int32 (strtol d) →
      ∃ s1, vim_shell_terminal_input env s (27 :: 91 :: (d ++ [76])) = some s1 ∧
        s1.cursor_x = 0 ∧ s1.cursor_y = s.cursor_y ∧
        s1.scroll_top_margin = s.scroll_top_margin ∧
        s1.scroll_bottom_margin = s.scroll_bottom_margin ∧
        ∀ r c, c < s.size_x →
          cell_at s1 r c =
            if s.cursor_y ≤ r ∧ r ≤ s.scroll_bottom_margin then
              (if r < s.cursor_y + min (max (int32 (strtol d)).toNat 1)
                  (s.scroll_bottom_margin - s.cursor_y)
                then default_cell
                else cell_at s (r - min (max (int32 (strtol d)).toNat 1)
                  (s.scroll_bottom_margin - s.cursor_y)) c)
            else cell_at s r c) ∧
    (strtol d < 2147483648 → int32 (strtol d) = strtol d) ∧
    (int32 (strtol d) < 0 →
      vim_shell_terminal_input env s (27 :: 91 :: (d ++ [76])) = none) := by
  refine ⟨fun h0 => ?_, fun h => int32_of_small (strtol d) (strtol_nonneg d) h, fun hn => ?_⟩
  · obtain ⟨y, ob, op, hP, hfeed⟩ := run_one_param env s d 76
      (fun y => y.cursor_x = 0 ∧ y.cursor_y = s.cursor_y ∧
        y.scroll_top_margin = s.scroll_top_margin ∧
        y.scroll_bottom_margin = s.scroll_bottom_margin ∧
        ∀ r c, c < s.size_x →
          cell_at y r c =
            if s.cursor_y ≤ r ∧ r ≤ s.scroll_bottom_margin then
              (if r < s.cursor_y + min (max (int32 (strtol d)).toNat 1)
                  (s.scroll_bottom_margin - s.cursor_y)
                then default_cell
                else cell_at s (r - min (max (int32 (strtol d)).toNat 1)
                  (s.scroll_bottom_margin - s.cursor_y)) c)
            else cell_at s r c)
      he hflush hd hd1 hd19 (by decide) (by decide)
      (fun n E argv _ ha => ⟨_, (dispatch_IL _ _ _).trans
        (IL_eq (with_esc s n E) argv (strtol d) (int32 (strtol d)).toNat hg hb hb8 hcy ha
          (Int.toNat_of_nonneg h0).symm), rfl, rfl, rfl, rfl, rfl, rfl,
        fun r c hc => scroll_down_cells s s.cursor_y _ r c hg hcy hb hc⟩)
    exact ⟨_, hfeed, hP.1, hP.2.1, hP.2.2.1, hP.2.2.2.1, hP.2.2.2.2⟩
  · obtain ⟨n, E, argv, _, ha, hfeed⟩ := feed_one_param env s d 76 he hd hd1 hd19 (by decide)
      (by decide)
    rw [hfeed, dispatch_IL, IL_neg (with_esc s n E) argv (strtol d) hcy ha hn]
    rfl

/-- C30 at concrete inputs, on the 2x3 terminal with rows `a b`, `c d`, `e f`
(region 0..2) and the cursor on row 0. `ESC [ 1 L` gives the rows blank,
`a b`, `c d`; after a line feed (cursor on row 1) it gives `a b`, blank,
`c d`. `ESC [ 4 2 9 4 9 6 7 2 9 7 L` gives blank, `a b`, `c d` as well: the
value `2^32 + 1` is 1 in an `int`, where `k = min(max(n,1), 2)` blanks rows 0
and 1. `ESC [ 2 1 4 7 4 8 3 6 4 8 L` (`2^31`, negative in an `int`) has no
defined result. -/
theorem C30_insert_lines_counts_in_int_witness :
    (∃ s1, vim_shell_terminal_input pty_accepts three_row_screen
        (27 :: 91 :: ([52, 50, 57, 52, 57, 54, 55, 50, 57, 55] ++ [76])) = some s1 ∧
      s1.cursor_x = 0 ∧ s1.cursor_y = three_row_screen.cursor_y) ∧
    (strtol [52, 50, 57, 52, 57, 54, 55, 50, 57, 55],
      int32 (strtol [52, 50, 57, 52, 57, 54, 55, 50, 57, 55])) = (4294967297, 1) ∧
    (three_row_screen.cursor_y, three_row_screen.scroll_bottom_margin) = (0, 2) ∧
    (vim_shell_terminal_input pty_accepts three_row_screen [27, 91, 49, 76]).map
      (fun s => s.winbuf) = some [32, 32, 97, 98, 99, 100] ∧
    (vim_shell_terminal_input pty_accepts three_row_screen [10, 27, 91, 49, 76]).map
      (fun s => (s.winbuf, s.cursor_x, s.cursor_y)) = some ([97, 98, 32, 32, 99, 100], 0, 1) ∧
    (vim_shell_terminal_input pty_accepts three_row_screen
        [27, 91, 52, 50, 57, 52, 57, 54, 55, 50, 57, 55, 76]).map
      (fun s => s.winbuf) = some [32, 32, 97, 98, 99, 100] ∧
    vim_shell_terminal_input pty_accepts three_row_screen
      [27, 91, 50, 49, 52, 55, 52, 56, 51, 54, 52, 56, 76] = none := by
  obtain ⟨s1, h, hx, hy, _⟩ := (C30_insert_lines_counts_in_int pty_accepts three_row_screen
    [52, 50, 57, 52, 57, 54, 55, 50, 57, 55] (by decide!) (by decide!) (by decide!)
    (by decide!) (by decide!) (by decide!) (by decide) (by decide) (by decide)).1 (by decide!)
  exact ⟨⟨s1, h, hx, hy⟩, by decide!, by decide!, by decide!, by decide!, by decide!,
    by decide!⟩
/-! ## The loops of `terminal_ICH` and `terminal_DCH` -/

/-- The offset of a cell is the offset of row `y`, column `x` only for that
cell, and lies in row `y` only for the cells of that row. -/
theorem row_offset (W r c y : Nat) (hc : c < W) :
    (y * W ≤ r * W + c ∧ r * W + c < y * W + W) ↔ r = y := by
  have h1 := row_le W r c y hc
  have h2 := row_lt W r c (y + 1) hc
  rw [Nat.add_mul, Nat.one_mul] at h2
  constructor
  · intro h
    have a := h1.1 h.1
    have b := h2.1 h.2
    omega
  · intro h
    subst h
    omega

theorem ich_buf_length (W H y x c : Nat) (buf : List Nat) (hl : buf.length = W * H)
    (hx : x < W) (hy : y < H) : (ich_buf W y x c buf).length = W * H := by
  have hi := cell_index_lt W H x y hx hy
  have hrow : y * W + W ≤ W * H := by
    have := Nat.mul_le_mul_right W (show y + 1 ≤ H from hy)
    rw [Nat.add_mul, Nat.one_mul, Nat.mul_comm H] at this
    exact this
  unfold ich_buf
  rw [fill_length _ _ _ _ (by rw [copy_within_length _ _ _ _ (by omega) (by omega)]; omega),
    copy_within_length _ _ _ _ (by omega) (by omega), hl]

theorem dch_buf_length (W H y x c : Nat) (buf : List Nat) (hl : buf.length = W * H)
    (hx : x < W) (hy : y < H) : (dch_buf W y x c buf).length = W * H := by
  have hi := cell_index_lt W H x y hx hy
  have hrow : y * W + W ≤ W * H := by
    have := Nat.mul_le_mul_right W (show y + 1 ≤ H from hy)
    rw [Nat.add_mul, Nat.one_mul, Nat.mul_comm H] at this
    exact this
  unfold dch_buf
  rw [fill_length _ _ _ _ (by rw [copy_within_length _ _ _ _ (by omega) (by omega)]; omega),
    copy_within_length _ _ _ _ (by omega) (by omega), hl]

/-- One round of the loop of `terminal_ICH`, on one array: the cells right of
the cursor take the value of their left neighbour, the cursor cell is blank. -/
theorem ich_buf_getD (W H y x fc r c : Nat) (buf : List Nat) (hl : buf.length = W * H)
    (hx : x < W) (hy : y < H) (hc : c < W) :
    (ich_buf W y x fc buf).getD (r * W + c) 0 =
      if r = y ∧ x < c then buf.getD (r * W + (c - 1)) 0
      else if r = y ∧ c = x then fc else buf.getD (r * W + c) 0 := by
  have hi := cell_index_lt W H x y hx hy
  have hrow : y * W + W ≤ W * H := by
    have := Nat.mul_le_mul_right W (show y + 1 ≤ H from hy)
    rw [Nat.add_mul, Nat.one_mul, Nat.mul_comm H] at this
    exact this
  have hro := row_offset W r c y hc
  unfold ich_buf
  rw [fill_getD _ _ _ _ _ (by rw [copy_within_length _ _ _ _ (by omega) (by omega)]; omega),
    copy_within_getD _ _ _ _ _ (by omega) (by omega)]
  by_cases hr : r = y
  · subst hr
    by_cases h1 : x < c
    · rw [if_neg (by omega), if_pos ⟨by omega, by omega⟩, if_pos ⟨rfl, h1⟩]
      congr 1
      omega
    · by_cases h2 : c = x
      · rw [if_pos ⟨by omega, by omega⟩, if_neg (fun h => h1 h.2), if_pos ⟨rfl, h2⟩]
      · rw [if_neg (by omega), if_neg (by omega), if_neg (fun h => h1 h.2),
          if_neg (fun h => h2 h.2)]
  · have hout : ¬ (y * W ≤ r * W + c ∧ r * W + c < y * W + W) := fun h => hr (hro.1 h)
    rw [if_neg (by omega), if_neg (by omega), if_neg (fun h => hr h.1),
      if_neg (fun h => hr h.1)]

/-- One round of the loop of `terminal_DCH`, on one array: the cells from the
cursor on take the value of their right neighbour, the last cell of the row is
blank. -/
theorem dch_buf_getD (W H y x fc r c : Nat) (buf : List Nat) (hl : buf.length = W * H)
    (hx : x < W) (hy : y < H) (hc : c < W) :
    (dch_buf W y x fc buf).getD (r * W + c) 0 =
      if r = y ∧ x ≤ c ∧ c + 1 < W then buf.getD (r * W + (c + 1)) 0
      else if r = y ∧ c + 1 = W then fc else buf.getD (r * W + c) 0 := by
  have hi := cell_index_lt W H x y hx hy
  have hrow : y * W + W ≤ W * H := by
    have := Nat.mul_le_mul_right W (show y + 1 ≤ H from hy)
    rw [Nat.add_mul, Nat.one_mul, Nat.mul_comm H] at this
    exact this
  have hro := row_offset W r c y hc
  unfold dch_buf
  rw [fill_getD _ _ _ _ _ (by rw [copy_within_length _ _ _ _ (by omega) (by omega)]; omega),
    copy_within_getD _ _ _ _ _ (by omega) (by omega)]
  by_cases hr : r = y
  · subst hr
    by_cases h1 : x ≤ c ∧ c + 1 < W
    · rw [if_neg (by omega), if_pos ⟨by omega, by omega⟩, if_pos ⟨rfl, h1⟩]
      congr 1
      omega
    · by_cases h2 : c + 1 = W
      · rw [if_pos ⟨by omega, by omega⟩, if_neg (fun h => h1 h.2), if_pos ⟨rfl, h2⟩]
      · rw [if_neg (by omega), if_neg (by omega), if_neg (fun h => h1 h.2),
          if_neg (fun h => h2 h.2)]
  · have hout : ¬ (y * W ≤ r * W + c ∧ r * W + c < y * W + W) := fun h => hr (hro.1 h)
    rw [if_neg (by omega), if_neg (by omega), if_neg (fun h => hr h.1),
      if_neg (fun h => hr h.1)]

/-- One array after `j` rounds of the loop of `terminal_ICH`. -/
theorem ich_iter (W H y x fc : Nat) (hx : x < W) (hy : y < H) :
    ∀ (j : Nat) (buf : List Nat), buf.length = W * H →
      ((ich_buf W y x fc)^[j] buf).length = W * H ∧
      ∀ r c, c < W →
        ((ich_buf W y x fc)^[j] buf).getD (r * W + c) 0 =
          if (r = y ∧ x ≤ c) ∧ c < x + j then fc
          else buf.getD (r * W + (if r = y ∧ x ≤ c then c - j else c)) 0 := by
  intro j
  induction j with
  | zero =>
    intro buf hl
    refine ⟨hl, fun r c _ => ?_⟩
    rw [if_neg (by omega), Nat.sub_zero, ite_self]
    rfl
  | succ j ih =>
    intro buf hl
    obtain ⟨hlen, hcell⟩ := ih buf hl
    rw [Function.iterate_succ_apply']
    refine ⟨ich_buf_length W H y x fc _ hlen hx hy, fun r c hc => ?_⟩
    rw [ich_buf_getD W H y x fc r c _ hlen hx hy hc]
    by_cases h1 : r = y ∧ x < c
    · rw [if_pos h1, hcell r (c - 1) (by omega)]
      split_ifs <;> first
        | rfl
        | (exfalso; omega)
        | (rw [show c - 1 - j = c - (j + 1) by omega])
    · rw [if_neg h1]
      by_cases h3 : r = y ∧ c = x
      · rw [if_pos h3, if_pos ⟨⟨h3.1, by omega⟩, by omega⟩]
      · rw [if_neg h3, hcell r c hc]
        split_ifs <;> first
          | rfl
          | (exfalso; omega)

/-- One array after `j` rounds of the loop of `terminal_DCH`. -/
theorem dch_iter (W H y x fc : Nat) (hx : x < W) (hy : y < H) :
    ∀ (j : Nat) (buf : List Nat), buf.length = W * H →
      ((dch_buf W y x fc)^[j] buf).length = W * H ∧
      ∀ r c, c < W →
        ((dch_buf W y x fc)^[j] buf).getD (r * W + c) 0 =
          if (r = y ∧ x ≤ c) ∧ W ≤ c + j then fc
          else buf.getD (r * W + (if r = y ∧ x ≤ c then c + j else c)) 0 := by
  intro j
  induction j with
  | zero =>
    intro buf hl
    refine ⟨hl, fun r c _ => ?_⟩
    rw [if_neg (by omega), Nat.add_zero, ite_self]
    rfl
  | succ j ih =>
    intro buf hl
    obtain ⟨hlen, hcell⟩ := ih buf hl
    rw [Function.iterate_succ_apply']
    refine ⟨dch_buf_length W H y x fc _ hlen hx hy, fun r c hc => ?_⟩
    rw [dch_buf_getD W H y x fc r c _ hlen hx hy hc]
    by_cases h1 : r = y ∧ x ≤ c ∧ c + 1 < W
    · rw [if_pos h1, hcell r (c + 1) (by omega)]
      split_ifs <;> first
        | rfl
        | (exfalso; omega)
        | (rw [show c + 1 + j = c + (j + 1) by omega])
    · rw [if_neg h1]
      by_cases h3 : r = y ∧ c + 1 = W
      · rw [if_pos h3, if_pos ⟨⟨h3.1, by omega⟩, by omega⟩]
      · rw [if_neg h3, hcell r c hc]
        split_ifs <;> first
          | rfl
          | (exfalso; omega)

/-! ## C28, C29: insert and delete characters -/

/-- The loop of `terminal_ICH` with the cursor at row `y`, column `x`. -/
theorem ich_rounds (W H y x : Nat) (hx : x < W) (hy : y < H) (P L : Int)
    (hP : P = ((y * W + x : Nat) : Int)) (hL : L = ((W - x - 1 : Nat) : Int))
    (j : Nat) (s : vim_shell_window) (hg : grid_ok s) (hW : s.size_x = W)
    (hH : s.size_y = H) :
    repeat_n (fun s1 => (move_cells s1 (P + 1) P L).bind (fun s2 => erase_cells s2 P 1)) j s =
      some (map_grid (fun c buf => (ich_buf W y x c)^[j] buf) s) := by
  have hi := cell_index_lt W H x y hx hy
  have hrow : y * W + W ≤ W * H := by
    have := Nat.mul_le_mul_right W (show y + 1 ≤ H from hy)
    rw [Nat.add_mul, Nat.one_mul, Nat.mul_comm H] at this
    exact this
  refine repeat_map_grid _ (fun c buf => ich_buf W y x c buf)
    (fun t => grid_ok t ∧ t.size_x = W ∧ t.size_y = H) ?_ ?_ j s ⟨hg, hW, hH⟩
  · intro t ht
    obtain ⟨hgt, h1, h2⟩ := ht
    have hmove := move_cells_eq t (P + 1) P L (y * W + x + 1) (y * W + x) (W - x - 1)
      (by rw [hP]; push_cast; rfl) hP hL hgt (by rw [h1, h2]; omega) (by rw [h1, h2]; omega)
    have hg2 : grid_ok { t with
        winbuf := copy_within t.winbuf (y * W + x + 1) (y * W + x) (W - x - 1)
        fgbuf := copy_within t.fgbuf (y * W + x + 1) (y * W + x) (W - x - 1)
        bgbuf := copy_within t.bgbuf (y * W + x + 1) (y * W + x) (W - x - 1)
        rendbuf := copy_within t.rendbuf (y * W + x + 1) (y * W + x) (W - x - 1)
        charset := copy_within t.charset (y * W + x + 1) (y * W + x) (W - x - 1) } := by
      obtain ⟨a, b, c, hw, hf, hb, hr, hc⟩ := hgt
      rw [h1, h2] at hw hf hb hr hc
      refine ⟨a, b, c, ?_, ?_, ?_, ?_, ?_⟩ <;>
        (show (copy_within _ _ _ _).length = t.size_x * t.size_y
         rw [copy_within_length _ _ _ _ (by omega) (by omega), h1, h2]
         assumption)
    show (move_cells t (P + 1) P L).bind (fun s2 => erase_cells s2 P 1) = _
    rw [hmove, Option.some_bind,
      erase_cells_eq _ P 1 (y * W + x) 1 hP rfl hg2
        (by show _ ≤ t.size_x * t.size_y; rw [h1, h2]; omega)]
    rfl
  · intro t ht
    obtain ⟨hgt, h1, h2⟩ := ht
    refine ⟨map_grid_ok _ t hgt (fun fc buf hl => ?_), h1, h2⟩
    rw [h1, h2] at hl ⊢
    exact ich_buf_length W H y x fc buf hl hx hy

/-- The loop of `terminal_DCH` with the cursor at row `y`, column `x`. -/
theorem dch_rounds (W H y x : Nat) (hx : x < W) (hy : y < H) (P L : Int)
    (hP : P = ((y * W + x : Nat) : Int)) (hL : L = ((W - x - 1 : Nat) : Int))
    (j : Nat) (s : vim_shell_window) (hg : grid_ok s) (hW : s.size_x = W)
    (hH : s.size_y = H) :
    repeat_n (fun s1 => (move_cells s1 P (P + 1) L).bind
        (fun s2 => erase_cells s2 (P + L) 1)) j s =
      some (map_grid (fun c buf => (dch_buf W y x c)^[j] buf) s) := by
  have hi := cell_index_lt W H x y hx hy
  have hrow : y * W + W ≤ W * H := by
    have := Nat.mul_le_mul_right W (show y + 1 ≤ H from hy)
    rw [Nat.add_mul, Nat.one_mul, Nat.mul_comm H] at this
    exact this
  refine repeat_map_grid _ (fun c buf => dch_buf W y x c buf)
    (fun t => grid_ok t ∧ t.size_x = W ∧ t.size_y = H) ?_ ?_ j s ⟨hg, hW, hH⟩
  · intro t ht
    obtain ⟨hgt, h1, h2⟩ := ht
    have hmove := move_cells_eq t P (P + 1) L (y * W + x) (y * W + x + 1) (W - x - 1)
      hP (by rw [hP]; push_cast; rfl) hL hgt (by rw [h1, h2]; omega) (by rw [h1, h2]; omega)
    have hg2 : grid_ok { t with
        winbuf := copy_within t.winbuf (y * W + x) (y * W + x + 1) (W - x - 1)
        fgbuf := copy_within t.fgbuf (y * W + x) (y * W + x + 1) (W - x - 1)
        bgbuf := copy_within t.bgbuf (y * W + x) (y * W + x + 1) (W - x - 1)
        rendbuf := copy_within t.rendbuf (y * W + x) (y * W + x + 1) (W - x - 1)
        charset := copy_within t.charset (y * W + x) (y * W + x + 1) (W - x - 1) } := by
      obtain ⟨a, b, c, hw, hf, hb, hr, hc⟩ := hgt
      rw [h1, h2] at hw hf hb hr hc
      refine ⟨a, b, c, ?_, ?_, ?_, ?_, ?_⟩ <;>
        (show (copy_within _ _ _ _).length = t.size_x * t.size_y
         rw [copy_within_length _ _ _ _ (by omega) (by omega), h1, h2]
         assumption)
    show (move_cells t P (P + 1) L).bind (fun s2 => erase_cells s2 (P + L) 1) = _
    rw [hmove, Option.some_bind,
      erase_cells_eq _ (P + L) 1 (y * W + x + (W - x - 1)) 1
        (by rw [hP, hL]; push_cast; rfl) rfl hg2
        (by show _ ≤ t.size_x * t.size_y; rw [h1, h2]; omega)]
    rfl
  · intro t ht
    obtain ⟨hgt, h1, h2⟩ := ht
    refine ⟨map_grid_ok _ t hgt (fun fc buf hl => ?_), h1, h2⟩
    rw [h1, h2] at hl ⊢
    exact dch_buf_length W H y x fc buf hl hx hy

/-- The count of `terminal_ICH` and `terminal_DCH` for a parameter that is the
number `k ≥ 0` once stored in the `int`. -/
theorem chars_arg_eq (argv : List Nat) (v : Int) (k : Nat) (ha : argv_int argv 0 = some v)
    (hk : int32 v = (k : Int)) : chars_arg 1 argv = some ((max k 1 : Nat) : Int) := by
  unfold chars_arg
  rw [if_neg (by decide), ha, Option.map_some', hk]
  rcases Nat.eq_zero_or_pos k with h | h
  · subst h; rfl
  · rw [if_neg (by omega), Nat.max_eq_left h]

/-- The count of `terminal_ICH` and `terminal_DCH` for a parameter that is
negative once stored in the `int`. -/
theorem chars_arg_neg (argv : List Nat) (v : Int) (ha : argv_int argv 0 = some v)
    (hn : int32 v < 0) : chars_arg 1 argv = some (int32 v) := by
  unfold chars_arg
  rw [if_neg (by decide), ha, Option.map_some', if_neg (by omega)]

/-- `terminal_ICH` with one parameter that is `k ≥ 0` in the `int`, the cursor
inside the grid: `max(k,1)` rounds of its loop. -/
theorem ICH_eq (s : vim_shell_window) (argv : List Nat) (v : Int) (k : Nat) (hg : grid_ok s)
    (hx : s.cursor_x < s.size_x) (hy : s.cursor_y < s.size_y)
    (ha : argv_int argv 0 = some v) (hk : int32 v = (k : Int)) :
    terminal_ICH s 1 argv = some (map_grid (fun c buf =>
      (ich_buf s.size_x s.cursor_y s.cursor_x c)^[max k 1] buf) s) := by
  unfold terminal_ICH
  rw [if_neg (by decide), chars_arg_eq argv v k ha hk, Option.some_bind]
  unfold while_dec
  rw [if_neg (by omega), Int.toNat_ofNat]
  exact ich_rounds s.size_x s.size_y s.cursor_y s.cursor_x hx hy _ _
    (cursor_pos_eq s hg hx hy) (by omega) _ s hg rfl rfl

/-- `terminal_DCH` with one parameter that is `k ≥ 0` in the `int`, the cursor
inside the grid: `max(k,1)` rounds of its loop. -/
theorem DCH_eq (s : vim_shell_window) (argv : List Nat) (v : Int) (k : Nat) (hg : grid_ok s)
    (hx : s.cursor_x < s.size_x) (hy : s.cursor_y < s.size_y)
    (ha : argv_int argv 0 = some v) (hk : int32 v = (k : Int)) :
    terminal_DCH s 1 argv = some (map_grid (fun c buf =>
      (dch_buf s.size_x s.cursor_y s.cursor_x c)^[max k 1] buf) s) := by
  unfold terminal_DCH
  rw [if_neg (by decide), chars_arg_eq argv v k ha hk, Option.some_bind]
  unfold while_dec
  rw [if_neg (by omega), Int.toNat_ofNat]
  exact dch_rounds s.size_x s.size_y s.cursor_y s.cursor_x hx hy _ _
    (cursor_pos_eq s hg hx hy) (by omega) _ s hg rfl rfl

/-- `terminal_ICH` with a parameter that is negative in the `int`: the loop
`while(chars--)` starts on a negative count. -/
theorem ICH_neg (s : vim_shell_window) (argv : List Nat) (v : Int)
    (ha : argv_int argv 0 = some v) (hn : int32 v < 0) : terminal_ICH s 1 argv = none := by
  unfold terminal_ICH
  rw [if_neg (by decide), chars_arg_neg argv v ha hn, Option.some_bind]
  unfold while_dec
  rw [if_pos hn]

/-- `terminal_DCH` with a parameter that is negative in the `int`: the loop
`while(chars--)` starts on a negative count. -/
theorem DCH_neg (s : vim_shell_window) (argv : List Nat) (v : Int)
    (ha : argv_int argv 0 = some v) (hn : int32 v < 0) : terminal_DCH s 1 argv = none := by
  unfold terminal_DCH
  rw [if_neg (by decide), chars_arg_neg argv v ha hn, Option.some_bind]
  unfold while_dec
  rw [if_pos hn]

theorem dispatch_ICH {env : host} (s : vim_shell_window) (argc : Nat) (argv : List Nat) :
    csi_dispatch env s 64 argc argv = terminal_ICH s argc argv := by
  unfold csi_dispatch
  rw [if_neg (by decide), if_neg (by decide), if_neg (by decide), if_neg (by decide),
    if_neg (by decide), if_neg (by decide), if_neg (by decide), if_neg (by decide),
    if_neg (by decide), if_neg (by decide), if_neg (by decide), if_neg (by decide),
    if_neg (by decide), if_pos rfl]

theorem dispatch_DCH {env : host} (s : vim_shell_window) (argc : Nat) (argv : List Nat) :
    csi_dispatch env s 80 argc argv = terminal_DCH s argc argv := by
  unfold csi_dispatch
  rw [if_neg (by decide), if_neg (by decide), if_neg (by decide), if_neg (by decide),
    if_neg (by decide), if_neg (by decide), if_neg (by decide), if_neg (by decide),
    if_neg (by decide), if_neg (by decide), if_neg (by decide), if_neg (by decide),
    if_neg (by decide), if_neg (by decide), if_pos rfl]

/-- The cells after `k` rounds of the loop of `terminal_ICH`. -/
theorem ich_cells (s : vim_shell_window) (k r c : Nat) (hg : grid_ok s)
    (hx : s.cursor_x < s.size_x) (hy : s.cursor_y < s.size_y) (hc : c < s.size_x) :
    cell_at (map_grid (fun fc buf =>
        (ich_buf s.size_x s.cursor_y s.cursor_x fc)^[k] buf) s) r c =
      if r = s.cursor_y ∧ s.cursor_x ≤ c then
        (if c < s.cursor_x + k then default_cell else cell_at s r (c - k))
      else cell_at s r c := by
  rw [map_grid_cell _ s r c
    (r * s.size_x + (if r = s.cursor_y ∧ s.cursor_x ≤ c then c - k else c))
    ((r = s.cursor_y ∧ s.cursor_x ≤ c) ∧ c < s.cursor_x + k) hg
    (fun fc buf hl =>
      (ich_iter s.size_x s.size_y s.cursor_y s.cursor_x fc hx hy k buf hl).2 r c hc)]
  by_cases h1 : r = s.cursor_y ∧ s.cursor_x ≤ c
  · rw [if_pos h1, if_pos h1]
    by_cases h2 : c < s.cursor_x + k
    · rw [if_pos ⟨h1, h2⟩, if_pos h2]
    · rw [if_neg (fun h => h2 h.2), if_neg h2]
      rfl
  · rw [if_neg h1, if_neg h1, if_neg (fun h => h1 h.1)]
    rfl

/-- The cells after `k` rounds of the loop of `terminal_DCH`. -/
theorem dch_cells (s : vim_shell_window) (k r c : Nat) (hg : grid_ok s)
    (hx : s.cursor_x < s.size_x) (hy : s.cursor_y < s.size_y) (hc : c < s.size_x) :
    cell_at (map_grid (fun fc buf =>
        (dch_buf s.size_x s.cursor_y s.cursor_x fc)^[k] buf) s) r c =
      if r = s.cursor_y ∧ s.cursor_x ≤ c then
        (if s.size_x ≤ c + k then default_cell else cell_at s r (c + k))
      else cell_at s r c := by
  rw [map_grid_cell _ s r c
    (r * s.size_x + (if r = s.cursor_y ∧ s.cursor_x ≤ c then c + k else c))
    ((r = s.cursor_y ∧ s.cursor_x ≤ c) ∧ s.size_x ≤ c + k) hg
    (fun fc buf hl =>
      (dch_iter s.size_x s.size_y s.cursor_y s.cursor_x fc hx hy k buf hl).2 r c hc)]
  by_cases h1 : r = s.cursor_y ∧ s.cursor_x ≤ c
  · rw [if_pos h1, if_pos h1]
    by_cases h2 : s.size_x ≤ c + k
    · rw [if_pos ⟨h1, h2⟩, if_pos h2]
    · rw [if_neg (fun h => h2 h.2), if_neg h2]
      rfl
  · rw [if_neg h1, if_neg h1, if_neg (fun h => h1 h.1)]
    rfl

/-- C28, what `CSI n @` does for a parameter `n` of 1 to 19 digits of any
value, from any state with a well-formed grid and the cursor inside it, whose
output queue can be flushed. `terminal_ICH` stores the value in an `int`
(`int32`). When the `int` is not negative, with `k = max(int, 1)`: on the
cursor row the columns `cursor_x .. cursor_x+k-1` become default cells and
each column `c ≥ cursor_x+k` holds the old cell of column `c-k`; the columns
left of the cursor and all other rows are unchanged, in all five arrays; the
cursor does not move. For `n < 2^31` the `int` is `n`; `n = 4294967298` is
stored as 2 and inserts two cells. When the `int` is negative the loop
`while(chars--)` starts on a negative count and the sequence has no defined
result. -/
theorem C28_insert_chars_counts_in_int (env : host) (s : vim_shell_window)
    (d : List Nat) (he : s.esc_sequence.length = 50)
    (hflush : terminal_flush_output env s ≠ none) (hg : grid_ok s)
    (hx : s.cursor_x < s.size_x) (hy : s.cursor_y < s.size_y)
    (hd : ∀ c ∈ d, isdigit c = true) (hd1 : d ≠ []) (hd19 : d.length ≤ 19) :
    (0 ≤ int32 (strtol d) →
      ∃ s1, vim_shell_terminal_input env s (27 :: 91 :: (d ++ [64])) = some s1 ∧
        s1.cursor_x = s.cursor_x ∧ s1.cursor_y = s.cursor_y ∧
        ∀ r c, c < s.size_x →
          cell_at s1 r c =
            if r = s.cursor_y ∧ s.cursor_x ≤ c then
              (if c < s.cursor_x + max (int32 (strtol d)).toNat 1 then default_cell
                else cell_at s r (c - max (int32 (strtol d)).toNat 1))
            else cell_at s r c) ∧
    (strtol d < 2147483648 → int32 (strtol d) = strtol d) ∧
    (int32 (strtol d) < 0 →
      vim_shell_terminal_input env s (27 :: 91 :: (d ++ [64])) = none) := by
  refine ⟨fun h0 => ?_, fun h => int32_of_small (strtol d) (strtol_nonneg d) h, fun hn => ?_⟩
  · obtain ⟨y, ob, op, hP, hfeed⟩ := run_one_param env s d 64
      (fun y => y.cursor_x = s.cursor_x ∧ y.cursor_y = s.cursor_y ∧
        ∀ r c, c < s.size_x →
          cell_at y r c =
            if r = s.cursor_y ∧ s.cursor_x ≤ c then
              (if c < s.cursor_x + max (int32 (strtol d)).toNat 1 then default_cell
                else cell_at s r (c - max (int32 (strtol d)).toNat 1))
            else cell_at s r c)
      he hflush hd hd1 hd19 (by decide) (by decide)
      (fun n E argv _ ha => ⟨_, (dispatch_ICH _ _ _).trans
        (ICH_eq (with_esc s n E) argv (strtol d) (int32 (strtol d)).toNat hg hx hy ha
          (Int.toNat_of_nonneg h0).symm), rfl, rfl, rfl, rfl,
        fun r c hc => ich_cells s _ r c hg hx hy hc⟩)
    exact ⟨_, hfeed, hP.1, hP.2.1, hP.2.2⟩
  · obtain ⟨n, E, argv, _, ha, hfeed⟩ := feed_one_param env s d 64 he hd hd1 hd19 (by decide)
      (by decide)
    rw [hfeed, dispatch_ICH, ICH_neg (with_esc s n E) argv (strtol d) ha hn]
    rfl

/-- C28 at concrete inputs, on the 3x2 terminal with rows `a b c`, `d e f` and
the cursor at row 1, column 0. `ESC [ 2 @` gives the rows `a b c` and blank,
blank, `d`. `ESC [ 4 2 9 4 9 6 7 2 9 8 @` gives the same rows: the value
`2^32 + 2` is 2 in an `int`, where `k = max(n,1)` blanks the whole row.
`ESC [ 2 1 4 7 4 8 3 6 4 8 @` (`2^31`, negative in an `int`) has no defined
result. -/
theorem C28_insert_chars_counts_in_int_witness :
    (∃ s1, vim_shell_terminal_input pty_accepts two_row_screen
        (27 :: 91 :: ([52, 50, 57, 52, 57, 54, 55, 50, 57, 56] ++ [64])) = some s1 ∧
      s1.cursor_x = two_row_screen.cursor_x ∧ s1.cursor_y = two_row_screen.cursor_y) ∧
    (strtol [52, 50, 57, 52, 57, 54, 55, 50, 57, 56],
      int32 (strtol [52, 50, 57, 52, 57, 54, 55, 50, 57, 56])) = (4294967298, 2) ∧
    (vim_shell_terminal_input pty_accepts two_row_screen [27, 91, 50, 64]).map
      (fun s => (s.winbuf, s.cursor_x, s.cursor_y)) =
      some ([97, 98, 99, 32, 32, 100], 0, 1) ∧
    (vim_shell_terminal_input pty_accepts two_row_screen
        [27, 91, 52, 50, 57, 52, 57, 54, 55, 50, 57, 56, 64]).map
      (fun s => (s.winbuf, s.cursor_x, s.cursor_y)) =
      some ([97, 98, 99, 32, 32, 100], 0, 1) ∧
    vim_shell_terminal_input pty_accepts two_row_screen
      [27, 91, 50, 49, 52, 55, 52, 56, 51, 54, 52, 56, 64] = none := by
  obtain ⟨s1, h, hx, hy, _⟩ := (C28_insert_chars_counts_in_int pty_accepts two_row_screen
    [52, 50, 57, 52, 57, 54, 55, 50, 57, 56] (by decide!) (by decide!) (by decide!)
    (by decide!) (by decide!) (by decide) (by decide) (by decide)).1 (by decide!)
  exact ⟨⟨s1, h, hx, hy⟩, by decide!, by decide!, by decide!, by decide!⟩

/-- C29, what `CSI n P` does for a parameter `n` of 1 to 19 digits of any
value, from any state with a well-formed grid and the cursor inside it, whose
output queue can be flushed. `terminal_DCH` stores the value in an `int`
(`int32`). When the `int` is not negative, with `k = max(int, 1)`: on the
cursor row each column `c ≥ cursor_x` with `c + k < W` holds the old cell of
column `c+k`, and the columns `c ≥ cursor_x` with `c + k ≥ W` (the last
`min(k, W - cursor_x)` columns) become default cells; the columns left of the
cursor and all other rows are unchanged, in all five arrays; the cursor does
not move. For `n < 2^31` the `int` is `n`; `n = 4294967297` is stored as 1 and
deletes one cell. When the `int` is negative the loop `while(chars--)` starts
on a negative count and the sequence has no defined result. -/
theorem C29_delete_chars_counts_in_int (env : host) (s : vim_shell_window)
    (d : List Nat) (he : s.esc_sequence.length = 50)
    (hflush : terminal_flush_output env s ≠ none) (hg : grid_ok s)
    (hx : s.cursor_x < s.size_x) (hy : s.cursor_y < s.size_y)
    (hd : ∀ c ∈ d, isdigit c = true) (hd1 : d ≠ []) (hd19 : d.length ≤ 19) :
    (0 ≤ int32 (strtol d) →
      ∃ s1, vim_shell_terminal_input env s (27 :: 91 :: (d ++ [80])) = some s1 ∧
        s1.cursor_x = s.cursor_x ∧ s1.cursor_y = s.cursor_y ∧
        ∀ r c, c < s.size_x →
          cell_at s1 r c =
            if r = s.cursor_y ∧ s.cursor_x ≤ c then
              (if s.size_x ≤ c + max (int32 (strtol d)).toNat 1 then default_cell
                else cell_at s r (c + max (int32 (strtol d)).toNat 1))
            else cell_at s r c) ∧
    (strtol d < 2147483648 → int32 (strtol d) = strtol d) ∧
    (int32 (strtol d) < 0 →
      vim_shell_terminal_input env s (27 :: 91 :: (d ++ [80])) = none) := by
  refine ⟨fun h0 => ?_, fun h => int32_of_small (strtol d) (strtol_nonneg d) h, fun hn => ?_⟩
  · obtain ⟨y, ob, op, hP, hfeed⟩ := run_one_param env s d 80
      (fun y => y.cursor_x = s.cursor_x ∧ y.cursor_y = s.cursor_y ∧
        ∀ r c, c < s.size_x →
          cell_at y r c =
            if r = s.cursor_y ∧ s.cursor_x ≤ c then
              (if s.size_x ≤ c + max (int32 (strtol d)).toNat 1 then default_cell
                else cell_at s r (c + max (int32 (strtol d)).toNat 1))
            else cell_at s r c)
      he hflush hd hd1 hd19 (by decide) (by decide)
      (fun n E argv _ ha => ⟨_, (dispatch_DCH _ _ _).trans
        (DCH_eq (with_esc s n E) argv (strtol d) (int32 (strtol d)).toNat hg hx hy ha
          (Int.toNat_of_nonneg h0).symm), rfl, rfl, rfl, rfl,
        fun r c hc => dch_cells s _ r c hg hx hy hc⟩)
    exact ⟨_, hfeed, hP.1, hP.2.1, hP.2.2⟩
  · obtain ⟨n, E, argv, _, ha, hfeed⟩ := feed_one_param env s d 80 he hd hd1 hd19 (by decide)
      (by decide)
    rw [hfeed, dispatch_DCH, DCH_neg (with_esc s n E) argv (strtol d) ha hn]
    rfl

/-- C29 at concrete inputs, on the 3x2 terminal with rows `a b c`, `d e f` and
the cursor at row 1, column 0. `ESC [ 2 P` gives the rows `a b c` and `f`,
blank, blank. `ESC [ 4 2 9 4 9 6 7 2 9 7 P` gives `a b c` and `e`, `f`, blank:
the value `2^32 + 1` is 1 in an `int`, where `k = max(n,1)` blanks the whole
row. `ESC [ 2 1 4 7 4 8 3 6 4 8 P` (`2^31`, negative in an `int`) has no
defined result. -/
theorem C29_delete_chars_counts_in_int_witness :
    (∃ s1, vim_shell_terminal_input pty_accepts two_row_screen
        (27 :: 91 :: ([52, 50, 57, 52, 57, 54, 55, 50, 57, 55] ++ [80])) = some s1 ∧
      s1.cursor_x = two_row_screen.cursor_x ∧ s1.cursor_y = two_row_screen.cursor_y) ∧
    (strtol [52, 50, 57, 52, 57, 54, 55, 50, 57, 55],
      int32 (strtol [52, 50, 57, 52, 57, 54, 55, 50, 57, 55])) = (4294967297, 1) ∧
    (vim_shell_terminal_input pty_accepts two_row_screen [27, 91, 50, 80]).map
      (fun s => (s.winbuf, s.cursor_x, s.cursor_y)) =
      some ([97, 98, 99, 102, 32, 32], 0, 1) ∧
    (vim_shell_terminal_input pty_accepts two_row_screen
        [27, 91, 52, 50, 57, 52, 57, 54, 55, 50, 57, 55, 80]).map
      (fun s => (s.winbuf, s.cursor_x, s.cursor_y)) =
      some ([97, 98, 99, 101, 102, 32], 0, 1) ∧
    vim_shell_terminal_input pty_accepts two_row_screen
      [27, 91, 50, 49, 52, 55, 52, 56, 51, 54, 52, 56, 80] = none := by
  obtain ⟨s1, h, hx, hy, _⟩ := (C29_delete_chars_counts_in_int pty_accepts two_row_screen
    [52, 50, 57, 52, 57, 54, 55, 50, 57, 55] (by decide!) (by decide!) (by decide!)
    (by decide!) (by decide!) (by decide) (by decide) (by decide)).1 (by decide!)
  exact ⟨⟨s1, h, hx, hy⟩, by decide!, by decide!, by decide!, by decide!⟩
/-! ## C39, C34, C35 -/

/-- C39. `ESC 8` on a fresh 80x24 terminal: `vim_shell_new` clears the saved
register with the rest of the structure, so the restore sets `fgcolor`,
`bgcolor`, `G0_charset` and `G1_charset` to 0; the rendition stays empty and
the cursor at (0,0). The claim has the defaults kept: both colours 9, `G0` =
`B` (66), `G1` = `0` (48), which is what the fresh terminal holds before the
sequence. -/
theorem C39_restore_without_save_clears_colours :
    (vim_shell_terminal_input pty_accepts (vim_shell_new 80 24) [27, 56]).map
      (fun s => (s.fgcolor, s.bgcolor, s.G0_charset, s.G1_charset)) = some (0, 0, 0, 0) ∧
    (vim_shell_terminal_input pty_accepts (vim_shell_new 80 24) [27, 56]).map
      (fun s => (s.rendition, s.cursor_x, s.cursor_y)) = some (0, 0, 0) ∧
    ((vim_shell_new 80 24).fgcolor, (vim_shell_new 80 24).bgcolor,
      (vim_shell_new 80 24).G0_charset, (vim_shell_new 80 24).G1_charset) = (9, 9, 66, 48) :=
  ⟨by decide!, by decide!, by decide!⟩

/-- C34. The parser of the parameters checks neither their number nor their
length. `ESC [` and 20 semicolons leave the sequence pending with 20
parameters stored; the 21st semicolon makes the parser read `argv[20][0]` and
write `argv[20]`, past the table of 20 entries: the parse, and with it the run
of the byte stream, is undefined. A parameter of 25 digits is stored with its
25 characters, over the 20 bytes of its entry and into the next one. -/
theorem C34_parameter_table_overflows :
    (vim_shell_terminal_input pty_accepts (vim_shell_new 80 24) (csi_semicolons 20)).map
      (fun s => s.in_esc_sequence) = some 22 ∧
    csi_parse (91 :: List.replicate 21 59) = none ∧
    vim_shell_terminal_input pty_accepts (vim_shell_new 80 24) (csi_semicolons 21) = none ∧
    (csi_parse long_param_seq).map (fun r => r.map (fun a => (a.1, (argv_str a.2.1 0).map
      List.length, a.2.2))) = some (some (1, some 25, 109)) :=
  ⟨by decide!, by decide!, by decide!, by decide!⟩

/-- `ESC M` from any state: `terminal_RI` runs in a state that differs from `s`
in the escape buffer only, and the sequence is ended. -/
theorem feed_RI (env : host) (s : vim_shell_window)
    (he : s.esc_sequence.length = 50) :
    vim_shell_terminal_input env s [27, 77] =
      (terminal_RI (with_esc s 2 (((s.esc_sequence.set 0 27).set 1 77).set 2 0))).bind
        (end_of_sequence env) := by
  rw [esc_two env s 77 he (by decide)]
  unfold parse_seq
  rw [if_neg (by decide), parse_other]
  rw [if_neg (by decide), if_neg (by decide), if_neg (by decide), if_neg (by decide),
    if_pos rfl]
  show (Option.map some (terminal_RI (with_esc s 2 _))).bind _ = _
  cases terminal_RI (with_esc s 2 (((s.esc_sequence.set 0 27).set 1 77).set 2 0)) with
  | none => rfl
  | some y => rfl

/-- C31, what `ESC M` does, from any state with a well-formed grid, margins
`top ≤ bottom < H` and an output queue that can be flushed; `cursor_x` is
unchanged. With the cursor on the top margin the cursor stays, row `top`
becomes default cells, each row `r` in `top+1 .. bottom` holds the old row
`r-1`, and the other rows are unchanged. Otherwise the five arrays are
unchanged and `cursor_y` becomes `cursor_y - 1` stored in a `uint16_t`: that
is 65535 when the cursor is on row 0, which is no row of the grid. -/
theorem C31_reverse_index_wraps_at_row_zero (env : host) (s : vim_shell_window)
    (he : s.esc_sequence.length = 50) (hflush : terminal_flush_output env s ≠ none)
    (hg : grid_ok s) (htb : s.scroll_top_margin ≤ s.scroll_bottom_margin)
    (hb : s.scroll_bottom_margin < s.size_y) (hy : s.cursor_y < 65536) :
    ∃ s1, vim_shell_terminal_input env s [27, 77] = some s1 ∧ s1.cursor_x = s.cursor_x ∧
      (s.cursor_y = s.scroll_top_margin →
        s1.cursor_y = s.cursor_y ∧
        ∀ r c, c < s.size_x →
          cell_at s1 r c =
            if s.scroll_top_margin ≤ r ∧ r ≤ s.scroll_bottom_margin then
              (if r < s.scroll_top_margin + 1 then default_cell else cell_at s (r - 1) c)
            else cell_at s r c) ∧
      (s.cursor_y ≠ s.scroll_top_margin →
        s1.cursor_y = (if s.cursor_y = 0 then 65535 else s.cursor_y - 1) ∧
        (s1.winbuf, s1.fgbuf, s1.bgbuf, s1.rendbuf, s1.charset) =
          (s.winbuf, s.fgbuf, s.bgbuf, s.rendbuf, s.charset)) := by
  have hfeed := feed_RI env s he
  by_cases hc : s.cursor_y = s.scroll_top_margin
  · have hri : terminal_RI (with_esc s 2 (((s.esc_sequence.set 0 27).set 1 77).set 2 0)) =
        some (map_grid (fun fc buf =>
          (fun b => scroll_down_buf b s.size_x s.scroll_top_margin s.scroll_bottom_margin fc)^[1]
            buf) (with_esc s 2 (((s.esc_sequence.set 0 27).set 1 77).set 2 0))) := by
      have hcs : (with_esc s 2 (((s.esc_sequence.set 0 27).set 1 77).set 2 0)).cursor_y =
          (with_esc s 2 (((s.esc_sequence.set 0 27).set 1 77).set 2 0)).scroll_top_margin := hc
      unfold terminal_RI
      rw [if_pos hcs]
      exact scroll_down_eq (with_esc s 2 _) hg htb hb
    obtain ⟨ob, op, hend⟩ := end_of_sequence_defined env s
      (map_grid (fun fc buf =>
        (fun b => scroll_down_buf b s.size_x s.scroll_top_margin s.scroll_bottom_margin fc)^[1]
          buf) (with_esc s 2 (((s.esc_sequence.set 0 27).set 1 77).set 2 0))) rfl rfl hflush
    rw [hri, Option.some_bind, hend] at hfeed
    refine ⟨_, hfeed, rfl, fun _ => ⟨rfl, fun r c hcW => ?_⟩, fun h => absurd hc h⟩
    exact scroll_down_cells s s.scroll_top_margin 1 r c hg htb hb hcW
  · have hu : u16 ((s.cursor_y : Int) - 1) = if s.cursor_y = 0 then 65535 else s.cursor_y - 1 := by
      by_cases h0 : s.cursor_y = 0
      · rw [if_pos h0, h0]; decide!
      · rw [if_neg h0]; unfold u16; omega
    have hri : terminal_RI (with_esc s 2 (((s.esc_sequence.set 0 27).set 1 77).set 2 0)) =
        some { with_esc s 2 (((s.esc_sequence.set 0 27).set 1 77).set 2 0) with
          cursor_y := if s.cursor_y = 0 then 65535 else s.cursor_y - 1 } := by
      have hcs : ¬ (with_esc s 2 (((s.esc_sequence.set 0 27).set 1 77).set 2 0)).cursor_y =
          (with_esc s 2 (((s.esc_sequence.set 0 27).set 1 77).set 2 0)).scroll_top_margin := hc
      unfold terminal_RI
      rw [if_neg hcs]
      show some { with_esc s 2 _ with cursor_y := u16 ((s.cursor_y : Int) - 1) } = _
      rw [hu]
    obtain ⟨ob, op, hend⟩ := end_of_sequence_defined env s
      { with_esc s 2 (((s.esc_sequence.set 0 27).set 1 77).set 2 0) with
        cursor_y := if s.cursor_y = 0 then 65535 else s.cursor_y - 1 } rfl rfl hflush
    rw [hri, Option.some_bind, hend] at hfeed
    exact ⟨_, hfeed, rfl, fun h => absurd h hc, fun _ => ⟨rfl, rfl⟩⟩

/-- C31 at the failing input: on a fresh 80x24 terminal `ESC [ 6 ; 1 1 r` sets
the region to rows 5..10 and homes the cursor to row 0; `ESC M` then stores
65535 in `cursor_y`, where the claim has a row below `H = 24`. -/
theorem C31_reverse_index_wraps_at_row_zero_witness :
    ((state_after pty_accepts (vim_shell_new 80 24) region_5_10).cursor_y,
      (state_after pty_accepts (vim_shell_new 80 24) region_5_10).scroll_top_margin) = (0, 5) ∧
    ∃ s1, vim_shell_terminal_input pty_accepts
        (state_after pty_accepts (vim_shell_new 80 24) region_5_10) [27, 77] = some s1 ∧
      s1.cursor_y = 65535 := by
  refine ⟨by decide!, ?_⟩
  obtain ⟨s1, h, _, _, h2⟩ := C31_reverse_index_wraps_at_row_zero pty_accepts
    (state_after pty_accepts (vim_shell_new 80 24) region_5_10) (by decide!) (by decide!)
    (by decide!) (by decide!) (by decide!) (by decide!)
  exact ⟨s1, h, (h2 (by decide!)).1.trans (by decide!)⟩
/-! ## C37, C38: insert and delete lines outside the scroll region -/

/-- C37, what `CSI n L` does with the cursor above the scroll region
(`cursor_y < scroll_top ≤ scroll_bottom < H`, a well-formed grid, an output
queue that can be flushed, `n` below `2^31`): the sequence is not ignored.
With `k = min(max(n,1), scroll_bottom - cursor_y)` the rows `cursor_y ..
cursor_y+k-1` become default cells, each row `r` from `cursor_y+k` to
`scroll_bottom` holds the old row `r-k`, and `cursor_x` becomes 0; only the
margins and `cursor_y` keep their values. The comment of `terminal_IL` and the
claim have the sequence ignored there. -/
theorem C37_insert_lines_above_region_is_performed (env : host)
    (s : vim_shell_window) (d : List Nat) (p : Nat) (he : s.esc_sequence.length = 50)
    (hflush : terminal_flush_output env s ≠ none) (hg : grid_ok s)
    (hout : s.cursor_y < s.scroll_top_margin)
    (htb : s.scroll_top_margin ≤ s.scroll_bottom_margin)
    (hb : s.scroll_bottom_margin < s.size_y) (hb8 : s.scroll_bottom_margin < 256)
    (hd : ∀ c ∈ d, isdigit c = true) (hd1 : d ≠ []) (hd19 : d.length ≤ 19)
    (hp : strtol d = (p : Int)) (hb31 : p < 2147483648) :
    ∃ s1, vim_shell_terminal_input env s (27 :: 91 :: (d ++ [76])) = some s1 ∧
      s1.cursor_x = 0 ∧ s1.cursor_y = s.cursor_y ∧
      s1.scroll_top_margin = s.scroll_top_margin ∧
      s1.scroll_bottom_margin = s.scroll_bottom_margin ∧
      ∀ r c, c < s.size_x →
        cell_at s1 r c =
          if s.cursor_y ≤ r ∧ r ≤ s.scroll_bottom_margin then
            (if r < s.cursor_y + min (max p 1) (s.scroll_bottom_margin - s.cursor_y)
              then default_cell
              else cell_at s (r - min (max p 1) (s.scroll_bottom_margin - s.cursor_y)) c)
          else cell_at s r c := by
  have hcy : s.cursor_y ≤ s.scroll_bottom_margin := by omega
  obtain ⟨y, ob, op, hP, hfeed⟩ := run_one_param env s d 76
    (fun y => y.cursor_x = 0 ∧ y.cursor_y = s.cursor_y ∧
      y.scroll_top_margin = s.scroll_top_margin ∧
      y.scroll_bottom_margin = s.scroll_bottom_margin ∧
      ∀ r c, c < s.size_x →
        cell_at y r c =
          if s.cursor_y ≤ r ∧ r ≤ s.scroll_bottom_margin then
            (if r < s.cursor_y + min (max p 1) (s.scroll_bottom_margin - s.cursor_y)
              then default_cell
              else cell_at s (r - min (max p 1) (s.scroll_bottom_margin - s.cursor_y)) c)
          else cell_at s r c)
    he hflush hd hd1 hd19 (by decide) (by decide)
    (fun n E argv _ ha => ⟨_, (dispatch_IL _ _ _).trans
      (IL_eq (with_esc s n E) argv (p : Int) p hg hb hb8 hcy (hp ▸ ha)
        (int32_of_small (p : Int) (by omega) (by omega))), rfl, rfl, rfl, rfl, rfl, rfl,
      fun r c hc => scroll_down_cells s s.cursor_y _ r c hg hcy hb hc⟩)
  exact ⟨_, hfeed, hP.1, hP.2.1, hP.2.2.1, hP.2.2.2.1, hP.2.2.2.2⟩

/-- C37 at the failing input: on a fresh 80x24 terminal `ESC [ 6 ; 1 1 r` sets
the region to rows 5..10 and homes the cursor to row 0, above the region; after
the glyph `A` (cell (0,0), cursor at column 1), `ESC [ 1 L` blanks row 0, moves
the `A` to cell (1,0) and puts the cursor in column 0. -/
theorem C37_insert_lines_above_region_is_performed_witness :
    (∃ s1, vim_shell_terminal_input pty_accepts
        (state_after pty_accepts (vim_shell_new 80 24) (region_5_10 ++ [65]))
        (27 :: 91 :: ([49] ++ [76])) = some s1 ∧ s1.cursor_x = 0) ∧
    (vim_shell_terminal_input pty_accepts (vim_shell_new 80 24) (region_5_10 ++ [65])).map
      (fun s => (s.cursor_y, s.cursor_x, s.scroll_top_margin, s.winbuf[0]?)) =
      some (0, 1, 5, some 65) ∧
    (vim_shell_terminal_input pty_accepts (vim_shell_new 80 24)
        (region_5_10 ++ [65] ++ [27, 91, 49, 76])).map
      (fun s => (s.cursor_x, s.winbuf[0]?, s.winbuf[80]?)) =
      some (0, some 32, some 65) := by
  refine ⟨?_, by decide!, by decide!⟩
  obtain ⟨s1, h, hx, _⟩ := C37_insert_lines_above_region_is_performed pty_accepts
    (state_after pty_accepts (vim_shell_new 80 24) (region_5_10 ++ [65])) [49] 1
    (by decide!) (by decide!) (by decide!) (by decide!) (by decide!) (by decide!) (by decide!)
    (by decide) (by decide) (by decide) (by decide) (by decide)
  exact ⟨s1, h, hx⟩

/-- C38, what `terminal_IL` and `terminal_DL` do with the cursor below the
bottom margin, for one parameter of value `n` below `2^31`: the line count is
`scroll_bottom - cursor_y`, a negative number, and the loop `while(lines--)`
starts on it: it does not end within `max(n,1)` rounds, and its first round
scrolls a region whose top is below its bottom. Neither function has a
defined result. -/
theorem C38_lines_below_region_never_end (s : vim_shell_window) (argv : List Nat) (p : Nat)
    (hcy : s.scroll_bottom_margin < s.cursor_y)
    (ha : argv_int argv 0 = some (p : Int)) (hp : p < 2147483648) :
    lines_arg s 1 argv = some ((s.scroll_bottom_margin : Int) - (s.cursor_y : Int)) ∧
    terminal_IL s 1 argv = none ∧ terminal_DL s 1 argv = none := by
  have hlines : lines_arg s 1 argv =
      some ((s.scroll_bottom_margin : Int) - (s.cursor_y : Int)) := by
    have h := distance_arg_eq argv p ha hp
    unfold distance_arg at h
    unfold lines_arg
    rw [if_neg (by decide), h, Option.map_some', if_pos (by omega)]
  refine ⟨hlines, ?_, ?_⟩
  · unfold terminal_IL
    rw [if_neg (by decide), hlines, Option.some_bind]
    unfold while_dec
    rw [if_pos (by omega)]
    rfl
  · unfold terminal_DL
    rw [if_neg (by decide), hlines, Option.some_bind]
    unfold while_dec
    rw [if_pos (by omega)]
    rfl

/-- C38 at the failing input: on a fresh 80x24 terminal `ESC [ 1 ; 2 r` and
`ESC [ 6 ; 1 H` leave the region at rows 0..1 and the cursor on row 5; the line
count of `terminal_IL` and `terminal_DL` is then `1 - 5 = -4`, and the byte
streams that end in `ESC [ 1 L` or `ESC [ 1 M` have no defined result. -/
theorem C38_lines_below_region_never_end_witness :
    ((state_after pty_accepts (vim_shell_new 80 24) cursor_below_region).cursor_y,
      (state_after pty_accepts (vim_shell_new 80 24) cursor_below_region).scroll_bottom_margin) =
      (5, 1) ∧
    (lines_arg (state_after pty_accepts (vim_shell_new 80 24) cursor_below_region) 1
        (one_char_argv 49) =
      some (((state_after pty_accepts (vim_shell_new 80 24)
          cursor_below_region).scroll_bottom_margin : Int) -
        ((state_after pty_accepts (vim_shell_new 80 24) cursor_below_region).cursor_y : Int)) ∧
    terminal_IL (state_after pty_accepts (vim_shell_new 80 24) cursor_below_region) 1
      (one_char_argv 49) = none ∧
    terminal_DL (state_after pty_accepts (vim_shell_new 80 24) cursor_below_region) 1
      (one_char_argv 49) = none) ∧
    vim_shell_terminal_input pty_accepts (vim_shell_new 80 24)
      (cursor_below_region ++ [27, 91, 49, 76]) = none ∧
    vim_shell_terminal_input pty_accepts (vim_shell_new 80 24)
      (cursor_below_region ++ [27, 91, 49, 77]) = none :=
  ⟨by decide!,
    C38_lines_below_region_never_end
      (state_after pty_accepts (vim_shell_new 80 24) cursor_below_region) (one_char_argv 49) 1
      (by decide!) (by decide!) (by decide),
    by decide!, by decide!⟩
/-! ## C36: control characters inside an escape sequence -/

theorem move_cells_with_esc (x : vim_shell_window) (n : Nat) (E : List Nat) (d r m : Int) :
    move_cells (with_esc x n E) d r m = (move_cells x d r m).map (fun t => with_esc t n E) := by
  unfold move_cells
  show (memmove x.winbuf d r m).bind _ = Option.map _ ((memmove x.winbuf d r m).bind _)
  cases memmove x.winbuf d r m with
  | none => rfl
  | some w =>
    show (memmove x.fgbuf d r m).bind _ = Option.map _ ((memmove x.fgbuf d r m).bind _)
    cases memmove x.fgbuf d r m with
    | none => rfl
    | some f =>
      show (memmove x.bgbuf d r m).bind _ = Option.map _ ((memmove x.bgbuf d r m).bind _)
      cases memmove x.bgbuf d r m with
      | none => rfl
      | some b =>
        show (memmove x.rendbuf d r m).bind _ = Option.map _ ((memmove x.rendbuf d r m).bind _)
        cases memmove x.rendbuf d r m with
        | none => rfl
        | some rd =>
          show (memmove x.charset d r m).bind _ = Option.map _ ((memmove x.charset d r m).bind _)
          cases memmove x.charset d r m with
          | none => rfl
          | some c => rfl

theorem erase_cells_with_esc (x : vim_shell_window) (n : Nat) (E : List Nat) (p m : Int) :
    erase_cells (with_esc x n E) p m = (erase_cells x p m).map (fun t => with_esc t n E) := by
  unfold erase_cells
  show (memset x.winbuf p 32 m).bind _ = Option.map _ ((memset x.winbuf p 32 m).bind _)
  cases memset x.winbuf p 32 m with
  | none => rfl
  | some w =>
    show (memset x.fgbuf p _ m).bind _ = Option.map _ ((memset x.fgbuf p _ m).bind _)
    cases memset x.fgbuf p VIMSHELL_COLOR_DEFAULT m with
    | none => rfl
    | some f =>
      show (memset x.bgbuf p _ m).bind _ = Option.map _ ((memset x.bgbuf p _ m).bind _)
      cases memset x.bgbuf p VIMSHELL_COLOR_DEFAULT m with
      | none => rfl
      | some b =>
        show (memset x.rendbuf p 0 m).bind _ = Option.map _ ((memset x.rendbuf p 0 m).bind _)
        cases memset x.rendbuf p 0 m with
        | none => rfl
        | some rd =>
          show (memset x.charset p 0 m).bind _ = Option.map _ ((memset x.charset p 0 m).bind _)
          cases memset x.charset p 0 m with
          | none => rfl
          | some c => rfl

theorem scroll_up_with_esc (x : vim_shell_window) (n : Nat) (E : List Nat) :
    terminal_scroll_up (with_esc x n E) =
      (terminal_scroll_up x).map (fun t => with_esc t n E) := by
  unfold terminal_scroll_up
  show (move_cells (with_esc x n E) ((x.scroll_top_margin : Int) * x.size_x)
      ((x.size_x : Int) + (x.scroll_top_margin : Int) * x.size_x)
      (((x.scroll_bottom_margin : Int) - x.scroll_top_margin) * x.size_x)).bind
      (fun s1 => erase_cells s1 ((x.scroll_bottom_margin : Int) * x.size_x) x.size_x) =
    Option.map (fun t => with_esc t n E)
      ((move_cells x ((x.scroll_top_margin : Int) * x.size_x)
        ((x.size_x : Int) + (x.scroll_top_margin : Int) * x.size_x)
        (((x.scroll_bottom_margin : Int) - x.scroll_top_margin) * x.size_x)).bind
        (fun s1 => erase_cells s1 ((x.scroll_bottom_margin : Int) * x.size_x) x.size_x))
  rw [move_cells_with_esc]
  cases move_cells x ((x.scroll_top_margin : Int) * x.size_x)
      ((x.size_x : Int) + (x.scroll_top_margin : Int) * x.size_x)
      (((x.scroll_bottom_margin : Int) - x.scroll_top_margin) * x.size_x) with
  | none => rfl
  | some t => exact erase_cells_with_esc t n E _ _

/-- A control byte is handled by `terminal_process_control_char` in NORMAL
state and inside an escape sequence alike. -/
theorem control_byte (env : host) (x : vim_shell_window) (c : Nat) (hc : c ≤ 31) :
    terminal_input_char env x c = terminal_process_control_char x c := by
  unfold terminal_input_char
  rw [if_pos hc, if_pos hc, ite_self]

theorem LF_with_esc (x : vim_shell_window) (n : Nat) (E : List Nat) :
    terminal_LF (with_esc x n E) = (terminal_LF x).map (fun t => with_esc t n E) := by
  unfold terminal_LF
  show (if x.just_wrapped_around = 1 then some (with_esc x n E)
    else if ((u16 ((x.cursor_y : Int) + 1) : Nat) : Int) - 1 = x.scroll_bottom_margin then
      terminal_scroll_up (with_esc
        { x with cursor_y := u16 (((u16 ((x.cursor_y : Int) + 1) : Nat) : Int) - 1) } n E)
    else some (with_esc { x with cursor_y := u16 ((x.cursor_y : Int) + 1) } n E)) = _
  by_cases h1 : x.just_wrapped_around = 1
  · rw [if_pos h1, if_pos h1]; rfl
  · rw [if_neg h1, if_neg h1]
    by_cases h2 : ((u16 ((x.cursor_y : Int) + 1) : Nat) : Int) - 1 = x.scroll_bottom_margin
    · rw [if_pos h2, if_pos h2]
      exact scroll_up_with_esc _ n E
    · rw [if_neg h2, if_neg h2]; rfl

theorem TAB_with_esc (x : vim_shell_window) (n : Nat) (E : List Nat) :
    terminal_TAB (with_esc x n E) = (terminal_TAB x).map (fun t => with_esc t n E) := by
  unfold terminal_TAB
  show (next_tab x.tabline x.size_x (x.size_x - (x.cursor_x + 1)) (x.cursor_x + 1)).map _ =
    Option.map _ ((next_tab x.tabline x.size_x (x.size_x - (x.cursor_x + 1))
      (x.cursor_x + 1)).map _)
  cases next_tab x.tabline x.size_x (x.size_x - (x.cursor_x + 1)) (x.cursor_x + 1) with
  | none => rfl
  | some r =>
    cases r with
    | none => rfl
    | some i => rfl

/-- The action of each of the bytes BEL, BS, TAB, LF, VT, FF, CR, SO, SI neither
reads nor writes the members of the parser. -/
theorem control_with_esc (x : vim_shell_window) (n : Nat) (E : List Nat) (c : Nat)
    (hc : c ∈ [7, 8, 9, 10, 11, 12, 13, 14, 15]) :
    terminal_process_control_char (with_esc x n E) c =
      (terminal_process_control_char x c).map (fun t => with_esc t n E) := by
  simp only [List.mem_cons, List.mem_singleton, List.not_mem_nil, or_false] at hc
  unfold terminal_process_control_char
  by_cases h7 : c = 7
  · rw [if_pos h7, if_pos h7]; rfl
  rw [if_neg h7, if_neg h7]
  by_cases h8 : c = 8
  · rw [if_pos h8, if_pos h8]
    unfold terminal_BS
    show (some (if x.cursor_x > 0 then with_esc { x with cursor_x := x.cursor_x - 1 } n E
      else with_esc x n E)) = _
    by_cases h : x.cursor_x > 0
    · rw [if_pos h, if_pos h]; rfl
    · rw [if_neg h, if_neg h]; rfl
  rw [if_neg h8, if_neg h8]
  by_cases h9 : c = 9
  · rw [if_pos h9, if_pos h9]; exact TAB_with_esc x n E
  rw [if_neg h9, if_neg h9]
  by_cases h10 : c = 11 ∨ c = 12 ∨ c = 10
  · rw [if_pos h10, if_pos h10]; exact LF_with_esc x n E
  rw [if_neg h10, if_neg h10]
  by_cases h13 : c = 13
  · rw [if_pos h13, if_pos h13]
    unfold terminal_CR
    show (some (if x.just_wrapped_around = 1 then with_esc x n E
      else with_esc { x with cursor_x := 0 } n E)) = _
    by_cases h : x.just_wrapped_around = 1
    · rw [if_pos h, if_pos h]; rfl
    · rw [if_neg h, if_neg h]; rfl
  rw [if_neg h13, if_neg h13]
  by_cases h14 : c = 14
  · rw [if_pos h14, if_pos h14]; rfl
  rw [if_neg h14, if_neg h14]
  by_cases h15 : c = 15
  · rw [if_pos h15, if_pos h15]; rfl
  · exact absurd hc (by omega)

/-- C36. In a state inside an escape sequence (`in_esc_sequence ≠ 0`), each of
the bytes BEL, BS, TAB, LF, VT, FF, CR, SO, SI does what it does in NORMAL
state and leaves `esc_sequence` and `in_esc_sequence` as they are: feeding the
byte and then a stream `post` is the action of the byte on the state taken in
NORMAL state, followed by `post` with the parser where it was; and the action
is the same whatever the parser holds. CAN and SUB set `in_esc_sequence` to 0
and change nothing else; ESC sets `in_esc_sequence` to 1 and stores `1B` in
`esc_sequence[0]`, and changes nothing else. -/
theorem C36_control_bytes_inside_sequence (env : host) :
    (∀ (s : vim_shell_window) (c : Nat) (post : List Nat), s.in_esc_sequence ≠ 0 →
      c ∈ [7, 8, 9, 10, 11, 12, 13, 14, 15] →
      vim_shell_terminal_input env s (c :: post) =
        (terminal_input_char env (with_esc s 0 s.esc_sequence) c).bind
          (fun t => vim_shell_terminal_input env
            (with_esc t s.in_esc_sequence s.esc_sequence) post) ∧
      ∀ n E, terminal_input_char env (with_esc s n E) c =
        (terminal_input_char env s c).map (fun t => with_esc t n E)) ∧
    (∀ (s : vim_shell_window) (c : Nat), c = 24 ∨ c = 26 →
      terminal_input_char env s c = some { s with in_esc_sequence := 0 }) ∧
    (∀ s : vim_shell_window, 1 ≤ s.esc_sequence.length →
      terminal_input_char env s 27 =
        some { s with in_esc_sequence := 1, esc_sequence := s.esc_sequence.set 0 27 }) := by
  refine ⟨fun s c post _ hc => ?_, fun s c hc => ?_, fun s hl => ?_⟩
  · have h31 : c ≤ 31 := by
      simp only [List.mem_cons, List.mem_singleton, List.not_mem_nil, or_false] at hc
      omega
    have hall : ∀ (x : vim_shell_window) n E, terminal_input_char env (with_esc x n E) c =
        (terminal_input_char env x c).map (fun t => with_esc t n E) := by
      intro x n E
      rw [control_byte env _ c h31, control_byte env _ c h31]
      exact control_with_esc x n E c hc
    refine ⟨?_, hall s⟩
    have hs : terminal_input_char env s c =
        (terminal_input_char env (with_esc s 0 s.esc_sequence) c).map
          (fun t => with_esc t s.in_esc_sequence s.esc_sequence) :=
      hall (with_esc s 0 s.esc_sequence) s.in_esc_sequence s.esc_sequence
    rw [vim_shell_terminal_input, hs]
    cases terminal_input_char env (with_esc s 0 s.esc_sequence) c with
    | none => rfl
    | some t => rfl
  · have h31 : c ≤ 31 := by omega
    rw [control_byte env s c h31]
    unfold terminal_process_control_char
    rw [if_neg (by omega), if_neg (by omega), if_neg (by omega), if_neg (by omega),
      if_neg (by omega), if_neg (by omega), if_neg (by omega), if_pos hc]
  · have h31 : (27 : Nat) ≤ 31 := by decide
    rw [control_byte env s 27 h31]
    unfold terminal_process_control_char
    rw [if_neg (by decide), if_neg (by decide), if_neg (by decide), if_neg (by decide),
      if_neg (by decide), if_neg (by decide), if_neg (by decide), if_neg (by decide),
      if_pos rfl]
    have hp : poke s.esc_sequence 0 27 = some (s.esc_sequence.set 0 27) := by
      simpa using poke_eq s.esc_sequence 0 27 (by omega)
    rw [hp]
    rfl

/-- C36 at concrete inputs, on a fresh 80x24 terminal: a line feed inside
`ESC [ 5 C` gives the state that the line feed before the sequence gives
(cursor at row 1, column 5); after `ESC [`, where `in_esc_sequence` is 2, the
byte CAN leaves the parser in NORMAL state, and ESC restarts the sequence. -/
theorem C36_control_bytes_inside_sequence_witness :
    (vim_shell_terminal_input pty_accepts
        (state_after pty_accepts (vim_shell_new 80 24) [27, 91, 53]) (10 :: [67]) =
      (terminal_input_char pty_accepts
        (with_esc (state_after pty_accepts (vim_shell_new 80 24) [27, 91, 53]) 0
          (state_after pty_accepts (vim_shell_new 80 24) [27, 91, 53]).esc_sequence) 10).bind
        (fun t => vim_shell_terminal_input pty_accepts
          (with_esc t
            (state_after pty_accepts (vim_shell_new 80 24) [27, 91, 53]).in_esc_sequence
            (state_after pty_accepts (vim_shell_new 80 24) [27, 91, 53]).esc_sequence) [67]) ∧
      ∀ n E, terminal_input_char pty_accepts
          (with_esc (state_after pty_accepts (vim_shell_new 80 24) [27, 91, 53]) n E) 10 =
        (terminal_input_char pty_accepts
          (state_after pty_accepts (vim_shell_new 80 24) [27, 91, 53]) 10).map
          (fun t => with_esc t n E)) ∧
    terminal_input_char pty_accepts
        (state_after pty_accepts (vim_shell_new 80 24) [27, 91]) 24 =
      some { state_after pty_accepts (vim_shell_new 80 24) [27, 91] with
        in_esc_sequence := 0 } ∧
    terminal_input_char pty_accepts
        (state_after pty_accepts (vim_shell_new 80 24) [27, 91]) 27 =
      some { state_after pty_accepts (vim_shell_new 80 24) [27, 91] with
        in_esc_sequence := 1
        esc_sequence :=
          (state_after pty_accepts (vim_shell_new 80 24) [27, 91]).esc_sequence.set 0 27 } ∧
    (vim_shell_terminal_input pty_accepts (vim_shell_new 80 24) [27, 91]).map
      (fun s => s.in_esc_sequence) = some 2 ∧
    (vim_shell_terminal_input pty_accepts (vim_shell_new 80 24) [27, 91, 53, 10, 67]).map
      (fun s => (s.cursor_y, s.cursor_x, s.in_esc_sequence)) = some (1, 5, 0) ∧
    (vim_shell_terminal_input pty_accepts (vim_shell_new 80 24) [10, 27, 91, 53, 67]).map
      (fun s => (s.cursor_y, s.cursor_x, s.in_esc_sequence)) = some (1, 5, 0) ∧
    (vim_shell_terminal_input pty_accepts (vim_shell_new 80 24) [27, 91, 24]).map
      (fun s => (s.in_esc_sequence, s.cursor_x)) = some (0, 0) ∧
    (vim_shell_terminal_input pty_accepts (vim_shell_new 80 24) [27, 91, 27]).map
      (fun s => (s.in_esc_sequence, s.esc_sequence[0]?)) = some (1, some 27) :=
  ⟨(C36_control_bytes_inside_sequence pty_accepts).1
      (state_after pty_accepts (vim_shell_new 80 24) [27, 91, 53]) 10 [67] (by decide!)
      (by decide),
    (C36_control_bytes_inside_sequence pty_accepts).2.1
      (state_after pty_accepts (vim_shell_new 80 24) [27, 91]) 24 (Or.inl rfl),
    (C36_control_bytes_inside_sequence pty_accepts).2.2
      (state_after pty_accepts (vim_shell_new 80 24) [27, 91]) (by decide!),
    by decide!, by decide!, by decide!, by decide!, by decide!⟩
/-! ## `internal_screenbuf_resize` -/

theorem copy_from_length (dst : List Nat) (dp : Nat) (src : List Nat) (sp n : Nat)
    (h1 : dp + n ≤ dst.length) (h2 : sp + n ≤ src.length) :
    (copy_from dst dp src sp n).length = dst.length := by
  simp [copy_from]; omega

theorem copy_from_getD (dst : List Nat) (dp : Nat) (src : List Nat) (sp n i : Nat)
    (h1 : dp + n ≤ dst.length) (h2 : sp + n ≤ src.length) :
    (copy_from dst dp src sp n).getD i 0 =
      if dp ≤ i ∧ i < dp + n then src.getD (i - dp + sp) 0 else dst.getD i 0 := by
  unfold copy_from
  simp only [List.getD_eq_getElem?_getD]
  by_cases h3 : i < dp
  · rw [List.append_assoc, List.getElem?_append_left (by simp; omega), if_neg (by omega)]
    rw [List.getElem?_take, if_pos h3]
  · rw [List.append_assoc, List.getElem?_append_right (by simp; omega)]
    simp only [List.length_take, Nat.min_eq_left (show dp ≤ dst.length by omega)]
    by_cases h4 : i < dp + n
    · rw [List.getElem?_append_left (by simp; omega), if_pos (by omega)]
      rw [List.getElem?_take, if_pos (by omega), List.getElem?_drop]
      congr 2
      omega
    · rw [List.getElem?_append_right (by simp; omega), if_neg (by omega)]
      simp only [List.length_take, List.length_drop, List.getElem?_drop]
      congr 2
      omega

theorem memcpy_at_eq (dst src : List Nat) (dpos spos n : Int) (d r m : Nat)
    (hd : dpos = (d : Int)) (hs : spos = (r : Int)) (hn : n = (m : Int))
    (h1 : d + m ≤ dst.length) (h2 : r + m ≤ src.length) :
    memcpy_at dst dpos src spos n = some (copy_from dst d src r m) := by
  subst hd hs hn
  unfold memcpy_at copy_from
  rw [if_pos ⟨by omega, by omega, by omega, by omega, by omega⟩]
  simp

theorem row_fits (W H y len : Nat) (hy : y < H) (hl : len ≤ W) : y * W + len ≤ W * H := by
  have h := Nat.mul_le_mul_right W (show y + 1 ≤ H from hy)
  rw [Nat.add_mul, Nat.one_mul, Nat.mul_comm H W] at h
  omega

theorem row_part (W r c y len : Nat) (hc : c < W) (hl : len ≤ W) :
    (y * W ≤ r * W + c ∧ r * W + c < y * W + len) ↔ (r = y ∧ c < len) := by
  have h := row_offset W r c y hc
  constructor
  · intro h1
    have hr : r = y := h.1 ⟨h1.1, by omega⟩
    subst hr
    exact ⟨rfl, by omega⟩
  · rintro ⟨hr, h2⟩
    subst hr
    exact ⟨by omega, by omega⟩

/-- One new cell array after the row loop: inside the rows and columns copied
it holds the old cell `d` rows below, elsewhere what it held. -/
theorem copy_rows_spec (old : List Nat) (W2 H2 W H len d : Nat) (hl1 : len ≤ W2)
    (hl2 : len ≤ W) (ho : old.length = W * H) :
    ∀ (n y : Nat) (b : List Nat), b.length = W2 * H2 → y + n ≤ H2 → y + n + d ≤ H →
      (copy_rows old W2 W len d n y b).length = W2 * H2 ∧
      ∀ r c, c < W2 → (copy_rows old W2 W len d n y b).getD (r * W2 + c) 0 =
        if (y ≤ r ∧ r < y + n) ∧ c < len then old.getD ((r + d) * W + c) 0
        else b.getD (r * W2 + c) 0 := by
  intro n
  induction n with
  | zero =>
    intro y b hb _ _
    refine ⟨hb, fun r c _ => ?_⟩
    rw [if_neg (by omega)]
    rfl
  | succ n ih =>
    intro y b hb h1 h2
    have hd : y * W2 + len ≤ b.length := by
      rw [hb]; exact row_fits W2 H2 y len (by omega) hl1
    have hs : (y + d) * W + len ≤ old.length := by
      rw [ho]; exact row_fits W H (y + d) len (by omega) hl2
    have hb1 : (copy_from b (y * W2) old ((y + d) * W) len).length = W2 * H2 := by
      rw [copy_from_length _ _ _ _ _ hd hs, hb]
    obtain ⟨hlen, hcell⟩ := ih (y + 1) _ hb1 (by omega) (by omega)
    refine ⟨hlen, fun r c hc => ?_⟩
    show (copy_rows old W2 W len d n (y + 1)
      (copy_from b (y * W2) old ((y + d) * W) len)).getD (r * W2 + c) 0 = _
    rw [hcell r c hc, copy_from_getD _ _ _ _ _ _ hd hs]
    have hp := row_part W2 r c y len hc hl1
    by_cases h3 : r = y ∧ c < len
    · obtain ⟨h4, h5⟩ := h3
      subst h4
      have i1 : ¬((r + 1 ≤ r ∧ r < r + 1 + n) ∧ c < len) := by omega
      have i2 : r * W2 ≤ r * W2 + c ∧ r * W2 + c < r * W2 + len := ⟨by omega, by omega⟩
      have i3 : (r ≤ r ∧ r < r + (n + 1)) ∧ c < len := ⟨⟨le_refl _, by omega⟩, h5⟩
      rw [if_neg i1, if_pos i2, if_pos i3]
      congr 1
      omega
    · have i2 : ¬(y * W2 ≤ r * W2 + c ∧ r * W2 + c < y * W2 + len) := fun h => h3 (hp.1 h)
      rw [if_neg i2]
      by_cases h6 : (y + 1 ≤ r ∧ r < y + 1 + n) ∧ c < len
      · have i3 : (y ≤ r ∧ r < y + (n + 1)) ∧ c < len := ⟨⟨by omega, by omega⟩, h6.2⟩
        rw [if_pos h6, if_pos i3]
      · have i3 : ¬((y ≤ r ∧ r < y + (n + 1)) ∧ c < len) := by omega
        rw [if_neg h6, if_neg i3]

/-- The row loop of `internal_screenbuf_resize` runs to its end and leaves
`copy_rows` of each old array in the new one. -/
theorem resize_rows_eq (o : vim_shell_window) (W2 H2 W H len V : Nat) (hl1 : len ≤ W2)
    (hl2 : len ≤ W) (hV : V ≤ H)
    (ho : o.winbuf.length = W * H ∧ o.fgbuf.length = W * H ∧ o.bgbuf.length = W * H ∧
      o.rendbuf.length = W * H ∧ o.charset.length = W * H) :
    ∀ (n y : Nat) (s : vim_shell_window),
      (s.winbuf.length = W2 * H2 ∧ s.fgbuf.length = W2 * H2 ∧ s.bgbuf.length = W2 * H2 ∧
        s.rendbuf.length = W2 * H2 ∧ s.charset.length = W2 * H2) →
      y + n ≤ H2 → y + n + (H - V) ≤ H →
      resize_rows o (W2 : Int) (W : Int) (H : Int) (len : Int) (V : Int) n (y : Int) s =
        some { s with
          winbuf := copy_rows o.winbuf W2 W len (H - V) n y s.winbuf
          fgbuf := copy_rows o.fgbuf W2 W len (H - V) n y s.fgbuf
          bgbuf := copy_rows o.bgbuf W2 W len (H - V) n y s.bgbuf
          rendbuf := copy_rows o.rendbuf W2 W len (H - V) n y s.rendbuf
          charset := copy_rows o.charset W2 W len (H - V) n y s.charset } := by
  obtain ⟨ow, of, ob, or, oc⟩ := ho
  intro n
  induction n with
  | zero =>
    intro y s _ _ _
    rfl
  | succ n ih =>
    intro y s hs h1 h2
    obtain ⟨sw, sf, sb, sr, sc⟩ := hs
    have hd : y * W2 + len ≤ W2 * H2 := row_fits W2 H2 y len (by omega) hl1
    have hsrc : (y + (H - V)) * W + len ≤ W * H := row_fits W H (y + (H - V)) len (by omega) hl2
    have e1 : ((y : Int) * (W2 : Int)) = ((y * W2 : Nat) : Int) := by push_cast; rfl
    have e2 : (((y : Int) + ((H : Int) - (V : Int))) * (W : Int)) =
        (((y + (H - V)) * W : Nat) : Int) := by
      rw [Nat.cast_mul, Nat.cast_add, Nat.cast_sub hV]
    have e3 : ((y : Int) + 1) = ((y + 1 : Nat) : Int) := by push_cast; rfl
    unfold resize_rows
    dsimp only
    rw [memcpy_at_eq s.winbuf o.winbuf _ _ _ _ _ _ e1 e2 rfl (by omega) (by omega),
      memcpy_at_eq s.fgbuf o.fgbuf _ _ _ _ _ _ e1 e2 rfl (by omega) (by omega),
      memcpy_at_eq s.bgbuf o.bgbuf _ _ _ _ _ _ e1 e2 rfl (by omega) (by omega),
      memcpy_at_eq s.rendbuf o.rendbuf _ _ _ _ _ _ e1 e2 rfl (by omega) (by omega),
      memcpy_at_eq s.charset o.charset _ _ _ _ _ _ e1 e2 rfl (by omega) (by omega)]
    simp only [Option.some_bind]
    rw [e3, ih (y + 1) _ ⟨by
        show (copy_from s.winbuf _ _ _ _).length = _
        rw [copy_from_length _ _ _ _ _ (by omega) (by omega), sw], by
        show (copy_from s.fgbuf _ _ _ _).length = _
        rw [copy_from_length _ _ _ _ _ (by omega) (by omega), sf], by
        show (copy_from s.bgbuf _ _ _ _).length = _
        rw [copy_from_length _ _ _ _ _ (by omega) (by omega), sb], by
        show (copy_from s.rendbuf _ _ _ _).length = _
        rw [copy_from_length _ _ _ _ _ (by omega) (by omega), sr], by
        show (copy_from s.charset _ _ _ _).length = _
        rw [copy_from_length _ _ _ _ _ (by omega) (by omega), sc]⟩ (by omega) (by omega)]
    rfl

theorem set_tabs_spec (W2 : Nat) :
    ∀ (n x : Nat) (t : List Nat), x + n ≤ t.length →
      (set_tabs W2 n x t).length = t.length ∧
      ∀ i, (set_tabs W2 n x t).getD i 0 =
        if (x ≤ i ∧ i < x + n) ∧ (i + 1) % 8 = 0 ∧ i + 1 < W2 then 1 else t.getD i 0 := by
  intro n
  induction n with
  | zero =>
    intro x t _
    refine ⟨rfl, fun i => ?_⟩
    rw [if_neg (by omega)]
    rfl
  | succ n ih =>
    intro x t h
    by_cases hc : (x + 1) % 8 = 0 ∧ x + 1 < W2
    · have hs : set_tabs W2 (n + 1) x t = set_tabs W2 n (x + 1) (t.set x 1) := by
        show set_tabs W2 n (x + 1) (if (x + 1) % 8 = 0 ∧ x + 1 < W2 then t.set x 1 else t) = _
        rw [if_pos hc]
      obtain ⟨hlen, hget⟩ := ih (x + 1) (t.set x 1) (by rw [List.length_set]; omega)
      rw [hs]
      refine ⟨by rw [hlen, List.length_set], fun i => ?_⟩
      rw [hget i]
      by_cases hi : i = x
      · subst hi
        rw [if_neg (by omega), if_pos ⟨⟨by omega, by omega⟩, hc⟩,
          List.getD_eq_getElem?_getD, List.getElem?_set_self (by omega)]
        rfl
      · have hne : (t.set x 1).getD i 0 = t.getD i 0 := by
          rw [List.getD_eq_getElem?_getD, List.getD_eq_getElem?_getD,
            List.getElem?_set_ne (fun h => hi h.symm)]
        rw [hne]
        split_ifs <;> first
          | rfl
          | (exfalso; omega)
    · have hs : set_tabs W2 (n + 1) x t = set_tabs W2 n (x + 1) t := by
        show set_tabs W2 n (x + 1) (if (x + 1) % 8 = 0 ∧ x + 1 < W2 then t.set x 1 else t) = _
        rw [if_neg hc]
      obtain ⟨hlen, hget⟩ := ih (x + 1) t (by omega)
      rw [hs]
      refine ⟨hlen, fun i => ?_⟩
      rw [hget i]
      by_cases hi : i = x
      · subst hi
        rw [if_neg (by omega), if_neg (fun h => hc h.2)]
      · split_ifs <;> first
          | rfl
          | (exfalso; omega)

/-- The loop under "Correct tabs" runs to its end. -/
theorem resize_tabs_eq (W2 : Nat) :
    ∀ (n x : Nat) (t : List Nat), x + n ≤ t.length →
      resize_tabs (W2 : Int) n (x : Int) t = some (set_tabs W2 n x t) := by
  intro n
  induction n with
  | zero =>
    intro x t _
    rfl
  | succ n ih =>
    intro x t h
    have e3 : ((x : Int) + 1) = ((x + 1 : Nat) : Int) := by push_cast; rfl
    unfold resize_tabs
    by_cases hc : (x + 1) % 8 = 0 ∧ x + 1 < W2
    · rw [if_pos ⟨by omega, by omega⟩, poke_eq t x 1 (by omega), Option.some_bind, e3,
        ih (x + 1) _ (by rw [List.length_set]; omega)]
      show _ = some (set_tabs W2 n (x + 1)
        (if (x + 1) % 8 = 0 ∧ x + 1 < W2 then t.set x 1 else t))
      rw [if_pos hc]
    · rw [if_neg (by omega), e3, ih (x + 1) _ (by omega)]
      show _ = some (set_tabs W2 n (x + 1)
        (if (x + 1) % 8 = 0 ∧ x + 1 < W2 then t.set x 1 else t))
      rw [if_neg hc]

/-- A granted `internal_screenbuf_resize` returns 0 and leaves the state
`resized`. -/
theorem resize_eq (malloc : Nat → Int → Bool) (s : vim_shell_window) (W2 H2 : Nat)
    (hg : grid_ok s) (ht : s.tabline.length = s.size_x)
    (hm : resize_allocated malloc (W2 : Int) (H2 : Int) = true)
    (hp : W2 * H2 < 2147483648) :
    internal_screenbuf_resize malloc s (W2 : Int) (H2 : Int) = some (resized s W2 H2, 0) := by
  obtain ⟨hx, hy, hxy, hw, hf, hb, hr, hc⟩ := hg
  have hprod : ((W2 : Int) * (H2 : Int)) = ((W2 * H2 : Nat) : Int) := by push_cast; rfl
  have hlen : (if (s.size_x : Int) < (W2 : Int) then (s.size_x : Int) else (W2 : Int)) =
      ((min s.size_x W2 : Nat) : Int) := by
    split_ifs <;> omega
  have hvlen : (if (s.size_y : Int) < (H2 : Int) then (s.size_y : Int) else (H2 : Int)) =
      ((min s.size_y H2 : Nat) : Int) := by
    split_ifs <;> omega
  unfold internal_screenbuf_resize
  dsimp only
  rw [hlen, hvlen, hprod, if_neg (by omega), hm, if_neg (by simp), if_neg (by omega)]
  have h0 : (0 : Int) = ((0 : Nat) : Int) := rfl
  rw [Int.toNat_ofNat, Int.toNat_ofNat, Int.toNat_ofNat, h0,
    resize_rows_eq s W2 H2 s.size_x s.size_y (min s.size_x W2) (min s.size_y H2)
      (by omega) (by omega) (by omega) ⟨hw, hf, hb, hr, hc⟩ (min s.size_y H2) 0 _
      ⟨by simp, by simp, by simp, by simp, by simp⟩ (by omega) (by omega)]
  simp only [Option.some_bind]
  rw [memcpy_at_eq _ s.tabline _ _ _ 0 0 (min s.size_x W2) rfl rfl rfl
    (by simp) (by omega)]
  simp only [Option.some_bind]
  by_cases hlt : s.size_x < W2
  · rw [if_pos (by omega), show ((W2 : Int) - (s.size_x : Int)).toNat = W2 - s.size_x by omega,
      resize_tabs_eq W2 (W2 - s.size_x) s.size_x _ (by
        rw [copy_from_length _ _ _ _ _ (by simp) (by omega)]; simp; omega)]
    simp only [Option.some_bind]
    unfold resized
    rw [if_pos hlt]
  · rw [if_neg (by omega)]
    simp only [Option.some_bind]
    unfold resized
    rw [if_neg hlt]

theorem resized_array (old : List Nat) (W2 H2 W H fc y x : Nat) (ho : old.length = W * H)
    (hx : x < W2) (hy : y < H2) :
    (copy_rows old W2 W (min W W2) (H - min H H2) (min H H2) 0
        (List.replicate (W2 * H2) fc)).getD (y * W2 + x) 0 =
      if y < min H H2 ∧ x < min W W2 then old.getD ((y + (H - min H H2)) * W + x) 0
      else fc := by
  have h := (copy_rows_spec old W2 H2 W H (min W W2) (H - min H H2) (by omega) (by omega) ho
    (min H H2) 0 (List.replicate (W2 * H2) fc) (by simp) (by omega) (by omega)).2 y x hx
  have hr : (List.replicate (W2 * H2) fc).getD (y * W2 + x) 0 = fc := by
    rw [List.getD_eq_getElem?_getD, List.getElem?_replicate,
      if_pos (cell_index_lt W2 H2 x y hx hy)]
    rfl
  rw [h, hr]
  by_cases hc : y < min H H2 ∧ x < min W W2
  · rw [if_pos hc, if_pos ⟨⟨by omega, by omega⟩, hc.2⟩]
  · rw [if_neg hc, if_neg (by omega)]

/-- The cells of the grid after a resize: inside the overlap the old cell of
the row `size_y - min size_y H2` below, elsewhere a blank in the current
colours. -/
theorem resized_cell (s : vim_shell_window) (W2 H2 y x : Nat) (hg : grid_ok s)
    (hW2 : W2 < 65536) (hx : x < W2) (hy : y < H2) :
    cell_at (resized s W2 H2) y x =
      if y < min s.size_y H2 ∧ x < min s.size_x W2 then
        cell_at s (y + (s.size_y - min s.size_y H2)) x
      else (32, s.fgcolor, s.bgcolor, 0, 0) := by
  obtain ⟨_, _, _, hw, hf, hb, hr, hc⟩ := hg
  unfold cell_at resized
  dsimp only
  rw [u16_natCast W2 hW2, resized_array _ _ _ _ _ _ _ _ hw hx hy,
    resized_array _ _ _ _ _ _ _ _ hf hx hy, resized_array _ _ _ _ _ _ _ _ hb hx hy,
    resized_array _ _ _ _ _ _ _ _ hr hx hy, resized_array _ _ _ _ _ _ _ _ hc hx hy]
  split_ifs <;> rfl

theorem default_tabline_getD (W i : Nat) :
    (default_tabline W).getD i 0 = if i < W ∧ (i + 1) % 8 = 0 ∧ i + 1 < W then 1 else 0 := by
  unfold default_tabline
  rw [List.getD_eq_getElem?_getD, List.getElem?_map]
  by_cases h : i < W
  · rw [List.getElem?_range h]
    show (if 1 ≤ i ∧ (i + 1) % 8 = 0 ∧ i + 1 < W then 1 else 0) = _
    split_ifs <;> first
      | rfl
      | (exfalso; omega)
  · rw [List.getElem?_eq_none (by simp; omega), if_neg (by omega)]
    rfl

/-- The tab line after a fresh terminal `W` columns wide is resized to `W2`
columns: a column below the old width keeps the stop of the old width, a
column from the old width on has the stop of the new width. -/
theorem resized_tabs (W H W2 H2 : Nat) :
    (resized (vim_shell_new W H) W2 H2).tabline.length = W2 ∧
    ∀ i, i < W2 → (resized (vim_shell_new W H) W2 H2).tabline.getD i 0 =
      if (i + 1) % 8 = 0 ∧ i + 1 < (if i < W then W else W2) then 1 else 0 := by
  have hl : (default_tabline W).length = W := by simp [default_tabline]
  have h1 : (copy_from (List.replicate W2 0) 0 (default_tabline W) 0 (min W W2)).length = W2 := by
    rw [copy_from_length _ _ _ _ _ (by simp) (by omega)]; simp
  have h2 : ∀ i, i < W2 →
      (copy_from (List.replicate W2 0) 0 (default_tabline W) 0 (min W W2)).getD i 0 =
        if i < W ∧ (i + 1) % 8 = 0 ∧ i + 1 < W then 1 else 0 := by
    intro i hi
    rw [copy_from_getD _ _ _ _ _ _ (by simp) (by omega)]
    by_cases h : i < min W W2
    · rw [if_pos ⟨by omega, by omega⟩, default_tabline_getD]
      rfl
    · rw [if_neg (by omega), if_neg (by omega), List.getD_eq_getElem?_getD,
        List.getElem?_replicate, if_pos hi]
      rfl
  show (if W < W2 then set_tabs W2 (W2 - W) W
      (copy_from (List.replicate W2 0) 0 (default_tabline W) 0 (min W W2))
    else copy_from (List.replicate W2 0) 0 (default_tabline W) 0 (min W W2)).length = W2 ∧
    ∀ i, i < W2 → (if W < W2 then set_tabs W2 (W2 - W) W
      (copy_from (List.replicate W2 0) 0 (default_tabline W) 0 (min W W2))
    else copy_from (List.replicate W2 0) 0 (default_tabline W) 0 (min W W2)).getD i 0 = _
  by_cases hlt : W < W2
  · rw [if_pos hlt]
    obtain ⟨hlen, hget⟩ := set_tabs_spec W2 (W2 - W) W
      (copy_from (List.replicate W2 0) 0 (default_tabline W) 0 (min W W2)) (by rw [h1]; omega)
    refine ⟨by rw [hlen, h1], fun i hi => ?_⟩
    rw [hget i, h2 i hi]
    split_ifs <;> first
      | rfl
      | (exfalso; omega)
  · rw [if_neg hlt]
    refine ⟨h1, fun i hi => ?_⟩
    rw [h2 i hi]
    split_ifs <;> first
      | rfl
      | (exfalso; omega)

theorem default_tabline_eq (W2 : Nat) (t : List Nat) (hl : t.length = W2) :
    t = default_tabline W2 ↔
      ∀ i, i < W2 → t.getD i 0 = if (i + 1) % 8 = 0 ∧ i + 1 < W2 then 1 else 0 := by
  have hd : ∀ i, i < W2 →
      (default_tabline W2).getD i 0 = if (i + 1) % 8 = 0 ∧ i + 1 < W2 then 1 else 0 := by
    intro i hi
    rw [default_tabline_getD]
    split_ifs <;> first
      | rfl
      | (exfalso; omega)
  constructor
  · intro h i hi
    rw [h]
    exact hd i hi
  · intro h
    apply List.ext_getElem
    · rw [hl]; simp [default_tabline]
    · intro i h1 h2
      have e1 := h i (by omega)
      have e2 := hd i (by omega)
      rw [List.getD_eq_getElem?_getD, List.getElem?_eq_getElem h1] at e1
      rw [List.getD_eq_getElem?_getD, List.getElem?_eq_getElem h2] at e2
      simp only [Option.getD_some] at e1 e2
      rw [e1, e2]
/-! ## Claims on `internal_screenbuf_resize` -/

/-- C32, what a granted resize does to a well-formed grid of size `W x H`
for a new size `W2 x H2` (each below 65536, `H2 ≥ 1`, the product an `int`): the
call returns 0, the dimensions are `W2` and `H2`, every cell of the overlap is
the old cell `H - min H H2` rows below in all five arrays, and the scroll
region is rows `0` to `(H2 - 1) mod 256`: the bottom margin is a `uint8_t`, so
the region is the full screen only for `H2 ≤ 256`. -/
theorem C32_resize_stores_bottom_margin_modulo_256 (malloc : Nat → Int → Bool)
    (s : vim_shell_window) (W2 H2 : Nat) (hg : grid_ok s)
    (ht : s.tabline.length = s.size_x)
    (hm : resize_allocated malloc (W2 : Int) (H2 : Int) = true)
    (hH : 1 ≤ H2) (hW2 : W2 < 65536) (hH2 : H2 < 65536)
    (hp : W2 * H2 < 2147483648) :
    ∃ s1, internal_screenbuf_resize malloc s (W2 : Int) (H2 : Int) = some (s1, 0) ∧
      s1.size_x = W2 ∧ s1.size_y = H2 ∧ s1.scroll_top_margin = 0 ∧
      s1.scroll_bottom_margin = (H2 - 1) % 256 ∧
      ∀ y x, y < min s.size_y H2 → x < min s.size_x W2 →
        cell_at s1 y x = cell_at s (y + (s.size_y - min s.size_y H2)) x := by
  refine ⟨resized s W2 H2, resize_eq malloc s W2 H2 hg ht hm hp, u16_natCast W2 hW2,
    u16_natCast H2 hH2, rfl, ?_, fun y x hy hx => ?_⟩
  · show u8 ((u16 (H2 : Int) : Int) - 1) = _
    rw [u16_natCast H2 hH2]
    unfold u8
    omega
  · rw [resized_cell s W2 H2 y x hg hW2 (by omega) (by omega), if_pos ⟨hy, hx⟩]

/-- C32 at concrete inputs: a fresh terminal of one column and one row,
resized to one column and 300 rows, has the scroll region of rows 0 to 43; the
2x3 screen `a b / c d / e f` resized to 3 columns and 2 rows holds
`c d _ / e f _`. -/
theorem C32_resize_stores_bottom_margin_modulo_256_witness :
    (∃ s1, internal_screenbuf_resize malloc_grants (vim_shell_new 1 1) ((1 : Nat) : Int)
        ((300 : Nat) : Int) = some (s1, 0) ∧
      s1.size_x = 1 ∧ s1.size_y = 300 ∧ s1.scroll_top_margin = 0 ∧
      s1.scroll_bottom_margin = (300 - 1) % 256 ∧
      ∀ y x, y < min (vim_shell_new 1 1).size_y 300 → x < min (vim_shell_new 1 1).size_x 1 →
        cell_at s1 y x =
          cell_at (vim_shell_new 1 1)
            (y + ((vim_shell_new 1 1).size_y - min (vim_shell_new 1 1).size_y 300)) x) ∧
    (internal_screenbuf_resize malloc_grants (vim_shell_new 1 1) 1 300).map
      (fun r => (r.1.size_y, r.1.scroll_top_margin, r.1.scroll_bottom_margin, r.2)) =
      some (300, 0, 43, 0) ∧
    (internal_screenbuf_resize malloc_grants three_row_screen 3 2).map
      (fun r => (r.1.winbuf, r.1.size_x, r.1.size_y, r.1.scroll_bottom_margin)) =
      some ([99, 100, 32, 101, 102, 32], 3, 2, 1) :=
  ⟨C32_resize_stores_bottom_margin_modulo_256 malloc_grants (vim_shell_new 1 1) 1 300
      (grid_ok_new 1 1 (by decide) (by decide) (by decide)) (by decide!) rfl
      (by decide) (by decide) (by decide) (by decide),
    by decide!, by decide!⟩

/-- C33, what a granted resize writes outside the overlap: from any
well-formed state, for a new size `W2 x H2` (`W2` below 65536, the product an
`int`), every cell of the new grid outside the copied rows and
columns holds a blank in the current drawing colours `fgcolor` and `bgcolor`
of the terminal, with no rendition and charset 0: not the default colours. -/
theorem C33_resize_fills_with_current_colours (malloc : Nat → Int → Bool)
    (s : vim_shell_window) (W2 H2 : Nat) (hg : grid_ok s)
    (ht : s.tabline.length = s.size_x)
    (hm : resize_allocated malloc (W2 : Int) (H2 : Int) = true)
    (hW2 : W2 < 65536) (hp : W2 * H2 < 2147483648) :
    ∃ s1, internal_screenbuf_resize malloc s (W2 : Int) (H2 : Int) = some (s1, 0) ∧
      ∀ y x, y < H2 → x < W2 → ¬ (y < min s.size_y H2 ∧ x < min s.size_x W2) →
        cell_at s1 y x = (32, s.fgcolor, s.bgcolor, 0, 0) := by
  refine ⟨resized s W2 H2, resize_eq malloc s W2 H2 hg ht hm hp, fun y x hy hx hn => ?_⟩
  rw [resized_cell s W2 H2 y x hg hW2 hx hy, if_neg hn]

/-- C33 at a concrete input: after `CSI 3 1 m` (red foreground) a terminal of
two columns and one row is resized to three columns; the new cell of column 2
has the foreground colour 1, not the default colour 9. -/
theorem C33_resize_fills_with_current_colours_witness :
    (∃ s1, internal_screenbuf_resize malloc_grants
        (state_after pty_accepts (vim_shell_new 2 1) red_foreground) ((3 : Nat) : Int)
        ((1 : Nat) : Int) = some (s1, 0) ∧
      ∀ y x, y < 1 → x < 3 →
        ¬ (y < min (state_after pty_accepts (vim_shell_new 2 1) red_foreground).size_y 1 ∧
          x < min (state_after pty_accepts (vim_shell_new 2 1) red_foreground).size_x 3) →
        cell_at s1 y x =
          (32, (state_after pty_accepts (vim_shell_new 2 1) red_foreground).fgcolor,
            (state_after pty_accepts (vim_shell_new 2 1) red_foreground).bgcolor, 0, 0)) ∧
    (vim_shell_terminal_input pty_accepts (vim_shell_new 2 1) red_foreground).map
      (fun s => (s.fgcolor, s.bgcolor, s.size_x, s.size_y)) = some (1, 9, 2, 1) ∧
    (internal_screenbuf_resize malloc_grants
      (state_after pty_accepts (vim_shell_new 2 1) red_foreground) 3 1).map
      (fun r => (r.1.winbuf, r.1.fgbuf, r.1.bgbuf, r.2)) =
      some ([32, 32, 32], [9, 9, 1], [9, 9, 9], 0) ∧
    default_cell = (32, 9, 9, 0, 0) :=
  ⟨C33_resize_fills_with_current_colours malloc_grants
      (state_after pty_accepts (vim_shell_new 2 1) red_foreground) 3 1
      (by decide!) (by decide!) rfl (by decide) (by decide),
    by decide!, by decide!, by decide!⟩

/-- C40, the tab stops after a fresh terminal `W` columns wide is resized to
`W2` columns (granted; `W, W2 ≥ 1`): the tab line has `W2` entries; a column
`i` below the old width is a tab stop iff `(i+1) mod 8 = 0` and `i+1 < W`, a
column from the old width on iff `(i+1) mod 8 = 0` and `i+1 < W2`. These are
the tab stops of a fresh terminal `W2` columns wide except when the terminal
grows from a width that is a multiple of 8 (column `W-1` has no stop) or
shrinks to a width that is a multiple of 8 (column `W2-1` keeps its stop). -/
theorem C40_resize_misses_tab_stop_at_old_width (malloc : Nat → Int → Bool)
    (W H W2 H2 : Nat) (hW : 1 ≤ W) (hW1 : W < 65536) (hH1 : H < 65536)
    (hWH : W * H < 2147483648) (hW2 : 1 ≤ W2) (hp : W2 * H2 < 2147483648)
    (hm : resize_allocated malloc (W2 : Int) (H2 : Int) = true) :
    ∃ s1, internal_screenbuf_resize malloc (vim_shell_new W H) (W2 : Int) (H2 : Int) =
        some (s1, 0) ∧
      s1.tabline.length = W2 ∧
      (∀ i, i < W2 → s1.tabline.getD i 0 =
        if (i + 1) % 8 = 0 ∧ i + 1 < (if i < W then W else W2) then 1 else 0) ∧
      (s1.tabline = (vim_shell_new W2 H2).tabline ↔
        ¬ (W % 8 = 0 ∧ W < W2) ∧ ¬ (W2 % 8 = 0 ∧ W2 < W)) := by
  have ht : (vim_shell_new W H).tabline.length = (vim_shell_new W H).size_x := by
    show (default_tabline W).length = W
    simp [default_tabline]
  obtain ⟨hlen, hget⟩ := resized_tabs W H W2 H2
  refine ⟨resized (vim_shell_new W H) W2 H2,
    resize_eq malloc (vim_shell_new W H) W2 H2 (grid_ok_new W H hW1 hH1 hWH) ht hm hp,
    hlen, hget, ?_⟩
  show (resized (vim_shell_new W H) W2 H2).tabline = default_tabline W2 ↔ _
  rw [default_tabline_eq W2 _ hlen]
  constructor
  · intro h
    refine ⟨fun hc => ?_, fun hc => ?_⟩
    · have e := h (W - 1) (by omega)
      rw [hget (W - 1) (by omega)] at e
      split_ifs at e <;> omega
    · have e := h (W2 - 1) (by omega)
      rw [hget (W2 - 1) (by omega)] at e
      split_ifs at e <;> omega
  · rintro ⟨h1, h2⟩ i hi
    rw [hget i hi]
    split_ifs <;> first
      | rfl
      | (exfalso; omega)

/-- C40 at a concrete input: a fresh terminal of 8 columns resized to 16
columns has no tab stop, a fresh terminal of 16 columns has one at column 7. -/
theorem C40_resize_misses_tab_stop_at_old_width_witness :
    (∃ s1, internal_screenbuf_resize malloc_grants (vim_shell_new 8 1) ((16 : Nat) : Int)
        ((1 : Nat) : Int) = some (s1, 0) ∧
      s1.tabline.length = 16 ∧
      (∀ i, i < 16 → s1.tabline.getD i 0 =
        if (i + 1) % 8 = 0 ∧ i + 1 < (if i < 8 then 8 else 16) then 1 else 0) ∧
      (s1.tabline = (vim_shell_new 16 1).tabline ↔
        ¬ (8 % 8 = 0 ∧ 8 < 16) ∧ ¬ (16 % 8 = 0 ∧ 16 < 8))) ∧
    (internal_screenbuf_resize malloc_grants (vim_shell_new 8 1) 16 1).map
      (fun r => (r.1.tabline, r.2)) =
      some ([0, 0, 0, 0, 0, 0, 0, 0, 0, 0, 0, 0, 0, 0, 0, 0], 0) ∧
    (vim_shell_new 16 1).tabline = [0, 0, 0, 0, 0, 0, 0, 1, 0, 0, 0, 0, 0, 0, 0, 0] ∧
    (internal_screenbuf_resize malloc_grants (vim_shell_new 16 1) 8 1).map
      (fun r => (r.1.tabline, r.2)) = some ([0, 0, 0, 0, 0, 0, 0, 1], 0) ∧
    (vim_shell_new 8 1).tabline = [0, 0, 0, 0, 0, 0, 0, 0] :=
  ⟨C40_resize_misses_tab_stop_at_old_width malloc_grants 8 1 16 1 (by decide) (by decide)
      (by decide) (by decide) (by decide) (by decide) rfl,
    by decide!, by decide!, by decide!, by decide!⟩
/-! ## C9: the alternate screen round trip -/

/-- C9, what the round trip through the alternate screen does, from any state
`s` whose buffers have the sizes its dimensions give (cell arrays of
`size_x*size_y` bytes, a tab line of `size_x` bytes, the 50-byte escape
buffer), for a byte stream `t` that completes no screen switch. It depends on
the seven requests of `terminal_backup_screen`.
All granted: if `CSI ?1049h` runs to `s1` and `t` runs from `s1`, then
`CSI ?1049h`, `t`, `CSI ?1049l` runs to a state that has no snapshot and in
which every member but `in_esc_sequence`, `esc_sequence`, `outbuf`,
`outbuf_pos` and `force_redraw` has its value in `s`.
A refusal of the structure, `winbuf`, `charset` or `tabline`: `CSI ?1049h`
still erases the screen; `s1` holds no snapshot, its five arrays are blank and
its cursor is at (0,0), and `CSI ?1049l` restores nothing: the whole stream
ends as the last flush of the output queue leaves `s2`, so its result has the
screen that `t` left.
A refusal of `fgbuf`, `bgbuf` or `rendbuf` alone goes unnoticed and
`CSI ?1049h` has no defined result. -/
theorem C9_alternate_screen_depends_on_allocation (env : host) (s : vim_shell_window)
    (t : List Nat) (hg : grid_ok s) (ht : s.tabline.length = s.size_x)
    (he : s.esc_sequence.length = 50) :
    (backup_allocated env s = true → ∀ s1 s2,
      vim_shell_terminal_input env s enter_alt = some s1 →
      vim_shell_terminal_input env s1 t = some s2 →
      no_screen_switch env s1 t = true →
      ∃ s3, vim_shell_terminal_input env s (enter_alt ++ t ++ leave_alt) = some s3 ∧
        screen_part s3 = screen_part s ∧ s3.alt = none) ∧
    (backup_refused env s = true → ∀ s1 s2,
      vim_shell_terminal_input env s enter_alt = some s1 →
      vim_shell_terminal_input env s1 t = some s2 →
      no_screen_switch env s1 t = true →
      (s1.alt = none ∧ s1.cursor_x = 0 ∧ s1.cursor_y = 0 ∧
        s1.winbuf = List.replicate (s.size_x * s.size_y) 32 ∧
        s1.fgbuf = List.replicate (s.size_x * s.size_y) VIMSHELL_COLOR_DEFAULT ∧
        s1.bgbuf = List.replicate (s.size_x * s.size_y) VIMSHELL_COLOR_DEFAULT ∧
        s1.rendbuf = List.replicate (s.size_x * s.size_y) 0 ∧
        s1.charset = List.replicate (s.size_x * s.size_y) 0) ∧
      (∃ E, vim_shell_terminal_input env s (enter_alt ++ t ++ leave_alt) =
        end_of_sequence env (with_esc s2 8 E)) ∧
      ∀ s3, vim_shell_terminal_input env s (enter_alt ++ t ++ leave_alt) = some s3 →
        screen_part s3 = screen_part s2 ∧ s3.alt = none) ∧
    (backup_unnoticed env s = true → vim_shell_terminal_input env s enter_alt = none) := by
  refine ⟨fun hm s1 s2 h1 h2 hq => ?_, fun hm s1 s2 h1 h2 hq => ?_, fun hm => ?_⟩
  · obtain ⟨E, I, hI, hIa, hIo, hIp, hIe⟩ := enter_alt_eval env s hg ht he hm
    have hI1 : end_of_sequence env I = some s1 := hI.symm.trans h1
    have hk := (run_sealed env t s1 s2 h2 hq).trans
      (congrArg Prod.fst (end_of_sequence_kept env I s1 hI1))
    have ha : s2.alt = some (with_esc s 8 E).tovim_shell_fields :=
      (congrArg Prod.fst hk : s2.alt = I.alt).trans hIa
    have he2 : s2.esc_sequence.length = 50 :=
      (congrArg Prod.snd hk : s2.esc_sequence.length = I.esc_sequence.length).trans hIe
    obtain ⟨ob, op, h3⟩ := end_of_sequence_defined env { I with in_esc_sequence := 0 }
      { tovim_shell_fields := { (with_esc s 8 E).tovim_shell_fields with force_redraw := 1 }
        alt := none }
      hIo.symm hIp.symm (flush_of_end env I s1 hI1)
    have h4 : vim_shell_terminal_input env s (enter_alt ++ t ++ leave_alt) =
        vim_shell_terminal_input env s2 leave_alt := by
      rw [feed_append, feed_append, h1, Option.some_bind, h2, Option.some_bind]
    exact ⟨_, h4.trans ((leave_alt_eval env s2 _ he2 ha).trans h3), rfl, rfl⟩
  · obtain ⟨E, hE, hI⟩ := enter_alt_refused env s hg he hm
    obtain ⟨_, _, _, hw, hf, hb, hr, hc⟩ := hg
    have hI1 := hI.symm.trans h1
    have hk := (run_sealed env t s1 s2 h2 hq).trans
      (congrArg Prod.fst (end_of_sequence_kept env _ s1 hI1))
    have ha : s2.alt = none := congrArg Prod.fst hk
    have he2 : s2.esc_sequence.length = 50 :=
      (congrArg Prod.snd hk : s2.esc_sequence.length = E.length).trans hE
    obtain ⟨ob, op, hs1⟩ := end_of_sequence_shape env _ s1 hI1
    have h4 : vim_shell_terminal_input env s (enter_alt ++ t ++ leave_alt) =
        vim_shell_terminal_input env s2 leave_alt := by
      rw [feed_append, feed_append, h1, Option.some_bind, h2, Option.some_bind]
    obtain ⟨E2, hl⟩ := leave_alt_none env s2 he2 ha
    refine ⟨?_, ⟨E2, h4.trans hl⟩, fun s3 h3 => ?_⟩
    · rw [hs1]
      refine ⟨rfl, rfl, rfl, ?_, ?_, ?_, ?_, ?_⟩
      · exact fill_all s.winbuf _ 32 hw
      · exact fill_all s.fgbuf _ VIMSHELL_COLOR_DEFAULT hf
      · exact fill_all s.bgbuf _ VIMSHELL_COLOR_DEFAULT hb
      · exact fill_all s.rendbuf _ 0 hr
      · exact fill_all s.charset _ 0 hc
    · have h5 := (hl.symm.trans h4.symm).trans h3
      obtain ⟨ob2, op2, hs3⟩ := end_of_sequence_shape env _ s3 h5
      rw [hs3]
      exact ⟨rfl, ha⟩
  · obtain ⟨E, _, hrun⟩ := enter_alt_run env s he
    have hmB : backup_unnoticed env (with_esc s 8 E) = true := hm
    rw [backup_unnoticed_eq env _ hmB] at hrun
    exact hrun

/-- C9 at concrete inputs, on a 3x2 terminal that shows `a b c` and `d e f`
with the cursor on the second row. With every request granted, `CSI ?1049h`,
then `x`, `y` and a line feed on the blank alternate screen, then
`CSI ?1049l` gives the screen back. With every request refused, `CSI ?1049h`
and `CSI ?1049l` leave a blank screen with the cursor at (0,0). With only
`fgbuf` refused, `CSI ?1049h` has no defined result. -/
theorem C9_alternate_screen_depends_on_allocation_witness :
    (state_after pty_accepts (state_after pty_accepts two_row_screen enter_alt)
      two_glyphs_and_line_feed).winbuf = [120, 121, 32, 32, 32, 32] ∧
    (∃ s3, vim_shell_terminal_input pty_accepts two_row_screen
        (enter_alt ++ two_glyphs_and_line_feed ++ leave_alt) = some s3 ∧
      s3.winbuf = [97, 98, 99, 100, 101, 102] ∧ s3.cursor_y = 1 ∧ s3.alt = none) ∧
    (backup_allocated pty_accepts two_row_screen, backup_refused pty_no_memory two_row_screen,
      backup_unnoticed pty_no_fgbuf two_row_screen) = (true, true, true) ∧
    (vim_shell_terminal_input pty_no_memory two_row_screen (enter_alt ++ leave_alt)).map
      (fun s => (s.winbuf, s.cursor_x, s.cursor_y, s.alt)) =
      some ([32, 32, 32, 32, 32, 32], 0, 0, none) ∧
    vim_shell_terminal_input pty_no_fgbuf two_row_screen enter_alt = none := by
  obtain ⟨s3, h, hp, ha⟩ := (C9_alternate_screen_depends_on_allocation pty_accepts
    two_row_screen two_glyphs_and_line_feed (by decide!) (by decide!) (by decide!)).1
    (by decide!)
    (state_after pty_accepts two_row_screen enter_alt)
    (state_after pty_accepts (state_after pty_accepts two_row_screen enter_alt)
      two_glyphs_and_line_feed)
    (by decide!) (by decide!) (by decide!)
  exact ⟨by decide!, ⟨s3, h, congrArg vim_shell_fields.winbuf hp,
    congrArg vim_shell_fields.cursor_y hp, ha⟩, by decide!, by decide!, by decide!⟩
end VimShell
